import Mathlib

/-!
# The external scanner of tree-sitter-markdown

A shallow embedding of `src/scanner/{block.h, state.h, utils.cpp, scanner.h,
scanner.cpp, scan.cpp}` and theorems about it.

Conventions of the embedding

* Machine integers are natural numbers.  `uint8_t` fields are reduced modulo
  `256` and the `uint16_t` flag word modulo `65536` wherever the C++ code
  narrows a value; `size_t` locals are unbounded (they count input
  characters).
* Characters are code points (`Nat`); the lookahead at the end of the input
  is `0`, as in tree-sitter.
* `std::vector<Block> open_blocks` is a list, bottom (outermost) block first;
  `push_back` appends at the end.
* A function that may run into undefined behaviour of the C++ code (an
  out-of-range `operator[]`, `pop_back` on an empty vector, a `resize` that
  cannot succeed) returns `none` there.
-/

/-! ## block.h -/

/-- The enum `Block : uint8_t`: a block descriptor is one byte. -/
abbrev Block := Nat

def BLOCK_QUOTE : Block := 0
def INDENTED_CODE_BLOCK : Block := 1
def LIST_ITEM : Block := 2
def LIST_ITEM_MAX_INDENTATION : Block := 17
def FENCED_CODE_BLOCK : Block := 18
def ANONYMOUS : Block := 19

/-! ## state.h -/

def STATE_MATCHING : Nat := 0x1 <<< 0
def STATE_WAS_SOFT_LINE_BREAK : Nat := 0x1 <<< 1
def STATE_EMPHASIS_DELIMITER_MOD_3 : Nat := 0x3 <<< 2
def STATE_EMPHASIS_DELIMITER_IS_OPEN : Nat := 0x1 <<< 4
def STATE_SPLIT_TOKEN_COUNT : Nat := 0x3 <<< 5
def STATE_CLOSE_BLOCK : Nat := 0x1 <<< 7
def STATE_NEED_OPEN_BLOCK : Nat := 0x1 <<< 8
def STATE_JUST_CLOSED : Nat := 0x1 <<< 9

/-- The complement `~m` as it acts on the 16-bit word `Scanner::state`. -/
def not16 (m : Nat) : Nat := 0xFFFF ^^^ m

/-- The test `state & flag` used as a C++ condition. -/
def has_flag (state flag : Nat) : Bool := state &&& flag != 0

/-! ## utils.cpp -/

/-- Returns true if the block represents a list item. -/
def is_list_item (block : Block) : Bool :=
  decide (block ≥ LIST_ITEM) && decide (block ≤ LIST_ITEM_MAX_INDENTATION)

/-- `block - LIST_ITEM + 2`, computed in `int` and narrowed to `uint8_t`. -/
def list_item_indentation (block : Block) : Nat :=
  Int.toNat (((block : Int) - (LIST_ITEM : Int) + 2) % 256)

/-- The argument is a `char`; callers pass the low byte of the lookahead.
Bytes above 127 lie in none of the four ranges whatever the signedness of
`char`. -/
def is_punctuation (c : Nat) : Bool :=
  (decide (c ≥ 33) && decide (c ≤ 47)) || (decide (c ≥ 58) && decide (c ≤ 64)) ||
  (decide (c ≥ 91) && decide (c ≤ 96)) || (decide (c ≥ 123) && decide (c ≤ 126))

def is_whitespace (c : Nat) : Bool :=
  c == 32 || c == 9 || c == 10 || c == 13

/-! ## token.h (not among the sources) -/

/-- Modelled from the spec: `token.h` is missing from the sources.  These are
the enumerators of its token enum that the scanner code names; `OTHER n`
stands for any further enumerator.  As enumerators of one C++ enum they are
pairwise distinct. -/
inductive TokenType where
  | LINE_ENDING
  | SOFT_LINE_BREAK_MARKER
  | BLOCK_CLOSE
  | BLOCK_CONTINUATION
  | BLOCK_QUOTE_CONTINUATION
  | BLOCK_QUOTE_START
  | INDENTED_CHUNK_START
  | NO_INDENTED_CHUNK
  | BLANK_LINE_START
  | ATX_H1_MARKER
  | ATX_H2_MARKER
  | ATX_H3_MARKER
  | ATX_H4_MARKER
  | ATX_H5_MARKER
  | ATX_H6_MARKER
  | SETEXT_H1_UNDERLINE
  | SETEXT_H2_UNDERLINE
  | THEMATIC_BREAK
  | LIST_MARKER_MINUS
  | LIST_MARKER_PLUS
  | LIST_MARKER_STAR
  | LIST_MARKER_PARENTHESIS
  | LIST_MARKER_DOT
  | LIST_MARKER_MINUS_DONT_INTERRUPT
  | LIST_MARKER_PLUS_DONT_INTERRUPT
  | LIST_MARKER_STAR_DONT_INTERRUPT
  | LIST_MARKER_PARENTHESIS_DONT_INTERRUPT
  | LIST_MARKER_DOT_DONT_INTERRUPT
  | FENCED_CODE_BLOCK_START_BACKTICK
  | FENCED_CODE_BLOCK_START_TILDE
  | FENCED_CODE_BLOCK_END_BACKTICK
  | FENCED_CODE_BLOCK_END_TILDE
  | CODE_SPAN_START
  | CODE_SPAN_CLOSE
  | EMPHASIS_OPEN_STAR
  | EMPHASIS_OPEN_UNDERSCORE
  | EMPHASIS_CLOSE_STAR
  | EMPHASIS_CLOSE_UNDERSCORE
  | LAST_TOKEN_WHITESPACE
  | LAST_TOKEN_PUNCTUATION
  | OPEN_BLOCK
  | OPEN_BLOCK_DONT_INTERRUPT_PARAGRAPH
  | CLOSE_BLOCK
  | SPLIT_TOKEN
  | TRIGGER_ERROR
  | ERROR
  | OTHER (n : Nat)
  deriving DecidableEq, Repr

open TokenType

/-- Modelled from the spec: the value `ATX_H1_MARKER + k` of the missing token
enum, whose six heading markers are consecutive (the constructor asserts
`ATX_H6_MARKER == ATX_H1_MARKER + 5`); `k` is `level - 1`. -/
def atx_marker_plus : Nat → TokenType
  | 0 => ATX_H1_MARKER
  | 1 => ATX_H2_MARKER
  | 2 => ATX_H3_MARKER
  | 3 => ATX_H4_MARKER
  | 4 => ATX_H5_MARKER
  | 5 => ATX_H6_MARKER
  | n + 6 => OTHER n

/-- The candidate set `const bool *valid_symbols`, indexed by token. -/
abbrev ValidSymbols := TokenType → Bool

/-- The candidate set in which exactly the listed tokens are valid. -/
def valid_of (ts : List TokenType) : ValidSymbols := fun t => ts.contains t

/-! ## The lexer interface `TSLexer` -/

/-- The part of tree-sitter's `TSLexer` that the scanner uses. `input` holds
the characters not yet consumed, `position` counts the characters consumed
in this invocation, `token_end` is the position of the last `mark_end` (if
there was one) and `result_symbol` the token that was set (if any). -/
structure TSLexer where
  input : List Nat
  position : Nat
  token_end : Option Nat
  result_symbol : Option TokenType
  deriving DecidableEq, Repr

/-- A lexer at the start of an invocation on the given input. -/
def TSLexer.start (input : List Nat) : TSLexer :=
  { input := input, position := 0, token_end := none, result_symbol := none }

/-- The field `lexer->lookahead`: `0` at the end of the input. -/
def TSLexer.lookahead (lexer : TSLexer) : Nat :=
  match lexer.input with
  | [] => 0
  | c :: _ => c

/-- The call `lexer->eof(lexer)`. -/
def TSLexer.eof (lexer : TSLexer) : Bool := lexer.input.isEmpty

/-- The call `lexer->advance(lexer, false)`. -/
def TSLexer.advance (lexer : TSLexer) : TSLexer :=
  match lexer.input with
  | [] => lexer
  | _ :: rest => { lexer with input := rest, position := lexer.position + 1 }

/-- The call `lexer->mark_end(lexer)`. -/
def TSLexer.mark_end (lexer : TSLexer) : TSLexer :=
  { lexer with token_end := some lexer.position }

/-- The assignment `lexer->result_symbol = t`. -/
def TSLexer.set_result (lexer : TSLexer) (t : TokenType) : TSLexer :=
  { lexer with result_symbol := some t }

/-- Number of characters the returned token covers: up to the last `mark_end`,
or up to the current position when `mark_end` was never called. -/
def TSLexer.token_length (lexer : TSLexer) : Nat :=
  lexer.token_end.getD lexer.position

/-! ## scanner.h, scanner.cpp -/

structure Scanner where
  open_blocks : List Block
  state : Nat
  matched : Nat
  indentation : Nat
  column : Nat
  code_span_delimiter_length : Nat
  num_emphasis_delimiters_left : Nat
  deriving DecidableEq, Repr

/-- Every field holds a value of its C++ type: `state` is a `uint16_t`, the
counters are `uint8_t` and every block descriptor is one byte. -/
def Scanner.wf (s : Scanner) : Prop :=
  s.state < 65536 ∧ s.matched < 256 ∧ s.indentation < 256 ∧ s.column < 256 ∧
  s.code_span_delimiter_length < 256 ∧ s.num_emphasis_delimiters_left < 256 ∧
  ∀ b ∈ s.open_blocks, b < 256

instance (s : Scanner) : Decidable s.wf := by
  unfold Scanner.wf
  infer_instance

/-- `Scanner::serialize`: the bytes written to `buffer`; the returned length is
the length of this list.  `memcpy` of the `uint16_t` is little-endian. -/
def Scanner.serialize (s : Scanner) : List Nat :=
  let header : List Nat :=
    [s.state % 256, s.state % 256, s.state / 256 % 256, s.matched % 256,
     s.indentation % 256, s.column % 256, s.code_span_delimiter_length % 256,
     s.num_emphasis_delimiters_left % 256]
  let i := header.length
  let blocks_count := s.open_blocks.length
  let blocks_count := if blocks_count > 255 - i then 255 - i else blocks_count
  if blocks_count > 0 then
    header ++ (s.open_blocks.take blocks_count).map (fun b => b % 256)
  else header

/-- The byte `buffer[i]`; a byte outside the list reads as `0`. -/
def read_byte (buffer : List Nat) (i : Nat) : Nat := buffer.getD i 0 % 256

/-- `Scanner::deserialize`.  For `0 < length < 8` the subtraction
`length - i` wraps around in `size_t` and `resize` cannot succeed: `none`. -/
def Scanner.deserialize (s : Scanner) (buffer : List Nat) (length : Nat) : Option Scanner :=
  let s := { s with open_blocks := [], state := 0, matched := 0, indentation := 0,
                    column := 0, code_span_delimiter_length := 0,
                    num_emphasis_delimiters_left := 0 }
  if length > 0 then
    let s := { s with state := read_byte buffer 0 }
    let s := { s with state := read_byte buffer 1 + 256 * read_byte buffer 2 }
    let s := { s with matched := read_byte buffer 3 }
    let s := { s with indentation := read_byte buffer 4 }
    let s := { s with column := read_byte buffer 5 }
    let s := { s with code_span_delimiter_length := read_byte buffer 6 }
    let s := { s with num_emphasis_delimiters_left := read_byte buffer 7 }
    let i := 8
    if length < i then none
    else
      let blocks_count := length - i
      some { s with open_blocks := (List.range blocks_count).map (fun k => read_byte buffer (i + k)) }
  else some s

/-- `Scanner::Scanner()`: the fields start out indeterminate (`garbage`) and
the constructor calls `deserialize(NULL, 0)`. -/
def Scanner.new (garbage : Scanner) : Option Scanner := garbage.deserialize [] 0

/-- The state that has no open block and all flags and counters zero. -/
def Scanner.initial : Scanner :=
  { open_blocks := [], state := 0, matched := 0, indentation := 0, column := 0,
    code_span_delimiter_length := 0, num_emphasis_delimiters_left := 0 }

/-- `Scanner::advance`: returns the width of the consumed character, counting
a tab as the distance to the next tab stop of width 4. -/
def Scanner.advance (s : Scanner) (lexer : TSLexer) : Nat × Scanner × TSLexer :=
  let size : Nat :=
    if lexer.lookahead = 9 then (if s.column % 4 = 0 then 4 else 4 - s.column % 4) else 1
  (size, { s with column := (s.column + size) % 256 }, lexer.advance)

/-- `Scanner::error`. -/
def Scanner.error (s : Scanner) (lexer : TSLexer) : Bool × Scanner × TSLexer :=
  (true, s, lexer.set_result ERROR)

/-- The element `open_blocks[i - 1]`; for `i = 0` the index wraps around and
is out of range. -/
def block_before (open_blocks : List Block) (i : Nat) : Option Block :=
  if i = 0 then none else open_blocks.get? (i - 1)

/-- `Scanner::match`.  The list-item case reads `open_blocks[matched]`. -/
def Scanner.match_ (s : Scanner) (lexer : TSLexer) (block : Block) :
    Option (Bool × Scanner × TSLexer) :=
  if block = INDENTED_CODE_BLOCK then
    if s.indentation ≥ 4 ∧ lexer.lookahead ≠ 10 ∧ lexer.lookahead ≠ 13 then
      some (true, { s with indentation := s.indentation - 4 }, lexer)
    else some (false, s, lexer)
  else if LIST_ITEM ≤ block ∧ block ≤ LIST_ITEM + 15 then
    match s.open_blocks.get? s.matched with
    | none => none
    | some b =>
      if s.indentation ≥ list_item_indentation b then
        some (true, { s with indentation := s.indentation - list_item_indentation b }, lexer)
      else if lexer.lookahead = 10 ∨ lexer.lookahead = 13 then
        some (true, { s with indentation := 0 }, lexer)
      else some (false, s, lexer)
  else if block = BLOCK_QUOTE then
    if lexer.lookahead = 62 then
      let r := s.advance lexer
      let s := { r.2.1 with indentation := 0 }
      let lexer := r.2.2
      if lexer.lookahead = 32 ∨ lexer.lookahead = 9 then
        let r := s.advance lexer
        some (true, { r.2.1 with indentation := (r.2.1.indentation + (r.1 - 1)) % 256 }, r.2.2)
      else some (true, s, lexer)
    else some (false, s, lexer)
  else if block = FENCED_CODE_BLOCK ∨ block = ANONYMOUS then some (true, s, lexer)
  else some (false, s, lexer)

/-- The loop `while (p(lexer->lookahead)) advance(lexer);` that also counts
the characters it consumes and adds up the widths `advance` returns.  The
result is the scanner, the lexer, the count and the total width.  The loop
consumes one character per round, so the length of the input bounds the
number of rounds. -/
def advance_while (p : Nat → Bool) : Nat → Scanner → TSLexer → Nat → Nat →
    Scanner × TSLexer × Nat × Nat
  | 0, s, lexer, count, width => (s, lexer, count, width)
  | fuel + 1, s, lexer, count, width =>
    if p lexer.lookahead then
      let r := s.advance lexer
      advance_while p fuel r.2.1 r.2.2 (count + 1) (width + r.1)
    else (s, lexer, count, width)

/-- The info-string loop of `Scanner::parse_backtick`: advance up to the line
end, the end of the input or the first backtick; the flag tells whether it
stopped at a backtick. -/
def info_string_loop : Nat → Scanner → TSLexer → Scanner × TSLexer × Bool
  | 0, s, lexer => (s, lexer, false)
  | fuel + 1, s, lexer =>
    if lexer.lookahead ≠ 10 ∧ lexer.lookahead ≠ 13 ∧ lexer.eof = false then
      if lexer.lookahead = 96 then (s, lexer, true)
      else
        let r := s.advance lexer
        info_string_loop fuel r.2.1 r.2.2
    else (s, lexer, false)

/-- The code-span part of `Scanner::parse_backtick` (lines 181 to 197 of
scanner.cpp), for a run of `level` backticks. -/
def Scanner.code_span_decision (s : Scanner) (lexer : TSLexer) (level : Nat)
    (valid_symbols : ValidSymbols) : Bool × Scanner × TSLexer :=
  if s.indentation = 0 then
    if decide (level = s.code_span_delimiter_length) && valid_symbols CODE_SPAN_CLOSE then
      (true, s, lexer.set_result CODE_SPAN_CLOSE)
    else if valid_symbols CODE_SPAN_START then
      (true, { s with code_span_delimiter_length := level % 256 },
        lexer.set_result CODE_SPAN_START)
    else (false, s, lexer)
  else (false, s, lexer)

/-- The part of `Scanner::parse_backtick` after the run of `level` backticks
has been counted and its end marked (lines 145 to 197 of scanner.cpp). -/
def Scanner.backtick_decision (sym18 : TokenType) (s : Scanner) (lexer : TSLexer) (level : Nat)
    (valid_symbols : ValidSymbols) : Bool × Scanner × TSLexer :=
  if valid_symbols FENCED_CODE_BLOCK_END_BACKTICK && decide (s.indentation < 4) &&
      decide (level ≥ s.code_span_delimiter_length) &&
      (lexer.lookahead == 10 || lexer.lookahead == 13) then
    (true, s, lexer.set_result FENCED_CODE_BLOCK_END_BACKTICK)
  else
    let fence := valid_symbols sym18 && decide (level ≥ 3)
    let r := if fence then info_string_loop lexer.input.length s lexer else (s, lexer, false)
    let s := r.1
    let lexer := r.2.1
    let info_string_has_backtick := r.2.2
    if fence && !info_string_has_backtick then
      let lexer := lexer.set_result FENCED_CODE_BLOCK_START_BACKTICK
      if has_flag s.state STATE_WAS_SOFT_LINE_BREAK then s.error lexer
      else
        let s := { s with state := s.state &&& not16 STATE_NEED_OPEN_BLOCK }
        let s := { s with open_blocks := s.open_blocks ++ [FENCED_CODE_BLOCK] }
        let s := { s with code_span_delimiter_length := level % 256 }
        let s := { s with indentation := 0 }
        (true, s, lexer)
    else s.code_span_decision lexer level valid_symbols

/-- `Scanner::parse_backtick`.  The source tests `valid_symbols[FENCED_CODE_BLOCK]`,
an index by the block descriptor `FENCED_CODE_BLOCK = 18`; `sym18` is the
token of the missing token enum whose value is 18. -/
def Scanner.parse_backtick (sym18 : TokenType) (s : Scanner) (lexer : TSLexer)
    (valid_symbols : ValidSymbols) : Bool × Scanner × TSLexer :=
  let r := advance_while (fun c => c == 96) lexer.input.length s lexer 0 0
  let level := r.2.2.1
  r.1.backtick_decision sym18 r.2.1.mark_end level valid_symbols

/-- The statements that `Block(LIST_ITEM + extra_indentation + digits)` is
computed and pushed with in the four list-marker branches (`*`, `+`,
digits, `-`): one column of `extra_indentation` belongs to the marker; at
most three further columns are added to the item's indentation, more than
that is kept in `indentation` for an indented code block (`digits` is 0
for the bullet markers). -/
def push_list_item (s : Scanner) (extra_indentation digits : Nat) : Scanner :=
  let extra_indentation := extra_indentation - 1
  let r : Scanner × Nat :=
    if extra_indentation ≤ 3 then
      ({ s with indentation := 0 }, extra_indentation + s.indentation)
    else
      ({ s with indentation := extra_indentation % 256 }, s.indentation)
  let s := r.1
  let extra_indentation := r.2
  { s with open_blocks := s.open_blocks ++ [(LIST_ITEM + extra_indentation + digits) % 256] }

/-- The statements the four list-marker branches (`*`, `+`, digits, `-`) run
once the marker is accepted: the error token after a soft line break; the
flag `STATE_NEED_OPEN_BLOCK` is cleared unless the marker is of the kind
that does not interrupt a paragraph, and then it must be clear; the token
end is marked here when `mark` holds (the `*` and `-` branches with one
marker character); the list item is pushed and the token is set. -/
def Scanner.open_list_item (s : Scanner) (lexer : TSLexer) (dont_interrupt : Bool)
    (extra_indentation digits : Nat) (mark : Bool) (token : TokenType) :
    Bool × Scanner × TSLexer :=
  if has_flag s.state STATE_WAS_SOFT_LINE_BREAK then s.error lexer
  else
    let s := if !dont_interrupt
      then { s with state := s.state &&& not16 STATE_NEED_OPEN_BLOCK } else s
    if dont_interrupt && has_flag s.state STATE_NEED_OPEN_BLOCK then s.error lexer
    else
      let lexer := if mark then lexer.mark_end else lexer
      (true, push_list_item s extra_indentation digits, lexer.set_result token)

/-- The local variables of the counting loop of `Scanner::parse_star`. -/
structure StarVars where
  star_count : Nat
  had_whitespace : Bool
  star_count_before_whitespace : Nat
  extra_indentation : Nat
  deriving DecidableEq, Repr

/-- The loop `for (;;)` of `Scanner::parse_star`. -/
def star_loop (valid_symbols : ValidSymbols) : Nat → Scanner → TSLexer → StarVars →
    Scanner × TSLexer × StarVars
  | 0, s, lexer, v => (s, lexer, v)
  | fuel + 1, s, lexer, v =>
    if lexer.lookahead = 42 then
      let lexer :=
        if v.star_count = 1 ∧ v.extra_indentation ≥ 1 ∧ valid_symbols LIST_MARKER_STAR = true
        then lexer.mark_end else lexer
      let v := if v.had_whitespace = false
        then { v with star_count_before_whitespace := v.star_count_before_whitespace + 1 } else v
      let v := { v with star_count := v.star_count + 1 }
      let r := s.advance lexer
      star_loop valid_symbols fuel r.2.1 r.2.2 v
    else if lexer.lookahead = 32 ∨ lexer.lookahead = 9 then
      let v := { v with had_whitespace := true }
      let r := s.advance lexer
      let v := if v.star_count = 1
        then { v with extra_indentation := v.extra_indentation + r.1 } else v
      star_loop valid_symbols fuel r.2.1 r.2.2 v
    else (s, lexer, v)

/-- The emphasis decision of `Scanner::parse_star` for a freshly counted run
(lines 309 to 337 of scanner.cpp). -/
def Scanner.star_emphasis_decision (s : Scanner) (lexer : TSLexer) (v : StarVars)
    (valid_symbols : ValidSymbols) : Bool × Scanner × TSLexer :=
  let line_end : Bool := lexer.lookahead == 10 || lexer.lookahead == 13
  if s.indentation > 0 then (false, s, lexer)
  else
    let s := { s with
      num_emphasis_delimiters_left := (v.star_count_before_whitespace - 1) % 256 }
    let next_symbol_whitespace : Bool := v.had_whitespace || line_end
    let next_symbol_punctuation : Bool :=
      !v.had_whitespace && is_punctuation (lexer.lookahead % 256)
    if valid_symbols EMPHASIS_CLOSE_STAR && !valid_symbols LAST_TOKEN_WHITESPACE &&
        (!valid_symbols LAST_TOKEN_PUNCTUATION || next_symbol_punctuation ||
          next_symbol_whitespace) then
      (true, { s with state := s.state &&& not16 STATE_EMPHASIS_DELIMITER_IS_OPEN },
        lexer.set_result EMPHASIS_CLOSE_STAR)
    else if !next_symbol_whitespace &&
        (!next_symbol_punctuation || valid_symbols LAST_TOKEN_PUNCTUATION ||
          valid_symbols LAST_TOKEN_WHITESPACE) then
      (true, { s with state := (s.state ||| STATE_EMPHASIS_DELIMITER_IS_OPEN) % 65536 },
        lexer.set_result EMPHASIS_OPEN_STAR)
    else (false, s, lexer)

/-- The part of `Scanner::parse_star` after the counting loop (lines 254 to
339 of scanner.cpp): thematic break, list marker, or emphasis. -/
def Scanner.star_decision (s : Scanner) (lexer : TSLexer) (v : StarVars)
    (valid_symbols : ValidSymbols) : Bool × Scanner × TSLexer :=
  let star_count := v.star_count
  let extra_indentation := v.extra_indentation
  let line_end : Bool := lexer.lookahead == 10 || lexer.lookahead == 13
  let empty_item : Bool := decide (star_count = 1) && line_end
  let extra_indentation := if empty_item then 1 else extra_indentation
  let dont_interrupt : Bool :=
    if empty_item then
      !has_flag s.state STATE_JUST_CLOSED && decide (s.matched = s.open_blocks.length)
    else false
  let thematic_break : Bool := decide (star_count ≥ 3) && line_end
  let list_marker_star : Bool := decide (star_count ≥ 1) && decide (extra_indentation ≥ 1)
  if valid_symbols THEMATIC_BREAK && thematic_break && decide (s.indentation < 4) then
    if has_flag s.state STATE_WAS_SOFT_LINE_BREAK then s.error lexer
    else
      let s := { s with state := s.state &&& not16 STATE_NEED_OPEN_BLOCK }
      let lexer := (lexer.set_result THEMATIC_BREAK).mark_end
      (true, { s with indentation := 0 }, lexer)
  else if (if dont_interrupt then valid_symbols LIST_MARKER_STAR_DONT_INTERRUPT
           else valid_symbols LIST_MARKER_STAR) && list_marker_star then
    s.open_list_item lexer dont_interrupt extra_indentation 0 (decide (star_count = 1))
      (if dont_interrupt then LIST_MARKER_STAR_DONT_INTERRUPT else LIST_MARKER_STAR)
  else if valid_symbols EMPHASIS_OPEN_STAR || valid_symbols EMPHASIS_CLOSE_STAR then
    s.star_emphasis_decision lexer v valid_symbols
  else (false, s, lexer)

/-- `Scanner::parse_star`. -/
def Scanner.parse_star (s : Scanner) (lexer : TSLexer) (valid_symbols : ValidSymbols) :
    Bool × Scanner × TSLexer :=
  if decide (s.num_emphasis_delimiters_left > 0) &&
      has_flag s.state STATE_EMPHASIS_DELIMITER_IS_OPEN &&
      valid_symbols EMPHASIS_OPEN_STAR then
    let r := s.advance lexer
    let s := r.2.1
    (true, { s with num_emphasis_delimiters_left := s.num_emphasis_delimiters_left - 1 },
      r.2.2.set_result EMPHASIS_OPEN_STAR)
  else if decide (s.num_emphasis_delimiters_left > 0) &&
      valid_symbols EMPHASIS_CLOSE_STAR then
    let r := s.advance lexer
    let s := r.2.1
    (true, { s with num_emphasis_delimiters_left := s.num_emphasis_delimiters_left - 1 },
      r.2.2.set_result EMPHASIS_CLOSE_STAR)
  else
    let r := s.advance lexer
    let s := r.2.1
    let lexer := r.2.2.mark_end
    let r := star_loop valid_symbols lexer.input.length s lexer
      { star_count := 1, had_whitespace := false, star_count_before_whitespace := 1,
        extra_indentation := 0 }
    r.1.star_decision r.2.1 r.2.2 valid_symbols

/-- The local variables of the counting loop of `Scanner::parse_underscore`. -/
structure UnderscoreVars where
  underscore_count : Nat
  underscore_count_before_whitespace : Nat
  encountered_whitespace : Bool
  deriving DecidableEq, Repr

/-- The loop `for (;;)` of `Scanner::parse_underscore`. -/
def underscore_loop : Nat → Scanner → TSLexer → UnderscoreVars →
    Scanner × TSLexer × UnderscoreVars
  | 0, s, lexer, v => (s, lexer, v)
  | fuel + 1, s, lexer, v =>
    if lexer.lookahead = 95 then
      let v := { v with underscore_count := v.underscore_count + 1 }
      let v := if v.encountered_whitespace = false
        then { v with underscore_count_before_whitespace :=
                        v.underscore_count_before_whitespace + 1 }
        else v
      let r := s.advance lexer
      underscore_loop fuel r.2.1 r.2.2 v
    else if lexer.lookahead = 32 ∨ lexer.lookahead = 9 then
      let v := { v with encountered_whitespace := true }
      let r := s.advance lexer
      underscore_loop fuel r.2.1 r.2.2 v
    else (s, lexer, v)

/-- The part of `Scanner::parse_underscore` after the counting loop (lines
376 to 410 of scanner.cpp): thematic break or emphasis. -/
def Scanner.underscore_decision (s : Scanner) (lexer : TSLexer) (v : UnderscoreVars)
    (valid_symbols : ValidSymbols) : Bool × Scanner × TSLexer :=
  let underscore_count := v.underscore_count
  let underscore_count_before_whitespace := v.underscore_count_before_whitespace
  let encountered_whitespace := v.encountered_whitespace
  let line_end : Bool := lexer.lookahead == 10 || lexer.lookahead == 13
  if decide (underscore_count ≥ 3) && line_end && valid_symbols THEMATIC_BREAK then
    if has_flag s.state STATE_WAS_SOFT_LINE_BREAK then s.error lexer
    else
      let s := { s with state := s.state &&& not16 STATE_NEED_OPEN_BLOCK }
      let lexer := (lexer.set_result THEMATIC_BREAK).mark_end
      (true, { s with indentation := 0 }, lexer)
  else if valid_symbols EMPHASIS_OPEN_UNDERSCORE ||
      valid_symbols EMPHASIS_CLOSE_UNDERSCORE then
    let s := { s with
      num_emphasis_delimiters_left := (underscore_count_before_whitespace - 1) % 256 }
    let next_symbol_whitespace : Bool := encountered_whitespace || line_end
    let next_symbol_punctuation : Bool :=
      !encountered_whitespace && is_punctuation (lexer.lookahead % 256)
    let right_flanking : Bool := !valid_symbols LAST_TOKEN_WHITESPACE &&
      (!valid_symbols LAST_TOKEN_PUNCTUATION || next_symbol_punctuation ||
        next_symbol_whitespace)
    let left_flanking : Bool := !next_symbol_whitespace &&
      (!next_symbol_punctuation || valid_symbols LAST_TOKEN_PUNCTUATION ||
        valid_symbols LAST_TOKEN_WHITESPACE)
    if valid_symbols EMPHASIS_CLOSE_UNDERSCORE && right_flanking &&
        (!left_flanking || next_symbol_punctuation) then
      (true, { s with state := s.state &&& not16 STATE_EMPHASIS_DELIMITER_IS_OPEN },
        lexer.set_result EMPHASIS_CLOSE_UNDERSCORE)
    else if left_flanking &&
        (!right_flanking || valid_symbols LAST_TOKEN_PUNCTUATION) then
      (true, { s with state := (s.state ||| STATE_EMPHASIS_DELIMITER_IS_OPEN) % 65536 },
        lexer.set_result EMPHASIS_OPEN_UNDERSCORE)
    else (false, s, lexer)
  else (false, s, lexer)

/-- `Scanner::parse_underscore`. -/
def Scanner.parse_underscore (s : Scanner) (lexer : TSLexer) (valid_symbols : ValidSymbols) :
    Bool × Scanner × TSLexer :=
  if decide (s.num_emphasis_delimiters_left > 0) &&
      has_flag s.state STATE_EMPHASIS_DELIMITER_IS_OPEN &&
      valid_symbols EMPHASIS_OPEN_UNDERSCORE then
    let r := s.advance lexer
    let s := r.2.1
    (true, { s with num_emphasis_delimiters_left := s.num_emphasis_delimiters_left - 1 },
      r.2.2.set_result EMPHASIS_OPEN_UNDERSCORE)
  else if decide (s.num_emphasis_delimiters_left > 0) &&
      valid_symbols EMPHASIS_CLOSE_UNDERSCORE then
    let r := s.advance lexer
    let s := r.2.1
    (true, { s with num_emphasis_delimiters_left := s.num_emphasis_delimiters_left - 1 },
      r.2.2.set_result EMPHASIS_CLOSE_UNDERSCORE)
  else
    let r := s.advance lexer
    let s := r.2.1
    let lexer := r.2.2.mark_end
    let r := underscore_loop lexer.input.length s lexer
      { underscore_count := 1, underscore_count_before_whitespace := 1,
        encountered_whitespace := false }
    r.1.underscore_decision r.2.1 r.2.2 valid_symbols

/-! ## scan.cpp -/

/-- The loop `while (lexer->lookahead == '#' && level <= 6)` of the ATX
heading branch. -/
def hash_loop : Nat → Scanner → TSLexer → Nat → Scanner × TSLexer × Nat
  | 0, s, lexer, level => (s, lexer, level)
  | fuel + 1, s, lexer, level =>
    if lexer.lookahead = 35 ∧ level ≤ 6 then
      let r := s.advance lexer
      hash_loop fuel r.2.1 r.2.2 (level + 1)
    else (s, lexer, level)

/-- The local variables of the counting loop of the `-` branch. -/
structure MinusVars where
  whitespace_after_minus : Bool
  minus_after_whitespace : Bool
  minus_count : Nat
  extra_indentation : Nat
  deriving DecidableEq, Repr

/-- The loop `for (;;)` of the `-` branch of `Scanner::scan`. -/
def minus_loop : Nat → Scanner → TSLexer → MinusVars → Scanner × TSLexer × MinusVars
  | 0, s, lexer, v => (s, lexer, v)
  | fuel + 1, s, lexer, v =>
    if lexer.lookahead = 45 then
      let lexer :=
        if v.minus_count = 1 ∧ v.extra_indentation ≥ 1 then lexer.mark_end else lexer
      let v := { v with minus_count := v.minus_count + 1 }
      let r := s.advance lexer
      let v := { v with minus_after_whitespace := v.whitespace_after_minus }
      minus_loop fuel r.2.1 r.2.2 v
    else if lexer.lookahead = 32 ∨ lexer.lookahead = 9 then
      let r := s.advance lexer
      let v := if v.minus_count = 1
        then { v with extra_indentation := v.extra_indentation + r.1 } else v
      let v := { v with whitespace_after_minus := true }
      minus_loop fuel r.2.1 r.2.2 v
    else (s, lexer, v)

/-- The branch `case '\r': case '\n':` of the `switch` in `Scanner::scan`. -/
def Scanner.scan_blank_line (s : Scanner) (lexer : TSLexer) (valid_symbols : ValidSymbols) :
    Bool × Scanner × TSLexer :=
  if valid_symbols BLANK_LINE_START then
    if has_flag s.state STATE_WAS_SOFT_LINE_BREAK then s.error lexer
    else
      (true, { s with state := s.state &&& not16 STATE_NEED_OPEN_BLOCK },
        lexer.set_result BLANK_LINE_START)
  else (false, s, lexer)

/-- The branch `case '>':` of the `switch` in `Scanner::scan`. -/
def Scanner.scan_block_quote (s : Scanner) (lexer : TSLexer) (valid_symbols : ValidSymbols) :
    Bool × Scanner × TSLexer :=
  if valid_symbols BLOCK_QUOTE_START then
    if has_flag s.state STATE_WAS_SOFT_LINE_BREAK then s.error lexer
    else
      let s := { s with state := s.state &&& not16 STATE_NEED_OPEN_BLOCK }
      let r := s.advance lexer
      let s := { r.2.1 with indentation := 0 }
      let lexer := r.2.2
      let r : Scanner × TSLexer :=
        if lexer.lookahead = 32 ∨ lexer.lookahead = 9 then
          let r := s.advance lexer
          ({ r.2.1 with indentation := (r.2.1.indentation + (r.1 - 1)) % 256 }, r.2.2)
        else (s, lexer)
      let s := r.1
      let lexer := r.2.set_result BLOCK_QUOTE_START
      (true, { s with open_blocks := s.open_blocks ++ [BLOCK_QUOTE] }, lexer)
  else (false, s, lexer)

/-- The part of the branch `case '~':` after the run of `level` tildes has
been counted. -/
def Scanner.tilde_decision (s : Scanner) (lexer : TSLexer) (level : Nat)
    (valid_symbols : ValidSymbols) : Bool × Scanner × TSLexer :=
  if valid_symbols FENCED_CODE_BLOCK_END_TILDE && decide (s.indentation < 4) &&
      decide (level ≥ s.code_span_delimiter_length) &&
      (lexer.lookahead == 10 || lexer.lookahead == 13) then
    (true, s, lexer.set_result FENCED_CODE_BLOCK_END_TILDE)
  else if valid_symbols FENCED_CODE_BLOCK_START_TILDE && decide (level ≥ 3) then
    if has_flag s.state STATE_WAS_SOFT_LINE_BREAK then s.error lexer
    else
      let s := { s with state := s.state &&& not16 STATE_NEED_OPEN_BLOCK }
      let lexer := lexer.set_result FENCED_CODE_BLOCK_START_TILDE
      let s := { s with open_blocks := s.open_blocks ++ [FENCED_CODE_BLOCK] }
      let s := { s with code_span_delimiter_length := level % 256 }
      (true, { s with indentation := 0 }, lexer)
  else (false, s, lexer)

/-- The branch `case '~':` of the `switch` in `Scanner::scan`. -/
def Scanner.scan_tilde (s : Scanner) (lexer : TSLexer) (valid_symbols : ValidSymbols) :
    Bool × Scanner × TSLexer :=
  if valid_symbols FENCED_CODE_BLOCK_START_TILDE ||
      valid_symbols FENCED_CODE_BLOCK_END_TILDE then
    let r := advance_while (fun c => c == 126) lexer.input.length s lexer 0 0
    r.1.tilde_decision r.2.1 r.2.2.1 valid_symbols
  else (false, s, lexer)

/-- The part of the branch `case '#':` after the run of `level` hashes has
been counted. -/
def Scanner.hash_decision (s : Scanner) (lexer : TSLexer) (level : Nat) :
    Bool × Scanner × TSLexer :=
  if decide (level ≤ 6) && (lexer.lookahead == 32 || lexer.lookahead == 9 ||
      lexer.lookahead == 10 || lexer.lookahead == 13) then
    if has_flag s.state STATE_WAS_SOFT_LINE_BREAK then s.error lexer
    else
      let s := { s with state := s.state &&& not16 STATE_NEED_OPEN_BLOCK }
      let lexer := lexer.set_result (atx_marker_plus (level - 1))
      (true, { s with indentation := 0 }, lexer.mark_end)
  else (false, s, lexer)

/-- The branch `case '#':` of the `switch` in `Scanner::scan`. -/
def Scanner.scan_hash (s : Scanner) (lexer : TSLexer) (valid_symbols : ValidSymbols) :
    Bool × Scanner × TSLexer :=
  if valid_symbols ATX_H1_MARKER && decide (s.indentation ≤ 3) then
    let lexer := lexer.mark_end
    let r := hash_loop lexer.input.length s lexer 0
    r.1.hash_decision r.2.1 r.2.2
  else (false, s, lexer)

/-- The part of the branch `case '=':` after the run of `=` and the
whitespace behind it have been consumed. -/
def Scanner.equals_decision (s : Scanner) (lexer : TSLexer) : Bool × Scanner × TSLexer :=
  if lexer.lookahead = 10 ∨ lexer.lookahead = 13 then
    if has_flag s.state STATE_WAS_SOFT_LINE_BREAK then s.error lexer
    else
      let s := { s with state := s.state &&& not16 STATE_NEED_OPEN_BLOCK }
      (true, s, (lexer.set_result SETEXT_H1_UNDERLINE).mark_end)
  else (false, s, lexer)

/-- The branch `case '=':` of the `switch` in `Scanner::scan`. -/
def Scanner.scan_equals (s : Scanner) (lexer : TSLexer) (valid_symbols : ValidSymbols) :
    Bool × Scanner × TSLexer :=
  if valid_symbols SETEXT_H1_UNDERLINE && decide (s.matched = s.open_blocks.length) then
    let lexer := lexer.mark_end
    let r := advance_while (fun c => c == 61) lexer.input.length s lexer 0 0
    let r := advance_while (fun c => c == 32 || c == 9) r.2.1.input.length r.1 r.2.1 0 0
    r.1.equals_decision r.2.1
  else (false, s, lexer)

/-- The part of the branch `case '+':` after the marker and the whitespace
behind it, of total width `extra_indentation`, have been consumed. -/
def Scanner.plus_decision (s : Scanner) (lexer : TSLexer) (extra_indentation : Nat)
    (valid_symbols : ValidSymbols) : Bool × Scanner × TSLexer :=
  let line_end : Bool := lexer.lookahead == 13 || lexer.lookahead == 10
  let extra_indentation := if line_end then 1 else extra_indentation
  let dont_interrupt : Bool := line_end
  let dont_interrupt : Bool := dont_interrupt && !has_flag s.state STATE_JUST_CLOSED &&
    decide (s.matched = s.open_blocks.length)
  if decide (extra_indentation ≥ 1) &&
      (if dont_interrupt then valid_symbols LIST_MARKER_PLUS_DONT_INTERRUPT
       else valid_symbols LIST_MARKER_PLUS) then
    s.open_list_item lexer dont_interrupt extra_indentation 0 false
      (if dont_interrupt then LIST_MARKER_PLUS_DONT_INTERRUPT else LIST_MARKER_PLUS)
  else (false, s, lexer)

/-- The branch `case '+':` of the `switch` in `Scanner::scan`. -/
def Scanner.scan_plus (s : Scanner) (lexer : TSLexer) (valid_symbols : ValidSymbols) :
    Bool × Scanner × TSLexer :=
  if decide (s.indentation ≤ 3) && (valid_symbols LIST_MARKER_PLUS ||
      valid_symbols LIST_MARKER_PLUS_DONT_INTERRUPT) then
    let r := s.advance lexer
    let r := advance_while (fun c => c == 32 || c == 9) r.2.2.input.length r.2.1 r.2.2 0 0
    r.1.plus_decision r.2.1 r.2.2.2 valid_symbols
  else (false, s, lexer)

/-- The part of the digit branch after the digits, the delimiter (`dot` tells
which) and the whitespace behind it, of total width `extra_indentation`,
have been consumed; `dont_interrupt` tells whether the number is not 1. -/
def Scanner.ordered_decision (s : Scanner) (lexer : TSLexer) (dot dont_interrupt : Bool)
    (digits extra_indentation : Nat) (valid_symbols : ValidSymbols) :
    Bool × Scanner × TSLexer :=
  let line_end : Bool := lexer.lookahead == 10 || lexer.lookahead == 13
  let extra_indentation := if line_end then 1 else extra_indentation
  let dont_interrupt : Bool := dont_interrupt || line_end
  let dont_interrupt : Bool := dont_interrupt &&
    !has_flag s.state STATE_JUST_CLOSED && decide (s.matched = s.open_blocks.length)
  if decide (extra_indentation ≥ 1) &&
      (if dot then
        (if dont_interrupt then valid_symbols LIST_MARKER_DOT_DONT_INTERRUPT
         else valid_symbols LIST_MARKER_DOT)
       else
        (if dont_interrupt then valid_symbols LIST_MARKER_PARENTHESIS_DONT_INTERRUPT
         else valid_symbols LIST_MARKER_PARENTHESIS)) then
    s.open_list_item lexer dont_interrupt extra_indentation digits false
      (if dot then LIST_MARKER_DOT else LIST_MARKER_PARENTHESIS)
  else (false, s, lexer)

/-- The branch `case '0': ... case '9':` of the `switch` in `Scanner::scan`. -/
def Scanner.scan_digit (s : Scanner) (lexer : TSLexer) (valid_symbols : ValidSymbols) :
    Bool × Scanner × TSLexer :=
  if decide (s.indentation ≤ 3) && (valid_symbols LIST_MARKER_PARENTHESIS ||
      valid_symbols LIST_MARKER_DOT) then
    let dont_interrupt : Bool := lexer.lookahead != 49
    let r := s.advance lexer
    let r := advance_while (fun c => decide (c ≥ 48) && decide (c ≤ 57))
      r.2.2.input.length r.2.1 r.2.2 0 0
    let s := r.1
    let lexer := r.2.1
    let digits := 1 + r.2.2.1
    let dont_interrupt : Bool := dont_interrupt || decide (r.2.2.1 > 0)
    if decide (digits ≥ 1) && decide (digits ≤ 9) then
      let dot : Bool := lexer.lookahead == 46
      let parenthesis : Bool := !dot && lexer.lookahead == 41
      if dot || parenthesis then
        let r := s.advance lexer
        let r := advance_while (fun c => c == 32 || c == 9)
          r.2.2.input.length r.2.1 r.2.2 0 0
        r.1.ordered_decision r.2.1 dot dont_interrupt digits r.2.2.2 valid_symbols
      else (false, s, lexer)
    else (false, s, lexer)
  else (false, s, lexer)

/-- The part of the branch `case '-':` after the counting loop (lines 352 to
407 of scan.cpp): setext underline, thematic break, or list marker. -/
def Scanner.minus_decision (s : Scanner) (lexer : TSLexer) (v : MinusVars)
    (valid_symbols : ValidSymbols) : Bool × Scanner × TSLexer :=
  let minus_after_whitespace := v.minus_after_whitespace
  let minus_count := v.minus_count
  let extra_indentation := v.extra_indentation
  let line_end : Bool := lexer.lookahead == 10 || lexer.lookahead == 13
  let empty_item : Bool := decide (minus_count = 1) && line_end
  let extra_indentation := if empty_item then 1 else extra_indentation
  let dont_interrupt : Bool := empty_item
  let dont_interrupt : Bool := dont_interrupt && !has_flag s.state STATE_JUST_CLOSED &&
    decide (s.matched = s.open_blocks.length)
  let thematic_break : Bool := decide (minus_count ≥ 3) && line_end
  let underline : Bool := decide (minus_count ≥ 1) && !minus_after_whitespace &&
    line_end && decide (s.matched = s.open_blocks.length)
  let list_marker_minus : Bool :=
    decide (minus_count ≥ 1) && decide (extra_indentation ≥ 1)
  if valid_symbols SETEXT_H2_UNDERLINE && underline then
    if has_flag s.state STATE_WAS_SOFT_LINE_BREAK then s.error lexer
    else
      let s := { s with state := s.state &&& not16 STATE_NEED_OPEN_BLOCK }
      let lexer := (lexer.set_result SETEXT_H2_UNDERLINE).mark_end
      (true, { s with indentation := 0 }, lexer)
  else if valid_symbols THEMATIC_BREAK && thematic_break then
    if has_flag s.state STATE_WAS_SOFT_LINE_BREAK then s.error lexer
    else
      let s := { s with state := s.state &&& not16 STATE_NEED_OPEN_BLOCK }
      let lexer := (lexer.set_result THEMATIC_BREAK).mark_end
      (true, { s with indentation := 0 }, lexer)
  else if (if dont_interrupt then valid_symbols LIST_MARKER_MINUS_DONT_INTERRUPT
           else valid_symbols LIST_MARKER_MINUS) && list_marker_minus then
    s.open_list_item lexer dont_interrupt extra_indentation 0 (decide (minus_count = 1))
      (if dont_interrupt then LIST_MARKER_MINUS_DONT_INTERRUPT else LIST_MARKER_MINUS)
  else (false, s, lexer)

/-- The branch `case '-':` of the `switch` in `Scanner::scan`. -/
def Scanner.scan_minus (s : Scanner) (lexer : TSLexer) (valid_symbols : ValidSymbols) :
    Bool × Scanner × TSLexer :=
  if decide (s.indentation ≤ 3) && (valid_symbols LIST_MARKER_MINUS ||
      valid_symbols LIST_MARKER_MINUS_DONT_INTERRUPT ||
      valid_symbols SETEXT_H2_UNDERLINE || valid_symbols THEMATIC_BREAK) then
    let lexer := lexer.mark_end
    let r := minus_loop lexer.input.length s lexer
      { whitespace_after_minus := false, minus_after_whitespace := false,
        minus_count := 0, extra_indentation := 0 }
    r.1.minus_decision r.2.1 r.2.2 valid_symbols
  else (false, s, lexer)

/-- The statement `switch (lexer->lookahead)` of `Scanner::scan` (lines 102 to
410 of scan.cpp).  A `case` that ends in `break` falls through to the
final `return false`. -/
def Scanner.scan_switch (sym18 : TokenType) (s : Scanner) (lexer : TSLexer)
    (valid_symbols : ValidSymbols) : Bool × Scanner × TSLexer :=
  let c := lexer.lookahead
  if c = 13 ∨ c = 10 then s.scan_blank_line lexer valid_symbols
  else if c = 96 then s.parse_backtick sym18 lexer valid_symbols
  else if c = 42 then s.parse_star lexer valid_symbols
  else if c = 95 then s.parse_underscore lexer valid_symbols
  else if c = 62 then s.scan_block_quote lexer valid_symbols
  else if c = 126 then s.scan_tilde lexer valid_symbols
  else if c = 35 then s.scan_hash lexer valid_symbols
  else if c = 61 then s.scan_equals lexer valid_symbols
  else if c = 43 then s.scan_plus lexer valid_symbols
  else if 48 ≤ c ∧ c ≤ 57 then s.scan_digit lexer valid_symbols
  else if c = 45 then s.scan_minus lexer valid_symbols
  else (false, s, lexer)

/-- The branch `if (!(state & STATE_MATCHING))` of `Scanner::scan` (lines
87 to 410 of scan.cpp): the classifier of leaf and delimiter tokens. -/
def Scanner.scan_leaf (sym18 : TokenType) (s : Scanner) (lexer : TSLexer)
    (valid_symbols : ValidSymbols) : Bool × Scanner × TSLexer :=
  if valid_symbols INDENTED_CHUNK_START && !valid_symbols NO_INDENTED_CHUNK &&
      decide (s.indentation ≥ 4) && lexer.lookahead != 10 && lexer.lookahead != 13 then
    let lexer := lexer.set_result INDENTED_CHUNK_START
    let s := { s with open_blocks := s.open_blocks ++ [INDENTED_CODE_BLOCK] }
    (true, { s with indentation := s.indentation - 4 }, lexer)
  else s.scan_switch sym18 lexer valid_symbols

/-- The loop `while (matched < open_blocks.size())` of the matching branch of
`Scanner::scan`; the flag is `partial_success`.  Every round that does not
leave the loop increments `matched`, so the number of open blocks bounds
the number of rounds. -/
def match_loop : Nat → Scanner → TSLexer → Bool → Option (Scanner × TSLexer × Bool)
  | 0, s, lexer, part_success => some (s, lexer, part_success)
  | fuel + 1, s, lexer, part_success =>
    if s.matched < s.open_blocks.length then
      if s.matched = s.open_blocks.length - 1 ∧ has_flag s.state STATE_CLOSE_BLOCK = true then
        let s := if !part_success
          then { s with state := s.state &&& not16 STATE_CLOSE_BLOCK } else s
        some (s, lexer, part_success)
      else
        match s.open_blocks.get? s.matched with
        | none => none
        | some block =>
          if block = BLOCK_QUOTE ∧ part_success = true then some (s, lexer, part_success)
          else
            match s.match_ lexer block with
            | none => none
            | some (false, s, lexer) => some (s, lexer, part_success)
            | some (true, s, lexer) =>
              let s := { s with matched := (s.matched + 1) % 256 }
              match block_before s.open_blocks s.matched with
              | none => none
              | some b =>
                if b = BLOCK_QUOTE then some (s, lexer, true)
                else match_loop fuel s lexer true
    else some (s, lexer, part_success)

/-- The branch `else` of `if (!(state & STATE_MATCHING))` of `Scanner::scan`
(lines 411 to 477 of scan.cpp): matching the open blocks at a line start. -/
def Scanner.scan_matching (s : Scanner) (lexer : TSLexer) (valid_symbols : ValidSymbols) :
    Option (Bool × Scanner × TSLexer) :=
  match match_loop s.open_blocks.length s lexer false with
  | none => none
  | some (s, lexer, part_success) =>
    if part_success then
      let s := if !valid_symbols SOFT_LINE_BREAK_MARKER &&
          decide (s.matched = s.open_blocks.length)
        then { s with state := s.state &&& not16 STATE_MATCHING } else s
      match block_before s.open_blocks s.matched with
      | none => none
      | some b =>
        if b = BLOCK_QUOTE then some (true, s, lexer.set_result BLOCK_QUOTE_CONTINUATION)
        else some (true, s, lexer.set_result BLOCK_CONTINUATION)
    else
      let split_token_count := ((s.state &&& STATE_SPLIT_TOKEN_COUNT) >>> 5) % 256
      if valid_symbols SPLIT_TOKEN && decide (split_token_count < 2) then
        let split_token_count := (split_token_count + 1) % 256
        let s := { s with state := s.state &&& not16 STATE_SPLIT_TOKEN_COUNT }
        let s := { s with state := (s.state ||| (split_token_count <<< 5)) % 65536 }
        let s := { s with state := (s.state ||| STATE_NEED_OPEN_BLOCK) % 65536 }
        some (true, s, lexer.set_result SPLIT_TOKEN)
      else if !valid_symbols SOFT_LINE_BREAK_MARKER then
        match block_before s.open_blocks s.open_blocks.length with
        | none => none
        | some block =>
          let lexer := lexer.set_result BLOCK_CLOSE
          let r : Scanner × TSLexer :=
            if block = FENCED_CODE_BLOCK then ({ s with indentation := 0 }, lexer.mark_end)
            else (s, lexer)
          let s := r.1
          let lexer := r.2
          let s := { s with open_blocks := s.open_blocks.dropLast }
          let s := if s.matched = s.open_blocks.length
            then { s with state := s.state &&& not16 STATE_MATCHING } else s
          let s := { s with state := (s.state ||| STATE_JUST_CLOSED) % 65536 }
          some (true, s, lexer)
      else
        let s := { s with state :=
          s.state &&& (not16 STATE_MATCHING &&& not16 STATE_NEED_OPEN_BLOCK) }
        let s := { s with state := (s.state ||| STATE_WAS_SOFT_LINE_BREAK) % 65536 }
        some (true, s, lexer.set_result SOFT_LINE_BREAK_MARKER)

/-- Lines 12 to 18 of scan.cpp: after two split tokens, with no soft line
break on offer and every open block matched, leave the matching state. -/
def Scanner.after_split_tokens (s : Scanner) (valid_symbols : ValidSymbols) : Scanner :=
  let split_token_count := ((s.state &&& STATE_SPLIT_TOKEN_COUNT) >>> 5) % 256
  if decide (split_token_count = 2) && !valid_symbols SOFT_LINE_BREAK_MARKER &&
      decide (s.matched = s.open_blocks.length)
  then { s with state := s.state &&& not16 STATE_MATCHING } else s

/-- Lines 65 to 73 of scan.cpp: consume the whitespace at the start of the
input and add its width to `indentation`. -/
def Scanner.skip_whitespace (s : Scanner) (lexer : TSLexer) : Scanner × TSLexer :=
  let r := advance_while (fun c => c == 32 || c == 9) lexer.input.length s lexer 0 0
  ({ r.1 with indentation := (r.1.indentation + r.2.2.2) % 256 }, r.2.1)

/-- `Scanner::scan`.  The result is `none` when the C++ code would access
`open_blocks` out of range; otherwise it is the returned `bool` with the
scanner and the lexer as the call leaves them. -/
def Scanner.scan (sym18 : TokenType) (s : Scanner) (lexer : TSLexer)
    (valid_symbols : ValidSymbols) : Option (Bool × Scanner × TSLexer) :=
  if valid_symbols TRIGGER_ERROR then some (s.error lexer)
  else
  let s := s.after_split_tokens valid_symbols
  if valid_symbols LINE_ENDING then
    if has_flag s.state STATE_NEED_OPEN_BLOCK then some (s.error lexer)
    else
      let s := { s with matched := 0 }
      let s := if valid_symbols SOFT_LINE_BREAK_MARKER || decide (s.open_blocks.length > 0)
        then { s with state := (s.state ||| STATE_MATCHING) % 65536 }
        else { s with state := s.state &&& not16 STATE_MATCHING }
      let s := { s with state := s.state &&&
        (not16 STATE_WAS_SOFT_LINE_BREAK &&& not16 STATE_SPLIT_TOKEN_COUNT &&&
          not16 STATE_NEED_OPEN_BLOCK &&& not16 STATE_JUST_CLOSED) }
      let s := { s with indentation := 0, column := 0 }
      some (true, s, lexer.set_result LINE_ENDING)
  else if valid_symbols OPEN_BLOCK || valid_symbols OPEN_BLOCK_DONT_INTERRUPT_PARAGRAPH then
    if has_flag s.state STATE_WAS_SOFT_LINE_BREAK then some (s.error lexer)
    else
      let s := if valid_symbols OPEN_BLOCK
        then { s with state := s.state &&& not16 STATE_NEED_OPEN_BLOCK } else s
      let s := { s with open_blocks := s.open_blocks ++ [ANONYMOUS] }
      some (true, s, lexer.set_result
        (if valid_symbols OPEN_BLOCK then OPEN_BLOCK else OPEN_BLOCK_DONT_INTERRUPT_PARAGRAPH))
  else if valid_symbols CLOSE_BLOCK then
    some (true, { s with state := (s.state ||| STATE_CLOSE_BLOCK) % 65536 },
      lexer.set_result CLOSE_BLOCK)
  else
    let r := s.skip_whitespace lexer
    let s := r.1
    let lexer := r.2
    if lexer.eof then
      if s.open_blocks.length > 0 then
        some (true, { s with open_blocks := s.open_blocks.dropLast },
          lexer.set_result BLOCK_CLOSE)
      else some (false, s, lexer)
    else if !has_flag s.state STATE_MATCHING then
      some (s.scan_leaf sym18 lexer valid_symbols)
    else s.scan_matching lexer valid_symbols

/-! ## Running the scanner over an input -/

/-- The token an invocation produced, if it returned `true`. -/
def token_of (r : Option (Bool × Scanner × TSLexer)) : Option TokenType :=
  match r with
  | some (true, _, lexer) => lexer.result_symbol
  | _ => none

/-! ## Instances and helper definitions used in the statements -/

/-- The eight header bytes `Scanner::serialize` writes before the blocks. -/
def Scanner.header (s : Scanner) : List Nat :=
  [s.state % 256, s.state % 256, s.state / 256 % 256, s.matched % 256,
   s.indentation % 256, s.column % 256, s.code_span_delimiter_length % 256,
   s.num_emphasis_delimiters_left % 256]

/-- A scanner state with a stack of three open blocks, used as an instance. -/
def scanner_three_blocks : Scanner :=
  { open_blocks := [BLOCK_QUOTE, LIST_ITEM + 2, FENCED_CODE_BLOCK], state := 0x281,
    matched := 2, indentation := 3, column := 7, code_span_delimiter_length := 4,
    num_emphasis_delimiters_left := 1 }

/-- A scanner state whose stack holds `n` anonymous blocks on top of one
block quote. -/
def scanner_deep (n : Nat) : Scanner :=
  { Scanner.initial with open_blocks := BLOCK_QUOTE :: List.replicate n ANONYMOUS }

/-- The input the next invocation starts on once an invocation on `input`
has returned a token: the characters after the end of that token. -/
def rest_after (input : List Nat) (lexer : TSLexer) : List Nat :=
  input.drop lexer.token_length

/-- A candidate set in which the star close token is valid, the star open
token is not, and the preceding token ended in whitespace. -/
def valid_close_only : ValidSymbols := valid_of [EMPHASIS_CLOSE_STAR, LAST_TOKEN_WHITESPACE]

/-- The candidate set makes none of the requests that `Scanner::scan` serves
before it looks at the input: no error trigger, no line ending, no opening
and no closing of an anonymous block. -/
def no_request (valid_symbols : ValidSymbols) : Prop :=
  valid_symbols TRIGGER_ERROR = false ∧ valid_symbols LINE_ENDING = false ∧
  valid_symbols OPEN_BLOCK = false ∧
  valid_symbols OPEN_BLOCK_DONT_INTERRUPT_PARAGRAPH = false ∧
  valid_symbols CLOSE_BLOCK = false

instance (valid_symbols : ValidSymbols) : Decidable (no_request valid_symbols) := by
  unfold no_request
  infer_instance

/-- Leaf mode: the scanner is not matching open blocks at a line start. -/
def leaf_mode (s : Scanner) : Prop := has_flag s.state STATE_MATCHING = false

instance (s : Scanner) : Decidable (leaf_mode s) := by
  unfold leaf_mode
  infer_instance

/-- The state in which the previous line ending was a soft line break: it is
reached from the initial state by a line ending with the soft-line-break
token a candidate, followed by the soft line break itself. -/
def scanner_after_soft_break : Scanner :=
  { Scanner.initial with state := STATE_WAS_SOFT_LINE_BREAK }

/-- The candidate set of the setext example: setext H2 underline, thematic
break and the minus list marker. -/
def valid_dashes : ValidSymbols :=
  valid_of [SETEXT_H2_UNDERLINE, THEMATIC_BREAK, LIST_MARKER_MINUS]

/-- Successive invocations of `scan` on the same lexer, the `k`-th of them
(counting from 0) with the candidate set `valid_symbols k`: the scanner state
after `k` invocations, or `none` if one of them ran out of range. -/
def scan_iterate (sym18 : TokenType) (lexer : TSLexer) (valid_symbols : Nat → ValidSymbols) :
    Nat → Scanner → Option Scanner
  | 0, s => some s
  | k + 1, s =>
    match scan_iterate sym18 lexer valid_symbols k s with
    | none => none
    | some sk => (sk.scan sym18 lexer (valid_symbols k)).map (fun r => r.2.1)

/-- The candidate sets of the flush example: at every invocation only the
block-close token is a candidate. -/
def valid_flush : Nat → ValidSymbols := fun _ => valid_of [BLOCK_CLOSE]

/-- The tokens that open a block or are a standalone leaf, other than the start
of an indented code block: block quote, fenced code block, ATX heading,
setext underline, thematic break, list marker, blank line, anonymous
block. -/
def is_opening_token : TokenType → Bool
  | BLOCK_QUOTE_START => true
  | FENCED_CODE_BLOCK_START_BACKTICK => true
  | FENCED_CODE_BLOCK_START_TILDE => true
  | ATX_H1_MARKER => true
  | ATX_H2_MARKER => true
  | ATX_H3_MARKER => true
  | ATX_H4_MARKER => true
  | ATX_H5_MARKER => true
  | ATX_H6_MARKER => true
  | SETEXT_H1_UNDERLINE => true
  | SETEXT_H2_UNDERLINE => true
  | THEMATIC_BREAK => true
  | LIST_MARKER_MINUS => true
  | LIST_MARKER_PLUS => true
  | LIST_MARKER_STAR => true
  | LIST_MARKER_PARENTHESIS => true
  | LIST_MARKER_DOT => true
  | LIST_MARKER_MINUS_DONT_INTERRUPT => true
  | LIST_MARKER_PLUS_DONT_INTERRUPT => true
  | LIST_MARKER_STAR_DONT_INTERRUPT => true
  | LIST_MARKER_PARENTHESIS_DONT_INTERRUPT => true
  | LIST_MARKER_DOT_DONT_INTERRUPT => true
  | BLANK_LINE_START => true
  | OPEN_BLOCK => true
  | OPEN_BLOCK_DONT_INTERRUPT_PARAGRAPH => true
  | _ => false

/-- The scanner state with the flag `previous line ending was a soft break`
cleared and nothing else changed. -/
def clear_soft (s : Scanner) : Scanner :=
  { s with state := s.state &&& not16 STATE_WAS_SOFT_LINE_BREAK }

/-- What an invocation entered with the soft-break flag set does where the
same invocation without the flag opens something: `r` is the outcome with
the flag set, entered with the stack `open_blocks`, and `r0` the outcome
with the flag cleared.  The outcome `r` never carries an opening token and
leaves the stack of open blocks as it is, and where `r0` carries an
opening token, `r` is the error token. -/
def soft_break_guarded (open_blocks : List Block) (r r0 : Bool × Scanner × TSLexer) : Prop :=
  (∀ tok, token_of (some r) = some tok → is_opening_token tok = false) ∧
  r.2.1.open_blocks = open_blocks ∧
  (∀ tok, token_of (some r0) = some tok → is_opening_token tok = true →
    r.1 = true ∧ r.2.2.result_symbol = some ERROR)

/-- The candidate set of the ordered-marker examples: both list-marker tokens
of both delimiters, in the plain and in the variant that does not interrupt
a paragraph. -/
def valid_ordered : ValidSymbols :=
  valid_of [LIST_MARKER_DOT, LIST_MARKER_PARENTHESIS, LIST_MARKER_DOT_DONT_INTERRUPT,
    LIST_MARKER_PARENTHESIS_DONT_INTERRUPT]

/-- The candidate set of the indented-bullet examples: the list-marker tokens
of the three bullets, with the start of an indented code block ruled out by
`NO_INDENTED_CHUNK`. -/
def valid_bullets : ValidSymbols :=
  valid_of [LIST_MARKER_STAR, LIST_MARKER_MINUS, LIST_MARKER_PLUS, NO_INDENTED_CHUNK]
/-- The grammar-gated tokens whose own flag the scanner tests before it
returns them: the bullet list markers in both variants, the setext
underlines, the thematic break, the tilde fence start, the fence ends, the
code-span delimiters, the emphasis close tokens, the block-quote start, the
indented-chunk start, the blank-line start, the split token and the soft
line break. -/
def is_checked_token : TokenType → Bool
  | LIST_MARKER_MINUS => true
  | LIST_MARKER_PLUS => true
  | LIST_MARKER_STAR => true
  | LIST_MARKER_MINUS_DONT_INTERRUPT => true
  | LIST_MARKER_PLUS_DONT_INTERRUPT => true
  | LIST_MARKER_STAR_DONT_INTERRUPT => true
  | SETEXT_H1_UNDERLINE => true
  | SETEXT_H2_UNDERLINE => true
  | THEMATIC_BREAK => true
  | FENCED_CODE_BLOCK_START_TILDE => true
  | FENCED_CODE_BLOCK_END_BACKTICK => true
  | FENCED_CODE_BLOCK_END_TILDE => true
  | CODE_SPAN_START => true
  | CODE_SPAN_CLOSE => true
  | EMPHASIS_CLOSE_STAR => true
  | EMPHASIS_CLOSE_UNDERSCORE => true
  | BLOCK_QUOTE_START => true
  | INDENTED_CHUNK_START => true
  | BLANK_LINE_START => true
  | SPLIT_TOKEN => true
  | SOFT_LINE_BREAK_MARKER => true
  | _ => false

/-- The six ATX heading markers. -/
def is_atx_marker : TokenType → Bool
  | ATX_H1_MARKER => true
  | ATX_H2_MARKER => true
  | ATX_H3_MARKER => true
  | ATX_H4_MARKER => true
  | ATX_H5_MARKER => true
  | ATX_H6_MARKER => true
  | _ => false

/-- The outcome `r` respects the candidate set: a token of `is_checked_token`
is a candidate itself, and with an ATX heading marker of any level the
marker of level 1 is a candidate. -/
def candidate_gated (valid_symbols : ValidSymbols) (r : Bool × Scanner × TSLexer) : Prop :=
  ∀ tok, token_of (some r) = some tok →
    (is_checked_token tok = true → valid_symbols tok = true) ∧
    (is_atx_marker tok = true → valid_symbols ATX_H1_MARKER = true)

/-- Punctuation on the spec side: the punctuation characters of ASCII, `!` to
`/`, `:` to `@`, `[` to the backtick and `{` to `~`, asked of the character
itself.  No character beyond ASCII is in these ranges. -/
def spec_is_punctuation (c : Nat) : Bool :=
  (decide (33 ≤ c) && decide (c ≤ 47)) || (decide (58 ≤ c) && decide (c ≤ 64)) ||
  (decide (91 ≤ c) && decide (c ≤ 96)) || (decide (123 ≤ c) && decide (c ≤ 126))

/-- Whitespace on the spec side: space, tab, line feed and carriage return. -/
def spec_is_whitespace (c : Nat) : Bool :=
  decide (c = 32) || decide (c = 9) || decide (c = 10) || decide (c = 13)

/-- Right-flanking as the spec words it, for a run followed by the character
`c` (`0` at the end of the input): the preceding token did not end in
whitespace, and it did not end in punctuation or `c` is punctuation or
whitespace.  What the preceding token ended in is read off the candidate
flags `LAST_TOKEN_WHITESPACE` and `LAST_TOKEN_PUNCTUATION`; what `c` is, is
asked of the character itself with `spec_is_punctuation` and
`spec_is_whitespace`, not of the code. -/
def spec_right_flanking (valid_symbols : ValidSymbols) (c : Nat) : Bool :=
  !valid_symbols LAST_TOKEN_WHITESPACE &&
    (!valid_symbols LAST_TOKEN_PUNCTUATION || spec_is_punctuation c || spec_is_whitespace c)

/-- Left-flanking as the spec words it, for a run followed by the character
`c`: `c` is not whitespace, and `c` is not punctuation or the preceding
token ended in punctuation or whitespace. -/
def spec_left_flanking (valid_symbols : ValidSymbols) (c : Nat) : Bool :=
  !spec_is_whitespace c &&
    (!spec_is_punctuation c || valid_symbols LAST_TOKEN_PUNCTUATION ||
      valid_symbols LAST_TOKEN_WHITESPACE)

/-- The start of an indented code block is not in play: its token is not a
candidate, or `NO_INDENTED_CHUNK` is, or the indentation is below 4. -/
def no_indented_chunk (s : Scanner) (valid_symbols : ValidSymbols) : Prop :=
  valid_symbols INDENTED_CHUNK_START = false ∨ valid_symbols NO_INDENTED_CHUNK = true ∨
    s.indentation < 4

instance (s : Scanner) (valid_symbols : ValidSymbols) :
    Decidable (no_indented_chunk s valid_symbols) := by
  unfold no_indented_chunk
  infer_instance

/-- The outcome `r` carries one of the tokens with which `parse_star` takes a
run as a thematic break or as a list marker (or refuses to, after a soft
line break), or else it is `e`. -/
def star_block_or (r e : Bool × Scanner × TSLexer) : Prop :=
  token_of (some r) = some THEMATIC_BREAK ∨ token_of (some r) = some ERROR ∨
  token_of (some r) = some LIST_MARKER_STAR ∨
  token_of (some r) = some LIST_MARKER_STAR_DONT_INTERRUPT ∨ r = e

/-- The candidate set of the star emphasis example: both star emphasis tokens,
after a token that ended in whitespace. -/
def valid_star_emphasis : ValidSymbols :=
  valid_of [EMPHASIS_OPEN_STAR, EMPHASIS_CLOSE_STAR, LAST_TOKEN_WHITESPACE]

/-- The candidate set of the underscore emphasis example: the underscore open
token, after a token that ended in whitespace. -/
def valid_underscore_open : ValidSymbols :=
  valid_of [EMPHASIS_OPEN_UNDERSCORE, LAST_TOKEN_WHITESPACE]

/-- The columns that a run of spaces and tabs starting at `column` spans: the
sum of the widths that `Scanner::advance` returns for its characters. -/
def whitespace_width (column : Nat) : List Nat → Nat
  | [] => 0
  | c :: rest =>
    let size := if c = 9 then (if column % 4 = 0 then 4 else 4 - column % 4) else 1
    size + whitespace_width ((column + size) % 256) rest

/-- The list-marker tokens of the three bullets `-`, `+` and `*`, plain and in
the variant that does not interrupt a paragraph. -/
def is_bullet_list_marker : TokenType → Bool
  | LIST_MARKER_MINUS => true
  | LIST_MARKER_PLUS => true
  | LIST_MARKER_STAR => true
  | LIST_MARKER_MINUS_DONT_INTERRUPT => true
  | LIST_MARKER_PLUS_DONT_INTERRUPT => true
  | LIST_MARKER_STAR_DONT_INTERRUPT => true
  | _ => false

/-- If the outcome `r` carries a bullet list marker, its scanner is
`push_list_item` applied, with the width `e` and `digits`, to `s` with at
most the flag word changed. -/
def pushes_item (s : Scanner) (e digits : Nat) (r : Bool × Scanner × TSLexer) : Prop :=
  (∃ t, token_of (some r) = some t ∧ is_bullet_list_marker t = true) →
    ∃ st, r.2.1 = push_list_item { s with state := st } e digits

/-- A scanner on the second line of a list item of threshold 2 inside a block
quote, once the block quote has been matched, with the given carried
indentation. -/
def scanner_in_item (indentation : Nat) : Scanner :=
  { Scanner.initial with
    open_blocks := [BLOCK_QUOTE, LIST_ITEM], state := STATE_MATCHING, matched := 1,
    indentation := indentation }

/-- The scanner and the lexer at the point where `Scanner::scan` chooses
between the end-of-input flush, the classifier and the matcher (line 77 of
scan.cpp), when no request is served before: lines 12 to 18 have run and the
leading whitespace has been consumed. -/
def Scanner.at_dispatch (s : Scanner) (lexer : TSLexer) (valid_symbols : ValidSymbols) :
    Scanner × TSLexer :=
  (s.after_split_tokens valid_symbols).skip_whitespace lexer

/-- A stack of open blocks: a list item of threshold 2 inside a block quote
inside a list item of threshold 2, on a line start with nothing matched. -/
def scanner_nested : Scanner :=
  { Scanner.initial with
    open_blocks := [LIST_ITEM, BLOCK_QUOTE, LIST_ITEM], state := STATE_MATCHING }

/-- The flags the classifier never writes: the matching flag, the count of
split tokens and the close-block flag. -/
def leaf_kept : Nat := STATE_MATCHING ||| STATE_SPLIT_TOKEN_COUNT ||| STATE_CLOSE_BLOCK

/-- The outcome `r` leaves `matched` and the flags `leaf_kept` of `s` alone,
and its stack is that of `s` or that of `s` with one more block on top. -/
def leaf_frame (s : Scanner) (r : Bool × Scanner × TSLexer) : Prop :=
  r.2.1.matched = s.matched ∧ r.2.1.state &&& leaf_kept = s.state &&& leaf_kept ∧
  (r.2.1.open_blocks = s.open_blocks ∨ ∃ b, r.2.1.open_blocks = s.open_blocks ++ [b])

/-- The expression `(state & STATE_SPLIT_TOKEN_COUNT) >> 5`, as `scan` reads
the number of split tokens emitted since the last line ending. -/
def Scanner.split_token_count (s : Scanner) : Nat :=
  ((s.state &&& STATE_SPLIT_TOKEN_COUNT) >>> 5) % 256

/-- A sequence of invocations of `scan`, each with its own lexer and
candidate set, from the state `s`: the states the invocations leave, in
order, or `none` if one of them accesses `open_blocks` out of range. -/
def scan_run (sym18 : TokenType) : List (TSLexer × ValidSymbols) → Scanner →
    Option (List Scanner)
  | [], _ => some []
  | (lexer, valid_symbols) :: calls, s =>
    match s.scan sym18 lexer valid_symbols with
    | none => none
    | some r =>
      match scan_run sym18 calls r.2.1 with
      | none => none
      | some trace => some (r.2.1 :: trace)

/-- What one invocation of `scan` that takes the scanner from `s` to `t`
keeps: a count of split tokens of at most 2; the stack, up to one block
pushed or the top block popped; a counter `matched` below 256; and
`matched` within the stack, unless the invocation pops a block when
`matched` is the size of the stack. -/
def scan_step_ok (s t : Scanner) : Prop :=
  (s.split_token_count ≤ 2 → t.split_token_count ≤ 2) ∧
  (t.open_blocks = s.open_blocks ∨ (∃ b, t.open_blocks = s.open_blocks ++ [b]) ∨
    (s.open_blocks ≠ [] ∧ t.open_blocks = s.open_blocks.dropLast)) ∧
  (s.matched < 256 → t.matched < 256) ∧
  (s.matched < 256 → s.matched ≤ s.open_blocks.length →
    (t.open_blocks.length < s.open_blocks.length → s.matched < s.open_blocks.length) →
    t.matched ≤ t.open_blocks.length)

/-- A scanner at the start of the second line of a block quote. -/
def scanner_in_quote : Scanner :=
  { Scanner.initial with open_blocks := [BLOCK_QUOTE], state := STATE_MATCHING }

/-- The invocations at the line ending inside a paragraph at the top level:
the line ending with the soft line break on offer, two split tokens, and a
third request for a split token together with the soft line break. -/
def calls_split_tokens : List (TSLexer × ValidSymbols) :=
  [(TSLexer.start [10, 120], valid_of [LINE_ENDING, SOFT_LINE_BREAK_MARKER]),
   (TSLexer.start [120], valid_of [SPLIT_TOKEN]),
   (TSLexer.start [120], valid_of [SPLIT_TOKEN]),
   (TSLexer.start [120], valid_of [SPLIT_TOKEN, SOFT_LINE_BREAK_MARKER])]

/-- The candidates of a line that starts with a star: the thematic break, the
star list marker and the two star emphasis tokens. -/
def valid_star_line : ValidSymbols :=
  valid_of [THEMATIC_BREAK, LIST_MARKER_STAR, EMPHASIS_OPEN_STAR, EMPHASIS_CLOSE_STAR]

/-- The list-marker candidates, plain and in the variant that does not
interrupt a paragraph. -/
def valid_list_markers : ValidSymbols :=
  valid_of [LIST_MARKER_MINUS, LIST_MARKER_MINUS_DONT_INTERRUPT, LIST_MARKER_PLUS,
    LIST_MARKER_PLUS_DONT_INTERRUPT, LIST_MARKER_STAR, LIST_MARKER_STAR_DONT_INTERRUPT,
    LIST_MARKER_DOT, LIST_MARKER_DOT_DONT_INTERRUPT, LIST_MARKER_PARENTHESIS,
    LIST_MARKER_PARENTHESIS_DONT_INTERRUPT]

/-- The candidates inside a paragraph where a code span may start or end. -/
def valid_code_span : ValidSymbols := valid_of [CODE_SPAN_START, CODE_SPAN_CLOSE]

/-- Two invocations on the text of a paragraph line break at the top level:
the line ending with the soft line break on offer, then an invocation that
offers neither the split token nor the soft line break. -/
def calls_line_ending_then_close : List (TSLexer × ValidSymbols) :=
  [(TSLexer.start [10, 98], valid_of [LINE_ENDING, SOFT_LINE_BREAK_MARKER]),
   (TSLexer.start [98], valid_of [BLOCK_CLOSE])]

/-- The invocations on `> a`, a line ending and `> b` with the soft line break
on offer up to the continuation of the block quote, followed by two
invocations that offer neither the split token nor the soft line break. -/
def calls_quote_then_close : List (TSLexer × ValidSymbols) :=
  [(TSLexer.start [62, 32, 97, 10, 62, 32, 98], valid_of [BLOCK_QUOTE_START]),
   (TSLexer.start [10, 62, 32, 98], valid_of [LINE_ENDING, SOFT_LINE_BREAK_MARKER]),
   (TSLexer.start [62, 32, 98], valid_of [BLOCK_QUOTE_CONTINUATION, SOFT_LINE_BREAK_MARKER]),
   (TSLexer.start [98], valid_of [BLOCK_CLOSE]),
   (TSLexer.start [98], valid_of [BLOCK_CLOSE])]

/-- The invocations that open 256 anonymous blocks on request, followed by a
line ending and the matcher on the next line. -/
def calls_256_blocks : List (TSLexer × ValidSymbols) :=
  List.replicate 256 (TSLexer.start [120], valid_of [OPEN_BLOCK]) ++
  [(TSLexer.start [10, 98], valid_of [LINE_ENDING]),
   (TSLexer.start [98], valid_of [BLOCK_CONTINUATION])]

/-- The invocations on the two-line block quote `> a`, `> b` up to the end of
the input: the start of the block quote, the line ending, the continuation
of the block quote, and the flush at the end of the input. -/
def calls_quote_flushed : List (TSLexer × ValidSymbols) :=
  [(TSLexer.start [62, 32, 97, 10, 62, 32, 98], valid_of [BLOCK_QUOTE_START]),
   (TSLexer.start [10, 62, 32, 98], valid_of [LINE_ENDING]),
   (TSLexer.start [62, 32, 98], valid_of [BLOCK_QUOTE_CONTINUATION]),
   (TSLexer.start [], valid_of [BLOCK_CLOSE])]

/-- The invocations on `> a`, a line ending and the line `b`, which does not
continue the block quote: the block quote is closed with nothing matched. -/
def calls_quote_closed : List (TSLexer × ValidSymbols) :=
  [(TSLexer.start [62, 32, 97, 10, 98], valid_of [BLOCK_QUOTE_START]),
   (TSLexer.start [10, 98], valid_of [LINE_ENDING]),
   (TSLexer.start [98], valid_of [BLOCK_CLOSE])]

/-- No step of the sequence of states `s, trace` pops a block when `matched`
is the size of the stack: whenever the stack gets shorter, `matched` was
below its size. -/
def no_full_pop : Scanner → List Scanner → Bool
  | _, [] => true
  | s, t :: trace =>
    (decide (s.open_blocks.length ≤ t.open_blocks.length) ||
      decide (s.matched < s.open_blocks.length)) && no_full_pop t trace

/-- The candidate set of the emphasis examples after punctuation: both star
emphasis tokens, after a token that ended in punctuation. -/
def valid_star_after_punctuation : ValidSymbols :=
  valid_of [EMPHASIS_OPEN_STAR, EMPHASIS_CLOSE_STAR, LAST_TOKEN_PUNCTUATION]

/-- The candidate set of the underscore example after punctuation: both
underscore emphasis tokens, after a token that ended in punctuation. -/
def valid_underscore_after_punctuation : ValidSymbols :=
  valid_of [EMPHASIS_OPEN_UNDERSCORE, EMPHASIS_CLOSE_UNDERSCORE, LAST_TOKEN_PUNCTUATION]

/-- The invocations on `> a`, a line ending and `> b` with the soft line break
on offer up to the continuation of the block quote, followed by two requests
for a split token: the block quote stays matched and open. -/
def calls_quote_two_splits : List (TSLexer × ValidSymbols) :=
  [(TSLexer.start [62, 32, 97, 10, 62, 32, 98], valid_of [BLOCK_QUOTE_START]),
   (TSLexer.start [10, 62, 32, 98], valid_of [LINE_ENDING, SOFT_LINE_BREAK_MARKER]),
   (TSLexer.start [62, 32, 98], valid_of [BLOCK_QUOTE_CONTINUATION, SOFT_LINE_BREAK_MARKER]),
   (TSLexer.start [98], valid_of [SPLIT_TOKEN, SOFT_LINE_BREAK_MARKER]),
   (TSLexer.start [98], valid_of [SPLIT_TOKEN, SOFT_LINE_BREAK_MARKER])]

/-- The state after a line ending inside a paragraph at the top level and two
split tokens, the first three invocations of `calls_split_tokens`: no open
block, the matching flag, a count of 2 split tokens and the need-open-block
flag, the flag word `0x141`. -/
def scanner_after_two_splits : Scanner :=
  { Scanner.initial with state := 0x141 }

/-! # Theorems -/

/-! ## Serialization -/

theorem Scanner.serialize_eq (s : Scanner) :
    s.serialize = s.header ++ (s.open_blocks.take 247).map (fun b => b % 256) := by
  unfold Scanner.serialize Scanner.header
  simp only [List.length_cons, List.length_nil]
  by_cases h : s.open_blocks.length > 247
  · simp [h]
  · have h2 : s.open_blocks.length ≤ 247 := by omega
    rw [List.take_of_length_le h2]
    by_cases h0 : s.open_blocks.length > 0
    · simp [h, h0]
    · have : s.open_blocks = [] := by
        apply List.eq_nil_of_length_eq_zero
        omega
      simp [this]

theorem read_byte_append_right (hdr bs : List Nat) (k : Nat) (hk : k < bs.length)
    (hb : ∀ b ∈ bs, b < 256) : read_byte (hdr ++ bs) (hdr.length + k) = bs.get ⟨k, hk⟩ := by
  unfold read_byte
  have h1 : (hdr ++ bs).getD (hdr.length + k) 0 = bs.get ⟨k, hk⟩ := by
    rw [List.getD_eq_getElem?_getD, List.getElem?_append_right (by omega)]
    simp [hk]
  rw [h1]
  exact Nat.mod_eq_of_lt (hb _ (List.get_mem _ _ _))

theorem read_blocks (hdr bs : List Nat) (hb : ∀ b ∈ bs, b < 256) :
    (List.range bs.length).map (fun k => read_byte (hdr ++ bs) (hdr.length + k)) = bs := by
  apply List.ext_get
  · simp
  · intro n h1 h2
    simp only [List.get_eq_getElem, List.getElem_map, List.getElem_range]
    have := read_byte_append_right hdr bs n h2 hb
    simpa using this

/-- What `deserialize` makes of the output of `serialize`: every field is
restored, and of the open blocks the bottom-most 247. -/
theorem Scanner.deserialize_serialize (s t : Scanner) (h : s.wf) :
    t.deserialize s.serialize s.serialize.length
      = some { s with open_blocks := s.open_blocks.take 247 } := by
  obtain ⟨h1, h2, h3, h4, h5, h6, h7⟩ := h
  have hb : ∀ b ∈ (s.open_blocks.take 247).map (fun b => b % 256), b < 256 := by
    intro b hb
    simp only [List.mem_map] at hb
    obtain ⟨a, _, rfl⟩ := hb
    exact Nat.mod_lt _ (by norm_num)
  have hmap : (s.open_blocks.take 247).map (fun b => b % 256) = s.open_blocks.take 247 := by
    conv_rhs => rw [← List.map_id (s.open_blocks.take 247)]
    apply List.map_congr_left
    intro a ha
    exact Nat.mod_eq_of_lt (h7 a (List.mem_of_mem_take ha))
  have hblocks := read_blocks s.header _ hb
  rw [Scanner.serialize_eq]
  unfold Scanner.deserialize
  have hlen : s.header.length = 8 := rfl
  simp only [List.length_append, hlen]
  have e0 : ∀ i, i < 8 → read_byte (s.header ++ (s.open_blocks.take 247).map (fun b => b % 256)) i
      = s.header.getD i 0 := by
    intro i hi
    unfold read_byte
    rw [List.getD_eq_getElem?_getD, List.getD_eq_getElem?_getD,
      List.getElem?_append_left (by omega)]
    have : ∀ x ∈ s.header, x < 256 := by
      intro x hx
      simp only [Scanner.header, List.mem_cons, List.mem_singleton, List.not_mem_nil,
        or_false] at hx
      omega
    have hi2 : i < s.header.length := by omega
    rw [List.getElem?_eq_getElem hi2]
    exact Nat.mod_eq_of_lt (this _ (List.getElem_mem _))
  rw [if_pos (by omega), if_neg (by omega)]
  simp only [Nat.add_sub_cancel_left]
  rw [e0 1 (by omega), e0 2 (by omega), e0 3 (by omega), e0 4 (by omega), e0 5 (by omega),
    e0 6 (by omega), e0 7 (by omega)]
  rw [hlen] at hblocks
  rw [hblocks, hmap]
  simp only [Scanner.header, List.getD_cons_succ, List.getD_cons_zero]
  congr 1
  have hs : s.state % 256 + 256 * (s.state / 256 % 256) = s.state := by omega
  cases s
  simp only [Scanner.mk.injEq] at hs ⊢
  simp_all [Nat.mod_eq_of_lt]

theorem scanner_deep_wf (n : Nat) : (scanner_deep n).wf := by
  unfold Scanner.wf
  refine ⟨?_, ?_, ?_, ?_, ?_, ?_, ?_⟩
  all_goals try (simp only [scanner_deep, Scanner.initial]; omega)
  intro b hb
  simp only [scanner_deep, Scanner.initial, List.mem_cons, List.mem_replicate] at hb
  rcases hb with rfl | ⟨_, rfl⟩ <;> decide

theorem scanner_deep_length (n : Nat) : (scanner_deep n).open_blocks.length = n + 1 := by
  simp [scanner_deep]

theorem scanner_deep_take (n : Nat) :
    (scanner_deep (n + 1)).open_blocks.take (n + 1) = (scanner_deep n).open_blocks := by
  simp [scanner_deep, List.take_replicate]

theorem scanner_deep_truncated (n : Nat) :
    ({ scanner_deep (n + 1) with open_blocks := (scanner_deep (n + 1)).open_blocks.take (n + 1) }
      : Scanner) = scanner_deep n := by
  rw [scanner_deep_take]
  rfl

/-- C1: for every scanner state whose fields hold values of their C++ types
and whose stack has at most 247 open blocks, `deserialize` (called on any
scanner `t`) applied to the bytes and the length that `serialize` produced
yields the original state, equal in every field and with the same stack in
the same order. -/
theorem C1_roundtrip (s t : Scanner) (hwf : s.wf) (hlen : s.open_blocks.length ≤ 247) :
    t.deserialize s.serialize s.serialize.length = some s := by
  rw [Scanner.deserialize_serialize s t hwf, List.take_of_length_le hlen]

theorem C1_roundtrip_witness :
    scanner_three_blocks.wf ∧ scanner_three_blocks.open_blocks.length ≤ 247 ∧
    Scanner.initial.deserialize scanner_three_blocks.serialize
      scanner_three_blocks.serialize.length = some scanner_three_blocks :=
  ⟨by decide, by decide, C1_roundtrip scanner_three_blocks Scanner.initial (by decide) (by decide)⟩

/-- C2: for every prior scanner state and buffer, `deserialize` with length 0
produces the state with an empty stack of open blocks, state flags 0 and
`matched`, `indentation`, `column`, `code_span_delimiter_length` and
`num_emphasis_delimiters_left` all 0, and the constructor produces the same
state whatever the fields held before. -/
theorem C2_deserialize_zero (s garbage : Scanner) (buffer : List Nat) :
    s.deserialize buffer 0 =
      some { open_blocks := [], state := 0, matched := 0, indentation := 0, column := 0,
             code_span_delimiter_length := 0, num_emphasis_delimiters_left := 0 } ∧
    garbage.new = s.deserialize buffer 0 := by
  constructor <;> rfl

/-- C3, refuted as stated: a stack of exactly 248 blocks is not written in
full.  `serialize` writes 255 bytes, that is 247 block bytes after the 8
header bytes, and `deserialize` restores a stack of 247 blocks, not the
original one. -/
theorem C3_counterexample :
    (scanner_deep 247).open_blocks.length = 248 ∧
    (scanner_deep 247).serialize.length = 255 ∧
    Scanner.initial.deserialize (scanner_deep 247).serialize (scanner_deep 247).serialize.length
      = some (scanner_deep 246) ∧
    Scanner.initial.deserialize (scanner_deep 247).serialize (scanner_deep 247).serialize.length
      ≠ some (scanner_deep 247) := by
  have h := Scanner.deserialize_serialize (scanner_deep 247) Scanner.initial (scanner_deep_wf 247)
  rw [scanner_deep_truncated 246] at h
  refine ⟨scanner_deep_length 247, ?_, h, ?_⟩
  · rw [Scanner.serialize_eq]
    simp only [List.length_append, List.length_map, List.length_take, scanner_deep_length]
    rfl
  · rw [h]
    intro hc
    have h2 := congrArg (fun o => o.map (fun x => x.open_blocks.length)) hc
    simp only [Option.map_some', scanner_deep_length, Option.some.injEq] at h2
    omega

/-- C3, amended: `serialize` writes an 8-byte header (the low state byte, the
two bytes of the state flags, then `matched`, `indentation`, `column`, the
delimiter length and the emphasis count) followed by one byte per open block
for the bottom-most 255 − 8 = 247 blocks at most; a stack of exactly 247
blocks is written in full (255 bytes) and restored unchanged. -/
theorem C3_layout (s t : Scanner) (hwf : s.wf) :
    s.serialize =
      [s.state % 256, s.state % 256, s.state / 256, s.matched, s.indentation, s.column,
       s.code_span_delimiter_length, s.num_emphasis_delimiters_left]
        ++ s.open_blocks.take 247 ∧
    s.serialize.length = 8 + min s.open_blocks.length 247 ∧
    (s.open_blocks.length = 247 →
      s.serialize.length = 255 ∧ t.deserialize s.serialize s.serialize.length = some s) := by
  have key : s.serialize =
      [s.state % 256, s.state % 256, s.state / 256, s.matched, s.indentation, s.column,
       s.code_span_delimiter_length, s.num_emphasis_delimiters_left]
        ++ s.open_blocks.take 247 := by
    obtain ⟨h1, h2, h3, h4, h5, h6, h7⟩ := hwf
    rw [Scanner.serialize_eq]
    have hmap : (s.open_blocks.take 247).map (fun b => b % 256) = s.open_blocks.take 247 := by
      conv_rhs => rw [← List.map_id (s.open_blocks.take 247)]
      apply List.map_congr_left
      intro a ha
      exact Nat.mod_eq_of_lt (h7 a (List.mem_of_mem_take ha))
    rw [hmap]
    have e1 : s.state / 256 % 256 = s.state / 256 := Nat.mod_eq_of_lt (by omega)
    simp only [Scanner.header, e1, Nat.mod_eq_of_lt h2, Nat.mod_eq_of_lt h3,
      Nat.mod_eq_of_lt h4, Nat.mod_eq_of_lt h5, Nat.mod_eq_of_lt h6]
  have hl : s.serialize.length = 8 + min s.open_blocks.length 247 := by
    rw [key]
    simp only [List.length_append, List.length_cons, List.length_nil, List.length_take]
    omega
  refine ⟨key, hl, ?_⟩
  intro h247
  refine ⟨by rw [hl, h247]; rfl, ?_⟩
  rw [Scanner.deserialize_serialize s t hwf, List.take_of_length_le (by omega)]

theorem C3_layout_witness :
    (scanner_deep 246).wf ∧
    ((scanner_deep 246).serialize =
      [(scanner_deep 246).state % 256, (scanner_deep 246).state % 256,
       (scanner_deep 246).state / 256, (scanner_deep 246).matched,
       (scanner_deep 246).indentation, (scanner_deep 246).column,
       (scanner_deep 246).code_span_delimiter_length,
       (scanner_deep 246).num_emphasis_delimiters_left]
        ++ (scanner_deep 246).open_blocks.take 247 ∧
    (scanner_deep 246).serialize.length = 8 + min (scanner_deep 246).open_blocks.length 247 ∧
    ((scanner_deep 246).open_blocks.length = 247 →
      (scanner_deep 246).serialize.length = 255 ∧
      Scanner.initial.deserialize (scanner_deep 246).serialize
        (scanner_deep 246).serialize.length = some (scanner_deep 246))) :=
  ⟨scanner_deep_wf 246, C3_layout (scanner_deep 246) Scanner.initial (scanner_deep_wf 246)⟩

/-- C4, refuted as stated: for the stack of 248 blocks that has a block quote
at the bottom and 247 anonymous blocks above it, the restored stack still
starts with the block quote and has lost the top-most block; it is not the
original stack with bottom-most entries dropped. -/
theorem C4_counterexample :
    ∃ r : Scanner,
      Scanner.initial.deserialize (scanner_deep 247).serialize
        (scanner_deep 247).serialize.length = some r ∧
      r.open_blocks = BLOCK_QUOTE :: List.replicate 246 ANONYMOUS ∧
      ¬ ∃ k, r.open_blocks = (scanner_deep 247).open_blocks.drop k := by
  have h := Scanner.deserialize_serialize (scanner_deep 247) Scanner.initial (scanner_deep_wf 247)
  rw [scanner_deep_truncated 246] at h
  refine ⟨scanner_deep 246, h, rfl, ?_⟩
  rintro ⟨k, hk⟩
  cases k with
  | zero =>
    have h2 := congrArg List.length hk
    rw [List.drop_zero, scanner_deep_length, scanner_deep_length] at h2
    omega
  | succ k =>
    have hmem : BLOCK_QUOTE ∈ List.drop (k + 1) (scanner_deep 247).open_blocks := by
      rw [← hk]
      exact List.mem_cons_self _ _
    have hmem2 : BLOCK_QUOTE ∈ List.replicate 247 ANONYMOUS := by
      simp only [scanner_deep, List.drop_succ_cons] at hmem
      exact List.mem_of_mem_drop hmem
    rw [List.mem_replicate] at hmem2
    exact absurd hmem2.2 (by decide)

/-- C4, amended: when the stack holds more than 247 open blocks, `serialize`
does not fail (it writes 255 bytes) and the stack that `deserialize`
restores is the original stack with its newest (top-most, innermost)
entries dropped: the 247 oldest entries are kept, in order, and all other
fields are restored. -/
theorem C4_truncation (s t : Scanner) (hwf : s.wf) (hdeep : s.open_blocks.length > 247) :
    s.serialize.length = 255 ∧
    t.deserialize s.serialize s.serialize.length
      = some { s with open_blocks := s.open_blocks.take 247 } ∧
    s.open_blocks.take 247 = s.open_blocks.dropLast.take 247 := by
  refine ⟨?_, Scanner.deserialize_serialize s t hwf, ?_⟩
  · rw [Scanner.serialize_eq]
    simp only [Scanner.header, List.length_append, List.length_cons, List.length_nil,
      List.length_map, List.length_take]
    omega
  · rw [List.dropLast_eq_take, List.take_take]
    congr 1
    omega

theorem C4_truncation_witness :
    (scanner_deep 247).wf ∧ (scanner_deep 247).open_blocks.length > 247 ∧
    ((scanner_deep 247).serialize.length = 255 ∧
    Scanner.initial.deserialize (scanner_deep 247).serialize (scanner_deep 247).serialize.length
      = some { scanner_deep 247 with open_blocks := (scanner_deep 247).open_blocks.take 247 } ∧
    (scanner_deep 247).open_blocks.take 247 = (scanner_deep 247).open_blocks.dropLast.take 247) :=
  ⟨scanner_deep_wf 247, by rw [scanner_deep_length]; omega,
    C4_truncation (scanner_deep 247) Scanner.initial (scanner_deep_wf 247)
      (by rw [scanner_deep_length]; omega)⟩

/-! ## Emphasis delimiter runs -/

/-- C5, evaluated at a failing input: the run of two stars in `**a`, scanned
from the initial state (indentation 0, no run pending) with the candidate
set `valid_close_only` held fixed.  The first invocation decides that the
run opens (it is left-flanking and preceded by whitespace) and returns the
emphasis-open token although that token is no candidate; the second
invocation replays the run and, the open token being no candidate, returns
the emphasis-close token.  Each token covers one star.  The run is lexed as
a mix of an open and a close token. -/
theorem C5_mixed_run (sym18 : TokenType) :
    ∃ s1 l1 s2 l2,
      Scanner.initial.scan sym18 (TSLexer.start [42, 42, 97]) valid_close_only
        = some (true, s1, l1) ∧
      l1.result_symbol = some EMPHASIS_OPEN_STAR ∧ l1.token_length = 1 ∧
      rest_after [42, 42, 97] l1 = [42, 97] ∧
      s1.scan sym18 (TSLexer.start (rest_after [42, 42, 97] l1)) valid_close_only
        = some (true, s2, l2) ∧
      l2.result_symbol = some EMPHASIS_CLOSE_STAR ∧ l2.token_length = 1 :=
  ⟨{ Scanner.initial with state := 16, column := 2, num_emphasis_delimiters_left := 1 },
   { input := [97], position := 2, token_end := some 1,
     result_symbol := some EMPHASIS_OPEN_STAR },
   { Scanner.initial with state := 16, column := 3, num_emphasis_delimiters_left := 0 },
   { input := [97], position := 1, token_end := none,
     result_symbol := some EMPHASIS_CLOSE_STAR },
   rfl, rfl, rfl, rfl, rfl, rfl, rfl⟩

/-! ## Fenced code blocks -/

/-- C6, evaluated at a failing input: a fence opened by a run of 256
backticks is closed by a run of 3.  From the initial state the opening run
(with the token of index 18 being the backtick fence start and a candidate)
pushes a fenced code block and records the delimiter length 256 in eight
bits, that is 0; after the line ending and the continuation of the block, the
run of three backticks before a line end, scanned in leaf mode at
indentation 0 with the fence-end token a candidate, returns the fence-end
token although 3 < 256. -/
theorem C6_fence_of_256_closed_by_3 :
    ∃ s1 l1 s2 l2 s3 l3 s4 l4,
      Scanner.initial.scan FENCED_CODE_BLOCK_START_BACKTICK
          (TSLexer.start (List.replicate 256 96 ++ [10, 96, 96, 96, 10]))
          (valid_of [FENCED_CODE_BLOCK_START_BACKTICK]) = some (true, s1, l1) ∧
      l1.result_symbol = some FENCED_CODE_BLOCK_START_BACKTICK ∧
      l1.token_length = 256 ∧
      s1.open_blocks = [FENCED_CODE_BLOCK] ∧ s1.code_span_delimiter_length = 0 ∧
      s1.scan FENCED_CODE_BLOCK_START_BACKTICK (TSLexer.start [10, 96, 96, 96, 10])
          (valid_of [LINE_ENDING]) = some (true, s2, l2) ∧
      l2.result_symbol = some LINE_ENDING ∧
      s2.scan FENCED_CODE_BLOCK_START_BACKTICK (TSLexer.start [96, 96, 96, 10])
          (valid_of [FENCED_CODE_BLOCK_END_BACKTICK]) = some (true, s3, l3) ∧
      l3.result_symbol = some BLOCK_CONTINUATION ∧ l3.token_length = 0 ∧
      has_flag s3.state STATE_MATCHING = false ∧ s3.indentation = 0 ∧
      s3.scan FENCED_CODE_BLOCK_START_BACKTICK (TSLexer.start [96, 96, 96, 10])
          (valid_of [FENCED_CODE_BLOCK_END_BACKTICK]) = some (true, s4, l4) ∧
      l4.result_symbol = some FENCED_CODE_BLOCK_END_BACKTICK ∧ l4.token_length = 3 := by
  refine ⟨{ Scanner.initial with open_blocks := [18] },
    { input := [10, 96, 96, 96, 10], position := 256, token_end := some 256,
      result_symbol := some FENCED_CODE_BLOCK_START_BACKTICK },
    { Scanner.initial with open_blocks := [18], state := 1 },
    { input := [10, 96, 96, 96, 10], position := 0, token_end := none,
      result_symbol := some LINE_ENDING },
    { Scanner.initial with open_blocks := [18], matched := 1 },
    { input := [96, 96, 96, 10], position := 0, token_end := none,
      result_symbol := some BLOCK_CONTINUATION },
    { Scanner.initial with open_blocks := [18], matched := 1, column := 3 },
    { input := [10], position := 3, token_end := some 3,
      result_symbol := some FENCED_CODE_BLOCK_END_BACKTICK },
    ?_, rfl, rfl, rfl, rfl, rfl, rfl, rfl, rfl, rfl, rfl, rfl, rfl, rfl, rfl⟩
  set_option maxRecDepth 100000 in decide

/-! ## Basic facts about the lexer and `advance` -/

@[simp] theorem TSLexer.lookahead_cons (c : Nat) (rest : List Nat) (pos : Nat)
    (te : Option Nat) (rs : Option TokenType) :
    (TSLexer.mk (c :: rest) pos te rs).lookahead = c := rfl

@[simp] theorem TSLexer.lookahead_nil (pos : Nat) (te : Option Nat) (rs : Option TokenType) :
    (TSLexer.mk [] pos te rs).lookahead = 0 := rfl

theorem TSLexer.lookahead_eq_headD (lexer : TSLexer) : lexer.lookahead = lexer.input.headD 0 := by
  cases lexer with
  | mk input pos te rs => cases input <;> rfl

@[simp] theorem TSLexer.advance_cons (c : Nat) (rest : List Nat) (pos : Nat)
    (te : Option Nat) (rs : Option TokenType) :
    (TSLexer.mk (c :: rest) pos te rs).advance = TSLexer.mk rest (pos + 1) te rs := rfl

@[simp] theorem Scanner.advance_lexer (s : Scanner) (lexer : TSLexer) :
    (s.advance lexer).2.2 = lexer.advance := rfl

theorem Scanner.advance_scanner (s : Scanner) (lexer : TSLexer) :
    (s.advance lexer).2.1 = { s with column := (s.advance lexer).2.1.column } := rfl

theorem Scanner.advance_size_of_ne_tab (s : Scanner) (lexer : TSLexer)
    (h : lexer.lookahead ≠ 9) : (s.advance lexer).1 = 1 := by
  simp [Scanner.advance, h]

/-- A run of `advance_while` over a prefix `pre` of characters that satisfy
`p`, stopping at a lookahead that does not: all of `pre` is consumed, the
scanner changes in `column` only, and the width is the number of characters
when none of them is a tab. -/
theorem advance_while_run (p : Nat → Bool) (tail : List Nat) (hstop : p (tail.headD 0) = false)
    (te : Option Nat) (rs : Option TokenType) :
    ∀ (pre : List Nat), (∀ c ∈ pre, p c = true) →
    ∀ (fuel : Nat) (s : Scanner) (pos count width : Nat), pre.length ≤ fuel →
    ∃ col w, advance_while p fuel s ⟨pre ++ tail, pos, te, rs⟩ count width
        = ({ s with column := col }, ⟨tail, pos + pre.length, te, rs⟩,
           count + pre.length, width + w) ∧
      ((∀ c ∈ pre, c ≠ 9) → w = pre.length) := by
  intro pre
  induction pre with
  | nil =>
    intro _ fuel s pos count width _
    refine ⟨s.column, 0, ?_, fun _ => rfl⟩
    cases fuel with
    | zero => rfl
    | succ f =>
      simp only [advance_while, List.nil_append, TSLexer.lookahead_eq_headD, hstop]
      rfl
  | cons c pre ih =>
    intro hp fuel s pos count width hfuel
    cases fuel with
    | zero => simp at hfuel
    | succ f =>
      have hc : p c = true := hp c (List.mem_cons_self _ _)
      have hp2 : ∀ c ∈ pre, p c = true := fun x hx => hp x (List.mem_cons_of_mem _ hx)
      have hf : pre.length ≤ f := by simpa using hfuel
      obtain ⟨col, w, h1, h2⟩ := ih hp2 f
        (s.advance ⟨c :: (pre ++ tail), pos, te, rs⟩).2.1 (pos + 1) (count + 1)
        (width + (s.advance ⟨c :: (pre ++ tail), pos, te, rs⟩).1) hf
      refine ⟨col, (s.advance ⟨c :: (pre ++ tail), pos, te, rs⟩).1 + w, ?_, ?_⟩
      · simp only [advance_while, List.cons_append, TSLexer.lookahead_cons, hc, if_true,
          Scanner.advance_lexer, TSLexer.advance_cons]
        rw [h1]
        simp only [List.length_cons, Prod.mk.injEq]
        refine ⟨rfl, ?_, ?_, ?_⟩
        · congr 1; omega
        · omega
        · omega
      · intro hne
        have hc9 : c ≠ 9 := hne c (List.mem_cons_self _ _)
        have := h2 (fun x hx => hne x (List.mem_cons_of_mem _ hx))
        rw [this, Scanner.advance_size_of_ne_tab _ _ (by simpa using hc9)]
        simp only [List.length_cons]
        omega

/-! ## Flag arithmetic -/

theorem and_not16 (state flag : Nat) (h : state < 65536) :
    state &&& not16 flag = state ^^^ (state &&& flag) := by
  unfold not16
  rw [Nat.and_xor_distrib_left]
  congr 1
  have : state &&& 0xFFFF = state % 2 ^ 16 := Nat.and_pow_two_sub_one_eq_mod state 16
  rw [this]
  exact Nat.mod_eq_of_lt h

theorem and_not16_of_clear (state flag : Nat) (h : state < 65536)
    (hc : has_flag state flag = false) : state &&& not16 flag = state := by
  rw [and_not16 state flag h]
  have : state &&& flag = 0 := by simpa [has_flag] using hc
  rw [this, Nat.xor_zero]

/-! ## Reaching the classifier -/

/-- In leaf mode, with no request in the candidate set and the input starting
with a character other than a space or a tab, `scan` is the classifier run
on the unchanged scanner state. -/
theorem scan_eq_scan_leaf (sym18 : TokenType) (s : Scanner) (lexer : TSLexer)
    (valid_symbols : ValidSymbols) (hwf : s.wf) (hv : no_request valid_symbols)
    (hm : leaf_mode s) (hne : lexer.input ≠ [])
    (h32 : lexer.lookahead ≠ 32) (h9 : lexer.lookahead ≠ 9) :
    s.scan sym18 lexer valid_symbols = some (s.scan_leaf sym18 lexer valid_symbols) := by
  obtain ⟨hv1, hv2, hv3, hv4, hv5⟩ := hv
  obtain ⟨hs, _, hi, _⟩ := hwf
  have htop : s.after_split_tokens valid_symbols = s := by
    unfold Scanner.after_split_tokens
    simp only
    split
    · rw [and_not16_of_clear s.state STATE_MATCHING hs hm]
    · rfl
  have hws : s.skip_whitespace lexer = (s, lexer) := by
    unfold Scanner.skip_whitespace
    have : advance_while (fun c => c == 32 || c == 9) lexer.input.length s lexer 0 0
        = (s, lexer, 0, 0) := by
      cases hl : lexer.input.length with
      | zero => rfl
      | succ f => simp [advance_while, h32, h9]
    rw [this]
    simp only [Nat.add_zero, Nat.mod_eq_of_lt hi]
  have heof : lexer.eof = false := by
    cases lexer with
    | mk input pos te rs =>
      cases input with
      | nil => exact absurd rfl hne
      | cons c rest => rfl
  have hm2 : has_flag s.state STATE_MATCHING = false := hm
  unfold Scanner.scan
  simp only [hv1, hv2, hv3, hv4, hv5, htop, hws, heof, hm2, Bool.false_eq_true, if_false,
    Bool.or_self, Bool.not_false, if_true]

/-! ## Setext underlines -/

/-- The counting loop of the `-` branch on a line of `n` dashes directly
followed by a line end: it consumes the dashes, counts them, sees no
whitespace and leaves the scanner unchanged but for `column`. -/
theorem minus_loop_dashes (e : Nat) (rest : List Nat) (he : e = 10 ∨ e = 13)
    (te : Option Nat) (rs : Option TokenType) :
    ∀ (n fuel : Nat) (s : Scanner) (pos count : Nat), n ≤ fuel →
    ∃ col, minus_loop fuel s ⟨List.replicate n 45 ++ e :: rest, pos, te, rs⟩
        ⟨false, false, count, 0⟩
      = ({ s with column := col }, ⟨e :: rest, pos + n, te, rs⟩,
         ⟨false, false, count + n, 0⟩) := by
  intro n
  induction n with
  | zero =>
    intro fuel s pos count _
    refine ⟨s.column, ?_⟩
    cases fuel with
    | zero => rfl
    | succ f =>
      have h45 : e ≠ 45 := by omega
      have h32 : e ≠ 32 := by omega
      have h9 : e ≠ 9 := by omega
      simp [minus_loop, h45, h32, h9]
  | succ n ih =>
    intro fuel s pos count hfuel
    cases fuel with
    | zero => omega
    | succ f =>
      obtain ⟨col, hcol⟩ := ih f
        (s.advance ⟨45 :: (List.replicate n 45 ++ e :: rest), pos, te, rs⟩).2.1
        (pos + 1) (count + 1) (by omega)
      refine ⟨col, ?_⟩
      simp only [minus_loop, List.replicate_succ, List.cons_append, TSLexer.lookahead_cons,
        if_true, Scanner.advance_lexer, TSLexer.advance_cons]
      simp only [show ¬ (count = 1 ∧ 0 ≥ 1) by omega, if_false, TSLexer.advance_cons]
      rw [hcol]
      simp only [Prod.mk.injEq, true_and]
      refine ⟨rfl, ?_, ?_⟩
      · congr 1; omega
      · congr 1; omega


/-! ## The token of an outcome -/

@[simp] theorem token_of_error (s : Scanner) (lexer : TSLexer) :
    token_of (some (s.error lexer)) = some ERROR := rfl

@[simp] theorem token_of_true (s : Scanner) (lexer : TSLexer) :
    token_of (some (true, s, lexer)) = lexer.result_symbol := rfl

@[simp] theorem token_of_false (s : Scanner) (lexer : TSLexer) :
    token_of (some (false, s, lexer)) = none := rfl

@[simp] theorem token_of_none : token_of none = none := rfl

@[simp] theorem TSLexer.set_result_result_symbol (lexer : TSLexer) (t : TokenType) :
    (lexer.set_result t).result_symbol = some t := rfl

@[simp] theorem TSLexer.mark_end_result_symbol (lexer : TSLexer) :
    lexer.mark_end.result_symbol = lexer.result_symbol := rfl

theorem token_of_ite (c : Prop) [Decidable c] (a b : Bool × Scanner × TSLexer) :
    token_of (some (if c then a else b))
      = if c then token_of (some a) else token_of (some b) := by
  split <;> rfl

theorem TSLexer.start_mark_end (input : List Nat) :
    (TSLexer.start input).mark_end = ⟨input, 0, some 0, none⟩ := rfl

/-- The `-` branch on a line of `n ≥ 1` dashes directly followed by a line
end, entered with indentation at most 3 and the setext token a candidate:
when every open block is matched the result is the setext underline, or
the error token after a soft line break; otherwise it is never the setext
underline. -/
theorem scan_minus_dashes (s : Scanner) (valid_symbols : ValidSymbols) (n e : Nat)
    (rest : List Nat) (hind : s.indentation ≤ 3) (hn : 1 ≤ n) (he : e = 10 ∨ e = 13)
    (h1 : valid_symbols SETEXT_H2_UNDERLINE = true) :
    (s.matched = s.open_blocks.length →
      token_of (some (s.scan_minus (TSLexer.start (List.replicate n 45 ++ e :: rest))
        valid_symbols))
        = some (if has_flag s.state STATE_WAS_SOFT_LINE_BREAK then ERROR
                else SETEXT_H2_UNDERLINE)) ∧
    (s.matched ≠ s.open_blocks.length →
      token_of (some (s.scan_minus (TSLexer.start (List.replicate n 45 ++ e :: rest))
        valid_symbols))
        ≠ some SETEXT_H2_UNDERLINE) := by
  obtain ⟨col, hcol⟩ := minus_loop_dashes e rest he (some 0) none n
    (List.replicate n 45 ++ e :: rest).length s 0 0 (by simp)
  have hle : (e == 10 || e == 13) = true := by
    rcases he with rfl | rfl <;> rfl
  constructor
  · intro hmatched
    unfold Scanner.scan_minus Scanner.minus_decision
    simp only [TSLexer.start_mark_end, hcol, hind, h1, decide_True, Bool.or_true, Bool.true_or,
      Bool.true_and, if_true, TSLexer.lookahead_cons, Nat.zero_add, hmatched,
      Bool.not_false, Bool.and_true, decide_eq_true hn, hle]
    split <;> simp
  · intro hmatched
    unfold Scanner.scan_minus Scanner.minus_decision Scanner.open_list_item
    simp only [TSLexer.start_mark_end, hcol, hind, h1, decide_True, Bool.or_true, Bool.true_or,
      Bool.true_and, if_true, TSLexer.lookahead_cons, Nat.zero_add, hmatched,
      Bool.not_false, Bool.and_true, Bool.and_false, decide_eq_true hn, hle, decide_False,
      Bool.false_eq_true, if_false]
    split_ifs <;> simp

theorem scan_leaf_minus (sym18 : TokenType) (s : Scanner) (lexer : TSLexer)
    (valid_symbols : ValidSymbols) (hc : lexer.lookahead = 45) (hind : s.indentation ≤ 3) :
    s.scan_leaf sym18 lexer valid_symbols = s.scan_minus lexer valid_symbols := by
  unfold Scanner.scan_leaf Scanner.scan_switch
  have h4 : decide (s.indentation ≥ 4) = false := by simp; omega
  simp [hc, h4]

theorem lookahead_start_replicate (n c : Nat) (tail : List Nat) (hn : 1 ≤ n) :
    (TSLexer.start (List.replicate n c ++ tail)).lookahead = c ∧
    (TSLexer.start (List.replicate n c ++ tail)).input ≠ [] := by
  obtain ⟨m, rfl⟩ : ∃ m, n = m + 1 := ⟨n - 1, by omega⟩
  simp [TSLexer.start, List.replicate_succ, TSLexer.lookahead]

/-- C7, refuted as stated: after a soft line break (a state reached from the
initial state by a line ending and a soft-line-break token), with no block
open and hence `matched` equal to the number of open blocks, in leaf mode
at indentation 0, the line `---` followed by a line end, with the setext
H2, thematic-break and minus list-marker tokens candidates, yields the
error token and not the setext H2 underline. -/
theorem C7_counterexample :
    (∃ l1 s2 l2,
      Scanner.initial.scan (OTHER 0) (TSLexer.start [10, 45, 45, 45, 10])
        (valid_of [LINE_ENDING, SOFT_LINE_BREAK_MARKER])
        = some (true, s2, l1) ∧ l1.result_symbol = some LINE_ENDING ∧
      s2.scan (OTHER 0) (TSLexer.start [45, 45, 45, 10]) (valid_of [SOFT_LINE_BREAK_MARKER])
        = some (true, scanner_after_soft_break, l2) ∧
      l2.result_symbol = some SOFT_LINE_BREAK_MARKER ∧ l2.token_length = 0) ∧
    leaf_mode scanner_after_soft_break ∧ no_request valid_dashes ∧
    scanner_after_soft_break.indentation ≤ 3 ∧
    scanner_after_soft_break.matched = scanner_after_soft_break.open_blocks.length ∧
    valid_dashes SETEXT_H2_UNDERLINE = true ∧ valid_dashes THEMATIC_BREAK = true ∧
    valid_dashes LIST_MARKER_MINUS = true ∧
    token_of (scanner_after_soft_break.scan (OTHER 0) (TSLexer.start [45, 45, 45, 10])
      valid_dashes) = some ERROR ∧
    token_of (scanner_after_soft_break.scan (OTHER 0) (TSLexer.start [45, 45, 45, 10])
      valid_dashes) ≠ some SETEXT_H2_UNDERLINE := by
  refine ⟨⟨{ input := [10, 45, 45, 45, 10], position := 0, token_end := none,
             result_symbol := some LINE_ENDING },
           { Scanner.initial with state := 1 },
           { input := [45, 45, 45, 10], position := 0, token_end := none,
             result_symbol := some SOFT_LINE_BREAK_MARKER }, rfl, rfl, rfl, rfl, rfl⟩,
    by decide, by decide, by decide, by decide, by decide, by decide, by decide, by decide,
    by decide⟩

/-- C7, amended: in leaf mode with indentation at most 3 and the flag
`previous line ending was a soft break` clear, on a line of one or more
dashes with no whitespace between them followed by a line end, with the
setext H2 token a candidate (whether or not the thematic-break and list
marker tokens are candidates too): if `matched` equals the number of open
blocks the result is the setext H2 underline.  With that flag set the
result is the error token instead.  If `matched` is less than the number
of open blocks the result is never the setext H2 underline. -/
theorem C7_setext_precedence (sym18 : TokenType) (s : Scanner) (valid_symbols : ValidSymbols)
    (n e : Nat) (rest : List Nat) (hwf : s.wf) (hv : no_request valid_symbols)
    (hm : leaf_mode s) (hind : s.indentation ≤ 3) (hn : 1 ≤ n) (he : e = 10 ∨ e = 13)
    (h1 : valid_symbols SETEXT_H2_UNDERLINE = true) :
    (s.matched = s.open_blocks.length →
      has_flag s.state STATE_WAS_SOFT_LINE_BREAK = false →
      token_of (s.scan sym18 (TSLexer.start (List.replicate n 45 ++ e :: rest)) valid_symbols)
        = some SETEXT_H2_UNDERLINE) ∧
    (s.matched = s.open_blocks.length →
      has_flag s.state STATE_WAS_SOFT_LINE_BREAK = true →
      token_of (s.scan sym18 (TSLexer.start (List.replicate n 45 ++ e :: rest)) valid_symbols)
        = some ERROR) ∧
    (s.matched < s.open_blocks.length →
      token_of (s.scan sym18 (TSLexer.start (List.replicate n 45 ++ e :: rest)) valid_symbols)
        ≠ some SETEXT_H2_UNDERLINE) := by
  obtain ⟨hla, hne⟩ := lookahead_start_replicate n 45 (e :: rest) hn
  have hscan := scan_eq_scan_leaf sym18 s (TSLexer.start (List.replicate n 45 ++ e :: rest))
    valid_symbols hwf hv hm hne (by omega) (by omega)
  rw [hscan, scan_leaf_minus sym18 s _ valid_symbols hla hind]
  obtain ⟨ha, hb⟩ := scan_minus_dashes s valid_symbols n e rest hind hn he h1
  refine ⟨?_, ?_, ?_⟩
  · intro hmatched hsoft
    rw [ha hmatched, hsoft]
    rfl
  · intro hmatched hsoft
    rw [ha hmatched, hsoft]
    rfl
  · intro hlt
    exact hb (by omega)

theorem C7_setext_precedence_witness :
    Scanner.initial.wf ∧ no_request valid_dashes ∧ leaf_mode Scanner.initial ∧
    Scanner.initial.indentation ≤ 3 ∧ 1 ≤ 3 ∧ ((10 : Nat) = 10 ∨ (10 : Nat) = 13) ∧
    valid_dashes SETEXT_H2_UNDERLINE = true ∧
    Scanner.initial.matched = Scanner.initial.open_blocks.length ∧
    has_flag Scanner.initial.state STATE_WAS_SOFT_LINE_BREAK = false ∧
    token_of (Scanner.initial.scan (OTHER 0)
      (TSLexer.start (List.replicate 3 45 ++ 10 :: [])) valid_dashes)
      = some SETEXT_H2_UNDERLINE :=
  ⟨by decide, by decide, by decide, by decide, by decide, by decide, by decide, by decide,
    by decide,
    (C7_setext_precedence (OTHER 0) Scanner.initial valid_dashes 3 10 [] (by decide)
      (by decide) (by decide) (by decide) (by decide) (by decide) (by decide)).1
      (by decide) (by decide)⟩

/-! ## End of the input -/

/-- One invocation at the end of the input, with no request in the candidate
set: a block-close token that pops the top block when there is one, and no
token otherwise.  No character is consumed. -/
theorem scan_at_eof (sym18 : TokenType) (s : Scanner) (valid_symbols : ValidSymbols)
    (hv : no_request valid_symbols) :
    ∃ s1 l1, s.scan sym18 (TSLexer.start []) valid_symbols
        = some (decide (s.open_blocks.length > 0), s1, l1) ∧
      s1.open_blocks = s.open_blocks.dropLast ∧ l1.token_length = 0 ∧
      (s.open_blocks.length > 0 → l1.result_symbol = some BLOCK_CLOSE) := by
  obtain ⟨hv1, hv2, hv3, hv4, hv5⟩ := hv
  unfold Scanner.scan Scanner.skip_whitespace Scanner.after_split_tokens
  simp only [hv1, hv2, hv3, hv4, hv5, Bool.false_eq_true, if_false, Bool.or_self,
    TSLexer.start, List.length_nil, advance_while, TSLexer.eof, List.isEmpty_nil, if_true]
  by_cases h : s.open_blocks.length > 0
  · have hne : s.open_blocks ≠ [] := by
      intro hnil
      rw [hnil] at h
      simp at h
    split <;> simp only [h, hne, TSLexer.set_result, TSLexer.token_length, if_true,
      decide_True, Option.some.injEq, Prod.mk.injEq, true_and] <;>
      exact ⟨_, _, ⟨rfl, rfl⟩, rfl, rfl, fun _ => rfl⟩
  · have hnil : s.open_blocks = [] := by
      apply List.eq_nil_of_length_eq_zero
      omega
    split <;> simp only [hnil, TSLexer.token_length, List.length_nil, gt_iff_lt,
      Nat.lt_irrefl, if_false, decide_False, Option.some.injEq, Prod.mk.injEq, true_and,
      List.dropLast_nil] <;>
      exact ⟨_, _, ⟨rfl, rfl⟩, rfl, rfl, fun h2 => h2.elim⟩

theorem dropLast_take_sub (l : List Block) (k : Nat) (hk : k < l.length) :
    (l.take (l.length - k)).dropLast = l.take (l.length - (k + 1)) := by
  rw [List.dropLast_eq_take, List.take_take, List.length_take]
  congr 1
  omega

/-- After `k ≤ N` invocations at the end of the input, the `N - k` bottom-most
of the `N` open blocks remain. -/
theorem scan_iterate_at_eof (sym18 : TokenType) (s : Scanner) (valid_symbols : Nat → ValidSymbols)
    (hv : ∀ k, no_request (valid_symbols k)) :
    ∀ k, k ≤ s.open_blocks.length →
      ∃ sk, scan_iterate sym18 (TSLexer.start []) valid_symbols k s = some sk ∧
        sk.open_blocks = s.open_blocks.take (s.open_blocks.length - k) := by
  intro k
  induction k with
  | zero =>
    intro _
    exact ⟨s, rfl, by simp⟩
  | succ k ih =>
    intro hk
    obtain ⟨sk, h1, h2⟩ := ih (by omega)
    obtain ⟨s1, l1, h3, h4, _, _⟩ := scan_at_eof sym18 sk (valid_symbols k) (hv k)
    refine ⟨s1, ?_, ?_⟩
    · simp only [scan_iterate, h1, h3, Option.map_some']
    · rw [h4, h2, dropLast_take_sub s.open_blocks k (by omega)]

/-- C8: with `N` blocks open, the input exhausted and, at every invocation,
none of the trigger-error, line-ending, open-block (either variant) and
close-block tokens in the candidate set: each of the first `N` successive
invocations of `scan` returns the block-close token, consumes nothing and
pops exactly the top-most remaining block (after `k` invocations the
`N - k` bottom-most blocks remain, so blocks close innermost first); the
invocation after them returns no token, with the stack empty. -/
theorem C8_eof_flush (sym18 : TokenType) (s : Scanner) (valid_symbols : Nat → ValidSymbols)
    (hv : ∀ k, no_request (valid_symbols k)) :
    (∀ k, k < s.open_blocks.length →
      ∃ sk s1 l1,
        scan_iterate sym18 (TSLexer.start []) valid_symbols k s = some sk ∧
        sk.open_blocks = s.open_blocks.take (s.open_blocks.length - k) ∧
        sk.scan sym18 (TSLexer.start []) (valid_symbols k) = some (true, s1, l1) ∧
        l1.result_symbol = some BLOCK_CLOSE ∧ l1.token_length = 0 ∧
        s1.open_blocks = sk.open_blocks.dropLast ∧
        s1.open_blocks = s.open_blocks.take (s.open_blocks.length - (k + 1))) ∧
    (∃ sN s1 l1,
        scan_iterate sym18 (TSLexer.start []) valid_symbols s.open_blocks.length s = some sN ∧
        sN.open_blocks = [] ∧
        sN.scan sym18 (TSLexer.start []) (valid_symbols s.open_blocks.length)
          = some (false, s1, l1) ∧
        s1.open_blocks = []) := by
  constructor
  · intro k hk
    obtain ⟨sk, h1, h2⟩ := scan_iterate_at_eof sym18 s valid_symbols hv k (by omega)
    obtain ⟨s1, l1, h3, h4, h5, h6⟩ := scan_at_eof sym18 sk (valid_symbols k) (hv k)
    have hpos : sk.open_blocks.length > 0 := by
      rw [h2, List.length_take]
      omega
    rw [decide_eq_true hpos] at h3
    refine ⟨sk, s1, l1, h1, h2, h3, h6 hpos, h5, h4, ?_⟩
    rw [h4, h2, dropLast_take_sub s.open_blocks k hk]
  · obtain ⟨sN, h1, h2⟩ := scan_iterate_at_eof sym18 s valid_symbols hv s.open_blocks.length
      (Nat.le_refl _)
    obtain ⟨s1, l1, h3, h4, _, _⟩ :=
      scan_at_eof sym18 sN (valid_symbols s.open_blocks.length) (hv _)
    have hnil : sN.open_blocks = [] := by simpa using h2
    have hz : ¬ sN.open_blocks.length > 0 := by simp [hnil]
    rw [decide_eq_false hz] at h3
    exact ⟨sN, s1, l1, h1, hnil, h3, by rw [h4, hnil]; rfl⟩

theorem C8_eof_flush_witness :
    (∀ k, no_request (valid_flush k)) ∧
    ((∀ k, k < scanner_three_blocks.open_blocks.length →
      ∃ sk s1 l1,
        scan_iterate (OTHER 0) (TSLexer.start []) valid_flush k
          scanner_three_blocks = some sk ∧
        sk.open_blocks = scanner_three_blocks.open_blocks.take
          (scanner_three_blocks.open_blocks.length - k) ∧
        sk.scan (OTHER 0) (TSLexer.start []) (valid_flush k)
          = some (true, s1, l1) ∧
        l1.result_symbol = some BLOCK_CLOSE ∧ l1.token_length = 0 ∧
        s1.open_blocks = sk.open_blocks.dropLast ∧
        s1.open_blocks = scanner_three_blocks.open_blocks.take
          (scanner_three_blocks.open_blocks.length - (k + 1))) ∧
    (∃ sN s1 l1,
        scan_iterate (OTHER 0) (TSLexer.start []) valid_flush
          scanner_three_blocks.open_blocks.length scanner_three_blocks = some sN ∧
        sN.open_blocks = [] ∧
        sN.scan (OTHER 0) (TSLexer.start [])
          (valid_flush scanner_three_blocks.open_blocks.length)
          = some (false, s1, l1) ∧
        s1.open_blocks = [])) :=
  ⟨fun _ => (by decide : no_request (valid_of [BLOCK_CLOSE])),
    C8_eof_flush (OTHER 0) scanner_three_blocks valid_flush
      (fun _ => (by decide : no_request (valid_of [BLOCK_CLOSE])))⟩

@[simp] theorem Scanner.advance_open_blocks (s : Scanner) (lexer : TSLexer) :
    (s.advance lexer).2.1.open_blocks = s.open_blocks := rfl

@[simp] theorem Scanner.advance_state (s : Scanner) (lexer : TSLexer) :
    (s.advance lexer).2.1.state = s.state := rfl

@[simp] theorem Scanner.advance_matched (s : Scanner) (lexer : TSLexer) :
    (s.advance lexer).2.1.matched = s.matched := rfl

@[simp] theorem Scanner.advance_indentation (s : Scanner) (lexer : TSLexer) :
    (s.advance lexer).2.1.indentation = s.indentation := rfl

@[simp] theorem Scanner.advance_code_span_delimiter_length (s : Scanner) (lexer : TSLexer) :
    (s.advance lexer).2.1.code_span_delimiter_length = s.code_span_delimiter_length := rfl

@[simp] theorem Scanner.advance_num_emphasis_delimiters_left (s : Scanner) (lexer : TSLexer) :
    (s.advance lexer).2.1.num_emphasis_delimiters_left = s.num_emphasis_delimiters_left := rfl

/-! ## Ordered list markers -/

theorem scan_leaf_digit (sym18 : TokenType) (s : Scanner) (lexer : TSLexer)
    (valid_symbols : ValidSymbols) (hc : 48 ≤ lexer.lookahead ∧ lexer.lookahead ≤ 57)
    (hind : s.indentation ≤ 3) :
    s.scan_leaf sym18 lexer valid_symbols = s.scan_digit lexer valid_symbols := by
  unfold Scanner.scan_leaf Scanner.scan_switch
  have h4 : decide (s.indentation ≥ 4) = false := by simp; omega
  have e1 : ¬ (lexer.lookahead = 13 ∨ lexer.lookahead = 10) := by omega
  have e2 : lexer.lookahead ≠ 96 := by omega
  have e3 : lexer.lookahead ≠ 42 := by omega
  have e4 : lexer.lookahead ≠ 95 := by omega
  have e5 : lexer.lookahead ≠ 62 := by omega
  have e6 : lexer.lookahead ≠ 126 := by omega
  have e7 : lexer.lookahead ≠ 35 := by omega
  have e8 : lexer.lookahead ≠ 61 := by omega
  have e9 : lexer.lookahead ≠ 43 := by omega
  simp only [h4, Bool.and_false, Bool.false_and, Bool.false_eq_true, if_false, e1, e2, e3, e4,
    e5, e6, e7, e8, e9, hc, and_self, if_true]

/-- The block `push_list_item` pushes for a marker followed by one column of
whitespace at indentation 0. -/
theorem push_list_item_one (s : Scanner) (digits : Nat) (hind : s.indentation = 0)
    (hd : digits ≤ 9) :
    (push_list_item s 1 digits).open_blocks = s.open_blocks ++ [LIST_ITEM + digits] := by
  unfold push_list_item
  simp only [Nat.sub_self, Nat.zero_le, if_true, hind, Nat.add_zero]
  congr 2
  apply Nat.mod_eq_of_lt
  simp only [LIST_ITEM]
  omega

/-- The decision of the digit branch for a marker followed by one column of
whitespace at indentation 0: either the list item `LIST_ITEM + digits` is
pushed and the list-marker token of the delimiter is returned, or the
stack is unchanged and no list-marker token is returned. -/
theorem ordered_decision_one (s : Scanner) (lexer : TSLexer) (dot dont_interrupt : Bool)
    (digits : Nat) (valid_symbols : ValidSymbols) (hind : s.indentation = 0)
    (hd : digits ≤ 9) :
    ((s.ordered_decision lexer dot dont_interrupt digits 1 valid_symbols).1 = true ∧
      (s.ordered_decision lexer dot dont_interrupt digits 1 valid_symbols).2.2.result_symbol
        = some (if dot then LIST_MARKER_DOT else LIST_MARKER_PARENTHESIS) ∧
      (s.ordered_decision lexer dot dont_interrupt digits 1 valid_symbols).2.1.open_blocks
        = s.open_blocks ++ [LIST_ITEM + digits]) ∨
    ((s.ordered_decision lexer dot dont_interrupt digits 1 valid_symbols).2.1.open_blocks
        = s.open_blocks ∧
      token_of (some (s.ordered_decision lexer dot dont_interrupt digits 1 valid_symbols))
        ≠ some LIST_MARKER_DOT ∧
      token_of (some (s.ordered_decision lexer dot dont_interrupt digits 1 valid_symbols))
        ≠ some LIST_MARKER_PARENTHESIS) := by
  have hpush : ∀ (st : Nat),
      (push_list_item { s with state := st } 1 digits).open_blocks
        = s.open_blocks ++ [LIST_ITEM + digits] :=
    fun st => push_list_item_one { s with state := st } digits hind hd
  unfold Scanner.ordered_decision Scanner.open_list_item
  simp only [ite_self]
  split_ifs <;>
    first
    | (left
       exact ⟨rfl, rfl, hpush _⟩)
    | (right
       simp [Scanner.error, TSLexer.set_result])

/-- The digit branch on an ordered list marker of `d` digits, a delimiter
and exactly one space, entered at indentation 0: either the list item
`LIST_ITEM + d` is pushed and the list-marker token of the delimiter is
returned, or the stack is unchanged and no list-marker token is returned. -/
theorem scan_digit_marker (s : Scanner) (valid_symbols : ValidSymbols) (d0 : Nat)
    (ds tail : List Nat) (delim : Nat) (hind : s.indentation = 0)
    (hds : ∀ c ∈ ds, 48 ≤ c ∧ c ≤ 57) (hlen : ds.length + 1 ≤ 9)
    (hdelim : delim = 46 ∨ delim = 41) (htail : tail.headD 0 ≠ 32 ∧ tail.headD 0 ≠ 9) :
    ∃ r, s.scan_digit (TSLexer.start (d0 :: ds ++ delim :: 32 :: tail)) valid_symbols = r ∧
      ((r.1 = true ∧
        r.2.2.result_symbol
          = some (if delim = 46 then LIST_MARKER_DOT else LIST_MARKER_PARENTHESIS) ∧
        r.2.1.open_blocks = s.open_blocks ++ [LIST_ITEM + (ds.length + 1)]) ∨
       (r.2.1.open_blocks = s.open_blocks ∧
        token_of (some r) ≠ some LIST_MARKER_DOT ∧
        token_of (some r) ≠ some LIST_MARKER_PARENTHESIS)) := by
  refine ⟨_, rfl, ?_⟩
  have hstop1 : (fun c => decide (c ≥ 48) && decide (c ≤ 57)) ((delim :: 32 :: tail).headD 0)
      = false := by
    rcases hdelim with rfl | rfl <;> rfl
  have hp1 : ∀ c ∈ ds, (fun c => decide (c ≥ 48) && decide (c ≤ 57)) c = true := by
    intro c hc
    have := hds c hc
    simp only [Bool.and_eq_true, decide_eq_true_eq]
    omega
  have hstop2 : (fun c => c == 32 || c == 9) (tail.headD 0) = false := by
    show ((tail.headD 0 == 32) || (tail.headD 0 == 9)) = false
    rw [Bool.or_eq_false_iff]
    exact ⟨beq_false_of_ne htail.1, beq_false_of_ne htail.2⟩
  unfold Scanner.scan_digit
  by_cases hval : (valid_symbols LIST_MARKER_PARENTHESIS || valid_symbols LIST_MARKER_DOT) = true
  swap
  · right
    simp only [hval, Bool.and_false, Bool.false_eq_true, if_false]
    simp
  have hi3 : decide (s.indentation ≤ 3) = true := by simp [hind]
  simp only [hi3, hval, Bool.and_self, if_true, TSLexer.start, List.cons_append,
    Scanner.advance_lexer, TSLexer.advance_cons, TSLexer.lookahead_cons]
  obtain ⟨col1, w1, hrun1, _⟩ := advance_while_run
    (fun c => decide (c ≥ 48) && decide (c ≤ 57)) (delim :: 32 :: tail) hstop1 none none ds hp1
    (ds ++ delim :: 32 :: tail).length
    (s.advance ⟨d0 :: (ds ++ delim :: 32 :: tail), 0, none, none⟩).2.1 (0 + 1) 0 0 (by simp)
  simp only [Scanner.advance_open_blocks, Scanner.advance_state, Scanner.advance_matched,
    Scanner.advance_indentation, Scanner.advance_code_span_delimiter_length,
    Scanner.advance_num_emphasis_delimiters_left] at hrun1
  simp only [hrun1]
  have hdig : (decide (1 + (0 + ds.length) ≥ 1) && decide (1 + (0 + ds.length) ≤ 9)) = true := by
    simp only [Bool.and_eq_true, decide_eq_true_eq]
    omega
  simp only [hdig, if_true, TSLexer.lookahead_cons]
  have hdp : (delim == 46 || (!(delim == 46) && delim == 41)) = true := by
    rcases hdelim with rfl | rfl <;> rfl
  simp only [hdp, if_true, Scanner.advance_lexer, TSLexer.advance_cons]
  obtain ⟨col2, w2, hrun2, hw2⟩ := advance_while_run
    (fun c => c == 32 || c == 9) tail hstop2 none none [32] (by simp)
    ([32] ++ tail).length
    (Scanner.advance { s with column := col1 }
      ⟨delim :: 32 :: tail, 0 + 1 + ds.length, none, none⟩).2.1
    (0 + 1 + ds.length + 1) 0 0 (by simp)
  have hw2' : w2 = 1 := hw2 (by simp)
  subst hw2'
  simp only [Scanner.advance_open_blocks, Scanner.advance_state, Scanner.advance_matched,
    Scanner.advance_indentation, Scanner.advance_code_span_delimiter_length,
    Scanner.advance_num_emphasis_delimiters_left, List.singleton_append] at hrun2
  simp only [hrun2]
  simp only [Nat.zero_add, Nat.add_comm 1 ds.length]
  have key := ordered_decision_one { s with column := col2 }
    ⟨tail, ds.length + 1 + 1 + [32].length, none, none⟩ (delim == 46)
    (d0 != 49 || decide (ds.length > 0)) (ds.length + 1) valid_symbols hind hlen
  simpa only [beq_iff_eq] using key

theorem list_item_indentation_add (n : Nat) (hn : n ≤ 253) :
    list_item_indentation (LIST_ITEM + n) = 2 + n := by
  unfold list_item_indentation LIST_ITEM
  omega

/-- C10, refuted as stated: for the input `1234567. x` (seven digits, a dot, one
space, content) scanned from the initial state, the list item that is pushed
has continuation threshold 9, not 2 + 7 + 1 = 10. -/
theorem C10_counterexample :
    ∃ s1 l1 b,
      Scanner.initial.scan (OTHER 0)
          (TSLexer.start [49, 50, 51, 52, 53, 54, 55, 46, 32, 120])
          (valid_of [LIST_MARKER_DOT, LIST_MARKER_DOT_DONT_INTERRUPT]) = some (true, s1, l1) ∧
      l1.result_symbol = some LIST_MARKER_DOT ∧
      s1.open_blocks = [b] ∧ is_list_item b = true ∧
      list_item_indentation b = 9 ∧ list_item_indentation b ≠ 2 + 7 + 1 :=
  ⟨{ Scanner.initial with open_blocks := [9], column := 9 },
   { input := [120], position := 9, token_end := none, result_symbol := some LIST_MARKER_DOT },
   9, rfl, rfl, rfl, rfl, rfl, by decide⟩

/-- C10, amended: for an ordered list marker of `d` digits (`1 ≤ d ≤ 9`)
followed by `.` or `)`, exactly one space and then content, scanned in
leaf mode at indentation 0: when the marker is accepted, the list-marker
token of its delimiter is returned and the list item pushed on the stack
has continuation threshold `2 + d` (the width of the digits, the delimiter
and the space); otherwise nothing is pushed and no list-marker token is
returned.  For `1234567. x` the threshold is 9. -/
theorem C10_ordered_item_threshold (sym18 : TokenType) (s : Scanner)
    (valid_symbols : ValidSymbols) (d0 : Nat) (ds tail : List Nat) (delim : Nat)
    (hwf : s.wf) (hv : no_request valid_symbols) (hm : leaf_mode s)
    (hind : s.indentation = 0) (hd0 : 48 ≤ d0 ∧ d0 ≤ 57)
    (hds : ∀ c ∈ ds, 48 ≤ c ∧ c ≤ 57) (hlen : ds.length + 1 ≤ 9)
    (hdelim : delim = 46 ∨ delim = 41) (htail : tail.headD 0 ≠ 32 ∧ tail.headD 0 ≠ 9) :
    ∃ r, s.scan sym18 (TSLexer.start (d0 :: ds ++ delim :: 32 :: tail)) valid_symbols = some r ∧
      ((r.1 = true ∧
        r.2.2.result_symbol
          = some (if delim = 46 then LIST_MARKER_DOT else LIST_MARKER_PARENTHESIS) ∧
        (∃ b, r.2.1.open_blocks = s.open_blocks ++ [b] ∧ is_list_item b = true ∧
          list_item_indentation b = 2 + (ds.length + 1))) ∨
       (r.2.1.open_blocks = s.open_blocks ∧
        token_of (some r) ≠ some LIST_MARKER_DOT ∧
        token_of (some r) ≠ some LIST_MARKER_PARENTHESIS)) := by
  have hla : (TSLexer.start (d0 :: ds ++ delim :: 32 :: tail)).lookahead = d0 := rfl
  have hscan := scan_eq_scan_leaf sym18 s (TSLexer.start (d0 :: ds ++ delim :: 32 :: tail))
    valid_symbols hwf hv hm (by simp [TSLexer.start]) (by rw [hla]; omega) (by rw [hla]; omega)
  rw [hscan, scan_leaf_digit sym18 s _ valid_symbols (by rw [hla]; exact hd0) (by omega)]
  obtain ⟨r, hr, h⟩ := scan_digit_marker s valid_symbols d0 ds tail delim hind hds hlen hdelim
    htail
  refine ⟨r, by rw [hr], ?_⟩
  rcases h with ⟨h1, h2, h3⟩ | h
  · left
    refine ⟨h1, h2, LIST_ITEM + (ds.length + 1), h3, ?_, list_item_indentation_add _ (by omega)⟩
    have h2 : (2 : Nat) ≤ 2 + (ds.length + 1) := by omega
    have h17 : 2 + (ds.length + 1) ≤ 17 := by omega
    simp only [is_list_item, LIST_ITEM, LIST_ITEM_MAX_INDENTATION, Bool.and_eq_true,
      decide_eq_true_eq]
    exact ⟨h2, h17⟩
  · right
    exact h

theorem C10_ordered_item_threshold_witness :
    Scanner.initial.wf ∧ no_request (valid_of [LIST_MARKER_DOT, LIST_MARKER_DOT_DONT_INTERRUPT]) ∧
    leaf_mode Scanner.initial ∧ Scanner.initial.indentation = 0 ∧
    (48 ≤ 49 ∧ 49 ≤ 57) ∧ (∀ c ∈ [50, 51, 52, 53, 54, 55], 48 ≤ c ∧ c ≤ 57) ∧
    [50, 51, 52, 53, 54, 55].length + 1 ≤ 9 ∧ ((46 : Nat) = 46 ∨ (46 : Nat) = 41) ∧
    ([120].headD 0 ≠ 32 ∧ [120].headD 0 ≠ 9) ∧
    ∃ r, Scanner.initial.scan (OTHER 0)
        (TSLexer.start (49 :: [50, 51, 52, 53, 54, 55] ++ 46 :: 32 :: [120]))
        (valid_of [LIST_MARKER_DOT, LIST_MARKER_DOT_DONT_INTERRUPT]) = some r ∧
      ((r.1 = true ∧
        r.2.2.result_symbol
          = some (if (46 : Nat) = 46 then LIST_MARKER_DOT else LIST_MARKER_PARENTHESIS) ∧
        (∃ b, r.2.1.open_blocks = Scanner.initial.open_blocks ++ [b] ∧ is_list_item b = true ∧
          list_item_indentation b = 2 + ([50, 51, 52, 53, 54, 55].length + 1))) ∨
       (r.2.1.open_blocks = Scanner.initial.open_blocks ∧
        token_of (some r) ≠ some LIST_MARKER_DOT ∧
        token_of (some r) ≠ some LIST_MARKER_PARENTHESIS)) :=
  ⟨by decide, by decide, by decide, by decide, by decide, by decide, by decide, by decide,
    by decide,
    C10_ordered_item_threshold (OTHER 0) Scanner.initial
      (valid_of [LIST_MARKER_DOT, LIST_MARKER_DOT_DONT_INTERRUPT]) 49 [50, 51, 52, 53, 54, 55]
      [120] 46 (by decide) (by decide) (by decide) (by decide) (by decide) (by decide)
      (by decide) (by decide) (by decide)⟩

/-! ## The loops change the scanner in `column` only -/

theorem Scanner.advance_with_state (s : Scanner) (lexer : TSLexer) (st : Nat) :
    Scanner.advance { s with state := st } lexer
      = ((s.advance lexer).1, { (s.advance lexer).2.1 with state := st }, (s.advance lexer).2.2) :=
  rfl

theorem advance_while_frame (p : Nat → Bool) :
    ∀ (fuel : Nat) (s : Scanner) (lexer : TSLexer) (count width : Nat),
      (advance_while p fuel s lexer count width).1
        = { s with column := (advance_while p fuel s lexer count width).1.column } := by
  intro fuel
  induction fuel with
  | zero => intro s lexer count width; rfl
  | succ f ih =>
    intro s lexer count width
    simp only [advance_while]
    split
    · rw [ih]
      rfl
    · rfl

theorem advance_while_with_state (p : Nat → Bool) (st : Nat) :
    ∀ (fuel : Nat) (s : Scanner) (lexer : TSLexer) (count width : Nat),
      advance_while p fuel { s with state := st } lexer count width
        = ({ (advance_while p fuel s lexer count width).1 with state := st },
           (advance_while p fuel s lexer count width).2) := by
  intro fuel
  induction fuel with
  | zero => intro s lexer count width; rfl
  | succ f ih =>
    intro s lexer count width
    simp only [advance_while]
    split
    · rw [Scanner.advance_with_state]
      exact ih _ _ _ _
    · rfl

theorem info_string_loop_frame :
    ∀ (fuel : Nat) (s : Scanner) (lexer : TSLexer),
      (info_string_loop fuel s lexer).1
        = { s with column := (info_string_loop fuel s lexer).1.column } := by
  intro fuel
  induction fuel with
  | zero => intro s lexer; rfl
  | succ f ih =>
    intro s lexer
    simp only [info_string_loop]
    split
    · split
      · rfl
      · rw [ih]
        rfl
    · rfl

theorem info_string_loop_with_state (st : Nat) :
    ∀ (fuel : Nat) (s : Scanner) (lexer : TSLexer),
      info_string_loop fuel { s with state := st } lexer
        = ({ (info_string_loop fuel s lexer).1 with state := st },
           (info_string_loop fuel s lexer).2) := by
  intro fuel
  induction fuel with
  | zero => intro s lexer; rfl
  | succ f ih =>
    intro s lexer
    simp only [info_string_loop]
    split
    · split
      · rfl
      · rw [Scanner.advance_with_state]
        exact ih _ _
    · rfl

theorem star_loop_frame (valid_symbols : ValidSymbols) :
    ∀ (fuel : Nat) (s : Scanner) (lexer : TSLexer) (v : StarVars),
      (star_loop valid_symbols fuel s lexer v).1
        = { s with column := (star_loop valid_symbols fuel s lexer v).1.column } := by
  intro fuel
  induction fuel with
  | zero => intro s lexer v; rfl
  | succ f ih =>
    intro s lexer v
    simp only [star_loop]
    split
    · rw [ih]
      rfl
    · split
      · rw [ih]
        rfl
      · rfl

theorem star_loop_with_state (valid_symbols : ValidSymbols) (st : Nat) :
    ∀ (fuel : Nat) (s : Scanner) (lexer : TSLexer) (v : StarVars),
      star_loop valid_symbols fuel { s with state := st } lexer v
        = ({ (star_loop valid_symbols fuel s lexer v).1 with state := st },
           (star_loop valid_symbols fuel s lexer v).2) := by
  intro fuel
  induction fuel with
  | zero => intro s lexer v; rfl
  | succ f ih =>
    intro s lexer v
    simp only [star_loop]
    split
    · rw [Scanner.advance_with_state]
      exact ih _ _ _
    · split
      · rw [Scanner.advance_with_state]
        exact ih _ _ _
      · rfl

theorem underscore_loop_frame :
    ∀ (fuel : Nat) (s : Scanner) (lexer : TSLexer) (v : UnderscoreVars),
      (underscore_loop fuel s lexer v).1
        = { s with column := (underscore_loop fuel s lexer v).1.column } := by
  intro fuel
  induction fuel with
  | zero => intro s lexer v; rfl
  | succ f ih =>
    intro s lexer v
    simp only [underscore_loop]
    split
    · rw [ih]
      rfl
    · split
      · rw [ih]
        rfl
      · rfl

theorem underscore_loop_with_state (st : Nat) :
    ∀ (fuel : Nat) (s : Scanner) (lexer : TSLexer) (v : UnderscoreVars),
      underscore_loop fuel { s with state := st } lexer v
        = ({ (underscore_loop fuel s lexer v).1 with state := st },
           (underscore_loop fuel s lexer v).2) := by
  intro fuel
  induction fuel with
  | zero => intro s lexer v; rfl
  | succ f ih =>
    intro s lexer v
    simp only [underscore_loop]
    split
    · rw [Scanner.advance_with_state]
      exact ih _ _ _
    · split
      · rw [Scanner.advance_with_state]
        exact ih _ _ _
      · rfl

theorem hash_loop_frame :
    ∀ (fuel : Nat) (s : Scanner) (lexer : TSLexer) (level : Nat),
      (hash_loop fuel s lexer level).1
        = { s with column := (hash_loop fuel s lexer level).1.column } := by
  intro fuel
  induction fuel with
  | zero => intro s lexer level; rfl
  | succ f ih =>
    intro s lexer level
    simp only [hash_loop]
    split
    · rw [ih]
      rfl
    · rfl

theorem hash_loop_with_state (st : Nat) :
    ∀ (fuel : Nat) (s : Scanner) (lexer : TSLexer) (level : Nat),
      hash_loop fuel { s with state := st } lexer level
        = ({ (hash_loop fuel s lexer level).1 with state := st },
           (hash_loop fuel s lexer level).2) := by
  intro fuel
  induction fuel with
  | zero => intro s lexer level; rfl
  | succ f ih =>
    intro s lexer level
    simp only [hash_loop]
    split
    · rw [Scanner.advance_with_state]
      exact ih _ _ _
    · rfl

theorem minus_loop_frame :
    ∀ (fuel : Nat) (s : Scanner) (lexer : TSLexer) (v : MinusVars),
      (minus_loop fuel s lexer v).1
        = { s with column := (minus_loop fuel s lexer v).1.column } := by
  intro fuel
  induction fuel with
  | zero => intro s lexer v; rfl
  | succ f ih =>
    intro s lexer v
    simp only [minus_loop]
    split
    · rw [ih]
      rfl
    · split
      · rw [ih]
        rfl
      · rfl

theorem minus_loop_with_state (st : Nat) :
    ∀ (fuel : Nat) (s : Scanner) (lexer : TSLexer) (v : MinusVars),
      minus_loop fuel { s with state := st } lexer v
        = ({ (minus_loop fuel s lexer v).1 with state := st },
           (minus_loop fuel s lexer v).2) := by
  intro fuel
  induction fuel with
  | zero => intro s lexer v; rfl
  | succ f ih =>
    intro s lexer v
    simp only [minus_loop]
    split
    · rw [Scanner.advance_with_state]
      exact ih _ _ _
    · split
      · rw [Scanner.advance_with_state]
        exact ih _ _ _
      · rfl

/-! ## Fields the loops preserve -/

@[simp] theorem advance_while_open_blocks (p : Nat → Bool) (fuel : Nat) (s : Scanner)
    (lexer : TSLexer) (count width : Nat) :
    (advance_while p fuel s lexer count width).1.open_blocks = s.open_blocks := by
  rw [advance_while_frame p fuel s lexer count width]

@[simp] theorem advance_while_state (p : Nat → Bool) (fuel : Nat) (s : Scanner)
    (lexer : TSLexer) (count width : Nat) :
    (advance_while p fuel s lexer count width).1.state = s.state := by
  rw [advance_while_frame p fuel s lexer count width]

@[simp] theorem advance_while_matched (p : Nat → Bool) (fuel : Nat) (s : Scanner)
    (lexer : TSLexer) (count width : Nat) :
    (advance_while p fuel s lexer count width).1.matched = s.matched := by
  rw [advance_while_frame p fuel s lexer count width]

@[simp] theorem advance_while_indentation (p : Nat → Bool) (fuel : Nat) (s : Scanner)
    (lexer : TSLexer) (count width : Nat) :
    (advance_while p fuel s lexer count width).1.indentation = s.indentation := by
  rw [advance_while_frame p fuel s lexer count width]

@[simp] theorem advance_while_code_span_delimiter_length (p : Nat → Bool) (fuel : Nat)
    (s : Scanner) (lexer : TSLexer) (count width : Nat) :
    (advance_while p fuel s lexer count width).1.code_span_delimiter_length = s.code_span_delimiter_length := by
  rw [advance_while_frame p fuel s lexer count width]

@[simp] theorem advance_while_num_emphasis_delimiters_left (p : Nat → Bool) (fuel : Nat)
    (s : Scanner) (lexer : TSLexer) (count width : Nat) :
    (advance_while p fuel s lexer count width).1.num_emphasis_delimiters_left = s.num_emphasis_delimiters_left := by
  rw [advance_while_frame p fuel s lexer count width]

@[simp] theorem info_string_loop_open_blocks (fuel : Nat) (s : Scanner) (lexer : TSLexer) :
    (info_string_loop fuel s lexer).1.open_blocks = s.open_blocks := by
  rw [info_string_loop_frame fuel s lexer]

@[simp] theorem info_string_loop_state (fuel : Nat) (s : Scanner) (lexer : TSLexer) :
    (info_string_loop fuel s lexer).1.state = s.state := by
  rw [info_string_loop_frame fuel s lexer]

@[simp] theorem info_string_loop_matched (fuel : Nat) (s : Scanner) (lexer : TSLexer) :
    (info_string_loop fuel s lexer).1.matched = s.matched := by
  rw [info_string_loop_frame fuel s lexer]

@[simp] theorem info_string_loop_indentation (fuel : Nat) (s : Scanner) (lexer : TSLexer) :
    (info_string_loop fuel s lexer).1.indentation = s.indentation := by
  rw [info_string_loop_frame fuel s lexer]

@[simp] theorem info_string_loop_code_span_delimiter_length (fuel : Nat) (s : Scanner)
    (lexer : TSLexer) :
    (info_string_loop fuel s lexer).1.code_span_delimiter_length = s.code_span_delimiter_length := by
  rw [info_string_loop_frame fuel s lexer]

@[simp] theorem info_string_loop_num_emphasis_delimiters_left (fuel : Nat) (s : Scanner)
    (lexer : TSLexer) :
    (info_string_loop fuel s lexer).1.num_emphasis_delimiters_left = s.num_emphasis_delimiters_left := by
  rw [info_string_loop_frame fuel s lexer]

@[simp] theorem star_loop_open_blocks (valid_symbols : ValidSymbols) (fuel : Nat) (s : Scanner)
    (lexer : TSLexer) (v : StarVars) :
    (star_loop valid_symbols fuel s lexer v).1.open_blocks = s.open_blocks := by
  rw [star_loop_frame valid_symbols fuel s lexer v]

@[simp] theorem star_loop_state (valid_symbols : ValidSymbols) (fuel : Nat) (s : Scanner)
    (lexer : TSLexer) (v : StarVars) :
    (star_loop valid_symbols fuel s lexer v).1.state = s.state := by
  rw [star_loop_frame valid_symbols fuel s lexer v]

@[simp] theorem star_loop_matched (valid_symbols : ValidSymbols) (fuel : Nat) (s : Scanner)
    (lexer : TSLexer) (v : StarVars) :
    (star_loop valid_symbols fuel s lexer v).1.matched = s.matched := by
  rw [star_loop_frame valid_symbols fuel s lexer v]

@[simp] theorem star_loop_indentation (valid_symbols : ValidSymbols) (fuel : Nat) (s : Scanner)
    (lexer : TSLexer) (v : StarVars) :
    (star_loop valid_symbols fuel s lexer v).1.indentation = s.indentation := by
  rw [star_loop_frame valid_symbols fuel s lexer v]

@[simp] theorem star_loop_code_span_delimiter_length (valid_symbols : ValidSymbols) (fuel : Nat)
    (s : Scanner) (lexer : TSLexer) (v : StarVars) :
    (star_loop valid_symbols fuel s lexer v).1.code_span_delimiter_length = s.code_span_delimiter_length := by
  rw [star_loop_frame valid_symbols fuel s lexer v]

@[simp] theorem star_loop_num_emphasis_delimiters_left (valid_symbols : ValidSymbols)
    (fuel : Nat) (s : Scanner) (lexer : TSLexer) (v : StarVars) :
    (star_loop valid_symbols fuel s lexer v).1.num_emphasis_delimiters_left = s.num_emphasis_delimiters_left := by
  rw [star_loop_frame valid_symbols fuel s lexer v]

@[simp] theorem underscore_loop_open_blocks (fuel : Nat) (s : Scanner) (lexer : TSLexer)
    (v : UnderscoreVars) :
    (underscore_loop fuel s lexer v).1.open_blocks = s.open_blocks := by
  rw [underscore_loop_frame fuel s lexer v]

@[simp] theorem underscore_loop_state (fuel : Nat) (s : Scanner) (lexer : TSLexer)
    (v : UnderscoreVars) :
    (underscore_loop fuel s lexer v).1.state = s.state := by
  rw [underscore_loop_frame fuel s lexer v]

@[simp] theorem underscore_loop_matched (fuel : Nat) (s : Scanner) (lexer : TSLexer)
    (v : UnderscoreVars) :
    (underscore_loop fuel s lexer v).1.matched = s.matched := by
  rw [underscore_loop_frame fuel s lexer v]

@[simp] theorem underscore_loop_indentation (fuel : Nat) (s : Scanner) (lexer : TSLexer)
    (v : UnderscoreVars) :
    (underscore_loop fuel s lexer v).1.indentation = s.indentation := by
  rw [underscore_loop_frame fuel s lexer v]

@[simp] theorem underscore_loop_code_span_delimiter_length (fuel : Nat) (s : Scanner)
    (lexer : TSLexer) (v : UnderscoreVars) :
    (underscore_loop fuel s lexer v).1.code_span_delimiter_length = s.code_span_delimiter_length := by
  rw [underscore_loop_frame fuel s lexer v]

@[simp] theorem underscore_loop_num_emphasis_delimiters_left (fuel : Nat) (s : Scanner)
    (lexer : TSLexer) (v : UnderscoreVars) :
    (underscore_loop fuel s lexer v).1.num_emphasis_delimiters_left = s.num_emphasis_delimiters_left := by
  rw [underscore_loop_frame fuel s lexer v]

@[simp] theorem hash_loop_open_blocks (fuel : Nat) (s : Scanner) (lexer : TSLexer) (level : Nat) :
    (hash_loop fuel s lexer level).1.open_blocks = s.open_blocks := by
  rw [hash_loop_frame fuel s lexer level]

@[simp] theorem hash_loop_state (fuel : Nat) (s : Scanner) (lexer : TSLexer) (level : Nat) :
    (hash_loop fuel s lexer level).1.state = s.state := by
  rw [hash_loop_frame fuel s lexer level]

@[simp] theorem hash_loop_matched (fuel : Nat) (s : Scanner) (lexer : TSLexer) (level : Nat) :
    (hash_loop fuel s lexer level).1.matched = s.matched := by
  rw [hash_loop_frame fuel s lexer level]

@[simp] theorem hash_loop_indentation (fuel : Nat) (s : Scanner) (lexer : TSLexer) (level : Nat) :
    (hash_loop fuel s lexer level).1.indentation = s.indentation := by
  rw [hash_loop_frame fuel s lexer level]

@[simp] theorem hash_loop_code_span_delimiter_length (fuel : Nat) (s : Scanner)
    (lexer : TSLexer) (level : Nat) :
    (hash_loop fuel s lexer level).1.code_span_delimiter_length = s.code_span_delimiter_length := by
  rw [hash_loop_frame fuel s lexer level]

@[simp] theorem hash_loop_num_emphasis_delimiters_left (fuel : Nat) (s : Scanner)
    (lexer : TSLexer) (level : Nat) :
    (hash_loop fuel s lexer level).1.num_emphasis_delimiters_left = s.num_emphasis_delimiters_left := by
  rw [hash_loop_frame fuel s lexer level]

@[simp] theorem minus_loop_open_blocks (fuel : Nat) (s : Scanner) (lexer : TSLexer)
    (v : MinusVars) :
    (minus_loop fuel s lexer v).1.open_blocks = s.open_blocks := by
  rw [minus_loop_frame fuel s lexer v]

@[simp] theorem minus_loop_state (fuel : Nat) (s : Scanner) (lexer : TSLexer) (v : MinusVars) :
    (minus_loop fuel s lexer v).1.state = s.state := by
  rw [minus_loop_frame fuel s lexer v]

@[simp] theorem minus_loop_matched (fuel : Nat) (s : Scanner) (lexer : TSLexer) (v : MinusVars) :
    (minus_loop fuel s lexer v).1.matched = s.matched := by
  rw [minus_loop_frame fuel s lexer v]

@[simp] theorem minus_loop_indentation (fuel : Nat) (s : Scanner) (lexer : TSLexer)
    (v : MinusVars) :
    (minus_loop fuel s lexer v).1.indentation = s.indentation := by
  rw [minus_loop_frame fuel s lexer v]

@[simp] theorem minus_loop_code_span_delimiter_length (fuel : Nat) (s : Scanner)
    (lexer : TSLexer) (v : MinusVars) :
    (minus_loop fuel s lexer v).1.code_span_delimiter_length = s.code_span_delimiter_length := by
  rw [minus_loop_frame fuel s lexer v]

@[simp] theorem minus_loop_num_emphasis_delimiters_left (fuel : Nat) (s : Scanner)
    (lexer : TSLexer) (v : MinusVars) :
    (minus_loop fuel s lexer v).1.num_emphasis_delimiters_left = s.num_emphasis_delimiters_left := by
  rw [minus_loop_frame fuel s lexer v]


/-! ## Opening after a soft line break -/

theorem has_flag_and (st m f : Nat) : has_flag (st &&& m) f = has_flag st (m &&& f) := by
  unfold has_flag
  rw [Nat.and_assoc]

@[simp] theorem has_flag_clear_soft_soft (st : Nat) :
    has_flag (st &&& not16 STATE_WAS_SOFT_LINE_BREAK) STATE_WAS_SOFT_LINE_BREAK = false := by
  rw [has_flag_and]
  have : not16 STATE_WAS_SOFT_LINE_BREAK &&& STATE_WAS_SOFT_LINE_BREAK = 0 := by decide
  rw [this]
  simp [has_flag]

@[simp] theorem has_flag_clear_soft_just_closed (st : Nat) :
    has_flag (st &&& not16 STATE_WAS_SOFT_LINE_BREAK) STATE_JUST_CLOSED
      = has_flag st STATE_JUST_CLOSED := by
  rw [has_flag_and]
  have : not16 STATE_WAS_SOFT_LINE_BREAK &&& STATE_JUST_CLOSED = STATE_JUST_CLOSED := by decide
  rw [this]

@[simp] theorem has_flag_clear_soft_matching (st : Nat) :
    has_flag (st &&& not16 STATE_WAS_SOFT_LINE_BREAK) STATE_MATCHING
      = has_flag st STATE_MATCHING := by
  rw [has_flag_and]
  have : not16 STATE_WAS_SOFT_LINE_BREAK &&& STATE_MATCHING = STATE_MATCHING := by decide
  rw [this]

@[simp] theorem has_flag_clear_soft_is_open (st : Nat) :
    has_flag (st &&& not16 STATE_WAS_SOFT_LINE_BREAK) STATE_EMPHASIS_DELIMITER_IS_OPEN
      = has_flag st STATE_EMPHASIS_DELIMITER_IS_OPEN := by
  rw [has_flag_and]
  have : not16 STATE_WAS_SOFT_LINE_BREAK &&& STATE_EMPHASIS_DELIMITER_IS_OPEN
      = STATE_EMPHASIS_DELIMITER_IS_OPEN := by decide
  rw [this]

@[simp] theorem has_flag_clear_matching_soft (st : Nat) :
    has_flag (st &&& not16 STATE_MATCHING) STATE_WAS_SOFT_LINE_BREAK
      = has_flag st STATE_WAS_SOFT_LINE_BREAK := by
  rw [has_flag_and]
  have : not16 STATE_MATCHING &&& STATE_WAS_SOFT_LINE_BREAK = STATE_WAS_SOFT_LINE_BREAK := by
    decide
  rw [this]

/-- A scanner that differs from `t` in `column` only, with the soft-break flag
cleared, is `clear_soft` of itself. -/
theorem clear_soft_of_frame (t x : Scanner) (hx : x = { t with column := x.column }) :
    ({ x with state := t.state &&& not16 STATE_WAS_SOFT_LINE_BREAK } : Scanner) = clear_soft x := by
  unfold clear_soft
  rw [hx]

theorem open_list_item_soft (t : Scanner) (lexer : TSLexer) (dont_interrupt : Bool)
    (extra_indentation digits : Nat) (mark : Bool) (token : TokenType)
    (h : has_flag t.state STATE_WAS_SOFT_LINE_BREAK = true) :
    t.open_list_item lexer dont_interrupt extra_indentation digits mark token
      = t.error lexer := by
  unfold Scanner.open_list_item
  simp only [h, if_true]

theorem soft_break_guarded_error (t : Scanner) (lexer : TSLexer)
    (r0 : Bool × Scanner × TSLexer) : soft_break_guarded t.open_blocks (t.error lexer) r0 := by
  unfold soft_break_guarded
  simp [Scanner.error, is_opening_token, TSLexer.set_result]

theorem soft_break_guarded_ite (ob : List Block) (c : Prop) [Decidable c]
    (a b a0 b0 : Bool × Scanner × TSLexer) (ha : soft_break_guarded ob a a0)
    (hb : soft_break_guarded ob b b0) :
    soft_break_guarded ob (if c then a else b) (if c then a0 else b0) := by
  split <;> assumption

theorem soft_break_guarded_of_not_opening (ob : List Block) (r r0 : Bool × Scanner × TSLexer)
    (h1 : ∀ tok, token_of (some r) = some tok → is_opening_token tok = false)
    (h2 : r.2.1.open_blocks = ob)
    (h3 : ∀ tok, token_of (some r0) = some tok → is_opening_token tok = false) :
    soft_break_guarded ob r r0 := by
  refine ⟨h1, h2, ?_⟩
  intro tok htok hopen
  rw [h3 tok htok] at hopen
  exact absurd hopen (by decide)

@[simp] theorem clear_soft_open_blocks (t : Scanner) :
    (clear_soft t).open_blocks = t.open_blocks := rfl

@[simp] theorem clear_soft_matched (t : Scanner) : (clear_soft t).matched = t.matched := rfl

@[simp] theorem clear_soft_indentation (t : Scanner) :
    (clear_soft t).indentation = t.indentation := rfl

@[simp] theorem clear_soft_column (t : Scanner) : (clear_soft t).column = t.column := rfl

@[simp] theorem clear_soft_code_span_delimiter_length (t : Scanner) :
    (clear_soft t).code_span_delimiter_length = t.code_span_delimiter_length := rfl

@[simp] theorem clear_soft_num_emphasis_delimiters_left (t : Scanner) :
    (clear_soft t).num_emphasis_delimiters_left = t.num_emphasis_delimiters_left := rfl

@[simp] theorem clear_soft_soft (t : Scanner) :
    has_flag (clear_soft t).state STATE_WAS_SOFT_LINE_BREAK = false :=
  has_flag_clear_soft_soft t.state

@[simp] theorem clear_soft_just_closed (t : Scanner) :
    has_flag (clear_soft t).state STATE_JUST_CLOSED = has_flag t.state STATE_JUST_CLOSED :=
  has_flag_clear_soft_just_closed t.state

@[simp] theorem clear_soft_matching (t : Scanner) :
    has_flag (clear_soft t).state STATE_MATCHING = has_flag t.state STATE_MATCHING :=
  has_flag_clear_soft_matching t.state

@[simp] theorem clear_soft_is_open (t : Scanner) :
    has_flag (clear_soft t).state STATE_EMPHASIS_DELIMITER_IS_OPEN
      = has_flag t.state STATE_EMPHASIS_DELIMITER_IS_OPEN :=
  has_flag_clear_soft_is_open t.state

theorem scan_blank_line_soft (t : Scanner) (lexer : TSLexer) (valid_symbols : ValidSymbols)
    (h : has_flag t.state STATE_WAS_SOFT_LINE_BREAK = true) :
    soft_break_guarded t.open_blocks (t.scan_blank_line lexer valid_symbols)
      ((clear_soft t).scan_blank_line lexer valid_symbols) := by
  unfold Scanner.scan_blank_line
  simp only [h, if_true, clear_soft_soft, Bool.false_eq_true, if_false]
  apply soft_break_guarded_ite
  · exact soft_break_guarded_error _ _ _
  · apply soft_break_guarded_of_not_opening <;> simp

theorem scan_block_quote_soft (t : Scanner) (lexer : TSLexer) (valid_symbols : ValidSymbols)
    (h : has_flag t.state STATE_WAS_SOFT_LINE_BREAK = true) :
    soft_break_guarded t.open_blocks (t.scan_block_quote lexer valid_symbols)
      ((clear_soft t).scan_block_quote lexer valid_symbols) := by
  unfold Scanner.scan_block_quote
  simp only [h, if_true, clear_soft_soft, Bool.false_eq_true, if_false]
  apply soft_break_guarded_ite
  · exact soft_break_guarded_error _ _ _
  · apply soft_break_guarded_of_not_opening <;> simp

theorem tilde_decision_soft (t : Scanner) (lexer : TSLexer) (level : Nat)
    (valid_symbols : ValidSymbols) (h : has_flag t.state STATE_WAS_SOFT_LINE_BREAK = true) :
    soft_break_guarded t.open_blocks (t.tilde_decision lexer level valid_symbols)
      ((clear_soft t).tilde_decision lexer level valid_symbols) := by
  unfold Scanner.tilde_decision
  simp only [h, if_true, clear_soft_soft, clear_soft_indentation,
    clear_soft_code_span_delimiter_length, Bool.false_eq_true, if_false]
  apply soft_break_guarded_ite
  · apply soft_break_guarded_of_not_opening <;> simp [is_opening_token]
  · apply soft_break_guarded_ite
    · exact soft_break_guarded_error _ _ _
    · apply soft_break_guarded_of_not_opening <;> simp

theorem hash_decision_soft (t : Scanner) (lexer : TSLexer) (level : Nat)
    (h : has_flag t.state STATE_WAS_SOFT_LINE_BREAK = true) :
    soft_break_guarded t.open_blocks (t.hash_decision lexer level)
      ((clear_soft t).hash_decision lexer level) := by
  unfold Scanner.hash_decision
  simp only [h, if_true, clear_soft_soft, Bool.false_eq_true, if_false]
  apply soft_break_guarded_ite
  · exact soft_break_guarded_error _ _ _
  · apply soft_break_guarded_of_not_opening <;> simp

theorem equals_decision_soft (t : Scanner) (lexer : TSLexer)
    (h : has_flag t.state STATE_WAS_SOFT_LINE_BREAK = true) :
    soft_break_guarded t.open_blocks (t.equals_decision lexer)
      ((clear_soft t).equals_decision lexer) := by
  unfold Scanner.equals_decision
  simp only [h, if_true, clear_soft_soft, Bool.false_eq_true, if_false]
  apply soft_break_guarded_ite
  · exact soft_break_guarded_error _ _ _
  · apply soft_break_guarded_of_not_opening <;> simp

theorem plus_decision_soft (t : Scanner) (lexer : TSLexer) (extra_indentation : Nat)
    (valid_symbols : ValidSymbols) (h : has_flag t.state STATE_WAS_SOFT_LINE_BREAK = true) :
    soft_break_guarded t.open_blocks (t.plus_decision lexer extra_indentation valid_symbols)
      ((clear_soft t).plus_decision lexer extra_indentation valid_symbols) := by
  unfold Scanner.plus_decision
  simp only [open_list_item_soft _ _ _ _ _ _ _ h, clear_soft_just_closed, clear_soft_matched,
    clear_soft_open_blocks]
  apply soft_break_guarded_ite
  · exact soft_break_guarded_error _ _ _
  · apply soft_break_guarded_of_not_opening <;> simp

theorem ordered_decision_soft (t : Scanner) (lexer : TSLexer) (dot dont_interrupt : Bool)
    (digits extra_indentation : Nat) (valid_symbols : ValidSymbols)
    (h : has_flag t.state STATE_WAS_SOFT_LINE_BREAK = true) :
    soft_break_guarded t.open_blocks
      (t.ordered_decision lexer dot dont_interrupt digits extra_indentation valid_symbols)
      ((clear_soft t).ordered_decision lexer dot dont_interrupt digits extra_indentation
        valid_symbols) := by
  unfold Scanner.ordered_decision
  simp only [open_list_item_soft _ _ _ _ _ _ _ h, clear_soft_just_closed, clear_soft_matched,
    clear_soft_open_blocks]
  apply soft_break_guarded_ite
  · exact soft_break_guarded_error _ _ _
  · apply soft_break_guarded_of_not_opening <;> simp

theorem minus_decision_soft (t : Scanner) (lexer : TSLexer) (v : MinusVars)
    (valid_symbols : ValidSymbols) (h : has_flag t.state STATE_WAS_SOFT_LINE_BREAK = true) :
    soft_break_guarded t.open_blocks (t.minus_decision lexer v valid_symbols)
      ((clear_soft t).minus_decision lexer v valid_symbols) := by
  unfold Scanner.minus_decision
  simp only [open_list_item_soft _ _ _ _ _ _ _ h, clear_soft_just_closed, clear_soft_matched,
    clear_soft_open_blocks, h, if_true, clear_soft_soft, Bool.false_eq_true, if_false]
  apply soft_break_guarded_ite
  · exact soft_break_guarded_error _ _ _
  · apply soft_break_guarded_ite
    · exact soft_break_guarded_error _ _ _
    · apply soft_break_guarded_ite
      · exact soft_break_guarded_error _ _ _
      · apply soft_break_guarded_of_not_opening <;> simp

theorem star_emphasis_decision_soft (t : Scanner) (lexer : TSLexer) (v : StarVars)
    (valid_symbols : ValidSymbols) :
    soft_break_guarded t.open_blocks (t.star_emphasis_decision lexer v valid_symbols)
      ((clear_soft t).star_emphasis_decision lexer v valid_symbols) := by
  unfold Scanner.star_emphasis_decision
  simp only [clear_soft_indentation]
  apply soft_break_guarded_ite
  · apply soft_break_guarded_of_not_opening <;> simp
  · apply soft_break_guarded_ite
    · apply soft_break_guarded_of_not_opening <;> simp [is_opening_token]
    · apply soft_break_guarded_ite
      · apply soft_break_guarded_of_not_opening <;> simp [is_opening_token]
      · apply soft_break_guarded_of_not_opening <;> simp

theorem star_decision_soft (t : Scanner) (lexer : TSLexer) (v : StarVars)
    (valid_symbols : ValidSymbols) (h : has_flag t.state STATE_WAS_SOFT_LINE_BREAK = true) :
    soft_break_guarded t.open_blocks (t.star_decision lexer v valid_symbols)
      ((clear_soft t).star_decision lexer v valid_symbols) := by
  unfold Scanner.star_decision
  simp only [open_list_item_soft _ _ _ _ _ _ _ h, clear_soft_just_closed, clear_soft_matched,
    clear_soft_open_blocks, clear_soft_indentation, h, if_true, clear_soft_soft,
    Bool.false_eq_true, if_false]
  apply soft_break_guarded_ite
  · exact soft_break_guarded_error _ _ _
  · apply soft_break_guarded_ite
    · exact soft_break_guarded_error _ _ _
    · apply soft_break_guarded_ite
      · exact star_emphasis_decision_soft t lexer v valid_symbols
      · apply soft_break_guarded_of_not_opening <;> simp

theorem underscore_decision_soft (t : Scanner) (lexer : TSLexer) (v : UnderscoreVars)
    (valid_symbols : ValidSymbols) (h : has_flag t.state STATE_WAS_SOFT_LINE_BREAK = true) :
    soft_break_guarded t.open_blocks (t.underscore_decision lexer v valid_symbols)
      ((clear_soft t).underscore_decision lexer v valid_symbols) := by
  unfold Scanner.underscore_decision
  simp only [h, if_true, clear_soft_soft, Bool.false_eq_true, if_false]
  apply soft_break_guarded_ite
  · exact soft_break_guarded_error _ _ _
  · apply soft_break_guarded_ite
    · apply soft_break_guarded_ite
      · apply soft_break_guarded_of_not_opening <;> simp [is_opening_token]
      · apply soft_break_guarded_ite
        · apply soft_break_guarded_of_not_opening <;> simp [is_opening_token]
        · apply soft_break_guarded_of_not_opening <;> simp
    · apply soft_break_guarded_of_not_opening <;> simp

theorem code_span_decision_soft (t : Scanner) (lexer : TSLexer) (level : Nat)
    (valid_symbols : ValidSymbols) :
    soft_break_guarded t.open_blocks (t.code_span_decision lexer level valid_symbols)
      ((clear_soft t).code_span_decision lexer level valid_symbols) := by
  unfold Scanner.code_span_decision
  simp only [clear_soft_indentation, clear_soft_code_span_delimiter_length]
  apply soft_break_guarded_ite
  · apply soft_break_guarded_ite
    · apply soft_break_guarded_of_not_opening <;> simp [is_opening_token]
    · apply soft_break_guarded_ite
      · apply soft_break_guarded_of_not_opening <;> simp [is_opening_token]
      · apply soft_break_guarded_of_not_opening <;> simp
  · apply soft_break_guarded_of_not_opening <;> simp

/-! ## The loops commute with clearing the soft-break flag -/

theorem Scanner.advance_clear_soft (t : Scanner) (lexer : TSLexer) :
    (clear_soft t).advance lexer
      = ((t.advance lexer).1, clear_soft (t.advance lexer).2.1, (t.advance lexer).2.2) := rfl

theorem advance_while_clear_soft (p : Nat → Bool) (fuel : Nat) (t : Scanner) (lexer : TSLexer)
    (count width : Nat) :
    advance_while p fuel (clear_soft t) lexer count width
      = (clear_soft (advance_while p fuel t lexer count width).1,
         (advance_while p fuel t lexer count width).2) := by
  unfold clear_soft
  rw [advance_while_with_state, advance_while_state]

theorem info_string_loop_clear_soft (fuel : Nat) (t : Scanner) (lexer : TSLexer) :
    info_string_loop fuel (clear_soft t) lexer
      = (clear_soft (info_string_loop fuel t lexer).1, (info_string_loop fuel t lexer).2) := by
  unfold clear_soft
  rw [info_string_loop_with_state, info_string_loop_state]

theorem star_loop_clear_soft (valid_symbols : ValidSymbols) (fuel : Nat) (t : Scanner)
    (lexer : TSLexer) (v : StarVars) :
    star_loop valid_symbols fuel (clear_soft t) lexer v
      = (clear_soft (star_loop valid_symbols fuel t lexer v).1,
         (star_loop valid_symbols fuel t lexer v).2) := by
  unfold clear_soft
  rw [star_loop_with_state, star_loop_state]

theorem underscore_loop_clear_soft (fuel : Nat) (t : Scanner) (lexer : TSLexer)
    (v : UnderscoreVars) :
    underscore_loop fuel (clear_soft t) lexer v
      = (clear_soft (underscore_loop fuel t lexer v).1, (underscore_loop fuel t lexer v).2) := by
  unfold clear_soft
  rw [underscore_loop_with_state, underscore_loop_state]

theorem hash_loop_clear_soft (fuel : Nat) (t : Scanner) (lexer : TSLexer) (level : Nat) :
    hash_loop fuel (clear_soft t) lexer level
      = (clear_soft (hash_loop fuel t lexer level).1, (hash_loop fuel t lexer level).2) := by
  unfold clear_soft
  rw [hash_loop_with_state, hash_loop_state]

theorem minus_loop_clear_soft (fuel : Nat) (t : Scanner) (lexer : TSLexer) (v : MinusVars) :
    minus_loop fuel (clear_soft t) lexer v
      = (clear_soft (minus_loop fuel t lexer v).1, (minus_loop fuel t lexer v).2) := by
  unfold clear_soft
  rw [minus_loop_with_state, minus_loop_state]

theorem soft_break_guarded_congr (ob ob2 : List Block) (r r0 : Bool × Scanner × TSLexer)
    (h : soft_break_guarded ob r r0) (hob : ob = ob2) : soft_break_guarded ob2 r r0 :=
  hob ▸ h

theorem scan_minus_soft (t : Scanner) (lexer : TSLexer) (valid_symbols : ValidSymbols)
    (h : has_flag t.state STATE_WAS_SOFT_LINE_BREAK = true) :
    soft_break_guarded t.open_blocks (t.scan_minus lexer valid_symbols)
      ((clear_soft t).scan_minus lexer valid_symbols) := by
  unfold Scanner.scan_minus
  simp only [clear_soft_indentation, minus_loop_clear_soft]
  apply soft_break_guarded_ite
  · exact soft_break_guarded_congr _ _ _ _
      (minus_decision_soft _ _ _ valid_symbols (by rw [minus_loop_state]; exact h))
      (minus_loop_open_blocks _ _ _ _)
  · apply soft_break_guarded_of_not_opening <;> simp

theorem scan_plus_soft (t : Scanner) (lexer : TSLexer) (valid_symbols : ValidSymbols)
    (h : has_flag t.state STATE_WAS_SOFT_LINE_BREAK = true) :
    soft_break_guarded t.open_blocks (t.scan_plus lexer valid_symbols)
      ((clear_soft t).scan_plus lexer valid_symbols) := by
  unfold Scanner.scan_plus
  simp only [clear_soft_indentation, Scanner.advance_clear_soft, advance_while_clear_soft]
  apply soft_break_guarded_ite
  · exact soft_break_guarded_congr _ _ _ _
      (plus_decision_soft _ _ _ valid_symbols
        (by rw [advance_while_state, Scanner.advance_state]; exact h))
      (by rw [advance_while_open_blocks, Scanner.advance_open_blocks])
  · apply soft_break_guarded_of_not_opening <;> simp

theorem scan_tilde_soft (t : Scanner) (lexer : TSLexer) (valid_symbols : ValidSymbols)
    (h : has_flag t.state STATE_WAS_SOFT_LINE_BREAK = true) :
    soft_break_guarded t.open_blocks (t.scan_tilde lexer valid_symbols)
      ((clear_soft t).scan_tilde lexer valid_symbols) := by
  unfold Scanner.scan_tilde
  simp only [advance_while_clear_soft]
  apply soft_break_guarded_ite
  · exact soft_break_guarded_congr _ _ _ _
      (tilde_decision_soft _ _ _ valid_symbols (by rw [advance_while_state]; exact h))
      (advance_while_open_blocks _ _ _ _ _ _)
  · apply soft_break_guarded_of_not_opening <;> simp

theorem scan_hash_soft (t : Scanner) (lexer : TSLexer) (valid_symbols : ValidSymbols)
    (h : has_flag t.state STATE_WAS_SOFT_LINE_BREAK = true) :
    soft_break_guarded t.open_blocks (t.scan_hash lexer valid_symbols)
      ((clear_soft t).scan_hash lexer valid_symbols) := by
  unfold Scanner.scan_hash
  simp only [clear_soft_indentation, hash_loop_clear_soft]
  apply soft_break_guarded_ite
  · exact soft_break_guarded_congr _ _ _ _
      (hash_decision_soft _ _ _ (by rw [hash_loop_state]; exact h))
      (hash_loop_open_blocks _ _ _ _)
  · apply soft_break_guarded_of_not_opening <;> simp

theorem scan_equals_soft (t : Scanner) (lexer : TSLexer) (valid_symbols : ValidSymbols)
    (h : has_flag t.state STATE_WAS_SOFT_LINE_BREAK = true) :
    soft_break_guarded t.open_blocks (t.scan_equals lexer valid_symbols)
      ((clear_soft t).scan_equals lexer valid_symbols) := by
  unfold Scanner.scan_equals
  simp only [clear_soft_matched, clear_soft_open_blocks, advance_while_clear_soft]
  apply soft_break_guarded_ite
  · exact soft_break_guarded_congr _ _ _ _
      (equals_decision_soft _ _
        (by rw [advance_while_state, advance_while_state]; exact h))
      (by rw [advance_while_open_blocks, advance_while_open_blocks])
  · apply soft_break_guarded_of_not_opening <;> simp

theorem scan_digit_soft (t : Scanner) (lexer : TSLexer) (valid_symbols : ValidSymbols)
    (h : has_flag t.state STATE_WAS_SOFT_LINE_BREAK = true) :
    soft_break_guarded t.open_blocks (t.scan_digit lexer valid_symbols)
      ((clear_soft t).scan_digit lexer valid_symbols) := by
  unfold Scanner.scan_digit
  simp only [clear_soft_indentation, Scanner.advance_clear_soft, advance_while_clear_soft]
  apply soft_break_guarded_ite
  · apply soft_break_guarded_ite
    · apply soft_break_guarded_ite
      · exact soft_break_guarded_congr _ _ _ _
          (ordered_decision_soft _ _ _ _ _ _ valid_symbols
            (by
              rw [advance_while_state, Scanner.advance_state, advance_while_state,
                Scanner.advance_state]
              exact h))
          (by
            rw [advance_while_open_blocks, Scanner.advance_open_blocks,
              advance_while_open_blocks, Scanner.advance_open_blocks])
      · apply soft_break_guarded_of_not_opening <;> simp
    · apply soft_break_guarded_of_not_opening <;> simp
  · apply soft_break_guarded_of_not_opening <;> simp

theorem parse_star_soft (t : Scanner) (lexer : TSLexer) (valid_symbols : ValidSymbols)
    (h : has_flag t.state STATE_WAS_SOFT_LINE_BREAK = true) :
    soft_break_guarded t.open_blocks (t.parse_star lexer valid_symbols)
      ((clear_soft t).parse_star lexer valid_symbols) := by
  unfold Scanner.parse_star
  simp only [clear_soft_num_emphasis_delimiters_left, clear_soft_is_open,
    Scanner.advance_clear_soft, star_loop_clear_soft]
  apply soft_break_guarded_ite
  · apply soft_break_guarded_of_not_opening <;> simp [is_opening_token]
  · apply soft_break_guarded_ite
    · apply soft_break_guarded_of_not_opening <;> simp [is_opening_token]
    · exact soft_break_guarded_congr _ _ _ _
        (star_decision_soft _ _ _ valid_symbols
          (by rw [star_loop_state, Scanner.advance_state]; exact h))
        (by rw [star_loop_open_blocks, Scanner.advance_open_blocks])

theorem parse_underscore_soft (t : Scanner) (lexer : TSLexer) (valid_symbols : ValidSymbols)
    (h : has_flag t.state STATE_WAS_SOFT_LINE_BREAK = true) :
    soft_break_guarded t.open_blocks (t.parse_underscore lexer valid_symbols)
      ((clear_soft t).parse_underscore lexer valid_symbols) := by
  unfold Scanner.parse_underscore
  simp only [clear_soft_num_emphasis_delimiters_left, clear_soft_is_open,
    Scanner.advance_clear_soft, underscore_loop_clear_soft]
  apply soft_break_guarded_ite
  · apply soft_break_guarded_of_not_opening <;> simp [is_opening_token]
  · apply soft_break_guarded_ite
    · apply soft_break_guarded_of_not_opening <;> simp [is_opening_token]
    · exact soft_break_guarded_congr _ _ _ _
        (underscore_decision_soft _ _ _ valid_symbols
          (by rw [underscore_loop_state, Scanner.advance_state]; exact h))
        (by rw [underscore_loop_open_blocks, Scanner.advance_open_blocks])

theorem backtick_decision_soft (sym18 : TokenType) (t : Scanner) (lexer : TSLexer)
    (level : Nat) (valid_symbols : ValidSymbols)
    (h : has_flag t.state STATE_WAS_SOFT_LINE_BREAK = true) :
    soft_break_guarded t.open_blocks (t.backtick_decision sym18 lexer level valid_symbols)
      ((clear_soft t).backtick_decision sym18 lexer level valid_symbols) := by
  unfold Scanner.backtick_decision
  simp only [clear_soft_indentation, clear_soft_code_span_delimiter_length]
  apply soft_break_guarded_ite
  · apply soft_break_guarded_of_not_opening <;> simp [is_opening_token]
  · by_cases hf : (valid_symbols sym18 && decide (level ≥ 3)) = true
    · simp only [hf, if_true, info_string_loop_clear_soft, info_string_loop_state, h,
        clear_soft_soft, Bool.true_and, Bool.false_eq_true, if_false]
      apply soft_break_guarded_ite
      · exact soft_break_guarded_congr _ _ _ _ (soft_break_guarded_error _ _ _)
          (info_string_loop_open_blocks _ _ _)
      · exact soft_break_guarded_congr _ _ _ _ (code_span_decision_soft _ _ _ _)
          (info_string_loop_open_blocks _ _ _)
    · simp only [hf, Bool.false_eq_true, if_false, Bool.false_and]
      exact code_span_decision_soft _ _ _ _

theorem parse_backtick_soft (sym18 : TokenType) (t : Scanner) (lexer : TSLexer)
    (valid_symbols : ValidSymbols) (h : has_flag t.state STATE_WAS_SOFT_LINE_BREAK = true) :
    soft_break_guarded t.open_blocks (t.parse_backtick sym18 lexer valid_symbols)
      ((clear_soft t).parse_backtick sym18 lexer valid_symbols) := by
  unfold Scanner.parse_backtick
  simp only [advance_while_clear_soft]
  exact soft_break_guarded_congr _ _ _ _
    (backtick_decision_soft sym18 _ _ _ valid_symbols (by rw [advance_while_state]; exact h))
    (advance_while_open_blocks _ _ _ _ _ _)

/-! ## The classifier after a soft line break -/

theorem scan_switch_soft (sym18 : TokenType) (t : Scanner) (lexer : TSLexer)
    (valid_symbols : ValidSymbols) (h : has_flag t.state STATE_WAS_SOFT_LINE_BREAK = true) :
    soft_break_guarded t.open_blocks (t.scan_switch sym18 lexer valid_symbols)
      ((clear_soft t).scan_switch sym18 lexer valid_symbols) := by
  unfold Scanner.scan_switch
  dsimp only
  apply soft_break_guarded_ite
  · exact scan_blank_line_soft t lexer valid_symbols h
  apply soft_break_guarded_ite
  · exact parse_backtick_soft sym18 t lexer valid_symbols h
  apply soft_break_guarded_ite
  · exact parse_star_soft t lexer valid_symbols h
  apply soft_break_guarded_ite
  · exact parse_underscore_soft t lexer valid_symbols h
  apply soft_break_guarded_ite
  · exact scan_block_quote_soft t lexer valid_symbols h
  apply soft_break_guarded_ite
  · exact scan_tilde_soft t lexer valid_symbols h
  apply soft_break_guarded_ite
  · exact scan_hash_soft t lexer valid_symbols h
  apply soft_break_guarded_ite
  · exact scan_equals_soft t lexer valid_symbols h
  apply soft_break_guarded_ite
  · exact scan_plus_soft t lexer valid_symbols h
  apply soft_break_guarded_ite
  · exact scan_digit_soft t lexer valid_symbols h
  apply soft_break_guarded_ite
  · exact scan_minus_soft t lexer valid_symbols h
  · apply soft_break_guarded_of_not_opening <;> simp

/-- The classifier entered with the soft-break flag set: it is guarded in all
its branches but the one that opens an indented code block, which does not
look at the flag. -/
theorem scan_leaf_soft (sym18 : TokenType) (t : Scanner) (lexer : TSLexer)
    (valid_symbols : ValidSymbols) (h : has_flag t.state STATE_WAS_SOFT_LINE_BREAK = true) :
    soft_break_guarded t.open_blocks (t.scan_leaf sym18 lexer valid_symbols)
        ((clear_soft t).scan_leaf sym18 lexer valid_symbols) ∨
    (token_of (some (t.scan_leaf sym18 lexer valid_symbols)) = some INDENTED_CHUNK_START ∧
      (t.scan_leaf sym18 lexer valid_symbols).2.1.open_blocks
        = t.open_blocks ++ [INDENTED_CODE_BLOCK] ∧
      token_of (some ((clear_soft t).scan_leaf sym18 lexer valid_symbols))
        = some INDENTED_CHUNK_START) := by
  by_cases hc : (valid_symbols INDENTED_CHUNK_START && !valid_symbols NO_INDENTED_CHUNK &&
      decide (t.indentation ≥ 4) && lexer.lookahead != 10 && lexer.lookahead != 13) = true
  · right
    unfold Scanner.scan_leaf
    simp only [clear_soft_indentation, hc, if_true]
    refine ⟨?_, ?_, ?_⟩ <;> first | rfl | trivial
  · left
    unfold Scanner.scan_leaf
    simp only [clear_soft_indentation, hc, if_false]
    exact scan_switch_soft sym18 t lexer valid_symbols h

/-! ## The matching branch leaves the stack alone or pops it -/

theorem match_open_blocks (s : Scanner) (lexer : TSLexer) (block : Block)
    (r : Bool × Scanner × TSLexer) (h : s.match_ lexer block = some r) :
    r.2.1.open_blocks = s.open_blocks := by
  unfold Scanner.match_ at h
  by_cases h1 : block = INDENTED_CODE_BLOCK
  · simp only [h1, if_true] at h
    split_ifs at h <;>
      (simp only [Option.some.injEq] at h
       rw [← h])
  · simp only [h1, if_false] at h
    by_cases h2 : LIST_ITEM ≤ block ∧ block ≤ LIST_ITEM + 15
    · simp only [h2, and_self, if_true] at h
      split at h
      · exact absurd h (by simp)
      · split_ifs at h <;>
          (simp only [Option.some.injEq] at h
           rw [← h])
    · simp only [h2, if_false] at h
      by_cases h3 : block = BLOCK_QUOTE
      · simp only [h3, if_true] at h
        by_cases h4 : lexer.lookahead = 62
        · simp only [h4, if_true] at h
          split_ifs at h <;>
            (simp only [Option.some.injEq] at h
             rw [← h]
             rfl)
        · simp only [h4, if_false, Option.some.injEq] at h
          rw [← h]
      · simp only [h3, if_false] at h
        split_ifs at h <;>
          (simp only [Option.some.injEq] at h
           rw [← h])

theorem match_loop_open_blocks :
    ∀ (fuel : Nat) (s : Scanner) (lexer : TSLexer) (part_success : Bool)
      (r : Scanner × TSLexer × Bool),
      match_loop fuel s lexer part_success = some r → r.1.open_blocks = s.open_blocks := by
  intro fuel
  induction fuel with
  | zero =>
    intro s lexer ps r h
    simp only [match_loop, Option.some.injEq] at h
    rw [← h]
  | succ f ih =>
    intro s lexer ps r h
    simp only [match_loop] at h
    split at h
    · split at h
      · simp only [Option.some.injEq] at h
        rw [← h]
        split <;> rfl
      · split at h
        · exact absurd h (by simp)
        · split at h
          · simp only [Option.some.injEq] at h
            rw [← h]
          · split at h
            · exact absurd h (by simp)
            · rename_i s2 l2 hm
              simp only [Option.some.injEq] at h
              rw [← h]
              exact match_open_blocks _ _ _ _ hm
            · rename_i s2 l2 hm
              have hob := match_open_blocks _ _ _ _ hm
              simp only at hob
              split at h
              · exact absurd h (by simp)
              · split at h
                · simp only [Option.some.injEq] at h
                  rw [← h]
                  exact hob
                · rw [ih _ _ _ _ h]
                  exact hob
    · simp only [Option.some.injEq] at h
      rw [← h]

/-- The tokens of the matching branch are continuations, split tokens, block
closes and soft line breaks, and the branch leaves the stack of open
blocks alone or pops its top. -/
theorem scan_matching_frame (s : Scanner) (lexer : TSLexer) (valid_symbols : ValidSymbols)
    (r : Bool × Scanner × TSLexer) (h : s.scan_matching lexer valid_symbols = some r) :
    (∀ tok, token_of (some r) = some tok → is_opening_token tok = false) ∧
      (r.2.1.open_blocks = s.open_blocks ∨ r.2.1.open_blocks = s.open_blocks.dropLast) := by
  unfold Scanner.scan_matching at h
  split at h
  · exact absurd h (by simp)
  · rename_i s2 l2 ps hm
    have hob := match_loop_open_blocks _ _ _ _ _ hm
    simp only at hob
    dsimp only at h
    split at h
    · split at h
      · exact absurd h (by simp)
      · split at h <;>
          (simp only [Option.some.injEq] at h
           rw [← h]
           refine ⟨?_, Or.inl ?_⟩
           · simp [token_of, is_opening_token, TSLexer.set_result]
           · rw [← hob]
             dsimp only
             split <;> rfl)
    · split at h
      · simp only [Option.some.injEq] at h
        rw [← h]
        refine ⟨?_, Or.inl ?_⟩
        · simp [token_of, is_opening_token, TSLexer.set_result]
        · exact hob
      · split at h
        · split at h
          · exact absurd h (by simp)
          · simp only [Option.some.injEq] at h
            rw [← h]
            refine ⟨?_, Or.inr ?_⟩
            · dsimp only
              split <;> simp [token_of, is_opening_token, TSLexer.set_result, TSLexer.mark_end]
            · rw [← hob]
              dsimp only
              split <;> split <;> rfl
        · simp only [Option.some.injEq] at h
          rw [← h]
          refine ⟨?_, Or.inl ?_⟩
          · simp [token_of, is_opening_token, TSLexer.set_result]
          · exact hob

/-! ## The steps of `scan` before the classifier and the soft-break flag -/

theorem after_split_tokens_clear_soft (t : Scanner) (valid_symbols : ValidSymbols) :
    (clear_soft t).after_split_tokens valid_symbols
      = clear_soft (t.after_split_tokens valid_symbols) := by
  unfold Scanner.after_split_tokens clear_soft
  have h1 : t.state &&& not16 STATE_WAS_SOFT_LINE_BREAK &&& STATE_SPLIT_TOKEN_COUNT
      = t.state &&& STATE_SPLIT_TOKEN_COUNT := by
    rw [Nat.and_assoc]
    congr 1
  have h2 : t.state &&& not16 STATE_WAS_SOFT_LINE_BREAK &&& not16 STATE_MATCHING
      = t.state &&& not16 STATE_MATCHING &&& not16 STATE_WAS_SOFT_LINE_BREAK := by
    rw [Nat.and_assoc, Nat.and_assoc]
    congr 1
  simp only [h1, h2]
  split <;> rfl

theorem after_split_tokens_open_blocks (t : Scanner) (valid_symbols : ValidSymbols) :
    (t.after_split_tokens valid_symbols).open_blocks = t.open_blocks := by
  unfold Scanner.after_split_tokens
  dsimp only
  split <;> rfl

theorem after_split_tokens_soft (t : Scanner) (valid_symbols : ValidSymbols) :
    has_flag (t.after_split_tokens valid_symbols).state STATE_WAS_SOFT_LINE_BREAK
      = has_flag t.state STATE_WAS_SOFT_LINE_BREAK := by
  unfold Scanner.after_split_tokens
  dsimp only
  split
  · exact has_flag_clear_matching_soft t.state
  · rfl

theorem skip_whitespace_clear_soft (t : Scanner) (lexer : TSLexer) :
    (clear_soft t).skip_whitespace lexer
      = (clear_soft (t.skip_whitespace lexer).1, (t.skip_whitespace lexer).2) := by
  unfold Scanner.skip_whitespace
  simp only [advance_while_clear_soft]
  rfl

theorem skip_whitespace_open_blocks (t : Scanner) (lexer : TSLexer) :
    (t.skip_whitespace lexer).1.open_blocks = t.open_blocks := by
  unfold Scanner.skip_whitespace
  simp only [advance_while_open_blocks]

theorem skip_whitespace_state (t : Scanner) (lexer : TSLexer) :
    (t.skip_whitespace lexer).1.state = t.state := by
  unfold Scanner.skip_whitespace
  simp only [advance_while_state]

/-! ## An invocation entered with the soft-break flag set -/

/-- An invocation entered with the soft-break flag set returns no opening
token, and it leaves the stack of open blocks alone, pops its top, or
pushes an indented code block with the token `INDENTED_CHUNK_START`. -/
theorem scan_soft_result (sym18 : TokenType) (t : Scanner) (lexer : TSLexer)
    (valid_symbols : ValidSymbols) (h : has_flag t.state STATE_WAS_SOFT_LINE_BREAK = true)
    (r : Bool × Scanner × TSLexer) (hr : t.scan sym18 lexer valid_symbols = some r) :
    (∀ tok, token_of (some r) = some tok → is_opening_token tok = false) ∧
      (r.2.1.open_blocks = t.open_blocks ∨ r.2.1.open_blocks = t.open_blocks.dropLast ∨
        (token_of (some r) = some INDENTED_CHUNK_START ∧
          r.2.1.open_blocks = t.open_blocks ++ [INDENTED_CODE_BLOCK])) := by
  have h1ob := after_split_tokens_open_blocks t valid_symbols
  have h1s := after_split_tokens_soft t valid_symbols
  rw [h] at h1s
  unfold Scanner.scan at hr
  dsimp only at hr
  generalize t.after_split_tokens valid_symbols = t1 at hr h1ob h1s
  have h2ob := skip_whitespace_open_blocks t1 lexer
  have h2s := skip_whitespace_state t1 lexer
  generalize t1.skip_whitespace lexer = w at hr h2ob h2s
  rw [← h2s] at h1s
  rw [← h1ob, ← h2ob]
  split at hr
  · simp only [Option.some.injEq] at hr
    rw [← hr]
    refine ⟨?_, Or.inl ?_⟩
    · simp [token_of, is_opening_token, TSLexer.set_result, Scanner.error]
    · rw [h2ob, h1ob]
      rfl
  split at hr
  · split at hr <;>
      (simp only [Option.some.injEq] at hr
       rw [← hr]
       refine ⟨?_, Or.inl ?_⟩
       · simp [token_of, is_opening_token, TSLexer.set_result, Scanner.error]
       · rw [h2ob]
         first
           | rfl
           | (dsimp only
              split <;> rfl))
  split at hr
  · rw [h2s] at h1s
    simp only [h1s, if_true, Option.some.injEq] at hr
    rw [← hr]
    refine ⟨?_, Or.inl ?_⟩
    · simp [token_of, is_opening_token, TSLexer.set_result, Scanner.error]
    · rw [h2ob]
      rfl
  split at hr
  · simp only [Option.some.injEq] at hr
    rw [← hr]
    refine ⟨?_, Or.inl ?_⟩
    · simp [token_of, is_opening_token, TSLexer.set_result]
    · rw [h2ob]
  split at hr
  · split at hr <;>
      (simp only [Option.some.injEq] at hr
       rw [← hr])
    · refine ⟨?_, Or.inr (Or.inl rfl)⟩
      simp [token_of, is_opening_token, TSLexer.set_result]
    · refine ⟨?_, Or.inl rfl⟩
      simp [token_of]
  split at hr
  · simp only [Option.some.injEq] at hr
    rw [← hr]
    rcases scan_leaf_soft sym18 w.1 w.2 valid_symbols h1s with hg | hc
    · exact ⟨hg.1, Or.inl hg.2.1⟩
    · refine ⟨?_, Or.inr (Or.inr ⟨hc.1, hc.2.1⟩)⟩
      intro tok htok
      rw [hc.1] at htok
      simp only [Option.some.injEq] at htok
      rw [← htok]
      rfl
  · have hm := scan_matching_frame _ _ _ _ hr
    refine ⟨hm.1, ?_⟩
    rcases hm.2 with ho | ho
    · exact Or.inl ho
    · exact Or.inr (Or.inl ho)

/-- Where the invocation with the flag cleared returns an opening token, the
invocation with the flag set returns the error token and leaves the stack
of open blocks as it is. -/
theorem scan_soft_error (sym18 : TokenType) (t : Scanner) (lexer : TSLexer)
    (valid_symbols : ValidSymbols) (h : has_flag t.state STATE_WAS_SOFT_LINE_BREAK = true)
    (r0 : Bool × Scanner × TSLexer) (tok : TokenType)
    (h0 : (clear_soft t).scan sym18 lexer valid_symbols = some r0)
    (htok : token_of (some r0) = some tok) (hopen : is_opening_token tok = true) :
    ∃ t2 l2, t.scan sym18 lexer valid_symbols = some (true, t2, l2) ∧
      l2.result_symbol = some ERROR ∧ t2.open_blocks = t.open_blocks := by
  have h1ob := after_split_tokens_open_blocks t valid_symbols
  have h1s := after_split_tokens_soft t valid_symbols
  rw [h] at h1s
  unfold Scanner.scan at h0 ⊢
  rw [after_split_tokens_clear_soft] at h0
  dsimp only at h0 ⊢
  rw [skip_whitespace_clear_soft] at h0
  generalize t.after_split_tokens valid_symbols = t1 at h0 h1ob h1s ⊢
  have h2ob := skip_whitespace_open_blocks t1 lexer
  have h2s := skip_whitespace_state t1 lexer
  generalize t1.skip_whitespace lexer = w at h0 h2ob h2s ⊢
  have hw := h1s
  rw [← h2s] at hw
  have hno : ∀ x : Bool × Scanner × TSLexer, some x = some r0 →
      (∀ k, token_of (some x) = some k → is_opening_token k = false) → False := by
    intro x hx hk
    simp only [Option.some.injEq] at hx
    rw [← hx] at htok
    rw [hk tok htok] at hopen
    exact absurd hopen (by decide)
  by_cases hT : valid_symbols TRIGGER_ERROR = true
  · simp only [hT, if_true] at h0
    exact (hno _ h0 (by simp [token_of, is_opening_token, TSLexer.set_result,
      Scanner.error])).elim
  simp only [hT, Bool.false_eq_true, if_false] at h0 ⊢
  by_cases hL : valid_symbols LINE_ENDING = true
  · simp only [hL, if_true] at h0
    by_cases hN : has_flag (clear_soft t1).state STATE_NEED_OPEN_BLOCK = true
    · simp only [hN, if_true] at h0
      exact (hno _ h0 (by simp [token_of, is_opening_token, TSLexer.set_result,
        Scanner.error])).elim
    · simp only [hN, Bool.false_eq_true, if_false] at h0
      exact (hno _ h0 (by simp [token_of, is_opening_token, TSLexer.set_result])).elim
  simp only [hL, Bool.false_eq_true, if_false] at h0 ⊢
  by_cases hO : (valid_symbols OPEN_BLOCK ||
      valid_symbols OPEN_BLOCK_DONT_INTERRUPT_PARAGRAPH) = true
  · simp only [hO, h1s, if_true]
    exact ⟨_, _, rfl, rfl, h1ob⟩
  simp only [hO, Bool.false_eq_true, if_false] at h0 ⊢
  by_cases hC : valid_symbols CLOSE_BLOCK = true
  · simp only [hC, if_true] at h0
    exact (hno _ h0 (by simp [token_of, is_opening_token, TSLexer.set_result])).elim
  simp only [hC, Bool.false_eq_true, if_false] at h0 ⊢
  by_cases hE : w.2.eof = true
  · simp only [hE, if_true] at h0
    split at h0
    · exact (hno _ h0 (by simp [token_of, is_opening_token, TSLexer.set_result])).elim
    · exact (hno _ h0 (by simp [token_of])).elim
  simp only [hE, Bool.false_eq_true, if_false, clear_soft_matching] at h0 ⊢
  by_cases hM : (!has_flag w.1.state STATE_MATCHING) = true
  · simp only [hM, if_true] at h0 ⊢
    rcases scan_leaf_soft sym18 w.1 w.2 valid_symbols hw with hg | hc
    · simp only [Option.some.injEq] at h0
      rw [← h0] at htok
      have he := hg.2.2 tok htok hopen
      refine ⟨(w.1.scan_leaf sym18 w.2 valid_symbols).2.1,
        (w.1.scan_leaf sym18 w.2 valid_symbols).2.2, ?_, he.2, ?_⟩
      · rw [← he.1]
      · rw [hg.2.1, h2ob, h1ob]
    · refine (hno _ h0 ?_).elim
      intro k hk
      rw [hc.2.2] at hk
      simp only [Option.some.injEq] at hk
      rw [← hk]
      rfl
  · simp only [hM, Bool.false_eq_true, if_false] at h0
    have hm := scan_matching_frame _ _ _ _ h0
    rw [hm.1 tok htok] at hopen
    exact absurd hopen (by decide)

/-! ## C9: what the soft-break flag forbids -/

/-- C9: the start of an indented code block is the one opening path of `scan`
that does not test the soft-break flag (scan.cpp 90-98), against the
docstring of `error` in scanner.h and every other opening path.  From the
initial state, a line ending with the soft-line-break token a candidate
enters matching mode; the next invocation, on the line `    x`, consumes
the four spaces and returns the soft-line-break token, which sets the
soft-break flag; the invocation after it, with the indented-chunk token a
candidate, returns that token, not the error token, and pushes an indented
code block. -/
theorem C9_indented_chunk_after_soft_break :
    ∃ s1 l1 s2 l2 s3 l3,
      Scanner.initial.scan (OTHER 0) (TSLexer.start [10, 32, 32, 32, 32, 120])
          (valid_of [LINE_ENDING, SOFT_LINE_BREAK_MARKER]) = some (true, s1, l1) ∧
      l1.result_symbol = some LINE_ENDING ∧
      s1.scan (OTHER 0) (TSLexer.start [32, 32, 32, 32, 120])
          (valid_of [SOFT_LINE_BREAK_MARKER]) = some (true, s2, l2) ∧
      l2.result_symbol = some SOFT_LINE_BREAK_MARKER ∧
      rest_after [32, 32, 32, 32, 120] l2 = [120] ∧
      has_flag s2.state STATE_WAS_SOFT_LINE_BREAK = true ∧
      s2.scan (OTHER 0) (TSLexer.start (rest_after [32, 32, 32, 32, 120] l2))
          (valid_of [INDENTED_CHUNK_START]) = some (true, s3, l3) ∧
      l3.result_symbol = some INDENTED_CHUNK_START ∧
      l3.result_symbol ≠ some ERROR ∧
      s3.open_blocks = s2.open_blocks ++ [INDENTED_CODE_BLOCK] ∧
      s3.open_blocks ≠ s2.open_blocks :=
  ⟨{ Scanner.initial with state := 1 },
   { input := [10, 32, 32, 32, 32, 120], position := 0, token_end := none,
     result_symbol := some LINE_ENDING },
   { Scanner.initial with state := 2, indentation := 4, column := 4 },
   { input := [120], position := 4, token_end := none,
     result_symbol := some SOFT_LINE_BREAK_MARKER },
   { Scanner.initial with open_blocks := [1], state := 2, column := 4 },
   { input := [120], position := 0, token_end := none,
     result_symbol := some INDENTED_CHUNK_START },
   rfl, rfl, rfl, rfl, rfl, rfl, rfl, rfl, by decide, rfl, by decide⟩

/-- The opening paths that do test the soft-break flag.  For every invocation
of `scan` entered with the flag set, (1) whatever the invocation returns, its
token is never the opening token of a block quote, fenced code block, ATX
heading, setext underline, thematic break, list marker, blank line or
anonymous block, and the stack of open blocks is left alone, loses its top,
or gains the indented code block of the path that misses the test; and (2)
whenever the same invocation entered with the flag cleared returns one of
these opening tokens, the invocation with the flag set returns the error
token and pushes no block. -/
theorem soft_break_guard (sym18 : TokenType) (t : Scanner) (lexer : TSLexer)
    (valid_symbols : ValidSymbols) (h : has_flag t.state STATE_WAS_SOFT_LINE_BREAK = true) :
    (∀ r, t.scan sym18 lexer valid_symbols = some r →
      (∀ tok, token_of (some r) = some tok → is_opening_token tok = false) ∧
      (r.2.1.open_blocks = t.open_blocks ∨ r.2.1.open_blocks = t.open_blocks.dropLast ∨
        (token_of (some r) = some INDENTED_CHUNK_START ∧
          r.2.1.open_blocks = t.open_blocks ++ [INDENTED_CODE_BLOCK]))) ∧
    (∀ r0 tok, (clear_soft t).scan sym18 lexer valid_symbols = some r0 →
      token_of (some r0) = some tok → is_opening_token tok = true →
      ∃ t2 l2, t.scan sym18 lexer valid_symbols = some (true, t2, l2) ∧
        l2.result_symbol = some ERROR ∧ t2.open_blocks = t.open_blocks) :=
  ⟨fun r hr => scan_soft_result sym18 t lexer valid_symbols h r hr,
   fun r0 tok h0 htok hopen =>
     scan_soft_error sym18 t lexer valid_symbols h r0 tok h0 htok hopen⟩

/-- The line `> x` after a soft line break: with the flag cleared the
invocation returns the block quote start, so with the flag set it returns
the error token and pushes nothing. -/
theorem soft_break_guard_block_quote :
    has_flag scanner_after_soft_break.state STATE_WAS_SOFT_LINE_BREAK = true ∧
    token_of ((clear_soft scanner_after_soft_break).scan (OTHER 0)
      (TSLexer.start [62, 32, 120]) (valid_of [BLOCK_QUOTE_START])) = some BLOCK_QUOTE_START ∧
    is_opening_token BLOCK_QUOTE_START = true ∧
    ∃ t2 l2, scanner_after_soft_break.scan (OTHER 0) (TSLexer.start [62, 32, 120])
        (valid_of [BLOCK_QUOTE_START]) = some (true, t2, l2) ∧
      l2.result_symbol = some ERROR ∧ t2.open_blocks = scanner_after_soft_break.open_blocks :=
  ⟨by decide, by decide, by decide,
    (soft_break_guard (OTHER 0) scanner_after_soft_break (TSLexer.start [62, 32, 120])
      (valid_of [BLOCK_QUOTE_START]) (by decide)).2
      (true, { Scanner.initial with open_blocks := [BLOCK_QUOTE], column := 2 },
        { input := [120], position := 2, token_end := none,
          result_symbol := some BLOCK_QUOTE_START })
      BLOCK_QUOTE_START (by decide) (by decide) (by decide)⟩

/-! ## The column counter -/

/-- C14: `advance` over a tab returns `4 - column % 4`, a width between 1 and
4, and leaves `column` at a multiple of 4 below 256, also when the 8-bit
counter wraps; over any other character it returns 1 and `column` becomes
`(column + 1) % 256`.  In both cases nothing but `column` changes in the
scanner and the lexer moves on by one character. -/
theorem C14_advance_column (s : Scanner) (lexer : TSLexer) :
    (lexer.lookahead = 9 →
      (s.advance lexer).1 = 4 - s.column % 4 ∧
      1 ≤ (s.advance lexer).1 ∧ (s.advance lexer).1 ≤ 4 ∧
      (s.advance lexer).2.1.column % 4 = 0 ∧ (s.advance lexer).2.1.column < 256) ∧
    (lexer.lookahead ≠ 9 →
      (s.advance lexer).1 = 1 ∧ (s.advance lexer).2.1.column = (s.column + 1) % 256) ∧
    (s.advance lexer).2.1 = { s with column := (s.advance lexer).2.1.column } ∧
    (s.advance lexer).2.2 = lexer.advance := by
  refine ⟨?_, ?_, rfl, rfl⟩
  · intro h
    simp only [Scanner.advance, h, if_true]
    split <;> omega
  · intro h
    simp only [Scanner.advance, h, if_false]
    exact ⟨trivial, trivial⟩

/-! ## The requests served before the input is looked at -/

/-- C15: with the trigger-error token a candidate, `scan` returns the error
token whatever the input and the other candidates are; the scanner state is
returned as it was and the lexer has consumed nothing (only its result
symbol is set). -/
theorem C15_trigger_error (sym18 : TokenType) (s : Scanner) (lexer : TSLexer)
    (valid_symbols : ValidSymbols) (h : valid_symbols TRIGGER_ERROR = true) :
    ∃ l, s.scan sym18 lexer valid_symbols = some (true, s, l) ∧
      l.result_symbol = some ERROR ∧ l.input = lexer.input ∧
      l.position = lexer.position ∧ l.token_end = lexer.token_end := by
  refine ⟨lexer.set_result ERROR, ?_, rfl, rfl, rfl, rfl⟩
  unfold Scanner.scan
  simp only [h, if_true]
  rfl

theorem C15_trigger_error_witness :
    valid_of [TRIGGER_ERROR, LIST_MARKER_MINUS] TRIGGER_ERROR = true ∧
    ∃ l, scanner_three_blocks.scan (OTHER 0) (TSLexer.start [45, 32, 120])
        (valid_of [TRIGGER_ERROR, LIST_MARKER_MINUS]) = some (true, scanner_three_blocks, l) ∧
      l.result_symbol = some ERROR ∧ l.input = (TSLexer.start [45, 32, 120]).input ∧
      l.position = (TSLexer.start [45, 32, 120]).position ∧
      l.token_end = (TSLexer.start [45, 32, 120]).token_end :=
  ⟨by decide, C15_trigger_error (OTHER 0) scanner_three_blocks (TSLexer.start [45, 32, 120])
    (valid_of [TRIGGER_ERROR, LIST_MARKER_MINUS]) (by decide)⟩
/-! ## More flag arithmetic -/

theorem and_low16 (f : Nat) (hf : f < 65536) : 65535 &&& f = f := by
  rw [Nat.and_comm]
  have h : f &&& 65535 = f % 2 ^ 16 := Nat.and_pow_two_sub_one_eq_mod f 16
  rw [h]
  exact Nat.mod_eq_of_lt hf

/-- Narrowing to 16 bits does not change what a flag below `2 ^ 16` selects. -/
theorem mod_and_flag (x f : Nat) (hf : f < 65536) : x % 65536 &&& f = x &&& f := by
  have h : x % 65536 = x &&& 65535 := (Nat.and_pow_two_sub_one_eq_mod x 16).symm
  rw [h, Nat.and_assoc, and_low16 f hf]

theorem has_flag_mod (x f : Nat) (hf : f < 65536) :
    has_flag (x % 65536) f = has_flag x f := by
  unfold has_flag
  rw [mod_and_flag x f hf]

/-- The flag word that the line-ending branch of `Scanner::scan` leaves when
it sets the matching flag, as seen through a mask `f`. -/
theorem line_ending_state_set (st f : Nat) (hf : f < 65536) :
    (st ||| STATE_MATCHING) % 65536 &&&
        (not16 STATE_WAS_SOFT_LINE_BREAK &&& not16 STATE_SPLIT_TOKEN_COUNT &&&
          not16 STATE_NEED_OPEN_BLOCK &&& not16 STATE_JUST_CLOSED) &&& f
      = (st &&& (64669 &&& f)) ||| (1 &&& (64669 &&& f)) := by
  have hm : not16 STATE_WAS_SOFT_LINE_BREAK &&& not16 STATE_SPLIT_TOKEN_COUNT &&&
      not16 STATE_NEED_OPEN_BLOCK &&& not16 STATE_JUST_CLOSED = 64669 := by decide
  have h1 : STATE_MATCHING = 1 := by decide
  have hlt : 64669 &&& f < 65536 := lt_of_le_of_lt Nat.and_le_right hf
  rw [hm, Nat.and_assoc, mod_and_flag _ _ hlt, Nat.and_distrib_right, h1]

/-- The flag word that the line-ending branch of `Scanner::scan` leaves when
it clears the matching flag, as seen through a mask `f`. -/
theorem line_ending_state_clear (st f : Nat) :
    st &&& not16 STATE_MATCHING &&&
        (not16 STATE_WAS_SOFT_LINE_BREAK &&& not16 STATE_SPLIT_TOKEN_COUNT &&&
          not16 STATE_NEED_OPEN_BLOCK &&& not16 STATE_JUST_CLOSED) &&& f
      = st &&& (64668 &&& f) := by
  have hm : not16 STATE_WAS_SOFT_LINE_BREAK &&& not16 STATE_SPLIT_TOKEN_COUNT &&&
      not16 STATE_NEED_OPEN_BLOCK &&& not16 STATE_JUST_CLOSED = 64669 := by decide
  have hm1 : not16 STATE_MATCHING &&& 64669 = 64668 := by decide
  rw [hm, Nat.and_assoc, Nat.and_assoc, ← Nat.and_assoc (not16 STATE_MATCHING), hm1]

theorem and_one_or_one (x : Nat) : x &&& 1 ||| 1 = 1 := by
  rw [Nat.and_one_is_mod]
  rcases Nat.mod_two_eq_zero_or_one x with h | h <;> rw [h] <;> rfl

/-- The first step of `scan` can only clear the matching flag. -/
theorem after_split_tokens_and (s : Scanner) (valid_symbols : ValidSymbols) (f : Nat)
    (hf : not16 STATE_MATCHING &&& f = f) :
    (s.after_split_tokens valid_symbols).state &&& f = s.state &&& f := by
  unfold Scanner.after_split_tokens
  dsimp only
  split
  · dsimp only
    rw [Nat.and_assoc, hf]
  · rfl

theorem after_split_tokens_frame (s : Scanner) (valid_symbols : ValidSymbols) :
    s.after_split_tokens valid_symbols
      = { s with state := (s.after_split_tokens valid_symbols).state } := by
  unfold Scanner.after_split_tokens
  dsimp only
  split <;> rfl

/-- C16: with the line-ending token a candidate and the trigger-error token
not: if the flag `STATE_NEED_OPEN_BLOCK` is set, `scan` returns the error
token; otherwise it returns the line-ending token with the lexer where it
was, `matched`, `indentation` and `column` are 0, the soft-line-break,
split-count, need-open-block and just-closed flags are clear, the matching
flag is set exactly when the stack is not empty or the soft-line-break token
is a candidate, and the stack, the close-block flag, the delimiter length
and the emphasis fields (the counter and the two groups of bits in the flag
word) are as before. -/
theorem C16_line_ending (sym18 : TokenType) (s : Scanner) (lexer : TSLexer)
    (valid_symbols : ValidSymbols) (hT : valid_symbols TRIGGER_ERROR = false)
    (hL : valid_symbols LINE_ENDING = true) :
    (has_flag s.state STATE_NEED_OPEN_BLOCK = true →
      ∃ s2, s.scan sym18 lexer valid_symbols = some (true, s2, lexer.set_result ERROR)) ∧
    (has_flag s.state STATE_NEED_OPEN_BLOCK = false →
      ∃ s2, s.scan sym18 lexer valid_symbols = some (true, s2, lexer.set_result LINE_ENDING) ∧
        s2.matched = 0 ∧ s2.indentation = 0 ∧ s2.column = 0 ∧
        has_flag s2.state STATE_WAS_SOFT_LINE_BREAK = false ∧
        s2.state &&& STATE_SPLIT_TOKEN_COUNT = 0 ∧
        has_flag s2.state STATE_NEED_OPEN_BLOCK = false ∧
        has_flag s2.state STATE_JUST_CLOSED = false ∧
        has_flag s2.state STATE_MATCHING
          = (valid_symbols SOFT_LINE_BREAK_MARKER || decide (s.open_blocks.length > 0)) ∧
        s2.open_blocks = s.open_blocks ∧
        has_flag s2.state STATE_CLOSE_BLOCK = has_flag s.state STATE_CLOSE_BLOCK ∧
        s2.code_span_delimiter_length = s.code_span_delimiter_length ∧
        s2.num_emphasis_delimiters_left = s.num_emphasis_delimiters_left ∧
        s2.state &&& STATE_EMPHASIS_DELIMITER_MOD_3
          = s.state &&& STATE_EMPHASIS_DELIMITER_MOD_3 ∧
        has_flag s2.state STATE_EMPHASIS_DELIMITER_IS_OPEN
          = has_flag s.state STATE_EMPHASIS_DELIMITER_IS_OPEN) := by
  have hneed : has_flag (s.after_split_tokens valid_symbols).state STATE_NEED_OPEN_BLOCK
      = has_flag s.state STATE_NEED_OPEN_BLOCK := by
    unfold has_flag
    rw [after_split_tokens_and s valid_symbols _ (by decide)]
  have hframe := after_split_tokens_frame s valid_symbols
  have hand := after_split_tokens_and s valid_symbols
  unfold Scanner.scan
  simp only [hT, hL, Bool.false_eq_true, if_false, if_true, hneed]
  generalize (s.after_split_tokens valid_symbols) = t at hframe hand
  rw [hframe]
  generalize t.state = st1 at hand
  constructor
  · intro h
    simp only [h, if_true]
    exact ⟨_, rfl⟩
  · intro h
    simp only [h, Bool.false_eq_true, if_false]
    refine ⟨_, rfl, ?_⟩
    generalize (valid_symbols SOFT_LINE_BREAK_MARKER || decide (s.open_blocks.length > 0)) = b
    cases b
    · simp only [Bool.false_eq_true, if_false]
      refine ⟨by trivial, by trivial, by trivial, ?_, ?_, ?_, ?_, ?_, by trivial, ?_,
        by trivial, by trivial, ?_, ?_⟩
      · unfold has_flag
        rw [line_ending_state_clear, (by decide : 64668 &&& STATE_WAS_SOFT_LINE_BREAK = 0)]
        simp
      · rw [line_ending_state_clear, (by decide : 64668 &&& STATE_SPLIT_TOKEN_COUNT = 0)]
        simp
      · unfold has_flag
        rw [line_ending_state_clear, (by decide : 64668 &&& STATE_NEED_OPEN_BLOCK = 0)]
        simp
      · unfold has_flag
        rw [line_ending_state_clear, (by decide : 64668 &&& STATE_JUST_CLOSED = 0)]
        simp
      · unfold has_flag
        rw [line_ending_state_clear, (by decide : 64668 &&& STATE_MATCHING = 0)]
        simp
      · unfold has_flag
        rw [line_ending_state_clear,
          (by decide : 64668 &&& STATE_CLOSE_BLOCK = STATE_CLOSE_BLOCK), hand _ (by decide)]
      · rw [line_ending_state_clear, (by decide : 64668 &&& STATE_EMPHASIS_DELIMITER_MOD_3
          = STATE_EMPHASIS_DELIMITER_MOD_3), hand _ (by decide)]
      · unfold has_flag
        rw [line_ending_state_clear, (by decide : 64668 &&& STATE_EMPHASIS_DELIMITER_IS_OPEN
          = STATE_EMPHASIS_DELIMITER_IS_OPEN), hand _ (by decide)]
    · simp only [if_true]
      refine ⟨by trivial, by trivial, by trivial, ?_, ?_, ?_, ?_, ?_, by trivial, ?_,
        by trivial, by trivial, ?_, ?_⟩
      · unfold has_flag
        rw [line_ending_state_set _ _ (by decide),
          (by decide : 64669 &&& STATE_WAS_SOFT_LINE_BREAK = 0)]
        simp
      · rw [line_ending_state_set _ _ (by decide),
          (by decide : 64669 &&& STATE_SPLIT_TOKEN_COUNT = 0)]
        simp
      · unfold has_flag
        rw [line_ending_state_set _ _ (by decide),
          (by decide : 64669 &&& STATE_NEED_OPEN_BLOCK = 0)]
        simp
      · unfold has_flag
        rw [line_ending_state_set _ _ (by decide), (by decide : 64669 &&& STATE_JUST_CLOSED = 0)]
        simp
      · unfold has_flag
        rw [line_ending_state_set _ _ (by decide), (by decide : 64669 &&& STATE_MATCHING = 1),
          (by decide : 1 &&& 1 = 1), and_one_or_one]
        simp
      · unfold has_flag
        rw [line_ending_state_set _ _ (by decide),
          (by decide : 64669 &&& STATE_CLOSE_BLOCK = STATE_CLOSE_BLOCK),
          (by decide : 1 &&& STATE_CLOSE_BLOCK = 0), Nat.or_zero, hand _ (by decide)]
      · rw [line_ending_state_set _ _ (by decide),
          (by decide : 64669 &&& STATE_EMPHASIS_DELIMITER_MOD_3 = STATE_EMPHASIS_DELIMITER_MOD_3),
          (by decide : 1 &&& STATE_EMPHASIS_DELIMITER_MOD_3 = 0), Nat.or_zero, hand _ (by decide)]
      · unfold has_flag
        rw [line_ending_state_set _ _ (by decide),
          (by decide : 64669 &&& STATE_EMPHASIS_DELIMITER_IS_OPEN
            = STATE_EMPHASIS_DELIMITER_IS_OPEN),
          (by decide : 1 &&& STATE_EMPHASIS_DELIMITER_IS_OPEN = 0), Nat.or_zero,
          hand _ (by decide)]

/-- C16 at a state with three open blocks and the close-block and just-closed
flags set, the line-ending token being the only candidate. -/
theorem C16_line_ending_witness :
    valid_of [LINE_ENDING] TRIGGER_ERROR = false ∧ valid_of [LINE_ENDING] LINE_ENDING = true ∧
    has_flag scanner_three_blocks.state STATE_NEED_OPEN_BLOCK = false ∧
    ∃ s2, scanner_three_blocks.scan (OTHER 0) (TSLexer.start [120]) (valid_of [LINE_ENDING])
        = some (true, s2, (TSLexer.start [120]).set_result LINE_ENDING) ∧
      s2.matched = 0 ∧ s2.indentation = 0 ∧ s2.column = 0 ∧
      has_flag s2.state STATE_WAS_SOFT_LINE_BREAK = false ∧
      s2.state &&& STATE_SPLIT_TOKEN_COUNT = 0 ∧
      has_flag s2.state STATE_NEED_OPEN_BLOCK = false ∧
      has_flag s2.state STATE_JUST_CLOSED = false ∧
      has_flag s2.state STATE_MATCHING
        = (valid_of [LINE_ENDING] SOFT_LINE_BREAK_MARKER ||
            decide (scanner_three_blocks.open_blocks.length > 0)) ∧
      s2.open_blocks = scanner_three_blocks.open_blocks ∧
      has_flag s2.state STATE_CLOSE_BLOCK = has_flag scanner_three_blocks.state STATE_CLOSE_BLOCK ∧
      s2.code_span_delimiter_length = scanner_three_blocks.code_span_delimiter_length ∧
      s2.num_emphasis_delimiters_left = scanner_three_blocks.num_emphasis_delimiters_left ∧
      s2.state &&& STATE_EMPHASIS_DELIMITER_MOD_3
        = scanner_three_blocks.state &&& STATE_EMPHASIS_DELIMITER_MOD_3 ∧
      has_flag s2.state STATE_EMPHASIS_DELIMITER_IS_OPEN
        = has_flag scanner_three_blocks.state STATE_EMPHASIS_DELIMITER_IS_OPEN :=
  ⟨by decide, by decide, by decide,
    (C16_line_ending (OTHER 0) scanner_three_blocks (TSLexer.start [120]) (valid_of [LINE_ENDING])
      (by decide) (by decide)).2 (by decide)⟩

/-! ## The token of an ordered list marker -/

/-- C13, evaluated at failing inputs.  In the initial state every open block
is matched and no block was just closed, and all four ordered list-marker
tokens are candidates.  For `2. x` and for `10) x` the number is not 1, yet
`scan` returns the plain tokens `LIST_MARKER_DOT` and
`LIST_MARKER_PARENTHESIS`, the same as for `1. x`, and never the variant that
does not interrupt a paragraph. -/
theorem C13_ordered_marker_token (sym18 : TokenType) :
    Scanner.initial.matched = Scanner.initial.open_blocks.length ∧
    has_flag Scanner.initial.state STATE_JUST_CLOSED = false ∧
    valid_ordered LIST_MARKER_DOT_DONT_INTERRUPT = true ∧
    valid_ordered LIST_MARKER_PARENTHESIS_DONT_INTERRUPT = true ∧
    token_of (Scanner.initial.scan sym18 (TSLexer.start [50, 46, 32, 120]) valid_ordered)
      = some LIST_MARKER_DOT ∧
    token_of (Scanner.initial.scan sym18 (TSLexer.start [49, 48, 41, 32, 120]) valid_ordered)
      = some LIST_MARKER_PARENTHESIS ∧
    token_of (Scanner.initial.scan sym18 (TSLexer.start [49, 46, 32, 120]) valid_ordered)
      = some LIST_MARKER_DOT :=
  ⟨rfl, rfl, rfl, rfl, rfl, rfl, rfl⟩

/-! ## List markers and the leading indentation -/

/-- C19, evaluated at a failing input: the line `    * x` scanned from the
initial state with the bullet list markers candidates and the indented code
block ruled out.  The four spaces are carried into the classifier as
indentation 4, and `scan` returns the star list marker and pushes a list
item; on `    - x` and `    + x` it returns no token. -/
theorem C19_star_marker_at_indentation_4 (sym18 : TokenType) :
    ((Scanner.initial.skip_whitespace (TSLexer.start [32, 32, 32, 32, 42, 32, 120])).1).indentation
      = 4 ∧
    (∃ s1 l1, Scanner.initial.scan sym18 (TSLexer.start [32, 32, 32, 32, 42, 32, 120])
        valid_bullets = some (true, s1, l1) ∧
      l1.result_symbol = some LIST_MARKER_STAR ∧ s1.open_blocks = [LIST_ITEM + 4]) ∧
    token_of (Scanner.initial.scan sym18 (TSLexer.start [32, 32, 32, 32, 45, 32, 120])
      valid_bullets) = none ∧
    token_of (Scanner.initial.scan sym18 (TSLexer.start [32, 32, 32, 32, 43, 32, 120])
      valid_bullets) = none :=
  ⟨rfl, ⟨_, _, rfl, rfl, rfl⟩, rfl, rfl⟩

/-- C20, evaluated at a failing input: the line of 16 spaces and `* x` scanned
from the initial state with the bullet list markers candidates and the
indented code block ruled out.  `scan` returns the star list marker and the
block it pushes is `LIST_ITEM + 16 = 18`, the descriptor of a fenced code
block, for which `is_list_item` is false. -/
theorem C20_star_marker_pushes_fenced_code_block (sym18 : TokenType) :
    ∃ s1 l1, Scanner.initial.scan sym18 (TSLexer.start (List.replicate 16 32 ++ [42, 32, 120]))
        valid_bullets = some (true, s1, l1) ∧
      l1.result_symbol = some LIST_MARKER_STAR ∧
      s1.open_blocks = Scanner.initial.open_blocks ++ [FENCED_CODE_BLOCK] ∧
      is_list_item FENCED_CODE_BLOCK = false ∧
      ¬ (LIST_ITEM ≤ FENCED_CODE_BLOCK ∧ FENCED_CODE_BLOCK ≤ LIST_ITEM_MAX_INDENTATION) :=
  ⟨_, _, rfl, rfl, rfl, rfl, by decide⟩
/-! ## Returned tokens and the candidate set -/

theorem candidate_gated_error (valid_symbols : ValidSymbols) (s : Scanner) (lexer : TSLexer) :
    candidate_gated valid_symbols (s.error lexer) := by
  intro tok h
  simp only [token_of_error, Option.some.injEq] at h
  rw [← h]
  exact ⟨fun h => absurd h (by decide), fun h => absurd h (by decide)⟩

theorem candidate_gated_false (valid_symbols : ValidSymbols) (s : Scanner) (lexer : TSLexer) :
    candidate_gated valid_symbols (false, s, lexer) := by
  intro tok h
  simp at h

theorem candidate_gated_ite (valid_symbols : ValidSymbols) (c : Prop) [Decidable c]
    (a b : Bool × Scanner × TSLexer) (ha : c → candidate_gated valid_symbols a)
    (hb : ¬ c → candidate_gated valid_symbols b) :
    candidate_gated valid_symbols (if c then a else b) := by
  split
  · exact ha ‹_›
  · exact hb ‹_›

theorem scan_blank_line_gated (s : Scanner) (lexer : TSLexer) (valid_symbols : ValidSymbols) :
    candidate_gated valid_symbols (s.scan_blank_line lexer valid_symbols) := by
  unfold Scanner.scan_blank_line candidate_gated
  split_ifs <;> simp_all +decide [Scanner.error]

theorem scan_block_quote_gated (s : Scanner) (lexer : TSLexer) (valid_symbols : ValidSymbols) :
    candidate_gated valid_symbols (s.scan_block_quote lexer valid_symbols) := by
  unfold Scanner.scan_block_quote candidate_gated
  split_ifs <;> simp_all +decide [Scanner.error]

theorem tilde_decision_gated (s : Scanner) (lexer : TSLexer) (level : Nat)
    (valid_symbols : ValidSymbols) :
    candidate_gated valid_symbols (s.tilde_decision lexer level valid_symbols) := by
  unfold Scanner.tilde_decision candidate_gated
  split_ifs <;> simp_all +decide [Scanner.error]

theorem is_checked_atx_marker_plus (k : Nat) : is_checked_token (atx_marker_plus k) = false := by
  match k with
  | 0 | 1 | 2 | 3 | 4 | 5 => rfl
  | n + 6 => rfl

theorem hash_decision_gated (s : Scanner) (lexer : TSLexer) (level : Nat)
    (valid_symbols : ValidSymbols) (h : valid_symbols ATX_H1_MARKER = true) :
    candidate_gated valid_symbols (s.hash_decision lexer level) := by
  unfold Scanner.hash_decision candidate_gated
  split_ifs <;>
    simp_all +decide [Scanner.error, is_checked_atx_marker_plus]

theorem equals_decision_gated (s : Scanner) (lexer : TSLexer) (valid_symbols : ValidSymbols)
    (h : valid_symbols SETEXT_H1_UNDERLINE = true) :
    candidate_gated valid_symbols (s.equals_decision lexer) := by
  unfold Scanner.equals_decision candidate_gated
  split_ifs <;> simp_all +decide [Scanner.error]

theorem is_atx_marker_ite (c : Prop) [Decidable c] (x y : TokenType)
    (hx : is_atx_marker x = false) (hy : is_atx_marker y = false) :
    is_atx_marker (if c then x else y) = false := by
  split <;> assumption

theorem open_list_item_gated (s : Scanner) (lexer : TSLexer) (dont_interrupt : Bool)
    (extra_indentation digits : Nat) (mark : Bool) (token : TokenType)
    (valid_symbols : ValidSymbols)
    (h1 : is_checked_token token = true → valid_symbols token = true)
    (h2 : is_atx_marker token = false) :
    candidate_gated valid_symbols
      (s.open_list_item lexer dont_interrupt extra_indentation digits mark token) := by
  unfold Scanner.open_list_item
  apply candidate_gated_ite
  · intro _
    exact candidate_gated_error _ _ _
  · intro _
    dsimp only
    apply candidate_gated_ite
    · intro _
      exact candidate_gated_error _ _ _
    · intro _ tok h
      simp only [token_of_true, TSLexer.set_result_result_symbol, Option.some.injEq] at h
      rw [← h]
      exact ⟨h1, fun h => absurd h (by simp [h2])⟩

theorem plus_decision_gated (s : Scanner) (lexer : TSLexer) (extra_indentation : Nat)
    (valid_symbols : ValidSymbols) :
    candidate_gated valid_symbols (s.plus_decision lexer extra_indentation valid_symbols) := by
  unfold Scanner.plus_decision
  dsimp only
  apply candidate_gated_ite
  · intro h
    apply open_list_item_gated
    · intro _
      split <;> simp_all
    · exact is_atx_marker_ite _ _ _ rfl rfl
  · intro _
    exact candidate_gated_false _ _ _

theorem ordered_decision_gated (s : Scanner) (lexer : TSLexer) (dot dont_interrupt : Bool)
    (digits extra_indentation : Nat) (valid_symbols : ValidSymbols) :
    candidate_gated valid_symbols
      (s.ordered_decision lexer dot dont_interrupt digits extra_indentation valid_symbols) := by
  unfold Scanner.ordered_decision
  dsimp only
  apply candidate_gated_ite
  · intro h
    apply open_list_item_gated
    · intro hc
      cases dot <;> exact absurd hc (by decide)
    · exact is_atx_marker_ite _ _ _ rfl rfl
  · intro _
    exact candidate_gated_false _ _ _

theorem minus_decision_gated (s : Scanner) (lexer : TSLexer) (v : MinusVars)
    (valid_symbols : ValidSymbols) :
    candidate_gated valid_symbols (s.minus_decision lexer v valid_symbols) := by
  unfold Scanner.minus_decision
  dsimp only
  apply candidate_gated_ite
  · intro h
    split_ifs <;> simp_all +decide [candidate_gated, Scanner.error]
  · intro _
    apply candidate_gated_ite
    · intro h
      split_ifs <;> simp_all +decide [candidate_gated, Scanner.error]
    · intro _
      apply candidate_gated_ite
      · intro h
        apply open_list_item_gated
        · intro _
          split <;> simp_all
        · exact is_atx_marker_ite _ _ _ rfl rfl
      · intro _
        exact candidate_gated_false _ _ _

theorem list_token_gate (valid_symbols : ValidSymbols) (d : Bool) (x y : TokenType) (lm : Bool)
    (h : ((if d then valid_symbols x else valid_symbols y) && lm) = true) :
    valid_symbols (if d then x else y) = true := by
  cases d <;> simp_all

theorem star_emphasis_decision_gated (s : Scanner) (lexer : TSLexer) (v : StarVars)
    (valid_symbols : ValidSymbols) :
    candidate_gated valid_symbols (s.star_emphasis_decision lexer v valid_symbols) := by
  unfold Scanner.star_emphasis_decision
  dsimp only
  apply candidate_gated_ite
  · intro _
    exact candidate_gated_false _ _ _
  · intro _
    apply candidate_gated_ite
    · intro h tok ht
      simp only [token_of_true, TSLexer.set_result_result_symbol, Option.some.injEq] at ht
      rw [← ht]
      refine ⟨fun _ => ?_, fun h => absurd h (by decide)⟩
      simp_all
    · intro _
      apply candidate_gated_ite
      · intro h tok ht
        simp only [token_of_true, TSLexer.set_result_result_symbol, Option.some.injEq] at ht
        rw [← ht]
        exact ⟨fun h => absurd h (by decide), fun h => absurd h (by decide)⟩
      · intro _
        exact candidate_gated_false _ _ _

theorem star_decision_gated (s : Scanner) (lexer : TSLexer) (v : StarVars)
    (valid_symbols : ValidSymbols) :
    candidate_gated valid_symbols (s.star_decision lexer v valid_symbols) := by
  unfold Scanner.star_decision
  dsimp only
  apply candidate_gated_ite
  · intro h
    split_ifs <;> simp_all +decide [candidate_gated, Scanner.error]
  · intro _
    apply candidate_gated_ite
    · intro h
      apply open_list_item_gated
      · intro _
        exact list_token_gate _ _ _ _ _ h
      · exact is_atx_marker_ite _ _ _ rfl rfl
    · intro _
      apply candidate_gated_ite
      · intro _
        exact star_emphasis_decision_gated _ _ _ _
      · intro _
        exact candidate_gated_false _ _ _

theorem parse_star_gated (s : Scanner) (lexer : TSLexer) (valid_symbols : ValidSymbols) :
    candidate_gated valid_symbols (s.parse_star lexer valid_symbols) := by
  unfold Scanner.parse_star
  apply candidate_gated_ite
  · intro _ tok h
    simp only [token_of_true, TSLexer.set_result_result_symbol, Option.some.injEq] at h
    rw [← h]
    exact ⟨fun h => absurd h (by decide), fun h => absurd h (by decide)⟩
  · intro _
    apply candidate_gated_ite
    · intro hc tok h
      simp only [token_of_true, TSLexer.set_result_result_symbol, Option.some.injEq] at h
      rw [← h]
      refine ⟨fun _ => ?_, fun h => absurd h (by decide)⟩
      simp_all
    · intro _
      exact star_decision_gated _ _ _ _

theorem underscore_decision_gated (s : Scanner) (lexer : TSLexer) (v : UnderscoreVars)
    (valid_symbols : ValidSymbols) :
    candidate_gated valid_symbols (s.underscore_decision lexer v valid_symbols) := by
  unfold Scanner.underscore_decision
  dsimp only
  apply candidate_gated_ite
  · intro h
    apply candidate_gated_ite
    · intro _
      exact candidate_gated_error _ _ _
    · intro _ tok ht
      simp only [token_of_true, TSLexer.set_result_result_symbol,
        TSLexer.mark_end_result_symbol, Option.some.injEq] at ht
      rw [← ht]
      refine ⟨fun _ => ?_, fun h => absurd h (by decide)⟩
      simp_all
  · intro _
    apply candidate_gated_ite
    · intro _
      apply candidate_gated_ite
      · intro h tok ht
        simp only [token_of_true, TSLexer.set_result_result_symbol, Option.some.injEq] at ht
        rw [← ht]
        refine ⟨fun _ => ?_, fun h => absurd h (by decide)⟩
        simp_all
      · intro _
        apply candidate_gated_ite
        · intro h tok ht
          simp only [token_of_true, TSLexer.set_result_result_symbol, Option.some.injEq] at ht
          rw [← ht]
          exact ⟨fun h => absurd h (by decide), fun h => absurd h (by decide)⟩
        · intro _
          exact candidate_gated_false _ _ _
    · intro _
      exact candidate_gated_false _ _ _

theorem parse_underscore_gated (s : Scanner) (lexer : TSLexer) (valid_symbols : ValidSymbols) :
    candidate_gated valid_symbols (s.parse_underscore lexer valid_symbols) := by
  unfold Scanner.parse_underscore
  apply candidate_gated_ite
  · intro _ tok h
    simp only [token_of_true, TSLexer.set_result_result_symbol, Option.some.injEq] at h
    rw [← h]
    exact ⟨fun h => absurd h (by decide), fun h => absurd h (by decide)⟩
  · intro _
    apply candidate_gated_ite
    · intro hc tok h
      simp only [token_of_true, TSLexer.set_result_result_symbol, Option.some.injEq] at h
      rw [← h]
      refine ⟨fun _ => ?_, fun h => absurd h (by decide)⟩
      simp_all
    · intro _
      exact underscore_decision_gated _ _ _ _

theorem code_span_decision_gated (s : Scanner) (lexer : TSLexer) (level : Nat)
    (valid_symbols : ValidSymbols) :
    candidate_gated valid_symbols (s.code_span_decision lexer level valid_symbols) := by
  unfold Scanner.code_span_decision candidate_gated
  split_ifs <;> simp_all +decide

theorem backtick_decision_gated (sym18 : TokenType) (s : Scanner) (lexer : TSLexer)
    (level : Nat) (valid_symbols : ValidSymbols) :
    candidate_gated valid_symbols (s.backtick_decision sym18 lexer level valid_symbols) := by
  unfold Scanner.backtick_decision
  apply candidate_gated_ite
  · intro h tok ht
    simp only [token_of_true, TSLexer.set_result_result_symbol, Option.some.injEq] at ht
    rw [← ht]
    refine ⟨fun _ => ?_, fun h => absurd h (by decide)⟩
    simp_all
  · intro _
    dsimp only
    apply candidate_gated_ite
    · intro _
      apply candidate_gated_ite
      · intro _
        exact candidate_gated_error _ _ _
      · intro _ tok ht
        simp only [token_of_true, TSLexer.set_result_result_symbol, Option.some.injEq] at ht
        rw [← ht]
        exact ⟨fun h => absurd h (by decide), fun h => absurd h (by decide)⟩
    · intro _
      exact code_span_decision_gated _ _ _ _

theorem scan_switch_gated (sym18 : TokenType) (s : Scanner) (lexer : TSLexer)
    (valid_symbols : ValidSymbols) :
    candidate_gated valid_symbols (s.scan_switch sym18 lexer valid_symbols) := by
  unfold Scanner.scan_switch
  dsimp only
  apply candidate_gated_ite
  · intro _
    exact scan_blank_line_gated _ _ _
  intro _
  apply candidate_gated_ite
  · intro _
    unfold Scanner.parse_backtick
    exact backtick_decision_gated _ _ _ _ _
  intro _
  apply candidate_gated_ite
  · intro _
    exact parse_star_gated _ _ _
  intro _
  apply candidate_gated_ite
  · intro _
    exact parse_underscore_gated _ _ _
  intro _
  apply candidate_gated_ite
  · intro _
    exact scan_block_quote_gated _ _ _
  intro _
  apply candidate_gated_ite
  · intro _
    unfold Scanner.scan_tilde
    apply candidate_gated_ite
    · intro _
      exact tilde_decision_gated _ _ _ _
    · intro _
      exact candidate_gated_false _ _ _
  intro _
  apply candidate_gated_ite
  · intro _
    unfold Scanner.scan_hash
    apply candidate_gated_ite
    · intro h
      exact hash_decision_gated _ _ _ _ (by simp_all)
    · intro _
      exact candidate_gated_false _ _ _
  intro _
  apply candidate_gated_ite
  · intro _
    unfold Scanner.scan_equals
    apply candidate_gated_ite
    · intro h
      exact equals_decision_gated _ _ _ (by simp_all)
    · intro _
      exact candidate_gated_false _ _ _
  intro _
  apply candidate_gated_ite
  · intro _
    unfold Scanner.scan_plus
    apply candidate_gated_ite
    · intro _
      exact plus_decision_gated _ _ _ _
    · intro _
      exact candidate_gated_false _ _ _
  intro _
  apply candidate_gated_ite
  · intro _
    unfold Scanner.scan_digit
    apply candidate_gated_ite
    · intro _
      dsimp only
      apply candidate_gated_ite
      · intro _
        apply candidate_gated_ite
        · intro _
          exact ordered_decision_gated _ _ _ _ _ _ _
        · intro _
          exact candidate_gated_false _ _ _
      · intro _
        exact candidate_gated_false _ _ _
    · intro _
      exact candidate_gated_false _ _ _
  intro _
  apply candidate_gated_ite
  · intro _
    unfold Scanner.scan_minus
    apply candidate_gated_ite
    · intro _
      exact minus_decision_gated _ _ _ _
    · intro _
      exact candidate_gated_false _ _ _
  · intro _
    exact candidate_gated_false _ _ _

theorem scan_leaf_gated (sym18 : TokenType) (s : Scanner) (lexer : TSLexer)
    (valid_symbols : ValidSymbols) :
    candidate_gated valid_symbols (s.scan_leaf sym18 lexer valid_symbols) := by
  unfold Scanner.scan_leaf
  apply candidate_gated_ite
  · intro h tok ht
    simp only [token_of_true, TSLexer.set_result_result_symbol, Option.some.injEq] at ht
    rw [← ht]
    refine ⟨fun _ => ?_, fun h => absurd h (by decide)⟩
    simp_all
  · intro _
    exact scan_switch_gated _ _ _ _

theorem candidate_gated_unchecked (valid_symbols : ValidSymbols) (s : Scanner) (lexer : TSLexer)
    (tok : TokenType) (hl : lexer.result_symbol = some tok)
    (h1 : is_checked_token tok = false) (h2 : is_atx_marker tok = false) :
    candidate_gated valid_symbols (true, s, lexer) := by
  intro t ht
  simp only [token_of_true, hl, Option.some.injEq] at ht
  rw [← ht]
  exact ⟨fun h => absurd h (by simp [h1]), fun h => absurd h (by simp [h2])⟩

theorem candidate_gated_checked (valid_symbols : ValidSymbols) (s : Scanner) (lexer : TSLexer)
    (tok : TokenType) (hl : lexer.result_symbol = some tok)
    (h1 : valid_symbols tok = true) (h2 : is_atx_marker tok = false) :
    candidate_gated valid_symbols (true, s, lexer) := by
  intro t ht
  simp only [token_of_true, hl, Option.some.injEq] at ht
  rw [← ht]
  exact ⟨fun _ => h1, fun h => absurd h (by simp [h2])⟩

theorem scan_matching_gated (s : Scanner) (lexer : TSLexer) (valid_symbols : ValidSymbols)
    (r : Bool × Scanner × TSLexer) (h : s.scan_matching lexer valid_symbols = some r) :
    candidate_gated valid_symbols r := by
  unfold Scanner.scan_matching at h
  split at h
  · exact absurd h (by simp)
  · dsimp only at h
    split at h
    · split at h
      · exact absurd h (by simp)
      · split at h <;>
          (simp only [Option.some.injEq] at h
           rw [← h]
           exact candidate_gated_unchecked _ _ _ _ rfl rfl rfl)
    · split at h
      · rename_i hs
        simp only [Option.some.injEq] at h
        rw [← h]
        exact candidate_gated_checked _ _ _ _ rfl (by simp_all) rfl
      · split at h
        · split at h
          · exact absurd h (by simp)
          · rename_i b _
            by_cases hb : b = FENCED_CODE_BLOCK
            · simp only [hb, if_true, Option.some.injEq] at h
              rw [← h]
              exact candidate_gated_unchecked _ _ _ _ rfl rfl rfl
            · simp only [hb, if_false, Option.some.injEq] at h
              rw [← h]
              exact candidate_gated_unchecked _ _ _ _ rfl rfl rfl
        · rename_i hs
          simp only [Option.some.injEq] at h
          rw [← h]
          exact candidate_gated_checked _ _ _ _ rfl (by simp_all) rfl

/-- Every outcome of `scan` respects the candidate set in the sense of
`candidate_gated`. -/
theorem scan_gated (sym18 : TokenType) (s : Scanner) (lexer : TSLexer)
    (valid_symbols : ValidSymbols) (r : Bool × Scanner × TSLexer)
    (h : s.scan sym18 lexer valid_symbols = some r) : candidate_gated valid_symbols r := by
  unfold Scanner.scan at h
  dsimp only at h
  generalize s.after_split_tokens valid_symbols = t1 at h
  generalize t1.skip_whitespace lexer = w at h
  split at h
  · simp only [Option.some.injEq] at h
    rw [← h]
    exact candidate_gated_error _ _ _
  split at h
  · by_cases hN : has_flag t1.state STATE_NEED_OPEN_BLOCK = true
    · simp only [hN, if_true, Option.some.injEq] at h
      rw [← h]
      exact candidate_gated_error _ _ _
    · simp only [hN, Bool.false_eq_true, if_false, Option.some.injEq] at h
      rw [← h]
      exact candidate_gated_unchecked _ _ _ _ rfl rfl rfl
  split at h
  · by_cases hS : has_flag t1.state STATE_WAS_SOFT_LINE_BREAK = true
    · simp only [hS, if_true, Option.some.injEq] at h
      rw [← h]
      exact candidate_gated_error _ _ _
    · simp only [hS, Bool.false_eq_true, if_false, Option.some.injEq] at h
      rw [← h]
      by_cases hO : valid_symbols OPEN_BLOCK = true
      · simp only [hO, if_true]
        exact candidate_gated_unchecked _ _ _ _ rfl rfl rfl
      · simp only [hO, Bool.false_eq_true, if_false]
        exact candidate_gated_unchecked _ _ _ _ rfl rfl rfl
  split at h
  · simp only [Option.some.injEq] at h
    rw [← h]
    exact candidate_gated_unchecked _ _ _ _ rfl rfl rfl
  split at h
  · split at h <;>
      (simp only [Option.some.injEq] at h
       rw [← h])
    · exact candidate_gated_unchecked _ _ _ _ rfl rfl rfl
    · exact candidate_gated_false _ _ _
  split at h
  · simp only [Option.some.injEq] at h
    rw [← h]
    exact scan_leaf_gated _ _ _ _
  · exact scan_matching_gated _ _ _ _ h

/-- C12, the claim as written fails.  From the initial state, on the line
`## x` with the level-1 marker the only candidate, `scan` returns the
level-2 marker `ATX_H2_MARKER`, whose flag is not set.  Likewise the
emphasis-open token is returned on `**a` with only the close token a
candidate, and the plain dot list marker on `2. x` with only its variant
that does not interrupt a paragraph (and the plain parenthesis marker)
candidates. -/
theorem C12_counterexample :
    token_of (Scanner.initial.scan (OTHER 0) (TSLexer.start [35, 35, 32, 120])
      (valid_of [ATX_H1_MARKER])) = some ATX_H2_MARKER ∧
    valid_of [ATX_H1_MARKER] ATX_H2_MARKER = false ∧
    token_of (Scanner.initial.scan (OTHER 0) (TSLexer.start [42, 42, 97]) valid_close_only)
      = some EMPHASIS_OPEN_STAR ∧
    valid_close_only EMPHASIS_OPEN_STAR = false ∧
    token_of (Scanner.initial.scan (OTHER 0) (TSLexer.start [50, 46, 32, 120])
      (valid_of [LIST_MARKER_DOT_DONT_INTERRUPT, LIST_MARKER_PARENTHESIS]))
      = some LIST_MARKER_DOT ∧
    valid_of [LIST_MARKER_DOT_DONT_INTERRUPT, LIST_MARKER_PARENTHESIS] LIST_MARKER_DOT = false := by
  decide

/-- C12 (amended): for every state, input and candidate set, whenever `scan`
returns a bullet list marker (`-`, `+` or `*`, in either variant), a setext
underline, a thematic break, the tilde fence start, a fence end, a code-span
delimiter, an emphasis close token, the block-quote start, the
indented-chunk start, the blank-line start, the split token or the soft line
break, that token is a candidate; and whenever it returns an ATX heading
marker of any level, the marker of level 1 is a candidate. -/
theorem C12_candidate_gate (sym18 : TokenType) (s : Scanner) (lexer : TSLexer)
    (valid_symbols : ValidSymbols) (r : Bool × Scanner × TSLexer) (tok : TokenType)
    (h : s.scan sym18 lexer valid_symbols = some r) (ht : token_of (some r) = some tok) :
    (is_checked_token tok = true → valid_symbols tok = true) ∧
    (is_atx_marker tok = true → valid_symbols ATX_H1_MARKER = true) :=
  scan_gated sym18 s lexer valid_symbols r h tok ht

/-- C12 at the line `- x` scanned from the initial state with the minus list
marker the only candidate. -/
theorem C12_candidate_gate_witness :
    Scanner.initial.scan (OTHER 0) (TSLexer.start [45, 32, 120]) (valid_of [LIST_MARKER_MINUS])
      = some (true, { Scanner.initial with open_blocks := [LIST_ITEM], column := 2 },
          { input := [120], position := 2, token_end := some 2,
            result_symbol := some LIST_MARKER_MINUS }) ∧
    token_of (some (true, { Scanner.initial with open_blocks := [LIST_ITEM], column := 2 },
      ({ input := [120], position := 2, token_end := some 2,
         result_symbol := some LIST_MARKER_MINUS } : TSLexer))) = some LIST_MARKER_MINUS ∧
    (is_checked_token LIST_MARKER_MINUS = true →
      valid_of [LIST_MARKER_MINUS] LIST_MARKER_MINUS = true) ∧
    (is_atx_marker LIST_MARKER_MINUS = true →
      valid_of [LIST_MARKER_MINUS] ATX_H1_MARKER = true) :=
  ⟨by decide, by decide,
    C12_candidate_gate (OTHER 0) Scanner.initial (TSLexer.start [45, 32, 120])
      (valid_of [LIST_MARKER_MINUS])
      (true, { Scanner.initial with open_blocks := [LIST_ITEM], column := 2 },
        { input := [120], position := 2, token_end := some 2,
          result_symbol := some LIST_MARKER_MINUS })
      LIST_MARKER_MINUS (by decide) (by decide)⟩

/-! ## Emphasis: the character after the run -/

theorem star_loop_had_whitespace (valid_symbols : ValidSymbols) :
    ∀ (fuel : Nat) (s : Scanner) (lexer : TSLexer) (v : StarVars),
      v.had_whitespace = true →
      (star_loop valid_symbols fuel s lexer v).2.2.had_whitespace = true := by
  intro fuel
  induction fuel with
  | zero => intro s lexer v h; exact h
  | succ f ih =>
    intro s lexer v h
    simp only [star_loop]
    split
    · apply ih
      dsimp only
      split <;> exact h
    · split
      · apply ih
        dsimp only
        split <;> rfl
      · exact h

/-- The counting loop of `parse_star` on `k` further stars followed by `tail`,
whose first character `c` is not a star: it has seen whitespace exactly when
`c` is a space or a tab, and if it has not, it stops at `c`. -/
theorem star_loop_run (valid_symbols : ValidSymbols) (tail : List Nat)
    (h42 : tail.headD 0 ≠ 42) :
    ∀ (k fuel : Nat) (s : Scanner) (pos : Nat) (te : Option Nat) (rs : Option TokenType)
      (v : StarVars), v.had_whitespace = false → k + tail.length ≤ fuel →
      (star_loop valid_symbols fuel s ⟨List.replicate k 42 ++ tail, pos, te, rs⟩ v).2.2.had_whitespace
          = (tail.headD 0 == 32 || tail.headD 0 == 9) ∧
        ((star_loop valid_symbols fuel s
            ⟨List.replicate k 42 ++ tail, pos, te, rs⟩ v).2.2.had_whitespace = false →
          (star_loop valid_symbols fuel s
            ⟨List.replicate k 42 ++ tail, pos, te, rs⟩ v).2.1.lookahead = tail.headD 0) := by
  intro k
  induction k with
  | zero =>
    intro fuel s pos te rs v hv hfuel
    simp only [List.replicate_zero, List.nil_append]
    cases tail with
    | nil =>
      cases fuel with
      | zero => exact ⟨hv, fun _ => rfl⟩
      | succ f =>
        simp only [star_loop, TSLexer.lookahead_nil]
        exact ⟨hv, fun _ => rfl⟩
    | cons c t =>
      cases fuel with
      | zero => simp at hfuel
      | succ f =>
        have hc : c ≠ 42 := h42
        simp only [star_loop, TSLexer.lookahead_cons, hc, if_false, List.headD_cons]
        by_cases hws : c = 32 ∨ c = 9
        · simp only [hws, if_true]
          have hb : (c == 32 || c == 9) = true := by
            rcases hws with h | h <;> simp [h]
          rw [hb]
          have := star_loop_had_whitespace valid_symbols f
            (s.advance ⟨c :: t, pos, te, rs⟩).2.1 (s.advance ⟨c :: t, pos, te, rs⟩).2.2
            (if v.star_count = 1 then
              { v with had_whitespace := true,
                       extra_indentation := v.extra_indentation
                         + (s.advance ⟨c :: t, pos, te, rs⟩).1 }
             else { v with had_whitespace := true })
            (by split <;> rfl)
          refine ⟨this, fun h => ?_⟩
          rw [this] at h
          exact absurd h (by decide)
        · simp only [hws, if_false]
          have hb : (c == 32 || c == 9) = false := by
            simp only [not_or] at hws
            simp [hws.1, hws.2]
          rw [hb]
          exact ⟨hv, fun _ => rfl⟩
  | succ k ih =>
    intro fuel s pos te rs v hv hfuel
    cases fuel with
    | zero => omega
    | succ f =>
      simp only [List.replicate_succ, List.cons_append, star_loop, TSLexer.lookahead_cons,
        if_true]
      have hf : k + tail.length ≤ f := by omega
      split
      · exact ih f _ _ _ _ _ (by simp only [hv, if_true]) hf
      · exact ih f _ _ _ _ _ (by simp only [hv, if_true]) hf

/-- What the loop variables and the lookahead after the loop say about the
character `c` after the run. -/
theorem flanking_vars (c la : Nat) (hw : Bool) (h1 : hw = (c == 32 || c == 9))
    (h2 : hw = false → la = c) :
    (hw || (la == 10 || la == 13)) = is_whitespace c ∧
    (!hw && is_punctuation (la % 256)) = is_punctuation (c % 256) := by
  cases hw with
  | true =>
    have h : c = 32 ∨ c = 9 := by simpa using h1.symm
    rcases h with h | h <;> rw [h] <;> exact ⟨rfl, rfl⟩
  | false =>
    have hla := h2 rfl
    have h : ¬ (c = 32 ∨ c = 9) := by simpa using h1.symm
    simp only [not_or] at h
    rw [hla]
    refine ⟨?_, by simp⟩
    unfold is_whitespace
    have h32 : (c == 32) = false := by simp [h.1]
    have h9 : (c == 9) = false := by simp [h.2]
    simp only [h32, h9, Bool.false_or]

/-- When the classifier does not start an indented code block, it is the
`switch` on the first character. -/
theorem scan_leaf_eq_switch (sym18 : TokenType) (s : Scanner) (lexer : TSLexer)
    (valid_symbols : ValidSymbols) (h : no_indented_chunk s valid_symbols) :
    s.scan_leaf sym18 lexer valid_symbols = s.scan_switch sym18 lexer valid_symbols := by
  unfold Scanner.scan_leaf
  have hc : (valid_symbols INDENTED_CHUNK_START && !valid_symbols NO_INDENTED_CHUNK &&
      decide (s.indentation ≥ 4) && lexer.lookahead != 10 && lexer.lookahead != 13) = false := by
    rcases h with h | h | h
    · simp [h]
    · simp [h]
    · have : decide (s.indentation ≥ 4) = false := by simp; omega
      simp [this]
  simp only [hc, Bool.false_eq_true, if_false]

theorem star_block_or_ite (c : Prop) [Decidable c] (a b e : Bool × Scanner × TSLexer)
    (ha : c → star_block_or a e) (hb : ¬ c → star_block_or b e) :
    star_block_or (if c then a else b) e := by
  split
  · exact ha ‹_›
  · exact hb ‹_›

/-- The outcomes of the part of `parse_star` after the counting loop: the
thematic break, the list marker in one of its variants, the error token that
these two return after a soft line break, or the emphasis decision. -/
theorem star_decision_cases (s : Scanner) (lexer : TSLexer) (v : StarVars)
    (valid_symbols : ValidSymbols) :
    star_block_or (s.star_decision lexer v valid_symbols)
      (if valid_symbols EMPHASIS_OPEN_STAR || valid_symbols EMPHASIS_CLOSE_STAR
       then s.star_emphasis_decision lexer v valid_symbols else (false, s, lexer)) := by
  unfold Scanner.star_decision
  dsimp only
  apply star_block_or_ite
  · intro _
    apply star_block_or_ite
    · intro _
      exact Or.inr (Or.inl rfl)
    · intro _
      exact Or.inl rfl
  · intro _
    apply star_block_or_ite
    · intro _
      unfold Scanner.open_list_item
      apply star_block_or_ite
      · intro _
        exact Or.inr (Or.inl rfl)
      · intro _
        dsimp only
        apply star_block_or_ite
        · intro _
          exact Or.inr (Or.inl rfl)
        · intro _
          by_cases hd : (if (decide (v.star_count = 1) &&
              (lexer.lookahead == 10 || lexer.lookahead == 13)) = true
              then !has_flag s.state STATE_JUST_CLOSED && decide (s.matched = s.open_blocks.length)
              else false) = true
          · refine Or.inr (Or.inr (Or.inr (Or.inl ?_)))
            simp only [token_of_true, TSLexer.set_result_result_symbol, hd, if_true]
          · refine Or.inr (Or.inr (Or.inl ?_))
            simp only [token_of_true, TSLexer.set_result_result_symbol, hd, Bool.false_eq_true,
              if_false]
    · intro _
      exact Or.inr (Or.inr (Or.inr (Or.inr rfl)))

/-- The token of the emphasis decision of `parse_star` at indentation 0 with
the close token a candidate. -/
theorem star_emphasis_token (s : Scanner) (lexer : TSLexer) (v : StarVars)
    (valid_symbols : ValidSymbols) (hind : s.indentation = 0)
    (hC : valid_symbols EMPHASIS_CLOSE_STAR = true) :
    token_of (some (s.star_emphasis_decision lexer v valid_symbols))
      = if (!valid_symbols LAST_TOKEN_WHITESPACE &&
            (!valid_symbols LAST_TOKEN_PUNCTUATION ||
              (!v.had_whitespace && is_punctuation (lexer.lookahead % 256)) ||
              (v.had_whitespace || (lexer.lookahead == 10 || lexer.lookahead == 13)))) = true
        then some EMPHASIS_CLOSE_STAR
        else if (!(v.had_whitespace || (lexer.lookahead == 10 || lexer.lookahead == 13)) &&
            (!(!v.had_whitespace && is_punctuation (lexer.lookahead % 256)) ||
              valid_symbols LAST_TOKEN_PUNCTUATION || valid_symbols LAST_TOKEN_WHITESPACE)) = true
        then some EMPHASIS_OPEN_STAR
        else none := by
  unfold Scanner.star_emphasis_decision
  simp only [hind, gt_iff_lt, lt_self_iff_false, if_false, hC, Bool.true_and]
  split
  · rfl
  · split <;> rfl

theorem scan_switch_star (sym18 : TokenType) (s : Scanner) (lexer : TSLexer)
    (valid_symbols : ValidSymbols) (hc : lexer.lookahead = 42) :
    s.scan_switch sym18 lexer valid_symbols = s.parse_star lexer valid_symbols := by
  unfold Scanner.scan_switch
  simp [hc]

/-- With no run pending, `parse_star` consumes the first star, marks the token
end, runs the counting loop and decides. -/
theorem parse_star_fresh (s : Scanner) (lexer : TSLexer) (valid_symbols : ValidSymbols)
    (h : s.num_emphasis_delimiters_left = 0) :
    s.parse_star lexer valid_symbols
      = (star_loop valid_symbols (s.advance lexer).2.2.mark_end.input.length
            (s.advance lexer).2.1 (s.advance lexer).2.2.mark_end
            { star_count := 1, had_whitespace := false, star_count_before_whitespace := 1,
              extra_indentation := 0 }).1.star_decision
          (star_loop valid_symbols (s.advance lexer).2.2.mark_end.input.length
            (s.advance lexer).2.1 (s.advance lexer).2.2.mark_end
            { star_count := 1, had_whitespace := false, star_count_before_whitespace := 1,
              extra_indentation := 0 }).2.1
          (star_loop valid_symbols (s.advance lexer).2.2.mark_end.input.length
            (s.advance lexer).2.1 (s.advance lexer).2.2.mark_end
            { star_count := 1, had_whitespace := false, star_count_before_whitespace := 1,
              extra_indentation := 0 }).2.2
          valid_symbols := by
  unfold Scanner.parse_star
  simp [h]

theorem underscore_loop_encountered_whitespace :
    ∀ (fuel : Nat) (s : Scanner) (lexer : TSLexer) (v : UnderscoreVars),
      v.encountered_whitespace = true →
      (underscore_loop fuel s lexer v).2.2.encountered_whitespace = true := by
  intro fuel
  induction fuel with
  | zero => intro s lexer v h; exact h
  | succ f ih =>
    intro s lexer v h
    simp only [underscore_loop]
    split
    · apply ih
      dsimp only
      split <;> exact h
    · split
      · apply ih
        rfl
      · exact h

/-- The counting loop of `parse_underscore` on `k` further underscores followed
by `tail`, whose first character `c` is not an underscore: it has seen
whitespace exactly when `c` is a space or a tab, and if it has not, it stops
at `c`. -/
theorem underscore_loop_run (tail : List Nat) (h95 : tail.headD 0 ≠ 95) :
    ∀ (k fuel : Nat) (s : Scanner) (pos : Nat) (te : Option Nat) (rs : Option TokenType)
      (v : UnderscoreVars), v.encountered_whitespace = false → k + tail.length ≤ fuel →
      (underscore_loop fuel s
          ⟨List.replicate k 95 ++ tail, pos, te, rs⟩ v).2.2.encountered_whitespace
          = (tail.headD 0 == 32 || tail.headD 0 == 9) ∧
        ((underscore_loop fuel s
            ⟨List.replicate k 95 ++ tail, pos, te, rs⟩ v).2.2.encountered_whitespace = false →
          (underscore_loop fuel s
            ⟨List.replicate k 95 ++ tail, pos, te, rs⟩ v).2.1.lookahead = tail.headD 0) := by
  intro k
  induction k with
  | zero =>
    intro fuel s pos te rs v hv hfuel
    simp only [List.replicate_zero, List.nil_append]
    cases tail with
    | nil =>
      cases fuel with
      | zero => exact ⟨hv, fun _ => rfl⟩
      | succ f =>
        simp only [underscore_loop, TSLexer.lookahead_nil]
        exact ⟨hv, fun _ => rfl⟩
    | cons c t =>
      cases fuel with
      | zero => simp at hfuel
      | succ f =>
        have hc : c ≠ 95 := h95
        simp only [underscore_loop, TSLexer.lookahead_cons, hc, if_false, List.headD_cons]
        by_cases hws : c = 32 ∨ c = 9
        · simp only [hws, if_true]
          have hb : (c == 32 || c == 9) = true := by
            rcases hws with h | h <;> simp [h]
          rw [hb]
          have := underscore_loop_encountered_whitespace f
            (s.advance ⟨c :: t, pos, te, rs⟩).2.1 (s.advance ⟨c :: t, pos, te, rs⟩).2.2
            { v with encountered_whitespace := true } rfl
          refine ⟨this, fun h => ?_⟩
          rw [this] at h
          exact absurd h (by decide)
        · simp only [hws, if_false]
          have hb : (c == 32 || c == 9) = false := by
            simp only [not_or] at hws
            simp [hws.1, hws.2]
          rw [hb]
          exact ⟨hv, fun _ => rfl⟩
  | succ k ih =>
    intro fuel s pos te rs v hv hfuel
    cases fuel with
    | zero => omega
    | succ f =>
      simp only [List.replicate_succ, List.cons_append, underscore_loop, TSLexer.lookahead_cons,
        if_true]
      have hf : k + tail.length ≤ f := by omega
      exact ih f _ _ _ _ _ (by simp only [hv, if_true]) hf

theorem scan_switch_underscore (sym18 : TokenType) (s : Scanner) (lexer : TSLexer)
    (valid_symbols : ValidSymbols) (hc : lexer.lookahead = 95) :
    s.scan_switch sym18 lexer valid_symbols = s.parse_underscore lexer valid_symbols := by
  unfold Scanner.scan_switch
  simp [hc]

/-- With no run pending, `parse_underscore` consumes the first underscore,
marks the token end, runs the counting loop and decides. -/
theorem parse_underscore_fresh (s : Scanner) (lexer : TSLexer) (valid_symbols : ValidSymbols)
    (h : s.num_emphasis_delimiters_left = 0) :
    s.parse_underscore lexer valid_symbols
      = (underscore_loop (s.advance lexer).2.2.mark_end.input.length
            (s.advance lexer).2.1 (s.advance lexer).2.2.mark_end
            { underscore_count := 1, underscore_count_before_whitespace := 1,
              encountered_whitespace := false }).1.underscore_decision
          (underscore_loop (s.advance lexer).2.2.mark_end.input.length
            (s.advance lexer).2.1 (s.advance lexer).2.2.mark_end
            { underscore_count := 1, underscore_count_before_whitespace := 1,
              encountered_whitespace := false }).2.1
          (underscore_loop (s.advance lexer).2.2.mark_end.input.length
            (s.advance lexer).2.1 (s.advance lexer).2.2.mark_end
            { underscore_count := 1, underscore_count_before_whitespace := 1,
              encountered_whitespace := false }).2.2
          valid_symbols := by
  unfold Scanner.parse_underscore
  simp [h]

/-- The token of the part of `parse_underscore` after the counting loop, with
one of the underscore emphasis tokens a candidate: the thematic break or the
error token that branch returns after a soft line break, or the token of
the emphasis decision. -/
theorem underscore_decision_token (s : Scanner) (lexer : TSLexer) (v : UnderscoreVars)
    (valid_symbols : ValidSymbols)
    (hg : (valid_symbols EMPHASIS_OPEN_UNDERSCORE ||
      valid_symbols EMPHASIS_CLOSE_UNDERSCORE) = true) :
    token_of (some (s.underscore_decision lexer v valid_symbols)) = some THEMATIC_BREAK ∨
    token_of (some (s.underscore_decision lexer v valid_symbols)) = some ERROR ∨
    token_of (some (s.underscore_decision lexer v valid_symbols))
      = if (valid_symbols EMPHASIS_CLOSE_UNDERSCORE &&
            (!valid_symbols LAST_TOKEN_WHITESPACE &&
              (!valid_symbols LAST_TOKEN_PUNCTUATION ||
                (!v.encountered_whitespace && is_punctuation (lexer.lookahead % 256)) ||
                (v.encountered_whitespace || (lexer.lookahead == 10 || lexer.lookahead == 13)))) &&
            (!(!(v.encountered_whitespace || (lexer.lookahead == 10 || lexer.lookahead == 13)) &&
                (!(!v.encountered_whitespace && is_punctuation (lexer.lookahead % 256)) ||
                  valid_symbols LAST_TOKEN_PUNCTUATION || valid_symbols LAST_TOKEN_WHITESPACE)) ||
              (!v.encountered_whitespace && is_punctuation (lexer.lookahead % 256)))) = true
        then some EMPHASIS_CLOSE_UNDERSCORE
        else if (!(v.encountered_whitespace || (lexer.lookahead == 10 || lexer.lookahead == 13)) &&
              (!(!v.encountered_whitespace && is_punctuation (lexer.lookahead % 256)) ||
                valid_symbols LAST_TOKEN_PUNCTUATION || valid_symbols LAST_TOKEN_WHITESPACE) &&
            (!(!valid_symbols LAST_TOKEN_WHITESPACE &&
                (!valid_symbols LAST_TOKEN_PUNCTUATION ||
                  (!v.encountered_whitespace && is_punctuation (lexer.lookahead % 256)) ||
                  (v.encountered_whitespace ||
                    (lexer.lookahead == 10 || lexer.lookahead == 13)))) ||
              valid_symbols LAST_TOKEN_PUNCTUATION)) = true
        then some EMPHASIS_OPEN_UNDERSCORE
        else none := by
  unfold Scanner.underscore_decision
  dsimp only
  by_cases h1 : (decide (v.underscore_count ≥ 3) &&
      (lexer.lookahead == 10 || lexer.lookahead == 13) && valid_symbols THEMATIC_BREAK) = true
  · simp only [h1, if_true]
    by_cases h2 : has_flag s.state STATE_WAS_SOFT_LINE_BREAK = true
    · simp only [h2, if_true]
      exact Or.inr (Or.inl rfl)
    · simp only [h2, Bool.false_eq_true, if_false]
      exact Or.inl rfl
  · simp only [h1, Bool.false_eq_true, if_false, hg, if_true]
    refine Or.inr (Or.inr ?_)
    split
    · rfl
    · split <;> rfl

/-! ## Bullet list markers and the whitespace behind them -/

theorem whitespace_width_pos (column c : Nat) (rest : List Nat) :
    1 ≤ whitespace_width column (c :: rest) := by
  simp only [whitespace_width]
  split
  · split <;> omega
  · omega

theorem whitespace_width_spaces (column n : Nat) :
    whitespace_width column (List.replicate n 32) = n := by
  induction n generalizing column with
  | zero => rfl
  | succ n ih =>
    simp only [List.replicate_succ, whitespace_width, ih]
    simp only [show ¬ (32 : Nat) = 9 by decide, if_false]
    omega

theorem advance_cons_width (s : Scanner) (c : Nat) (rest : List Nat) (pos : Nat)
    (te : Option Nat) (rs : Option TokenType) :
    (s.advance ⟨c :: rest, pos, te, rs⟩).1
      = (if c = 9 then (if s.column % 4 = 0 then 4 else 4 - s.column % 4) else 1) ∧
    (s.advance ⟨c :: rest, pos, te, rs⟩).2.1.column
      = (s.column + (if c = 9 then (if s.column % 4 = 0 then 4 else 4 - s.column % 4) else 1))
        % 256 := ⟨rfl, rfl⟩

/-- The loop over the whitespace behind a `+` or an ordered marker: it
consumes the run `ws` of spaces and tabs, stops at the first character of
`tail`, and adds up the width of the run. -/
theorem advance_while_whitespace (tail : List Nat)
    (hstop : tail.headD 0 ≠ 32 ∧ tail.headD 0 ≠ 9) (te : Option Nat) (rs : Option TokenType) :
    ∀ (ws : List Nat), (∀ c ∈ ws, c = 32 ∨ c = 9) →
    ∀ (fuel : Nat) (s : Scanner) (pos count width : Nat), ws.length ≤ fuel →
      (advance_while (fun c => c == 32 || c == 9) fuel s ⟨ws ++ tail, pos, te, rs⟩ count width).2.1
          = ⟨tail, pos + ws.length, te, rs⟩ ∧
      (advance_while (fun c => c == 32 || c == 9) fuel s
          ⟨ws ++ tail, pos, te, rs⟩ count width).2.2.2
          = width + whitespace_width s.column ws := by
  intro ws
  induction ws with
  | nil =>
    intro _ fuel s pos count width _
    have hp : (fun c => c == 32 || c == 9) (tail.headD 0) = false := by
      have h32 : (tail.headD 0 == 32) = false := beq_false_of_ne hstop.1
      have h9 : (tail.headD 0 == 9) = false := beq_false_of_ne hstop.2
      show (tail.headD 0 == 32 || tail.headD 0 == 9) = false
      rw [h32, h9]
      rfl
    cases fuel with
    | zero => exact ⟨rfl, rfl⟩
    | succ f =>
      simp only [advance_while, List.nil_append, TSLexer.lookahead_eq_headD, hp,
        Bool.false_eq_true, if_false]
      exact ⟨rfl, rfl⟩
  | cons c ws ih =>
    intro hws fuel s pos count width hfuel
    cases fuel with
    | zero => simp at hfuel
    | succ f =>
      have hc : (c == 32 || c == 9) = true := by
        rcases hws c (List.mem_cons_self _ _) with h | h <;> simp [h]
      have hws2 : ∀ x ∈ ws, x = 32 ∨ x = 9 := fun x hx => hws x (List.mem_cons_of_mem _ hx)
      have hf : ws.length ≤ f := by simpa using hfuel
      obtain ⟨h1, h2⟩ := ih hws2 f (s.advance ⟨c :: (ws ++ tail), pos, te, rs⟩).2.1 (pos + 1)
        (count + 1) (width + (s.advance ⟨c :: (ws ++ tail), pos, te, rs⟩).1) hf
      obtain ⟨ha, hb⟩ := advance_cons_width s c (ws ++ tail) pos te rs
      simp only [advance_while, List.cons_append, TSLexer.lookahead_cons, hc, if_true,
        Scanner.advance_lexer, TSLexer.advance_cons]
      rw [h1, h2, hb, ha]
      simp only [List.length_cons, whitespace_width]
      refine ⟨?_, by omega⟩
      congr 1
      omega

/-- Once the `-` loop has counted two dashes, the width of the whitespace
behind the first one is settled. -/
theorem minus_loop_after_second :
    ∀ (fuel : Nat) (s : Scanner) (lexer : TSLexer) (v : MinusVars), 2 ≤ v.minus_count →
      (minus_loop fuel s lexer v).2.2.extra_indentation = v.extra_indentation ∧
      2 ≤ (minus_loop fuel s lexer v).2.2.minus_count := by
  intro fuel
  induction fuel with
  | zero => intro s lexer v h; exact ⟨rfl, h⟩
  | succ f ih =>
    intro s lexer v h
    simp only [minus_loop]
    split
    · obtain ⟨h1, h2⟩ := ih (s.advance (if v.minus_count = 1 ∧ v.extra_indentation ≥ 1
          then lexer.mark_end else lexer)).2.1
        (s.advance (if v.minus_count = 1 ∧ v.extra_indentation ≥ 1
          then lexer.mark_end else lexer)).2.2
        { v with minus_count := v.minus_count + 1,
                 minus_after_whitespace := v.whitespace_after_minus }
        (by simp only; omega)
      exact ⟨h1, h2⟩
    · split
      · have hne : ¬ v.minus_count = 1 := by omega
        simp only [hne, if_false]
        obtain ⟨h1, h2⟩ := ih (s.advance lexer).2.1 (s.advance lexer).2.2
          { v with whitespace_after_minus := true } h
        exact ⟨h1, h2⟩
      · exact ⟨rfl, h⟩

/-- The `-` loop from the first character of `tail`, which is neither a space
nor a tab, after one dash: the width counted so far stays, and if the count
of dashes stays 1 the loop stops at that character. -/
theorem minus_loop_tail (tail : List Nat) (hstop : tail.headD 0 ≠ 32 ∧ tail.headD 0 ≠ 9)
    (fuel : Nat) (s : Scanner) (pos : Nat) (te : Option Nat) (rs : Option TokenType)
    (v : MinusVars) (hv : v.minus_count = 1) (hfuel : tail.length ≤ fuel) :
    (minus_loop fuel s ⟨tail, pos, te, rs⟩ v).2.2.extra_indentation = v.extra_indentation ∧
    1 ≤ (minus_loop fuel s ⟨tail, pos, te, rs⟩ v).2.2.minus_count ∧
    ((minus_loop fuel s ⟨tail, pos, te, rs⟩ v).2.2.minus_count = 1 →
      (minus_loop fuel s ⟨tail, pos, te, rs⟩ v).2.1.lookahead = tail.headD 0) := by
  cases tail with
  | nil =>
    have hr : minus_loop fuel s ⟨[], pos, te, rs⟩ v = (s, ⟨[], pos, te, rs⟩, v) := by
      cases fuel with
      | zero => rfl
      | succ f => simp [minus_loop]
    rw [hr]
    exact ⟨rfl, by simp only [hv, le_refl], fun _ => rfl⟩
  | cons c t =>
    cases fuel with
    | zero => simp at hfuel
    | succ f =>
      have h32 : c ≠ 32 := hstop.1
      have h9 : c ≠ 9 := hstop.2
      by_cases hc : c = 45
      · simp only [minus_loop, TSLexer.lookahead_cons, List.headD_cons, hc, if_true]
        obtain ⟨h1, h2⟩ := minus_loop_after_second f
          (s.advance (if v.minus_count = 1 ∧ v.extra_indentation ≥ 1
            then (⟨45 :: t, pos, te, rs⟩ : TSLexer).mark_end else ⟨45 :: t, pos, te, rs⟩)).2.1
          (s.advance (if v.minus_count = 1 ∧ v.extra_indentation ≥ 1
            then (⟨45 :: t, pos, te, rs⟩ : TSLexer).mark_end else ⟨45 :: t, pos, te, rs⟩)).2.2
          { v with minus_count := v.minus_count + 1,
                   minus_after_whitespace := v.whitespace_after_minus }
          (by simp only; omega)
        refine ⟨h1, by omega, fun h => ?_⟩
        omega
      · have hr : minus_loop (f + 1) s ⟨c :: t, pos, te, rs⟩ v
            = (s, ⟨c :: t, pos, te, rs⟩, v) := by
          simp [minus_loop, hc, h32, h9]
        rw [hr]
        exact ⟨rfl, by simp only [hv, le_refl], fun _ => rfl⟩

/-- The `-` loop over the run `ws` of spaces and tabs behind the first dash:
the run is consumed and its width is added to `extra_indentation`. -/
theorem minus_loop_whitespace (tail : List Nat) (te : Option Nat) (rs : Option TokenType) :
    ∀ (ws : List Nat), (∀ c ∈ ws, c = 32 ∨ c = 9) →
    ∀ (fuel : Nat) (s : Scanner) (pos : Nat) (v : MinusVars), v.minus_count = 1 →
      ∃ s2 v2, minus_loop (ws.length + fuel) s ⟨ws ++ tail, pos, te, rs⟩ v
          = minus_loop fuel s2 ⟨tail, pos + ws.length, te, rs⟩ v2 ∧
        v2.minus_count = 1 ∧
        v2.extra_indentation = v.extra_indentation + whitespace_width s.column ws := by
  intro ws
  induction ws with
  | nil =>
    intro _ fuel s pos v hv
    refine ⟨s, v, ?_, hv, rfl⟩
    simp
  | cons c ws ih =>
    intro hws fuel s pos v hv
    have hc : c = 32 ∨ c = 9 := hws c (List.mem_cons_self _ _)
    have hc45 : c ≠ 45 := by rcases hc with h | h <;> omega
    have hws2 : ∀ x ∈ ws, x = 32 ∨ x = 9 := fun x hx => hws x (List.mem_cons_of_mem _ hx)
    obtain ⟨ha, hb⟩ := advance_cons_width s c (ws ++ tail) pos te rs
    obtain ⟨s2, v2, h1, h2, h3⟩ := ih hws2 fuel
      (s.advance ⟨c :: (ws ++ tail), pos, te, rs⟩).2.1 (pos + 1)
      { whitespace_after_minus := true, minus_after_whitespace := v.minus_after_whitespace,
        minus_count := 1,
        extra_indentation :=
          v.extra_indentation + (s.advance ⟨c :: (ws ++ tail), pos, te, rs⟩).1 } rfl
    refine ⟨s2, v2, ?_, h2, ?_⟩
    · have hlen : (c :: ws).length + fuel = (ws.length + fuel) + 1 := by
        simp only [List.length_cons]
        omega
      rw [hlen]
      simp only [minus_loop, List.cons_append, TSLexer.lookahead_cons, hc45, if_false, hc,
        if_true, hv, Scanner.advance_lexer, TSLexer.advance_cons]
      rw [h1]
      congr 2
      simp only [List.length_cons]
      omega
    · rw [h3, hb, ha]
      simp only [whitespace_width]
      omega

/-- When the statements shared by the list-marker branches do not end in the
error token, the scanner they leave is `push_list_item` applied to the
scanner with at most its flag word changed. -/
theorem open_list_item_accept (s : Scanner) (lexer : TSLexer) (dont_interrupt : Bool)
    (extra_indentation digits : Nat) (mark : Bool) (token : TokenType)
    (h : token_of (some (s.open_list_item lexer dont_interrupt extra_indentation digits mark
      token)) ≠ some ERROR) :
    ∃ st, (s.open_list_item lexer dont_interrupt extra_indentation digits mark token).2.1
      = push_list_item { s with state := st } extra_indentation digits := by
  unfold Scanner.open_list_item at h ⊢
  by_cases h1 : has_flag s.state STATE_WAS_SOFT_LINE_BREAK = true
  · simp only [h1, if_true, token_of_error, ne_eq, not_true_eq_false] at h
  · simp only [h1, Bool.false_eq_true, if_false] at h ⊢
    cases dont_interrupt with
    | false =>
      simp only [Bool.not_false, if_true, Bool.false_and, Bool.false_eq_true, if_false]
      exact ⟨_, rfl⟩
    | true =>
      simp only [Bool.not_true, Bool.false_eq_true, if_false, Bool.true_and] at h ⊢
      by_cases h2 : has_flag s.state STATE_NEED_OPEN_BLOCK = true
      · simp only [h2, if_true, token_of_error, ne_eq, not_true_eq_false] at h
      · simp only [h2, Bool.false_eq_true, if_false]
        exact ⟨s.state, rfl⟩

theorem pushes_item_ite (s : Scanner) (e digits : Nat) (c : Prop) [Decidable c]
    (a b : Bool × Scanner × TSLexer) (ha : c → pushes_item s e digits a)
    (hb : ¬ c → pushes_item s e digits b) : pushes_item s e digits (if c then a else b) := by
  split
  · exact ha ‹_›
  · exact hb ‹_›

theorem pushes_item_other (s : Scanner) (e digits : Nat) (r : Bool × Scanner × TSLexer)
    (h : ∀ t, token_of (some r) = some t → is_bullet_list_marker t = false) :
    pushes_item s e digits r := by
  intro ⟨t, ht, hb⟩
  rw [h t ht] at hb
  exact absurd hb (by decide)

theorem pushes_item_error (s t : Scanner) (e digits : Nat) (lexer : TSLexer) :
    pushes_item s e digits (t.error lexer) :=
  pushes_item_other s e digits _ (by simp +decide)

theorem pushes_item_false (s t : Scanner) (e digits : Nat) (lexer : TSLexer) :
    pushes_item s e digits (false, t, lexer) :=
  pushes_item_other s e digits _ (by simp +decide)

theorem pushes_item_open (s : Scanner) (lexer : TSLexer) (dont_interrupt : Bool)
    (extra_indentation digits : Nat) (mark : Bool) (token : TokenType) :
    pushes_item s extra_indentation digits
      (s.open_list_item lexer dont_interrupt extra_indentation digits mark token) := by
  intro ⟨t, ht, hb⟩
  apply open_list_item_accept
  intro he
  rw [he] at ht
  simp only [Option.some.injEq] at ht
  rw [← ht] at hb
  exact absurd hb (by decide)

theorem minus_decision_pushes (s : Scanner) (lexer : TSLexer) (v : MinusVars)
    (valid_symbols : ValidSymbols) :
    pushes_item s
      (if (decide (v.minus_count = 1) &&
          (lexer.lookahead == 10 || lexer.lookahead == 13)) = true
       then 1 else v.extra_indentation) 0
      (s.minus_decision lexer v valid_symbols) := by
  unfold Scanner.minus_decision
  dsimp only
  apply pushes_item_ite
  · intro _
    apply pushes_item_ite
    · intro _
      exact pushes_item_error _ _ _ _ _
    · intro _
      exact pushes_item_other _ _ _ _ (by simp +decide)
  · intro _
    apply pushes_item_ite
    · intro _
      apply pushes_item_ite
      · intro _
        exact pushes_item_error _ _ _ _ _
      · intro _
        exact pushes_item_other _ _ _ _ (by simp +decide)
    · intro _
      apply pushes_item_ite
      · intro _
        exact pushes_item_open _ _ _ _ _ _ _
      · intro _
        exact pushes_item_false _ _ _ _ _

/-- The `-` branch on a dash followed by the run `ws` of spaces and tabs and
then by `tail`, whose first character is neither whitespace nor a line end:
if the outcome is a list marker, the list item was pushed with the width of
`ws` as `extra_indentation`. -/
theorem scan_minus_pushes (s : Scanner) (valid_symbols : ValidSymbols) (ws tail : List Nat)
    (hws : ∀ c ∈ ws, c = 32 ∨ c = 9)
    (hstop : tail.headD 0 ≠ 32 ∧ tail.headD 0 ≠ 9 ∧ tail.headD 0 ≠ 10 ∧ tail.headD 0 ≠ 13) :
    ∃ col, pushes_item { s with column := col }
      (whitespace_width ((s.column + 1) % 256) ws) 0
      (s.scan_minus (TSLexer.start (45 :: (ws ++ tail))) valid_symbols) := by
  have hlex : (TSLexer.start (45 :: (ws ++ tail))).mark_end
      = ⟨45 :: (ws ++ tail), 0, some 0, none⟩ := rfl
  have hlen : (45 :: (ws ++ tail)).length = (ws.length + tail.length) + 1 := by
    simp only [List.length_cons, List.length_append]
  have hstep : minus_loop ((ws.length + tail.length) + 1) s ⟨45 :: (ws ++ tail), 0, some 0, none⟩
      { whitespace_after_minus := false, minus_after_whitespace := false, minus_count := 0,
        extra_indentation := 0 }
      = minus_loop (ws.length + tail.length)
          (s.advance ⟨45 :: (ws ++ tail), 0, some 0, none⟩).2.1 ⟨ws ++ tail, 1, some 0, none⟩
          { whitespace_after_minus := false, minus_after_whitespace := false, minus_count := 1,
            extra_indentation := 0 } := by
    simp [minus_loop]
  obtain ⟨s2, v2, hrun, hv2, he2⟩ := minus_loop_whitespace tail (some 0) none ws hws tail.length
    (s.advance ⟨45 :: (ws ++ tail), 0, some 0, none⟩).2.1 1
    { whitespace_after_minus := false, minus_after_whitespace := false, minus_count := 1,
      extra_indentation := 0 } rfl
  obtain ⟨ht1, ht2, ht3⟩ := minus_loop_tail tail ⟨hstop.1, hstop.2.1⟩ tail.length s2
    (1 + ws.length) (some 0) none v2 hv2 (le_refl _)
  have hframe := minus_loop_frame ((ws.length + tail.length) + 1) s
    ⟨45 :: (ws ++ tail), 0, some 0, none⟩
    { whitespace_after_minus := false, minus_after_whitespace := false, minus_count := 0,
      extra_indentation := 0 }
  have hpush := minus_decision_pushes
    (minus_loop ((ws.length + tail.length) + 1) s ⟨45 :: (ws ++ tail), 0, some 0, none⟩
      { whitespace_after_minus := false, minus_after_whitespace := false, minus_count := 0,
        extra_indentation := 0 }).1
    (minus_loop ((ws.length + tail.length) + 1) s ⟨45 :: (ws ++ tail), 0, some 0, none⟩
      { whitespace_after_minus := false, minus_after_whitespace := false, minus_count := 0,
        extra_indentation := 0 }).2.1
    (minus_loop ((ws.length + tail.length) + 1) s ⟨45 :: (ws ++ tail), 0, some 0, none⟩
      { whitespace_after_minus := false, minus_after_whitespace := false, minus_count := 0,
        extra_indentation := 0 }).2.2 valid_symbols
  rw [hstep, hrun] at hframe hpush
  refine ⟨(minus_loop tail.length s2 ⟨tail, 1 + ws.length, some 0, none⟩ v2).1.column, ?_⟩
  unfold Scanner.scan_minus
  apply pushes_item_ite
  · intro _
    dsimp only
    rw [hlex, hlen, hstep, hrun]
    generalize minus_loop tail.length s2 ⟨tail, 1 + ws.length, some 0, none⟩ v2 = r
      at ht1 ht2 ht3 hframe hpush ⊢
    have he : (if (decide (r.2.2.minus_count = 1) &&
        (r.2.1.lookahead == 10 || r.2.1.lookahead == 13)) = true
        then 1 else r.2.2.extra_indentation)
        = whitespace_width ((s.column + 1) % 256) ws := by
      have hx : r.2.2.extra_indentation = whitespace_width ((s.column + 1) % 256) ws := by
        rw [ht1, he2]
        simp only [Nat.zero_add]
        rfl
      by_cases h1 : r.2.2.minus_count = 1
      · have hla := ht3 h1
        have h10 : (r.2.1.lookahead == 10) = false := by
          rw [hla]
          exact beq_false_of_ne hstop.2.2.1
        have h13 : (r.2.1.lookahead == 13) = false := by
          rw [hla]
          exact beq_false_of_ne hstop.2.2.2
        simp only [h10, h13, Bool.or_self, Bool.and_false, Bool.false_eq_true, if_false, hx]
      · simp only [h1, decide_False, Bool.false_and, Bool.false_eq_true, if_false, hx]
    rw [he] at hpush
    rw [← hframe]
    exact hpush
  · intro _
    exact pushes_item_false _ _ _ _ _

theorem plus_decision_pushes (s : Scanner) (lexer : TSLexer) (extra_indentation : Nat)
    (valid_symbols : ValidSymbols) :
    pushes_item s
      (if (lexer.lookahead == 13 || lexer.lookahead == 10) = true then 1
       else extra_indentation) 0
      (s.plus_decision lexer extra_indentation valid_symbols) := by
  unfold Scanner.plus_decision
  dsimp only
  apply pushes_item_ite
  · intro _
    exact pushes_item_open _ _ _ _ _ _ _
  · intro _
    exact pushes_item_false _ _ _ _ _

/-- The `+` branch on a plus sign followed by the run `ws` of spaces and tabs
and then by `tail`, whose first character is neither whitespace nor a line
end: if the outcome is a list marker, the list item was pushed with the
width of `ws` as `extra_indentation`. -/
theorem scan_plus_pushes (s : Scanner) (valid_symbols : ValidSymbols) (ws tail : List Nat)
    (hws : ∀ c ∈ ws, c = 32 ∨ c = 9)
    (hstop : tail.headD 0 ≠ 32 ∧ tail.headD 0 ≠ 9 ∧ tail.headD 0 ≠ 10 ∧ tail.headD 0 ≠ 13) :
    ∃ col, pushes_item { s with column := col }
      (whitespace_width ((s.column + 1) % 256) ws) 0
      (s.scan_plus (TSLexer.start (43 :: (ws ++ tail))) valid_symbols) := by
  have hlex : (s.advance (TSLexer.start (43 :: (ws ++ tail)))).2.2
      = ⟨ws ++ tail, 1, none, none⟩ := rfl
  obtain ⟨hr1, hr2⟩ := advance_while_whitespace tail ⟨hstop.1, hstop.2.1⟩ none none ws hws
    (ws ++ tail).length (s.advance (TSLexer.start (43 :: (ws ++ tail)))).2.1 1 0 0
    (by simp)
  have hframe := advance_while_frame (fun c => c == 32 || c == 9) (ws ++ tail).length
    (s.advance (TSLexer.start (43 :: (ws ++ tail)))).2.1 ⟨ws ++ tail, 1, none, none⟩ 0 0
  have hpush := plus_decision_pushes
    (advance_while (fun c => c == 32 || c == 9) (ws ++ tail).length
      (s.advance (TSLexer.start (43 :: (ws ++ tail)))).2.1 ⟨ws ++ tail, 1, none, none⟩ 0 0).1
    (advance_while (fun c => c == 32 || c == 9) (ws ++ tail).length
      (s.advance (TSLexer.start (43 :: (ws ++ tail)))).2.1 ⟨ws ++ tail, 1, none, none⟩ 0 0).2.1
    (advance_while (fun c => c == 32 || c == 9) (ws ++ tail).length
      (s.advance (TSLexer.start (43 :: (ws ++ tail)))).2.1 ⟨ws ++ tail, 1, none, none⟩ 0 0).2.2.2
    valid_symbols
  refine ⟨(advance_while (fun c => c == 32 || c == 9) (ws ++ tail).length
      (s.advance (TSLexer.start (43 :: (ws ++ tail)))).2.1
      ⟨ws ++ tail, 1, none, none⟩ 0 0).1.column, ?_⟩
  unfold Scanner.scan_plus
  apply pushes_item_ite
  · intro _
    dsimp only
    rw [hlex]
    generalize advance_while (fun c => c == 32 || c == 9) (ws ++ tail).length
      (s.advance (TSLexer.start (43 :: (ws ++ tail)))).2.1 ⟨ws ++ tail, 1, none, none⟩ 0 0 = r
      at hr1 hr2 hframe hpush ⊢
    have h13 : (r.2.1.lookahead == 13) = false := by
      rw [hr1]
      exact beq_false_of_ne (by rw [TSLexer.lookahead_eq_headD]; exact hstop.2.2.2)
    have h10 : (r.2.1.lookahead == 10) = false := by
      rw [hr1]
      exact beq_false_of_ne (by rw [TSLexer.lookahead_eq_headD]; exact hstop.2.2.1)
    have hcol : (s.advance (TSLexer.start (43 :: (ws ++ tail)))).2.1.column
        = (s.column + 1) % 256 := rfl
    simp only [h13, h10, Bool.or_self, Bool.false_eq_true, if_false] at hpush
    have hw : r.2.2.2 = whitespace_width ((s.column + 1) % 256) ws := by
      rw [hr2, Nat.zero_add, hcol]
    rw [← hw]
    have hfr : r.1 = { s with column := r.1.column } := by
      rw [hframe]
      rfl
    rw [← hfr]
    exact hpush
  · intro _
    exact pushes_item_false _ _ _ _ _

/-- One round of the `*` loop at a star, with the updated variables spelled
out. -/
theorem star_loop_star_step (valid_symbols : ValidSymbols) (f : Nat) (s : Scanner)
    (lexer : TSLexer) (v : StarVars) (h : lexer.lookahead = 42) :
    star_loop valid_symbols (f + 1) s lexer v
      = star_loop valid_symbols f
          (s.advance (if v.star_count = 1 ∧ v.extra_indentation ≥ 1 ∧
            valid_symbols LIST_MARKER_STAR = true then lexer.mark_end else lexer)).2.1
          (s.advance (if v.star_count = 1 ∧ v.extra_indentation ≥ 1 ∧
            valid_symbols LIST_MARKER_STAR = true then lexer.mark_end else lexer)).2.2
          { star_count := v.star_count + 1, had_whitespace := v.had_whitespace,
            star_count_before_whitespace :=
              if v.had_whitespace = false then v.star_count_before_whitespace + 1
              else v.star_count_before_whitespace,
            extra_indentation := v.extra_indentation } := by
  simp only [star_loop, h, if_true]
  congr 1
  split <;> rfl

/-- Once the `*` loop has counted two stars, the width of the whitespace
behind the first one is settled. -/
theorem star_loop_after_second (valid_symbols : ValidSymbols) :
    ∀ (fuel : Nat) (s : Scanner) (lexer : TSLexer) (v : StarVars), 2 ≤ v.star_count →
      (star_loop valid_symbols fuel s lexer v).2.2.extra_indentation = v.extra_indentation ∧
      2 ≤ (star_loop valid_symbols fuel s lexer v).2.2.star_count ∧
      (star_loop valid_symbols fuel s lexer v).2.2.star_count ≠ 1 := by
  intro fuel
  induction fuel with
  | zero =>
    intro s lexer v h
    have hne : v.star_count ≠ 1 := by omega
    exact ⟨rfl, h, hne⟩
  | succ f ih =>
    intro s lexer v h
    by_cases h42 : lexer.lookahead = 42
    · rw [star_loop_star_step valid_symbols f s lexer v h42]
      exact ih _ _ _ (Nat.le_succ_of_le h)
    · simp only [star_loop, h42, if_false]
      split
      · have hne : ¬ v.star_count = 1 := by omega
        simp only [hne, if_false]
        exact ih _ _ _ h
      · have hne : v.star_count ≠ 1 := by omega
        exact ⟨rfl, h, hne⟩

/-- The `*` loop from the first character of `tail`, which is neither a space
nor a tab, after one star: the width counted so far stays, and if the count
of stars stays 1 the loop stops at that character. -/
theorem star_loop_tail (valid_symbols : ValidSymbols) (tail : List Nat)
    (hstop : tail.headD 0 ≠ 32 ∧ tail.headD 0 ≠ 9)
    (fuel : Nat) (s : Scanner) (pos : Nat) (te : Option Nat) (rs : Option TokenType)
    (v : StarVars) (hv : v.star_count = 1) (hfuel : tail.length ≤ fuel) :
    (star_loop valid_symbols fuel s ⟨tail, pos, te, rs⟩ v).2.2.extra_indentation
      = v.extra_indentation ∧
    ((star_loop valid_symbols fuel s ⟨tail, pos, te, rs⟩ v).2.2.star_count = 1 →
      (star_loop valid_symbols fuel s ⟨tail, pos, te, rs⟩ v).2.1.lookahead = tail.headD 0) := by
  cases tail with
  | nil =>
    have hr : star_loop valid_symbols fuel s ⟨[], pos, te, rs⟩ v = (s, ⟨[], pos, te, rs⟩, v) := by
      cases fuel with
      | zero => rfl
      | succ f => simp [star_loop]
    rw [hr]
    exact ⟨rfl, fun _ => rfl⟩
  | cons c t =>
    cases fuel with
    | zero => simp at hfuel
    | succ f =>
      have h32 : c ≠ 32 := hstop.1
      have h9 : c ≠ 9 := hstop.2
      by_cases hc : c = 42
      · rw [star_loop_star_step valid_symbols f s _ v (by rw [hc]; rfl)]
        have h2 : 2 ≤ v.star_count + 1 := by omega
        exact ⟨(star_loop_after_second valid_symbols f _ _ _ h2).1,
          fun h => absurd h (star_loop_after_second valid_symbols f _ _ _ h2).2.2⟩
      · have hr : star_loop valid_symbols (f + 1) s ⟨c :: t, pos, te, rs⟩ v
            = (s, ⟨c :: t, pos, te, rs⟩, v) := by
          simp [star_loop, hc, h32, h9]
        rw [hr]
        exact ⟨rfl, fun _ => rfl⟩

/-- The `*` loop over the run `ws` of spaces and tabs behind the first star:
the run is consumed and its width is added to `extra_indentation`. -/
theorem star_loop_whitespace (valid_symbols : ValidSymbols) (tail : List Nat) (te : Option Nat)
    (rs : Option TokenType) :
    ∀ (ws : List Nat), (∀ c ∈ ws, c = 32 ∨ c = 9) →
    ∀ (fuel : Nat) (s : Scanner) (pos : Nat) (v : StarVars), v.star_count = 1 →
      ∃ s2 v2, star_loop valid_symbols (ws.length + fuel) s ⟨ws ++ tail, pos, te, rs⟩ v
          = star_loop valid_symbols fuel s2 ⟨tail, pos + ws.length, te, rs⟩ v2 ∧
        v2.star_count = 1 ∧
        v2.extra_indentation = v.extra_indentation + whitespace_width s.column ws := by
  intro ws
  induction ws with
  | nil =>
    intro _ fuel s pos v hv
    refine ⟨s, v, ?_, hv, rfl⟩
    simp
  | cons c ws ih =>
    intro hws fuel s pos v hv
    have hc : c = 32 ∨ c = 9 := hws c (List.mem_cons_self _ _)
    have hc42 : c ≠ 42 := by rcases hc with h | h <;> omega
    have hws2 : ∀ x ∈ ws, x = 32 ∨ x = 9 := fun x hx => hws x (List.mem_cons_of_mem _ hx)
    obtain ⟨ha, hb⟩ := advance_cons_width s c (ws ++ tail) pos te rs
    obtain ⟨s2, v2, h1, h2, h3⟩ := ih hws2 fuel
      (s.advance ⟨c :: (ws ++ tail), pos, te, rs⟩).2.1 (pos + 1)
      { star_count := 1, had_whitespace := true,
        star_count_before_whitespace := v.star_count_before_whitespace,
        extra_indentation :=
          v.extra_indentation + (s.advance ⟨c :: (ws ++ tail), pos, te, rs⟩).1 } rfl
    refine ⟨s2, v2, ?_, h2, ?_⟩
    · have hlen : (c :: ws).length + fuel = (ws.length + fuel) + 1 := by
        simp only [List.length_cons]
        omega
      rw [hlen]
      simp only [star_loop, List.cons_append, TSLexer.lookahead_cons, hc42, if_false, hc,
        if_true, hv, Scanner.advance_lexer, TSLexer.advance_cons]
      rw [h1]
      congr 2
      simp only [List.length_cons]
      omega
    · rw [h3, hb, ha]
      simp only [whitespace_width]
      omega

theorem star_emphasis_decision_no_marker (s : Scanner) (lexer : TSLexer) (v : StarVars)
    (valid_symbols : ValidSymbols) (t : TokenType)
    (h : token_of (some (s.star_emphasis_decision lexer v valid_symbols)) = some t) :
    is_bullet_list_marker t = false := by
  unfold Scanner.star_emphasis_decision at h
  dsimp only at h
  rw [token_of_ite] at h
  split at h
  · simp at h
  · rw [token_of_ite] at h
    split at h
    · simp only [token_of_true, TSLexer.set_result_result_symbol, Option.some.injEq] at h
      rw [← h]
      rfl
    · rw [token_of_ite] at h
      split at h
      · simp only [token_of_true, TSLexer.set_result_result_symbol, Option.some.injEq] at h
        rw [← h]
        rfl
      · simp at h

theorem star_decision_pushes (s : Scanner) (lexer : TSLexer) (v : StarVars)
    (valid_symbols : ValidSymbols) :
    pushes_item s
      (if (decide (v.star_count = 1) &&
          (lexer.lookahead == 10 || lexer.lookahead == 13)) = true
       then 1 else v.extra_indentation) 0
      (s.star_decision lexer v valid_symbols) := by
  unfold Scanner.star_decision
  dsimp only
  apply pushes_item_ite
  · intro _
    apply pushes_item_ite
    · intro _
      exact pushes_item_error _ _ _ _ _
    · intro _
      exact pushes_item_other _ _ _ _ (by simp +decide)
  · intro _
    apply pushes_item_ite
    · intro _
      exact pushes_item_open _ _ _ _ _ _ _
    · intro _
      apply pushes_item_ite
      · intro _
        exact pushes_item_other _ _ _ _
          (fun t ht => star_emphasis_decision_no_marker _ _ _ _ t ht)
      · intro _
        exact pushes_item_false _ _ _ _ _

/-- The `*` branch on a star followed by the run `ws` of spaces and tabs and
then by `tail`, whose first character is neither whitespace nor a line end:
if the outcome is a list marker, the list item was pushed with the width of
`ws` as `extra_indentation`. -/
theorem parse_star_pushes (s : Scanner) (valid_symbols : ValidSymbols) (ws tail : List Nat)
    (hws : ∀ c ∈ ws, c = 32 ∨ c = 9)
    (hstop : tail.headD 0 ≠ 32 ∧ tail.headD 0 ≠ 9 ∧ tail.headD 0 ≠ 10 ∧ tail.headD 0 ≠ 13) :
    ∃ col, pushes_item { s with column := col }
      (whitespace_width ((s.column + 1) % 256) ws) 0
      (s.parse_star (TSLexer.start (42 :: (ws ++ tail))) valid_symbols) := by
  have hlex : (s.advance (TSLexer.start (42 :: (ws ++ tail)))).2.2.mark_end
      = ⟨ws ++ tail, 1, some 1, none⟩ := rfl
  have hlen : (ws ++ tail).length = ws.length + tail.length := List.length_append _ _
  obtain ⟨s2, v2, hrun, hv2, he2⟩ := star_loop_whitespace valid_symbols tail (some 1) none ws hws
    tail.length (s.advance (TSLexer.start (42 :: (ws ++ tail)))).2.1 1
    { star_count := 1, had_whitespace := false, star_count_before_whitespace := 1,
      extra_indentation := 0 } rfl
  obtain ⟨ht1, ht3⟩ := star_loop_tail valid_symbols tail ⟨hstop.1, hstop.2.1⟩ tail.length s2
    (1 + ws.length) (some 1) none v2 hv2 (le_refl _)
  have hframe := star_loop_frame valid_symbols (ws.length + tail.length)
    (s.advance (TSLexer.start (42 :: (ws ++ tail)))).2.1 ⟨ws ++ tail, 1, some 1, none⟩
    { star_count := 1, had_whitespace := false, star_count_before_whitespace := 1,
      extra_indentation := 0 }
  have hpush := star_decision_pushes
    (star_loop valid_symbols (ws.length + tail.length)
      (s.advance (TSLexer.start (42 :: (ws ++ tail)))).2.1 ⟨ws ++ tail, 1, some 1, none⟩
      { star_count := 1, had_whitespace := false, star_count_before_whitespace := 1,
        extra_indentation := 0 }).1
    (star_loop valid_symbols (ws.length + tail.length)
      (s.advance (TSLexer.start (42 :: (ws ++ tail)))).2.1 ⟨ws ++ tail, 1, some 1, none⟩
      { star_count := 1, had_whitespace := false, star_count_before_whitespace := 1,
        extra_indentation := 0 }).2.1
    (star_loop valid_symbols (ws.length + tail.length)
      (s.advance (TSLexer.start (42 :: (ws ++ tail)))).2.1 ⟨ws ++ tail, 1, some 1, none⟩
      { star_count := 1, had_whitespace := false, star_count_before_whitespace := 1,
        extra_indentation := 0 }).2.2 valid_symbols
  rw [hrun] at hframe hpush
  refine ⟨(star_loop valid_symbols tail.length s2 ⟨tail, 1 + ws.length, some 1, none⟩ v2).1.column,
    ?_⟩
  unfold Scanner.parse_star
  apply pushes_item_ite
  · intro _
    exact pushes_item_other _ _ _ _ (by simp +decide)
  · intro _
    apply pushes_item_ite
    · intro _
      exact pushes_item_other _ _ _ _ (by simp +decide)
    · intro _
      dsimp only
      rw [hlex]
      dsimp only
      rw [hlen, hrun]
      generalize star_loop valid_symbols tail.length s2 ⟨tail, 1 + ws.length, some 1, none⟩ v2 = r
        at ht1 ht3 hframe hpush ⊢
      have he : (if (decide (r.2.2.star_count = 1) &&
          (r.2.1.lookahead == 10 || r.2.1.lookahead == 13)) = true
          then 1 else r.2.2.extra_indentation)
          = whitespace_width ((s.column + 1) % 256) ws := by
        have hx : r.2.2.extra_indentation = whitespace_width ((s.column + 1) % 256) ws := by
          rw [ht1, he2]
          simp only [Nat.zero_add]
          rfl
        by_cases h1 : r.2.2.star_count = 1
        · have hla := ht3 h1
          have h10 : (r.2.1.lookahead == 10) = false := by
            rw [hla]
            exact beq_false_of_ne hstop.2.2.1
          have h13 : (r.2.1.lookahead == 13) = false := by
            rw [hla]
            exact beq_false_of_ne hstop.2.2.2
          simp only [h10, h13, Bool.or_self, Bool.and_false, Bool.false_eq_true, if_false, hx]
        · simp only [h1, decide_False, Bool.false_and, Bool.false_eq_true, if_false, hx]
      rw [he] at hpush
      have hfr : r.1 = { s with column := r.1.column } := by
        rw [hframe]
        rfl
      rw [← hfr]
      exact hpush

/-- The list item pushed for a bullet at indentation at most 3 with `w ≥ 1`
columns of whitespace behind it. -/
theorem push_list_item_bullet (s : Scanner) (w : Nat) (hi : s.indentation ≤ 3) (hw : 1 ≤ w) :
    ∃ b, (push_list_item s w 0).open_blocks = s.open_blocks ++ [b] ∧ is_list_item b = true ∧
      (w ≤ 4 → list_item_indentation b = s.indentation + 1 + w ∧
        (push_list_item s w 0).indentation = 0) ∧
      (5 ≤ w → list_item_indentation b = s.indentation + 2 ∧
        (push_list_item s w 0).indentation = (w - 1) % 256) := by
  unfold push_list_item
  by_cases h : w - 1 ≤ 3
  · simp only [h, if_true, Nat.add_zero]
    have hb : (LIST_ITEM + (w - 1 + s.indentation)) % 256 = LIST_ITEM + (w - 1 + s.indentation) := by
      apply Nat.mod_eq_of_lt
      simp only [LIST_ITEM]
      omega
    refine ⟨_, rfl, ?_, ?_, ?_⟩
    · rw [hb]
      unfold is_list_item LIST_ITEM LIST_ITEM_MAX_INDENTATION
      simp only [Bool.and_eq_true, decide_eq_true_eq, ge_iff_le]
      show (2 : Nat) ≤ 2 + (w - 1 + s.indentation) ∧ (2 : Nat) + (w - 1 + s.indentation) ≤ 17
      omega
    · intro _
      rw [hb, list_item_indentation_add _ (by omega)]
      exact ⟨by omega, trivial⟩
    · intro h5
      exfalso
      omega
  · simp only [h, if_false, Nat.add_zero]
    have hb : (LIST_ITEM + s.indentation) % 256 = LIST_ITEM + s.indentation := by
      apply Nat.mod_eq_of_lt
      simp only [LIST_ITEM]
      omega
    refine ⟨_, rfl, ?_, ?_, ?_⟩
    · rw [hb]
      unfold is_list_item LIST_ITEM LIST_ITEM_MAX_INDENTATION
      simp only [Bool.and_eq_true, decide_eq_true_eq, ge_iff_le]
      show (2 : Nat) ≤ 2 + s.indentation ∧ (2 : Nat) + s.indentation ≤ 17
      omega
    · intro h4
      exfalso
      omega
    · intro _
      rw [hb, list_item_indentation_add _ (by omega)]
      exact ⟨by omega, trivial⟩

theorem scan_switch_bullet (sym18 : TokenType) (s : Scanner) (lexer : TSLexer)
    (valid_symbols : ValidSymbols) :
    (lexer.lookahead = 45 →
      s.scan_switch sym18 lexer valid_symbols = s.scan_minus lexer valid_symbols) ∧
    (lexer.lookahead = 43 →
      s.scan_switch sym18 lexer valid_symbols = s.scan_plus lexer valid_symbols) ∧
    (lexer.lookahead = 42 →
      s.scan_switch sym18 lexer valid_symbols = s.parse_star lexer valid_symbols) := by
  unfold Scanner.scan_switch
  refine ⟨?_, ?_, ?_⟩ <;> intro h <;> simp [h]

/-- C11: the carried indentation is cut to 8 bits.  The list-marker branches
assign the excess width, a `size_t`, to the `uint8_t` field `indentation`
(`indentation = extra_indentation`, scan.cpp 238, 399 and scanner.cpp 300), under
the comment "We keep the indentation after the list marker for later
blocks".  On a dash followed by 257 spaces and `x`, scanned from the initial
state, the marker is accepted with `w = 257`, the pushed item has the
threshold `i + 2 = 2`, and the carried indentation is 0, not `w - 1 = 256`. -/
theorem C11_carried_indentation_wraps :
    whitespace_width 1 (List.replicate 257 32) = 257 ∧
    ∃ s1 l1, Scanner.initial.scan (OTHER 0)
        (TSLexer.start (45 :: (List.replicate 257 32 ++ [120])))
        (valid_of [LIST_MARKER_MINUS]) = some (true, s1, l1) ∧
      l1.result_symbol = some LIST_MARKER_MINUS ∧
      s1.open_blocks = [LIST_ITEM] ∧ s1.indentation = 0 ∧ s1.indentation ≠ 257 - 1 := by
  refine ⟨whitespace_width_spaces 1 257, ?_⟩
  refine ⟨{ Scanner.initial with open_blocks := [LIST_ITEM], column := 2 },
    { input := [120], position := 258, token_end := some 258,
      result_symbol := some LIST_MARKER_MINUS }, ?_, rfl, rfl, rfl, by decide⟩
  set_option maxRecDepth 100000 in decide

/-- The thresholds of a bullet item.  A bullet `m` (`-`, `+` or `*`) followed
by the run `ws` of spaces and tabs, at least one, and then by `tail`, whose
first character is
neither whitespace nor a line end, scanned by the classifier (leaf mode, no
request among the candidates) at indentation `i ≤ 3`; `w` is the width of
`ws` in columns.  If `scan` returns a bullet list marker, then a list item
is pushed on the stack, and: if `w ≤ 4` its continuation threshold is
`i + 1 + w` and the carried indentation is 0; if `w ≥ 5` its threshold is
`i + 2` and the carried indentation is `w - 1` reduced modulo 256, which is
`w - 1` itself for `w ≤ 256`. -/
theorem bullet_item_threshold (sym18 : TokenType) (s : Scanner)
    (valid_symbols : ValidSymbols) (m : Nat) (ws tail : List Nat) (hwf : s.wf)
    (hv : no_request valid_symbols) (hm : leaf_mode s) (hind : s.indentation ≤ 3)
    (hmark : m = 45 ∨ m = 43 ∨ m = 42) (hws : ∀ c ∈ ws, c = 32 ∨ c = 9) (hne : ws ≠ [])
    (hstop : tail.headD 0 ≠ 32 ∧ tail.headD 0 ≠ 9 ∧ tail.headD 0 ≠ 10 ∧ tail.headD 0 ≠ 13)
    (hacc : ∃ t, token_of (s.scan sym18 (TSLexer.start (m :: (ws ++ tail))) valid_symbols)
      = some t ∧ is_bullet_list_marker t = true) :
    ∃ r b, s.scan sym18 (TSLexer.start (m :: (ws ++ tail))) valid_symbols = some r ∧
      r.2.1.open_blocks = s.open_blocks ++ [b] ∧ is_list_item b = true ∧
      (whitespace_width ((s.column + 1) % 256) ws ≤ 4 →
        list_item_indentation b
          = s.indentation + 1 + whitespace_width ((s.column + 1) % 256) ws ∧
        r.2.1.indentation = 0) ∧
      (5 ≤ whitespace_width ((s.column + 1) % 256) ws →
        list_item_indentation b = s.indentation + 2 ∧
        r.2.1.indentation = (whitespace_width ((s.column + 1) % 256) ws - 1) % 256 ∧
        (whitespace_width ((s.column + 1) % 256) ws ≤ 256 →
          r.2.1.indentation = whitespace_width ((s.column + 1) % 256) ws - 1)) := by
  have hla : (TSLexer.start (m :: (ws ++ tail))).lookahead = m := rfl
  have hscan := scan_eq_scan_leaf sym18 s (TSLexer.start (m :: (ws ++ tail)))
    valid_symbols hwf hv hm (by simp [TSLexer.start])
    (by rw [hla]; rcases hmark with h | h | h <;> omega)
    (by rw [hla]; rcases hmark with h | h | h <;> omega)
  rw [scan_leaf_eq_switch sym18 s _ valid_symbols (Or.inr (Or.inr (by omega)))] at hscan
  obtain ⟨hsw1, hsw2, hsw3⟩ := scan_switch_bullet sym18 s (TSLexer.start (m :: (ws ++ tail)))
    valid_symbols
  have hw1 : 1 ≤ whitespace_width ((s.column + 1) % 256) ws := by
    cases ws with
    | nil => exact absurd rfl hne
    | cons c rest => exact whitespace_width_pos _ c rest
  have hpush : ∃ col, pushes_item { s with column := col }
      (whitespace_width ((s.column + 1) % 256) ws) 0
      (s.scan_switch sym18 (TSLexer.start (m :: (ws ++ tail))) valid_symbols) := by
    rcases hmark with h | h | h
    · rw [hsw1 (by rw [hla, h]), h]
      exact scan_minus_pushes s valid_symbols ws tail hws hstop
    · rw [hsw2 (by rw [hla, h]), h]
      exact scan_plus_pushes s valid_symbols ws tail hws hstop
    · rw [hsw3 (by rw [hla, h]), h]
      exact parse_star_pushes s valid_symbols ws tail hws hstop
  obtain ⟨col, hp⟩ := hpush
  rw [hscan] at hacc ⊢
  obtain ⟨st, hst⟩ := hp hacc
  obtain ⟨b, hb1, hb2, hb3, hb4⟩ := push_list_item_bullet
    ({ s with column := col, state := st } : Scanner)
    (whitespace_width ((s.column + 1) % 256) ws) hind hw1
  refine ⟨_, b, rfl, ?_, hb2, ?_, ?_⟩
  · rw [hst]
    exact hb1
  · intro h4
    rw [hst]
    exact hb3 h4
  · intro h5
    rw [hst]
    refine ⟨(hb4 h5).1, (hb4 h5).2, fun h256 => ?_⟩
    rw [(hb4 h5).2]
    exact Nat.mod_eq_of_lt (by omega)

/-- The line `- x` scanned from the initial state: one column of whitespace,
the threshold is 2 and the carried indentation 0. -/
theorem bullet_item_threshold_dash_x :
    Scanner.initial.wf ∧ no_request (valid_of [LIST_MARKER_MINUS]) ∧
    leaf_mode Scanner.initial ∧ Scanner.initial.indentation ≤ 3 ∧
    ((45 : Nat) = 45 ∨ (45 : Nat) = 43 ∨ (45 : Nat) = 42) ∧
    (∀ c ∈ [32], c = 32 ∨ c = 9) ∧ [32] ≠ [] ∧
    ([120].headD 0 ≠ 32 ∧ [120].headD 0 ≠ 9 ∧ [120].headD 0 ≠ 10 ∧ [120].headD 0 ≠ 13) ∧
    (∃ t, token_of (Scanner.initial.scan (OTHER 0) (TSLexer.start (45 :: ([32] ++ [120])))
      (valid_of [LIST_MARKER_MINUS])) = some t ∧ is_bullet_list_marker t = true) ∧
    whitespace_width ((Scanner.initial.column + 1) % 256) [32] = 1 ∧
    ∃ r b, Scanner.initial.scan (OTHER 0) (TSLexer.start (45 :: ([32] ++ [120])))
        (valid_of [LIST_MARKER_MINUS]) = some r ∧
      r.2.1.open_blocks = Scanner.initial.open_blocks ++ [b] ∧ is_list_item b = true ∧
      (whitespace_width ((Scanner.initial.column + 1) % 256) [32] ≤ 4 →
        list_item_indentation b = Scanner.initial.indentation + 1
          + whitespace_width ((Scanner.initial.column + 1) % 256) [32] ∧
        r.2.1.indentation = 0) ∧
      (5 ≤ whitespace_width ((Scanner.initial.column + 1) % 256) [32] →
        list_item_indentation b = Scanner.initial.indentation + 2 ∧
        r.2.1.indentation
          = (whitespace_width ((Scanner.initial.column + 1) % 256) [32] - 1) % 256 ∧
        (whitespace_width ((Scanner.initial.column + 1) % 256) [32] ≤ 256 →
          r.2.1.indentation
            = whitespace_width ((Scanner.initial.column + 1) % 256) [32] - 1)) :=
  ⟨by decide, by decide, by decide, by decide, by decide, by decide, by decide, by decide,
    ⟨LIST_MARKER_MINUS, by decide, by decide⟩, by decide,
    bullet_item_threshold (OTHER 0) Scanner.initial (valid_of [LIST_MARKER_MINUS]) 45
      [32] [120] (by decide) (by decide) (by decide) (by decide) (by decide) (by decide)
      (by decide) (by decide) ⟨LIST_MARKER_MINUS, by decide, by decide⟩⟩

/-! ## ATX headings -/

/-- The counting loop of the `#` branch stops where the next character is not
a hash or the level has passed 6. -/
theorem hash_loop_stop (fuel : Nat) (s : Scanner) (lexer : TSLexer) (level : Nat)
    (h : lexer.lookahead ≠ 35 ∨ 7 ≤ level) :
    hash_loop fuel s lexer level = (s, lexer, level) := by
  cases fuel with
  | zero => rfl
  | succ f =>
    unfold hash_loop
    have hc : ¬ (lexer.lookahead = 35 ∧ level ≤ 6) := by
      intro hc
      rcases h with h | h
      · exact h hc.1
      · omega
    simp only [hc, if_false]

theorem hash_loop_succ (fuel : Nat) (s : Scanner) (lexer : TSLexer) (level : Nat) :
    hash_loop (fuel + 1) s lexer level
      = if lexer.lookahead = 35 ∧ level ≤ 6 then
          hash_loop fuel (s.advance lexer).2.1 (s.advance lexer).2.2 (level + 1)
        else (s, lexer, level) := rfl

/-- The counting loop of the `#` branch consumes `k` hashes that do not take
the level past 7. -/
theorem hash_loop_prefix (rest : List Nat) (te : Option Nat) (rs : Option TokenType) :
    ∀ (k fuel : Nat) (s : Scanner) (pos level : Nat), s.column < 256 → level + k ≤ 7 →
      k ≤ fuel →
      hash_loop fuel s ⟨List.replicate k 35 ++ rest, pos, te, rs⟩ level
        = hash_loop (fuel - k) { s with column := (s.column + k) % 256 }
            ⟨rest, pos + k, te, rs⟩ (level + k) := by
  intro k
  induction k with
  | zero =>
    intro fuel s pos level hcol _ _
    simp only [List.replicate_zero, List.nil_append, Nat.add_zero, Nat.sub_zero,
      Nat.mod_eq_of_lt hcol]
  | succ k ih =>
    intro fuel s pos level hcol hlevel hfuel
    cases fuel with
    | zero => omega
    | succ f =>
      have hl : level ≤ 6 := by omega
      rw [List.replicate_succ, List.cons_append, hash_loop_succ]
      simp only [TSLexer.lookahead_cons, hl, and_self, if_true]
      have hadv : s.advance ⟨35 :: (List.replicate k 35 ++ rest), pos, te, rs⟩
          = (1, { s with column := (s.column + 1) % 256 },
              ⟨List.replicate k 35 ++ rest, pos + 1, te, rs⟩) := rfl
      rw [hadv]
      simp only
      rw [ih f { s with column := (s.column + 1) % 256 } (pos + 1) (level + 1)
        (Nat.mod_lt _ (by omega)) (by omega) (by omega)]
      have h1 : f + 1 - (k + 1) = f - k := by omega
      have h2 : ((s.column + 1) % 256 + k) % 256 = (s.column + (k + 1)) % 256 := by omega
      have h3 : pos + 1 + k = pos + (k + 1) := by omega
      have h4 : level + 1 + k = level + (k + 1) := by omega
      simp only [h1, h2, h3, h4]

theorem scan_switch_hash (sym18 : TokenType) (s : Scanner) (lexer : TSLexer)
    (valid_symbols : ValidSymbols) (hc : lexer.lookahead = 35) :
    s.scan_switch sym18 lexer valid_symbols = s.scan_hash lexer valid_symbols := by
  unfold Scanner.scan_switch
  simp [hc]

/-- The counting loop of the `#` branch on a run of `n` hashes that ends
before `tail`: it consumes `min n 7` of them. -/
theorem hash_loop_run (n : Nat) (tail : List Nat) (h35 : tail.headD 0 ≠ 35) (s : Scanner)
    (pos : Nat) (te : Option Nat) (rs : Option TokenType) (hcol : s.column < 256)
    (fuel : Nat) (hfuel : n ≤ fuel) :
    hash_loop fuel s ⟨List.replicate n 35 ++ tail, pos, te, rs⟩ 0
      = ({ s with column := (s.column + min n 7) % 256 },
          ⟨List.replicate (n - 7) 35 ++ tail, pos + min n 7, te, rs⟩, min n 7) := by
  have hsplit : List.replicate n 35 ++ tail
      = List.replicate (min n 7) 35 ++ (List.replicate (n - 7) 35 ++ tail) := by
    rw [← List.append_assoc, ← List.replicate_add]
    congr 2
    omega
  rw [hsplit, hash_loop_prefix _ te rs (min n 7) fuel s pos 0 hcol (by omega) (by omega),
    hash_loop_stop]
  · simp only [Nat.zero_add]
  · by_cases h7 : 7 ≤ n
    · right
      omega
    · left
      have h0 : n - 7 = 0 := by omega
      rw [h0]
      simp only [List.replicate_zero, List.nil_append, TSLexer.lookahead_eq_headD]
      exact h35

/-- The six ATX heading markers, by level. -/
theorem atx_marker_plus_level (n : Nat) (h1 : 1 ≤ n) (h6 : n ≤ 6) :
    some (atx_marker_plus (n - 1))
      = [ATX_H1_MARKER, ATX_H2_MARKER, ATX_H3_MARKER, ATX_H4_MARKER, ATX_H5_MARKER,
          ATX_H6_MARKER].get? (n - 1) := by
  have h : n = 1 ∨ n = 2 ∨ n = 3 ∨ n = 4 ∨ n = 5 ∨ n = 6 := by omega
  rcases h with h | h | h | h | h | h <;> subst h <;> rfl

/-- The `#` branch on a run of `n` hashes that ends before `tail`. -/
theorem scan_hash_run (s : Scanner) (valid_symbols : ValidSymbols) (n : Nat) (tail : List Nat)
    (pos : Nat) (te : Option Nat) (rs : Option TokenType) (hcol : s.column < 256)
    (hatx : valid_symbols ATX_H1_MARKER = true) (hind : s.indentation ≤ 3)
    (h35 : tail.headD 0 ≠ 35) :
    s.scan_hash ⟨List.replicate n 35 ++ tail, pos, te, rs⟩ valid_symbols
      = Scanner.hash_decision { s with column := (s.column + min n 7) % 256 }
          ⟨List.replicate (n - 7) 35 ++ tail, pos + min n 7, some pos, rs⟩ (min n 7) := by
  unfold Scanner.scan_hash
  simp only [hatx, hind, decide_True, Bool.and_self, if_true]
  have hm : (⟨List.replicate n 35 ++ tail, pos, te, rs⟩ : TSLexer).mark_end
      = ⟨List.replicate n 35 ++ tail, pos, some pos, rs⟩ := rfl
  rw [hm, hash_loop_run n tail h35 s pos (some pos) rs hcol _
    (by simp only [List.length_append, List.length_replicate]; omega)]

/-- C21: the classifier (leaf mode, no request among the candidates) at a
run of exactly `n >= 1` hashes followed by `tail`, with the token
`ATX_H1_MARKER` a candidate and `indentation <= 3`.  If `n <= 6`, the run is
followed by a space, a tab or a line end and the soft-break flag is clear,
`scan` returns the ATX heading marker of level `n`; the token ends behind
the `n` hashes, no block is pushed and `indentation` becomes 0.  If `n >= 7`
or the run is followed by anything else (the end of the input included),
`scan` returns `false`: there is no token. -/
theorem C21_atx_heading (sym18 : TokenType) (s : Scanner) (valid_symbols : ValidSymbols)
    (n : Nat) (tail : List Nat) (pos : Nat) (te : Option Nat) (rs : Option TokenType)
    (hwf : s.wf) (hv : no_request valid_symbols) (hm : leaf_mode s)
    (hatx : valid_symbols ATX_H1_MARKER = true) (hind : s.indentation ≤ 3) (hn : 1 ≤ n)
    (h35 : tail.headD 0 ≠ 35) :
    (n ≤ 6 → (tail.headD 0 = 32 ∨ tail.headD 0 = 9 ∨ tail.headD 0 = 10 ∨ tail.headD 0 = 13) →
      has_flag s.state STATE_WAS_SOFT_LINE_BREAK = false →
      ∃ r, s.scan sym18 ⟨List.replicate n 35 ++ tail, pos, te, rs⟩ valid_symbols = some r ∧
        r.1 = true ∧
        r.2.2.result_symbol
          = [ATX_H1_MARKER, ATX_H2_MARKER, ATX_H3_MARKER, ATX_H4_MARKER, ATX_H5_MARKER,
              ATX_H6_MARKER].get? (n - 1) ∧
        r.2.2.result_symbol ≠ none ∧
        r.2.2.token_end = some (pos + n) ∧ r.2.2.position = pos + n ∧ r.2.2.input = tail ∧
        r.2.1.open_blocks = s.open_blocks ∧ r.2.1.indentation = 0) ∧
    ((7 ≤ n ∨ (tail.headD 0 ≠ 32 ∧ tail.headD 0 ≠ 9 ∧ tail.headD 0 ≠ 10 ∧ tail.headD 0 ≠ 13)) →
      ∃ r, s.scan sym18 ⟨List.replicate n 35 ++ tail, pos, te, rs⟩ valid_symbols = some r ∧
        r.1 = false ∧
        token_of (s.scan sym18 ⟨List.replicate n 35 ++ tail, pos, te, rs⟩ valid_symbols)
          = none) := by
  obtain ⟨k, rfl⟩ : ∃ k, n = k + 1 := ⟨n - 1, by omega⟩
  have hla : (⟨List.replicate (k + 1) 35 ++ tail, pos, te, rs⟩ : TSLexer).lookahead = 35 := rfl
  have hscan := scan_eq_scan_leaf sym18 s ⟨List.replicate (k + 1) 35 ++ tail, pos, te, rs⟩
    valid_symbols hwf hv hm (by simp [List.replicate_succ]) (by rw [hla]; omega)
    (by rw [hla]; omega)
  rw [scan_leaf_eq_switch sym18 s _ valid_symbols (Or.inr (Or.inr (by omega))),
    scan_switch_hash sym18 s _ valid_symbols hla,
    scan_hash_run s valid_symbols (k + 1) tail pos te rs hwf.2.2.2.1 hatx hind h35] at hscan
  rw [hscan]
  constructor
  · intro h6 hc hsoft
    have hmin : min (k + 1) 7 = k + 1 := by omega
    have h0 : k + 1 - 7 = 0 := by omega
    rw [hmin, h0]
    refine ⟨_, rfl, ?_⟩
    unfold Scanner.hash_decision
    have hd : (decide (k + 1 ≤ 6) &&
        ((⟨List.replicate 0 35 ++ tail, pos + (k + 1), some pos, rs⟩ : TSLexer).lookahead == 32 ||
         (⟨List.replicate 0 35 ++ tail, pos + (k + 1), some pos, rs⟩ : TSLexer).lookahead == 9 ||
         (⟨List.replicate 0 35 ++ tail, pos + (k + 1), some pos, rs⟩ : TSLexer).lookahead == 10 ||
         (⟨List.replicate 0 35 ++ tail, pos + (k + 1), some pos, rs⟩ : TSLexer).lookahead == 13))
        = true := by
      simp only [List.replicate_zero, List.nil_append, TSLexer.lookahead_eq_headD]
      rcases hc with hc | hc | hc | hc <;> rw [hc] <;> simp [h6]
    simp only [hd, if_true, hsoft, Bool.false_eq_true, if_false]
    refine ⟨trivial, ?_, ?_, rfl, rfl, rfl, trivial, trivial⟩
    · exact atx_marker_plus_level (k + 1) (by omega) h6
    · exact fun h => Option.noConfusion h
  · intro hc
    refine ⟨_, rfl, ?_⟩
    have hd : (Scanner.hash_decision { s with column := (s.column + min (k + 1) 7) % 256 }
        ⟨List.replicate (k + 1 - 7) 35 ++ tail, pos + min (k + 1) 7, some pos, rs⟩
        (min (k + 1) 7))
        = (false, { s with column := (s.column + min (k + 1) 7) % 256 },
            ⟨List.replicate (k + 1 - 7) 35 ++ tail, pos + min (k + 1) 7, some pos, rs⟩) := by
      unfold Scanner.hash_decision
      rcases hc with hc | hc
      · have hmin : min (k + 1) 7 = 7 := by omega
        rw [hmin]
        simp
      · by_cases h7 : 7 ≤ k + 1
        · have hmin : min (k + 1) 7 = 7 := by omega
          rw [hmin]
          simp
        · have h0 : k + 1 - 7 = 0 := by omega
          rw [h0]
          simp only [List.replicate_zero, List.nil_append, TSLexer.lookahead_eq_headD]
          generalize tail.headD 0 = c at hc
          simp [hc.1, hc.2.1, hc.2.2.1, hc.2.2.2]
    rw [hd]
    exact ⟨rfl, rfl⟩

/-- C21 at the line `## x` and at the run `#######`, scanned from the initial
state: the marker of level 2 covering two characters, and no token. -/
theorem C21_atx_heading_witness :
    Scanner.initial.wf ∧ no_request (valid_of [ATX_H1_MARKER]) ∧ leaf_mode Scanner.initial ∧
    valid_of [ATX_H1_MARKER] ATX_H1_MARKER = true ∧ Scanner.initial.indentation ≤ 3 ∧
    1 ≤ 2 ∧ [32, 120, 10].headD 0 ≠ 35 ∧
    token_of (Scanner.initial.scan (OTHER 0) ⟨List.replicate 2 35 ++ [32, 120, 10], 0, none, none⟩
      (valid_of [ATX_H1_MARKER])) = some ATX_H2_MARKER ∧
    token_of (Scanner.initial.scan (OTHER 0) ⟨List.replicate 7 35 ++ [32, 120, 10], 0, none, none⟩
      (valid_of [ATX_H1_MARKER])) = none ∧
    ((2 ≤ 6 → ([32, 120, 10].headD 0 = 32 ∨ [32, 120, 10].headD 0 = 9 ∨
        [32, 120, 10].headD 0 = 10 ∨ [32, 120, 10].headD 0 = 13) →
      has_flag Scanner.initial.state STATE_WAS_SOFT_LINE_BREAK = false →
      ∃ r, Scanner.initial.scan (OTHER 0) ⟨List.replicate 2 35 ++ [32, 120, 10], 0, none, none⟩
          (valid_of [ATX_H1_MARKER]) = some r ∧
        r.1 = true ∧
        r.2.2.result_symbol
          = [ATX_H1_MARKER, ATX_H2_MARKER, ATX_H3_MARKER, ATX_H4_MARKER, ATX_H5_MARKER,
              ATX_H6_MARKER].get? (2 - 1) ∧
        r.2.2.result_symbol ≠ none ∧
        r.2.2.token_end = some (0 + 2) ∧ r.2.2.position = 0 + 2 ∧
        r.2.2.input = [32, 120, 10] ∧
        r.2.1.open_blocks = Scanner.initial.open_blocks ∧ r.2.1.indentation = 0) ∧
    ((7 ≤ 2 ∨ ([32, 120, 10].headD 0 ≠ 32 ∧ [32, 120, 10].headD 0 ≠ 9 ∧
        [32, 120, 10].headD 0 ≠ 10 ∧ [32, 120, 10].headD 0 ≠ 13)) →
      ∃ r, Scanner.initial.scan (OTHER 0) ⟨List.replicate 2 35 ++ [32, 120, 10], 0, none, none⟩
          (valid_of [ATX_H1_MARKER]) = some r ∧
        r.1 = false ∧
        token_of (Scanner.initial.scan (OTHER 0)
          ⟨List.replicate 2 35 ++ [32, 120, 10], 0, none, none⟩ (valid_of [ATX_H1_MARKER]))
          = none)) :=
  ⟨by decide, by decide, by decide, by decide, by decide, by decide, by decide, by decide,
    by decide,
    C21_atx_heading (OTHER 0) Scanner.initial (valid_of [ATX_H1_MARKER]) 2 [32, 120, 10] 0 none
      none (by decide) (by decide) (by decide) (by decide) (by decide) (by decide) (by decide)⟩

/-! ## The continuation predicates of `match` -/

/-- What `match` leaves alone: the stack, `matched`, the flag word, the
column unless a block quote is matched, and the lexer unless the block is a
block quote; a failed `match` changes nothing at all. -/
theorem match_frame (s : Scanner) (lexer : TSLexer) (block : Block)
    (r : Bool × Scanner × TSLexer) (h : s.match_ lexer block = some r) :
    r.2.1.open_blocks = s.open_blocks ∧ r.2.1.matched = s.matched ∧ r.2.1.state = s.state ∧
      (block ≠ BLOCK_QUOTE → r.2.2 = lexer) ∧ (r.1 = false → r.2.1 = s ∧ r.2.2 = lexer) := by
  unfold Scanner.match_ at h
  by_cases h1 : block = INDENTED_CODE_BLOCK
  · simp only [h1, if_true] at h
    split_ifs at h <;>
      (simp only [Option.some.injEq] at h
       rw [← h]
       simp)
  · simp only [h1, if_false] at h
    by_cases h2 : LIST_ITEM ≤ block ∧ block ≤ LIST_ITEM + 15
    · simp only [h2, and_self, if_true] at h
      split at h
      · exact absurd h (by simp)
      · split_ifs at h <;>
          (simp only [Option.some.injEq] at h
           rw [← h]
           simp)
    · simp only [h2, if_false] at h
      by_cases h3 : block = BLOCK_QUOTE
      · simp only [h3, if_true] at h
        by_cases h4 : lexer.lookahead = 62
        · simp only [h4, if_true] at h
          split_ifs at h <;>
            (simp only [Option.some.injEq] at h
             rw [← h]
             simp [Scanner.advance, h3])
        · simp only [h4, if_false, Option.some.injEq] at h
          rw [← h]
          simp
      · simp only [h3, if_false] at h
        split_ifs at h <;>
          (simp only [Option.some.injEq] at h
           rw [← h]
           simp)

/-- C24: `match` on the block `open_blocks[matched]`, as `scan` calls it,
returns.  For a list item with threshold `k = list_item_indentation block`
it succeeds iff `indentation >= k` or the next character is a line end; in
the first case `indentation` decreases by `k`, in the second case (the
threshold not met) it becomes 0.  For an indented code block it succeeds
iff `indentation >= 4` and the next character is not a line end, and then
`indentation` decreases by 4.  For a fenced code block or an anonymous
block it succeeds and changes nothing.  In the three cases a success
changes no other field and consumes nothing, and for every block a failure
changes nothing and consumes nothing. -/
theorem C24_match (s : Scanner) (lexer : TSLexer) (block : Block)
    (hb : s.open_blocks.get? s.matched = some block) :
    ∃ r, s.match_ lexer block = some r ∧
      (is_list_item block = true →
        (r.1 = true ↔ (s.indentation ≥ list_item_indentation block ∨
          lexer.lookahead = 10 ∨ lexer.lookahead = 13)) ∧
        (s.indentation ≥ list_item_indentation block →
          r.2.1 = { s with indentation := s.indentation - list_item_indentation block }) ∧
        (s.indentation < list_item_indentation block → r.1 = true →
          r.2.1 = { s with indentation := 0 }) ∧
        r.2.2 = lexer) ∧
      (block = INDENTED_CODE_BLOCK →
        (r.1 = true ↔ (s.indentation ≥ 4 ∧ lexer.lookahead ≠ 10 ∧ lexer.lookahead ≠ 13)) ∧
        (r.1 = true → r.2.1 = { s with indentation := s.indentation - 4 }) ∧
        r.2.2 = lexer) ∧
      (block = FENCED_CODE_BLOCK ∨ block = ANONYMOUS → r = (true, s, lexer)) ∧
      (r.1 = false → r.2.1 = s ∧ r.2.2 = lexer) := by
  have hex : ∃ r, s.match_ lexer block = some r := by
    unfold Scanner.match_
    rw [hb]
    dsimp only
    split_ifs <;> exact ⟨_, rfl⟩
  obtain ⟨r, hr⟩ := hex
  refine ⟨r, hr, ?_, ?_, ?_, (match_frame s lexer block r hr).2.2.2.2⟩
  · intro hli
    have hrange : LIST_ITEM ≤ block ∧ block ≤ LIST_ITEM + 15 := by
      simpa [is_list_item, LIST_ITEM, LIST_ITEM_MAX_INDENTATION] using hli
    have h1 : block ≠ INDENTED_CODE_BLOCK := by
      intro h
      rw [h] at hrange
      exact absurd hrange.1 (by decide)
    unfold Scanner.match_ at hr
    rw [hb] at hr
    simp only [h1, if_false, hrange, and_self, if_true] at hr
    by_cases hk : s.indentation ≥ list_item_indentation block
    · rw [if_pos hk, Option.some.injEq] at hr
      rw [← hr]
      simp [hk]
    · rw [if_neg hk] at hr
      by_cases hle : lexer.lookahead = 10 ∨ lexer.lookahead = 13
      · rw [if_pos hle, Option.some.injEq] at hr
        rw [← hr]
        simp [hk, hle]
      · rw [if_neg hle, Option.some.injEq] at hr
        rw [← hr]
        have hle2 : ¬ lexer.lookahead = 10 ∧ ¬ lexer.lookahead = 13 := by
          constructor
          · exact fun h => hle (Or.inl h)
          · exact fun h => hle (Or.inr h)
        simp [hk, hle2.1, hle2.2]
  · intro hicb
    unfold Scanner.match_ at hr
    simp only [hicb, if_true] at hr
    by_cases hc : s.indentation ≥ 4 ∧ lexer.lookahead ≠ 10 ∧ lexer.lookahead ≠ 13
    · rw [if_pos hc, Option.some.injEq] at hr
      rw [← hr]
      simp [hc]
    · rw [if_neg hc, Option.some.injEq] at hr
      rw [← hr]
      simp [hc]
  · intro hfa
    unfold Scanner.match_ at hr
    have h1 : block ≠ INDENTED_CODE_BLOCK := by
      rcases hfa with h | h <;> rw [h] <;> decide
    have h2 : ¬ (LIST_ITEM ≤ block ∧ block ≤ LIST_ITEM + 15) := by
      rcases hfa with h | h <;> rw [h] <;> decide
    have h3 : block ≠ BLOCK_QUOTE := by
      rcases hfa with h | h <;> rw [h] <;> decide
    simp only [h1, h2, h3, hfa, if_false, if_true, Option.some.injEq] at hr
    exact hr.symm

/-- C24 at a list item of threshold 2 on top of a block quote: with
indentation 3 the match succeeds and leaves indentation 1; with indentation 1
before `x` it fails and before a line end it succeeds with indentation 0. -/
theorem C24_match_witness :
    (scanner_in_item 3).open_blocks.get? (scanner_in_item 3).matched = some LIST_ITEM ∧
    (∃ r, (scanner_in_item 3).match_ (TSLexer.start [120]) LIST_ITEM = some r ∧
      r.1 = true ∧ r.2.1.indentation = 1) ∧
    (scanner_in_item 1).match_ (TSLexer.start [120]) LIST_ITEM
      = some (false, scanner_in_item 1, TSLexer.start [120]) ∧
    (scanner_in_item 1).match_ (TSLexer.start [10]) LIST_ITEM
      = some (true, scanner_in_item 0, TSLexer.start [10]) :=
  ⟨by decide,
    (C24_match (scanner_in_item 3) (TSLexer.start [120]) LIST_ITEM (by decide)).elim
      (fun r h => ⟨r, h.1, ((h.2.1 (by decide)).1).2 (Or.inl (by decide)), by
        rw [(h.2.1 (by decide)).2.1 (by decide)]
        rfl⟩),
    by decide, by decide⟩

/-! ## The dispatch of `scan` -/

/-- With no request among the candidates, `scan` flushes at the end of the
input and otherwise runs the classifier or the matcher, as the matching flag
says. -/
theorem scan_dispatch (sym18 : TokenType) (s : Scanner) (lexer : TSLexer)
    (valid_symbols : ValidSymbols) (hv : no_request valid_symbols) :
    s.scan sym18 lexer valid_symbols
      = if (s.at_dispatch lexer valid_symbols).2.eof = true then
          if (s.at_dispatch lexer valid_symbols).1.open_blocks.length > 0 then
            some (true, { (s.at_dispatch lexer valid_symbols).1 with
                open_blocks := (s.at_dispatch lexer valid_symbols).1.open_blocks.dropLast },
              (s.at_dispatch lexer valid_symbols).2.set_result BLOCK_CLOSE)
          else some (false, (s.at_dispatch lexer valid_symbols).1,
            (s.at_dispatch lexer valid_symbols).2)
        else if has_flag (s.at_dispatch lexer valid_symbols).1.state STATE_MATCHING = false then
          some ((s.at_dispatch lexer valid_symbols).1.scan_leaf sym18
            (s.at_dispatch lexer valid_symbols).2 valid_symbols)
        else (s.at_dispatch lexer valid_symbols).1.scan_matching
          (s.at_dispatch lexer valid_symbols).2 valid_symbols := by
  obtain ⟨hv1, hv2, hv3, hv4, hv5⟩ := hv
  unfold Scanner.scan Scanner.at_dispatch
  simp only [hv1, hv2, hv3, hv4, hv5, Bool.false_eq_true, if_false, Bool.or_self]
  split
  · rfl
  · cases has_flag ((s.after_split_tokens valid_symbols).skip_whitespace lexer).1.state
      STATE_MATCHING <;> simp

theorem skip_whitespace_matched (t : Scanner) (lexer : TSLexer) :
    (t.skip_whitespace lexer).1.matched = t.matched := by
  unfold Scanner.skip_whitespace
  simp only [advance_while_matched]

theorem after_split_tokens_matched (t : Scanner) (valid_symbols : ValidSymbols) :
    (t.after_split_tokens valid_symbols).matched = t.matched := by
  unfold Scanner.after_split_tokens
  dsimp only
  split <;> rfl

theorem at_dispatch_open_blocks (s : Scanner) (lexer : TSLexer) (valid_symbols : ValidSymbols) :
    (s.at_dispatch lexer valid_symbols).1.open_blocks = s.open_blocks := by
  unfold Scanner.at_dispatch
  rw [skip_whitespace_open_blocks, after_split_tokens_open_blocks]

theorem at_dispatch_matched (s : Scanner) (lexer : TSLexer) (valid_symbols : ValidSymbols) :
    (s.at_dispatch lexer valid_symbols).1.matched = s.matched := by
  unfold Scanner.at_dispatch
  rw [skip_whitespace_matched, after_split_tokens_matched]

/-- Up to the dispatch the flag word changes in the matching flag only. -/
theorem at_dispatch_state (s : Scanner) (lexer : TSLexer) (valid_symbols : ValidSymbols)
    (f : Nat) (hf : not16 STATE_MATCHING &&& f = f) :
    (s.at_dispatch lexer valid_symbols).1.state &&& f = s.state &&& f := by
  unfold Scanner.at_dispatch
  rw [skip_whitespace_state, after_split_tokens_and s valid_symbols f hf]

/-! ## The matching loop -/

/-- What a successful `match` of a block quote consumes: the `>` and one
space or tab behind it, if there is one. -/
theorem match_block_quote_input (s : Scanner) (lexer : TSLexer) (s2 : Scanner) (l2 : TSLexer)
    (h : s.match_ lexer BLOCK_QUOTE = some (true, s2, l2)) :
    ∃ rest, lexer.input = 62 :: rest ∧
      (l2.input = rest ∨ ∃ c, (c = 32 ∨ c = 9) ∧ rest = c :: l2.input) := by
  cases lexer with
  | mk input pos te rs =>
    cases input with
    | nil => simp [Scanner.match_, BLOCK_QUOTE, INDENTED_CODE_BLOCK, LIST_ITEM] at h
    | cons c rest =>
      by_cases hc : c = 62
      · subst hc
        refine ⟨rest, rfl, ?_⟩
        cases rest with
        | nil =>
          simp [Scanner.match_, BLOCK_QUOTE, INDENTED_CODE_BLOCK, LIST_ITEM, Scanner.advance,
            TSLexer.advance] at h
          left
          rw [← h.2]
        | cons d rest2 =>
          by_cases hd : d = 32 ∨ d = 9
          · right
            refine ⟨d, hd, ?_⟩
            simp [Scanner.match_, BLOCK_QUOTE, INDENTED_CODE_BLOCK, LIST_ITEM, Scanner.advance,
              TSLexer.advance, hd] at h
            rw [← h.2]
          · left
            simp [Scanner.match_, BLOCK_QUOTE, INDENTED_CODE_BLOCK, LIST_ITEM, Scanner.advance,
              TSLexer.advance, hd] at h
            rw [← h.2]
      · simp [Scanner.match_, BLOCK_QUOTE, INDENTED_CODE_BLOCK, LIST_ITEM, hc] at h

theorem match_loop_zero (s : Scanner) (lexer : TSLexer) (ps : Bool) :
    match_loop 0 s lexer ps = some (s, lexer, ps) := rfl

theorem match_loop_succ (fuel : Nat) (s : Scanner) (lexer : TSLexer) (ps : Bool) :
    match_loop (fuel + 1) s lexer ps
      = if s.matched < s.open_blocks.length then
          if s.matched = s.open_blocks.length - 1 ∧ has_flag s.state STATE_CLOSE_BLOCK = true then
            some (if (!ps) = true then { s with state := s.state &&& not16 STATE_CLOSE_BLOCK }
              else s, lexer, ps)
          else
            match s.open_blocks.get? s.matched with
            | none => none
            | some block =>
              if block = BLOCK_QUOTE ∧ ps = true then some (s, lexer, ps)
              else
                match s.match_ lexer block with
                | none => none
                | some (false, s, lexer) => some (s, lexer, ps)
                | some (true, s, lexer) =>
                  match block_before s.open_blocks ((s.matched + 1) % 256) with
                  | none => none
                  | some b =>
                    if b = BLOCK_QUOTE then
                      some ({ s with matched := (s.matched + 1) % 256 }, lexer, true)
                    else match_loop fuel { s with matched := (s.matched + 1) % 256 } lexer true
        else some (s, lexer, ps) := rfl

/-- One round of the matching loop, seen from its outcome: the loop is left
with nothing matched, keeping the lexer and changing the flag word at most;
or the block `open_blocks[matched]` is matched, `matched` goes up by one
without wrapping around, and the loop is left if the block is a block quote
and goes on otherwise. -/
theorem match_loop_round (fuel : Nat) (s : Scanner) (lexer : TSLexer) (ps : Bool)
    (r : Scanner × TSLexer × Bool) (hm : s.matched < 256)
    (h : match_loop (fuel + 1) s lexer ps = some r) :
    (r.2.1 = lexer ∧ r.2.2 = ps ∧ r.1.matched = s.matched ∧
        r.1.open_blocks = s.open_blocks) ∨
      ∃ block s2 l2, s.open_blocks.get? s.matched = some block ∧
        (block = BLOCK_QUOTE → ps = false) ∧
        s.match_ lexer block = some (true, s2, l2) ∧ s.matched + 1 < 256 ∧
        s.matched < s.open_blocks.length ∧
        (if block = BLOCK_QUOTE then r = ({ s2 with matched := s.matched + 1 }, l2, true)
         else match_loop fuel { s2 with matched := s.matched + 1 } l2 true = some r) := by
  rw [match_loop_succ] at h
  by_cases h1 : s.matched < s.open_blocks.length
  · rw [if_pos h1] at h
    by_cases h2 : s.matched = s.open_blocks.length - 1 ∧ has_flag s.state STATE_CLOSE_BLOCK = true
    · rw [if_pos h2, Option.some.injEq] at h
      left
      rw [← h]
      refine ⟨rfl, rfl, ?_, ?_⟩ <;> (dsimp only; split <;> rfl)
    · rw [if_neg h2] at h
      cases hb : s.open_blocks.get? s.matched with
      | none =>
        rw [hb] at h
        exact absurd h (by simp)
      | some block =>
        rw [hb] at h
        dsimp only at h
        by_cases h3 : block = BLOCK_QUOTE ∧ ps = true
        · rw [if_pos h3, Option.some.injEq] at h
          left
          rw [← h]
          exact ⟨rfl, rfl, rfl, rfl⟩
        · rw [if_neg h3] at h
          cases hmt : s.match_ lexer block with
          | none =>
            rw [hmt] at h
            exact absurd h (by simp)
          | some q =>
            obtain ⟨b, s2, l2⟩ := q
            have hfr := match_frame s lexer block _ hmt
            rw [hmt] at h
            cases b with
            | false =>
              dsimp only at h
              rw [Option.some.injEq] at h
              left
              rw [← h]
              have := hfr.2.2.2.2 rfl
              exact ⟨this.2, rfl, hfr.2.1, hfr.1⟩
            | true =>
              dsimp only at h
              right
              have hs2m : s2.matched = s.matched := hfr.2.1
              have hs2o : s2.open_blocks = s.open_blocks := hfr.1
              rw [hs2m] at h
              by_cases hw : s.matched + 1 < 256
              · rw [Nat.mod_eq_of_lt hw] at h
                have hbb : block_before s2.open_blocks (s.matched + 1) = some block := by
                  rw [hs2o]
                  show (if s.matched + 1 = 0 then none
                    else s.open_blocks.get? (s.matched + 1 - 1)) = some block
                  rw [if_neg (by omega), Nat.add_sub_cancel]
                  exact hb
                rw [hbb] at h
                dsimp only at h
                refine ⟨block, s2, l2, rfl, ?_, hmt, hw, h1, ?_⟩
                · intro hq
                  cases ps with
                  | false => rfl
                  | true => exact absurd ⟨hq, rfl⟩ h3
                · by_cases hq : block = BLOCK_QUOTE
                  · rw [if_pos hq] at h ⊢
                    rw [Option.some.injEq] at h
                    exact h.symm
                  · rw [if_neg hq] at h ⊢
                    exact h
              · have h0 : (s.matched + 1) % 256 = 0 := by omega
                rw [h0] at h
                simp [block_before] at h
  · rw [if_neg h1, Option.some.injEq] at h
    left
    rw [← h]
    exact ⟨rfl, rfl, rfl, rfl⟩

/-- The matching loop once a block has been matched: it consumes nothing, it
matches no block quote, and `matched` stays within the stack. -/
theorem match_loop_after_success :
    ∀ (fuel : Nat) (s : Scanner) (lexer : TSLexer) (r : Scanner × TSLexer × Bool),
      s.matched < 256 → match_loop fuel s lexer true = some r →
      r.2.1 = lexer ∧ r.2.2 = true ∧ r.1.open_blocks = s.open_blocks ∧
        s.matched ≤ r.1.matched ∧
        (r.1.matched ≤ s.open_blocks.length ∨ r.1.matched = s.matched) ∧
        (∀ i, s.matched ≤ i → i < r.1.matched → s.open_blocks.get? i ≠ some BLOCK_QUOTE) := by
  intro fuel
  induction fuel with
  | zero =>
    intro s lexer r _ h
    rw [match_loop_zero, Option.some.injEq] at h
    rw [← h]
    exact ⟨rfl, rfl, rfl, le_refl _, Or.inr rfl, fun i h1 h2 => absurd h2 (by dsimp only; omega)⟩
  | succ f ih =>
    intro s lexer r hm h
    rcases match_loop_round f s lexer true r hm h with h1 | ⟨block, s2, l2, hb, hq, hmt, hw, hlt, hr⟩
    · obtain ⟨h1, h2, h3, h4⟩ := h1
      exact ⟨h1, h2, h4, by omega, Or.inr h3, fun i hi1 hi2 => absurd hi2 (by omega)⟩
    · have hfr := match_frame s lexer block _ hmt
      have hnq : block ≠ BLOCK_QUOTE := fun hc => absurd (hq hc) (by decide)
      rw [if_neg hnq] at hr
      obtain ⟨i1, i2, i3, i4, i5, i6⟩ := ih _ _ _ hw hr
      dsimp only at i3 i4 i5 i6
      have hl2 : l2 = lexer := hfr.2.2.2.1 hnq
      have hs2o : s2.open_blocks = s.open_blocks := hfr.1
      rw [hs2o] at i3 i5 i6
      refine ⟨by rw [i1, hl2], i2, i3, by omega, Or.inl ?_, ?_⟩
      · rcases i5 with h5 | h5 <;> omega
      · intro i hi1 hi2
        by_cases hi : i = s.matched
        · rw [hi, hb]
          exact fun hc => hnq (Option.some.inj hc)
        · exact i6 i (by omega) hi2

/-- The matching loop as `scan` starts it, with nothing matched yet.  The
stack is left alone and `matched` does not decrease; `partial_success` tells
whether `matched` went up, and then `matched` is within the stack; a block
quote among the blocks matched is the first and the only one of them; and
the lexer is where it was unless that block quote was matched, which
consumes the `>` and one space or tab behind it. -/
theorem match_loop_spec (fuel : Nat) (s : Scanner) (lexer : TSLexer)
    (r : Scanner × TSLexer × Bool) (hm : s.matched < 256)
    (h : match_loop fuel s lexer false = some r) :
    r.1.open_blocks = s.open_blocks ∧ s.matched ≤ r.1.matched ∧
      (r.2.2 = true ↔ s.matched < r.1.matched) ∧
      (r.2.2 = true → r.1.matched ≤ s.open_blocks.length) ∧
      (∀ i, s.matched ≤ i → i < r.1.matched → s.open_blocks.get? i = some BLOCK_QUOTE →
        i = s.matched ∧ r.1.matched = s.matched + 1) ∧
      (r.2.1 = lexer ∨
        (s.open_blocks.get? s.matched = some BLOCK_QUOTE ∧ r.1.matched = s.matched + 1 ∧
          ∃ rest, lexer.input = 62 :: rest ∧
            (r.2.1.input = rest ∨ ∃ c, (c = 32 ∨ c = 9) ∧ rest = c :: r.2.1.input))) := by
  cases fuel with
  | zero =>
    rw [match_loop_zero, Option.some.injEq] at h
    rw [← h]
    exact ⟨rfl, le_refl _, by simp, by simp, fun i h1 h2 => absurd h2 (by dsimp only; omega),
      Or.inl rfl⟩
  | succ f =>
    rcases match_loop_round f s lexer false r hm h with h1 | ⟨block, s2, l2, hb, _, hmt, hw, hlt, hr⟩
    · obtain ⟨h1, h2, h3, h4⟩ := h1
      refine ⟨h4, by omega, ?_, ?_, fun i hi1 hi2 => absurd hi2 (by omega), Or.inl h1⟩
      · rw [h2, h3]
        simp
      · rw [h2]
        simp
    · have hfr := match_frame s lexer block _ hmt
      have hs2o : s2.open_blocks = s.open_blocks := hfr.1
      by_cases hq : block = BLOCK_QUOTE
      · rw [if_pos hq] at hr
        rw [hr]
        rw [hq] at hmt hb
        refine ⟨hs2o, by dsimp only; omega, by dsimp only; simp, ?_, ?_,
          Or.inr ⟨hb, rfl, match_block_quote_input s lexer s2 l2 hmt⟩⟩
        · intro _
          dsimp only
          omega
        · intro i hi1 hi2 _
          dsimp only at hi2 ⊢
          omega
      · rw [if_neg hq] at hr
        obtain ⟨i1, i2, i3, i4, i5, i6⟩ := match_loop_after_success f _ _ _ hw hr
        dsimp only at i3 i4 i5 i6
        rw [hs2o] at i3 i5 i6
        have hl2 : l2 = lexer := hfr.2.2.2.1 hq
        refine ⟨i3, by omega, ?_, ?_, ?_, Or.inl (by rw [i1, hl2])⟩
        · rw [i2]
          simp
          omega
        · intro _
          rcases i5 with h5 | h5 <;> omega
        · intro i hi1 hi2 hbq
          by_cases hi : i = s.matched
          · rw [hi, hb] at hbq
            exact absurd (Option.some.inj hbq) hq
          · exact absurd hbq (i6 i (by omega) hi2)

/-- The fuel `scan` gives the matching loop is enough: once the fuel covers
the blocks not yet matched, more fuel does not change the outcome, so the
loop of the embedding ends where the loop of the source ends. -/
theorem match_loop_fuel :
    ∀ (fuel : Nat) (s : Scanner) (lexer : TSLexer) (ps : Bool),
      s.matched < 256 → s.open_blocks.length ≤ fuel + s.matched →
      match_loop (fuel + 1) s lexer ps = match_loop fuel s lexer ps := by
  intro fuel
  induction fuel with
  | zero =>
    intro s lexer ps _ hle
    rw [match_loop_succ, match_loop_zero, if_neg (by omega)]
  | succ f ih =>
    intro s lexer ps hm hle
    rw [match_loop_succ (f + 1), match_loop_succ f]
    by_cases h1 : s.matched < s.open_blocks.length
    · rw [if_pos h1, if_pos h1]
      by_cases h2 : s.matched = s.open_blocks.length - 1 ∧
          has_flag s.state STATE_CLOSE_BLOCK = true
      · rw [if_pos h2, if_pos h2]
      · rw [if_neg h2, if_neg h2]
        cases hb : s.open_blocks.get? s.matched with
        | none => rfl
        | some block =>
          dsimp only
          by_cases h3 : block = BLOCK_QUOTE ∧ ps = true
          · rw [if_pos h3, if_pos h3]
          · rw [if_neg h3, if_neg h3]
            cases hmt : s.match_ lexer block with
            | none => rfl
            | some q =>
              obtain ⟨b, s2, l2⟩ := q
              cases b with
              | false => rfl
              | true =>
                dsimp only
                have hfr := match_frame s lexer block _ hmt
                have hs2m : s2.matched = s.matched := hfr.2.1
                have hs2o : s2.open_blocks = s.open_blocks := hfr.1
                cases hbb : block_before s2.open_blocks ((s2.matched + 1) % 256) with
                | none => rfl
                | some b2 =>
                  dsimp only
                  by_cases h4 : b2 = BLOCK_QUOTE
                  · rw [if_pos h4, if_pos h4]
                  · rw [if_neg h4, if_neg h4]
                    have hw : (s2.matched + 1) % 256 = s.matched + 1 := by
                      rw [hs2m]
                      by_cases hlt : s.matched + 1 < 256
                      · exact Nat.mod_eq_of_lt hlt
                      · have h0 : (s2.matched + 1) % 256 = 0 := by
                          rw [hs2m]
                          omega
                        rw [h0] at hbb
                        simp [block_before] at hbb
                    apply ih
                    · dsimp only
                      rw [hw]
                      by_contra hc
                      have : s.matched + 1 = 256 := by omega
                      have h0 : (s2.matched + 1) % 256 = 0 := by
                        rw [hs2m, this]
                      rw [hw] at h0
                      omega
                    · dsimp only
                      rw [hw, hs2o]
                      omega
    · rw [if_neg h1, if_neg h1]

theorem match_returns (s : Scanner) (lexer : TSLexer) (block b : Block)
    (hb : s.open_blocks.get? s.matched = some b) : ∃ r, s.match_ lexer block = some r := by
  unfold Scanner.match_
  rw [hb]
  dsimp only
  split_ifs <;> exact ⟨_, rfl⟩

/-- With at most 255 open blocks the counter `matched` cannot wrap around and
the matching loop stays within the stack. -/
theorem match_loop_returns :
    ∀ (fuel : Nat) (s : Scanner) (lexer : TSLexer) (ps : Bool),
      s.open_blocks.length ≤ 255 → ∃ r, match_loop fuel s lexer ps = some r := by
  intro fuel
  induction fuel with
  | zero => intro s lexer ps _; exact ⟨_, rfl⟩
  | succ f ih =>
    intro s lexer ps hlen
    rw [match_loop_succ]
    by_cases h1 : s.matched < s.open_blocks.length
    · rw [if_pos h1]
      by_cases h2 : s.matched = s.open_blocks.length - 1 ∧
          has_flag s.state STATE_CLOSE_BLOCK = true
      · rw [if_pos h2]
        exact ⟨_, rfl⟩
      · rw [if_neg h2]
        obtain ⟨block, hb⟩ : ∃ block, s.open_blocks.get? s.matched = some block :=
          ⟨s.open_blocks.get ⟨s.matched, h1⟩, List.get?_eq_get h1⟩
        rw [hb]
        dsimp only
        by_cases h3 : block = BLOCK_QUOTE ∧ ps = true
        · rw [if_pos h3]
          exact ⟨_, rfl⟩
        · rw [if_neg h3]
          obtain ⟨q, hq⟩ := match_returns s lexer block block hb
          obtain ⟨b, s2, l2⟩ := q
          have hfr := match_frame s lexer block _ hq
          rw [hq]
          cases b with
          | false => exact ⟨_, rfl⟩
          | true =>
            dsimp only
            have hs2m : s2.matched = s.matched := hfr.2.1
            have hs2o : s2.open_blocks = s.open_blocks := hfr.1
            have hw : (s2.matched + 1) % 256 = s.matched + 1 := by
              rw [hs2m]
              exact Nat.mod_eq_of_lt (by omega)
            have hbb : block_before s2.open_blocks ((s2.matched + 1) % 256) = some block := by
              rw [hw, hs2o]
              show (if s.matched + 1 = 0 then none
                else s.open_blocks.get? (s.matched + 1 - 1)) = some block
              rw [if_neg (by omega), Nat.add_sub_cancel]
              exact hb
            rw [hbb]
            dsimp only
            by_cases h4 : block = BLOCK_QUOTE
            · rw [if_pos h4]
              exact ⟨_, rfl⟩
            · rw [if_neg h4]
              exact ih _ _ _ (by dsimp only; rw [hs2o]; exact hlen)
    · rw [if_neg h1]
      exact ⟨_, rfl⟩

/-- The matching branch after its loop. -/
theorem scan_matching_of_loop (s : Scanner) (lexer : TSLexer) (valid_symbols : ValidSymbols)
    (s2 : Scanner) (l2 : TSLexer) (ps : Bool)
    (h : match_loop s.open_blocks.length s lexer false = some (s2, l2, ps)) :
    s.scan_matching lexer valid_symbols
      = if ps = true then
          match block_before s2.open_blocks s2.matched with
          | none => none
          | some b =>
            some (true,
              if (!valid_symbols SOFT_LINE_BREAK_MARKER &&
                  decide (s2.matched = s2.open_blocks.length)) = true
              then { s2 with state := s2.state &&& not16 STATE_MATCHING } else s2,
              l2.set_result
                (if b = BLOCK_QUOTE then BLOCK_QUOTE_CONTINUATION else BLOCK_CONTINUATION))
        else if (valid_symbols SPLIT_TOKEN &&
            decide (((s2.state &&& STATE_SPLIT_TOKEN_COUNT) >>> 5) % 256 < 2)) = true then
          some (true,
            { s2 with state :=
                (((s2.state &&& not16 STATE_SPLIT_TOKEN_COUNT) |||
                    (((((s2.state &&& STATE_SPLIT_TOKEN_COUNT) >>> 5) % 256 + 1) % 256) <<< 5))
                  % 65536 ||| STATE_NEED_OPEN_BLOCK) % 65536 },
            l2.set_result SPLIT_TOKEN)
        else if (!valid_symbols SOFT_LINE_BREAK_MARKER) = true then
          match block_before s2.open_blocks s2.open_blocks.length with
          | none => none
          | some block =>
            some (true,
              { s2 with
                open_blocks := s2.open_blocks.dropLast,
                indentation := if block = FENCED_CODE_BLOCK then 0 else s2.indentation,
                state :=
                  ((if s2.matched = s2.open_blocks.dropLast.length
                    then s2.state &&& not16 STATE_MATCHING else s2.state)
                      ||| STATE_JUST_CLOSED) % 65536 },
              if block = FENCED_CODE_BLOCK then (l2.set_result BLOCK_CLOSE).mark_end
              else l2.set_result BLOCK_CLOSE)
        else
          some (true,
            { s2 with state :=
                (s2.state &&& (not16 STATE_MATCHING &&& not16 STATE_NEED_OPEN_BLOCK)
                  ||| STATE_WAS_SOFT_LINE_BREAK) % 65536 },
            l2.set_result SOFT_LINE_BREAK_MARKER) := by
  unfold Scanner.scan_matching
  rw [h]
  dsimp only
  cases ps with
  | true =>
    simp only [if_true]
    cases hc : (!valid_symbols SOFT_LINE_BREAK_MARKER &&
        decide (s2.matched = s2.open_blocks.length)) <;>
      simp only [Bool.false_eq_true, if_false, if_true] <;>
      cases block_before s2.open_blocks s2.matched <;>
      dsimp only <;> split <;> rfl
  | false =>
    simp only [Bool.false_eq_true, if_false]
    split
    · rfl
    · split
      · cases block_before s2.open_blocks s2.open_blocks.length with
        | none => rfl
        | some block =>
          dsimp only
          split <;> split <;> rfl
      · rfl

/-- The invocations of `scan` that run the matcher. -/
theorem scan_eq_scan_matching (sym18 : TokenType) (s : Scanner) (lexer : TSLexer)
    (valid_symbols : ValidSymbols) (hv : no_request valid_symbols)
    (hm : has_flag (s.at_dispatch lexer valid_symbols).1.state STATE_MATCHING = true)
    (hne : (s.at_dispatch lexer valid_symbols).2.eof = false) :
    s.scan sym18 lexer valid_symbols
      = (s.at_dispatch lexer valid_symbols).1.scan_matching
          (s.at_dispatch lexer valid_symbols).2 valid_symbols := by
  rw [scan_dispatch sym18 s lexer valid_symbols hv, hne, hm]
  simp

/-- C22: an invocation of `scan` that runs the matcher (no request among the
candidates, the matching flag set and the input not at its end where `scan`
dispatches).  If it returns, then `matched` has not decreased; a block quote
among the blocks it matched (the blocks `open_blocks[i]` from the old to the
new value of `matched`) is the first and the only block it matched; it has
consumed nothing behind the leading whitespace, or else it matched the block
quote `open_blocks[matched]` and consumed one `>` and at most one space or
tab behind it; and if it matched a block, it returns `true`, the stack is
unchanged, `matched` is within the stack, and the token is
`BLOCK_QUOTE_CONTINUATION` if the last matched block is a block quote and
`BLOCK_CONTINUATION` otherwise.  With a stack that is not empty and has at
most 255 blocks the invocation does return. -/
theorem C22_block_quote_matching (sym18 : TokenType) (s : Scanner) (lexer : TSLexer)
    (valid_symbols : ValidSymbols) (hwf : s.wf) (hv : no_request valid_symbols)
    (hm : has_flag (s.at_dispatch lexer valid_symbols).1.state STATE_MATCHING = true)
    (hne : (s.at_dispatch lexer valid_symbols).2.eof = false) :
    (∀ r, s.scan sym18 lexer valid_symbols = some r →
      s.matched ≤ r.2.1.matched ∧
      (∀ i, s.matched ≤ i → i < r.2.1.matched → s.open_blocks.get? i = some BLOCK_QUOTE →
        i = s.matched ∧ r.2.1.matched = s.matched + 1) ∧
      (r.2.2.input = (s.at_dispatch lexer valid_symbols).2.input ∨
        (s.open_blocks.get? s.matched = some BLOCK_QUOTE ∧ r.2.1.matched = s.matched + 1 ∧
          ∃ rest, (s.at_dispatch lexer valid_symbols).2.input = 62 :: rest ∧
            (r.2.2.input = rest ∨ ∃ c, (c = 32 ∨ c = 9) ∧ rest = c :: r.2.2.input))) ∧
      (s.matched < r.2.1.matched →
        r.1 = true ∧ r.2.1.matched ≤ s.open_blocks.length ∧
        r.2.1.open_blocks = s.open_blocks ∧
        r.2.2.result_symbol =
          some (if s.open_blocks.get? (r.2.1.matched - 1) = some BLOCK_QUOTE
            then BLOCK_QUOTE_CONTINUATION else BLOCK_CONTINUATION))) ∧
    (s.open_blocks ≠ [] → s.open_blocks.length ≤ 255 →
      ∃ r, s.scan sym18 lexer valid_symbols = some r) := by
  rw [scan_eq_scan_matching sym18 s lexer valid_symbols hv hm hne]
  have hdo := at_dispatch_open_blocks s lexer valid_symbols
  have hdm := at_dispatch_matched s lexer valid_symbols
  have hm256 : (s.at_dispatch lexer valid_symbols).1.matched < 256 := by
    rw [hdm]
    exact hwf.2.1
  generalize s.at_dispatch lexer valid_symbols = d at hdo hdm hm256 hm hne
  obtain ⟨d1, d2⟩ := d
  dsimp only at hdo hdm hm256 hm hne ⊢
  constructor
  · intro r hr
    cases hloop : match_loop d1.open_blocks.length d1 d2 false with
    | none =>
      unfold Scanner.scan_matching at hr
      rw [hloop] at hr
      exact absurd hr (by simp)
    | some q =>
      obtain ⟨s2, l2, ps⟩ := q
      obtain ⟨m1, m2, m3, m4, m5, m6⟩ := match_loop_spec _ d1 d2 _ hm256 hloop
      dsimp only at m1 m2 m3 m4 m5 m6
      rw [hdo] at m1 m4 m5 m6
      rw [hdm] at m2 m3 m5 m6
      rw [scan_matching_of_loop d1 d2 valid_symbols s2 l2 ps hloop] at hr
      cases ps with
      | true =>
        have hlt : s.matched < s2.matched := m3.1 rfl
        have hle : s2.matched ≤ s.open_blocks.length := m4 rfl
        simp only [if_true] at hr
        have hbb : block_before s2.open_blocks s2.matched
            = s.open_blocks.get? (s2.matched - 1) := by
          unfold block_before
          rw [if_neg (by omega), m1]
        rw [hbb] at hr
        cases hg : s.open_blocks.get? (s2.matched - 1) with
        | none =>
          rw [hg] at hr
          exact absurd hr (by simp)
        | some b =>
          rw [hg] at hr
          dsimp only at hr
          rw [Option.some.injEq] at hr
          rw [← hr]
          have hmat : (if (!valid_symbols SOFT_LINE_BREAK_MARKER &&
              decide (s2.matched = s2.open_blocks.length)) = true
              then { s2 with state := s2.state &&& not16 STATE_MATCHING } else s2).matched
              = s2.matched := by split <;> rfl
          have hob : (if (!valid_symbols SOFT_LINE_BREAK_MARKER &&
              decide (s2.matched = s2.open_blocks.length)) = true
              then { s2 with state := s2.state &&& not16 STATE_MATCHING } else s2).open_blocks
              = s.open_blocks := by
            rw [← m1]
            split <;> rfl
          dsimp only
          rw [hmat, hob]
          refine ⟨m2, m5, ?_, fun _ => ⟨rfl, hle, rfl, ?_⟩⟩
          · rcases m6 with h6 | h6
            · left
              rw [← h6]
              rfl
            · right
              exact h6
          · rw [hg]
            by_cases hb : b = BLOCK_QUOTE
            · simp [hb, TSLexer.set_result]
            · simp [hb, TSLexer.set_result]
      | false =>
        have heq : s2.matched = s.matched := by
          by_contra hc
          have : s.matched < s2.matched := by omega
          exact absurd (m3.2 this) (by decide)
        have hl2 : l2 = d2 := by
          rcases m6 with h6 | h6
          · exact h6
          · omega
        simp only [Bool.false_eq_true, if_false] at hr
        have hres : r.2.1.matched = s.matched ∧ r.2.2.input = d2.input := by
          split at hr
          · rw [Option.some.injEq] at hr
            rw [← hr, ← hl2]
            exact ⟨heq, rfl⟩
          · split at hr
            · split at hr
              · exact absurd hr (by simp)
              · rw [Option.some.injEq] at hr
                rw [← hr, ← hl2]
                refine ⟨heq, ?_⟩
                dsimp only
                split <;> rfl
            · rw [Option.some.injEq] at hr
              rw [← hr, ← hl2]
              exact ⟨heq, rfl⟩
        rw [hres.1]
        exact ⟨le_refl _, fun i h1 h2 => absurd h2 (by omega), Or.inl hres.2,
          fun h => absurd h (by omega)⟩
  · intro hne2 hlen
    obtain ⟨q, hloop⟩ := match_loop_returns d1.open_blocks.length d1 d2 false
      (by rw [hdo]; exact hlen)
    obtain ⟨s2, l2, ps⟩ := q
    obtain ⟨m1, m2, m3, m4, m5, m6⟩ := match_loop_spec _ d1 d2 _ hm256 hloop
    dsimp only at m1 m2 m3 m4 m5 m6
    rw [hdo] at m1 m4
    rw [hdm] at m2 m3
    rw [scan_matching_of_loop d1 d2 valid_symbols s2 l2 ps hloop]
    cases ps with
    | true =>
      have hlt : s.matched < s2.matched := m3.1 rfl
      have hle : s2.matched ≤ s.open_blocks.length := m4 rfl
      simp only [if_true]
      have hbb : block_before s2.open_blocks s2.matched
          = some (s.open_blocks.get ⟨s2.matched - 1, by omega⟩) := by
        unfold block_before
        rw [if_neg (by omega), m1]
        exact List.get?_eq_get _
      rw [hbb]
      exact ⟨_, rfl⟩
    | false =>
      simp only [Bool.false_eq_true, if_false]
      split
      · exact ⟨_, rfl⟩
      · split
        · have hpos : 0 < s.open_blocks.length := List.length_pos.mpr hne2
          have hbb : block_before s2.open_blocks s2.open_blocks.length
              = some (s.open_blocks.get ⟨s.open_blocks.length - 1, by omega⟩) := by
            unfold block_before
            rw [m1, if_neg (by omega)]
            exact List.get?_eq_get _
          rw [hbb]
          exact ⟨_, rfl⟩
        · exact ⟨_, rfl⟩

/-- C22 on the line `  > x` below a list item inside a block quote inside a
list item: the first invocation matches the outer list item and stops before
the block quote, with the token `BLOCK_CONTINUATION`; the second matches the
block quote, consumes `> ` and stops, with the token
`BLOCK_QUOTE_CONTINUATION`. -/
theorem C22_block_quote_matching_witness :
    scanner_nested.wf ∧
    no_request (valid_of [BLOCK_CONTINUATION, BLOCK_QUOTE_CONTINUATION]) ∧
    has_flag (scanner_nested.at_dispatch (TSLexer.start [32, 32, 62, 32, 120, 10])
      (valid_of [BLOCK_CONTINUATION, BLOCK_QUOTE_CONTINUATION])).1.state STATE_MATCHING = true ∧
    (scanner_nested.at_dispatch (TSLexer.start [32, 32, 62, 32, 120, 10])
      (valid_of [BLOCK_CONTINUATION, BLOCK_QUOTE_CONTINUATION])).2.eof = false ∧
    (∃ r, scanner_nested.scan (OTHER 0) (TSLexer.start [32, 32, 62, 32, 120, 10])
      (valid_of [BLOCK_CONTINUATION, BLOCK_QUOTE_CONTINUATION]) = some r) ∧
    scanner_nested.scan (OTHER 0) (TSLexer.start [32, 32, 62, 32, 120, 10])
        (valid_of [BLOCK_CONTINUATION, BLOCK_QUOTE_CONTINUATION])
      = some (true, { scanner_nested with matched := 1, column := 2 },
          ⟨[62, 32, 120, 10], 2, none, some BLOCK_CONTINUATION⟩) ∧
    ({ scanner_nested with matched := 1, column := 2 } : Scanner).scan (OTHER 0)
        ⟨[62, 32, 120, 10], 2, none, none⟩
        (valid_of [BLOCK_CONTINUATION, BLOCK_QUOTE_CONTINUATION])
      = some (true, { scanner_nested with matched := 2, column := 4 },
          ⟨[120, 10], 4, none, some BLOCK_QUOTE_CONTINUATION⟩) :=
  ⟨by decide, by decide, by decide, by decide,
    (C22_block_quote_matching (OTHER 0) scanner_nested (TSLexer.start [32, 32, 62, 32, 120, 10])
      (valid_of [BLOCK_CONTINUATION, BLOCK_QUOTE_CONTINUATION]) (by decide) (by decide)
      (by decide) (by decide)).2 (by decide) (by decide),
    by decide, by decide⟩

/-! ## What the classifier leaves alone -/

theorem kept_clear (st m : Nat) (h : not16 m &&& leaf_kept = leaf_kept) :
    st &&& not16 m &&& leaf_kept = st &&& leaf_kept := by
  rw [Nat.and_assoc, h]

theorem kept_set (st m : Nat) (h : m &&& leaf_kept = 0) :
    (st ||| m) % 65536 &&& leaf_kept = st &&& leaf_kept := by
  rw [mod_and_flag _ _ (by decide), Nat.and_distrib_right, h, Nat.or_zero]

theorem kept_need (st : Nat) :
    st &&& not16 STATE_NEED_OPEN_BLOCK &&& leaf_kept = st &&& leaf_kept :=
  kept_clear st _ (by decide)

theorem kept_open_clear (st : Nat) :
    st &&& not16 STATE_EMPHASIS_DELIMITER_IS_OPEN &&& leaf_kept = st &&& leaf_kept :=
  kept_clear st _ (by decide)

theorem kept_open_set (st : Nat) :
    (st ||| STATE_EMPHASIS_DELIMITER_IS_OPEN) % 65536 &&& leaf_kept = st &&& leaf_kept :=
  kept_set st _ (by decide)

theorem leaf_frame_same (s t : Scanner) (b : Bool) (lexer : TSLexer)
    (hm : t.matched = s.matched) (hs : t.state &&& leaf_kept = s.state &&& leaf_kept)
    (ho : t.open_blocks = s.open_blocks) : leaf_frame s (b, t, lexer) :=
  ⟨hm, hs, Or.inl ho⟩

theorem leaf_frame_of_eq (s s2 : Scanner) (r : Bool × Scanner × TSLexer)
    (hm : s2.matched = s.matched) (hs : s2.state = s.state)
    (ho : s2.open_blocks = s.open_blocks) (h : leaf_frame s2 r) : leaf_frame s r := by
  unfold leaf_frame at h ⊢
  rw [hm, hs, ho] at h
  exact h

theorem leaf_frame_ite (s : Scanner) (c : Prop) [Decidable c] (a b : Bool × Scanner × TSLexer)
    (ha : c → leaf_frame s a) (hb : ¬ c → leaf_frame s b) :
    leaf_frame s (if c then a else b) := by
  split
  · exact ha ‹_›
  · exact hb ‹_›

theorem leaf_frame_error (s : Scanner) (lexer : TSLexer) : leaf_frame s (s.error lexer) :=
  ⟨rfl, rfl, Or.inl rfl⟩

theorem leaf_frame_false (s : Scanner) (lexer : TSLexer) : leaf_frame s (false, s, lexer) :=
  ⟨rfl, rfl, Or.inl rfl⟩

theorem scan_blank_line_frame (s : Scanner) (lexer : TSLexer) (valid_symbols : ValidSymbols) :
    leaf_frame s (s.scan_blank_line lexer valid_symbols) := by
  unfold Scanner.scan_blank_line leaf_frame
  split_ifs <;> simp [Scanner.error, kept_need]

theorem scan_block_quote_frame (s : Scanner) (lexer : TSLexer) (valid_symbols : ValidSymbols) :
    leaf_frame s (s.scan_block_quote lexer valid_symbols) := by
  unfold Scanner.scan_block_quote
  apply leaf_frame_ite
  · intro _
    apply leaf_frame_ite
    · intro _
      exact leaf_frame_error _ _
    · intro _
      refine ⟨?_, ?_, Or.inr ⟨BLOCK_QUOTE, ?_⟩⟩ <;> dsimp only <;> split <;>
        simp [Scanner.advance, kept_need]
  · intro _
    exact leaf_frame_false _ _

theorem tilde_decision_frame (s : Scanner) (lexer : TSLexer) (level : Nat)
    (valid_symbols : ValidSymbols) :
    leaf_frame s (s.tilde_decision lexer level valid_symbols) := by
  unfold Scanner.tilde_decision leaf_frame
  split_ifs <;> simp [Scanner.error, kept_need]

theorem hash_decision_frame (s : Scanner) (lexer : TSLexer) (level : Nat) :
    leaf_frame s (s.hash_decision lexer level) := by
  unfold Scanner.hash_decision leaf_frame
  split_ifs <;> simp [Scanner.error, kept_need]

theorem equals_decision_frame (s : Scanner) (lexer : TSLexer) :
    leaf_frame s (s.equals_decision lexer) := by
  unfold Scanner.equals_decision leaf_frame
  split_ifs <;> simp [Scanner.error, kept_need]

theorem push_list_item_fields (s : Scanner) (e digits : Nat) :
    (push_list_item s e digits).matched = s.matched ∧
    (push_list_item s e digits).state = s.state ∧
    ∃ b, (push_list_item s e digits).open_blocks = s.open_blocks ++ [b] := by
  unfold push_list_item
  dsimp only
  split <;> exact ⟨rfl, rfl, _, rfl⟩

theorem open_list_item_frame (s : Scanner) (lexer : TSLexer) (dont_interrupt : Bool)
    (extra_indentation digits : Nat) (mark : Bool) (token : TokenType) :
    leaf_frame s (s.open_list_item lexer dont_interrupt extra_indentation digits mark token) := by
  unfold Scanner.open_list_item
  apply leaf_frame_ite
  · intro _
    exact leaf_frame_error _ _
  · intro _
    dsimp only
    have hs : ((if (!dont_interrupt) = true
        then { s with state := s.state &&& not16 STATE_NEED_OPEN_BLOCK } else s).matched
          = s.matched) ∧
        ((if (!dont_interrupt) = true
        then { s with state := s.state &&& not16 STATE_NEED_OPEN_BLOCK } else s).state
          &&& leaf_kept = s.state &&& leaf_kept) ∧
        ((if (!dont_interrupt) = true
        then { s with state := s.state &&& not16 STATE_NEED_OPEN_BLOCK } else s).open_blocks
          = s.open_blocks) := by
      split
      · exact ⟨rfl, kept_need _, rfl⟩
      · exact ⟨rfl, rfl, rfl⟩
    generalize (if (!dont_interrupt) = true
        then { s with state := s.state &&& not16 STATE_NEED_OPEN_BLOCK } else s) = t at hs
    apply leaf_frame_ite
    · intro _
      exact ⟨hs.1, hs.2.1, Or.inl hs.2.2⟩
    · intro _
      obtain ⟨p1, p2, b, p3⟩ := push_list_item_fields t extra_indentation digits
      refine ⟨?_, ?_, Or.inr ⟨b, ?_⟩⟩
      · exact p1.trans hs.1
      · show (push_list_item t extra_indentation digits).state &&& leaf_kept = _
        rw [p2]
        exact hs.2.1
      · show (push_list_item t extra_indentation digits).open_blocks = _
        rw [p3, hs.2.2]

theorem plus_decision_frame (s : Scanner) (lexer : TSLexer) (extra_indentation : Nat)
    (valid_symbols : ValidSymbols) :
    leaf_frame s (s.plus_decision lexer extra_indentation valid_symbols) := by
  unfold Scanner.plus_decision
  dsimp only
  apply leaf_frame_ite
  · intro _
    exact open_list_item_frame _ _ _ _ _ _ _
  · intro _
    exact leaf_frame_false _ _

theorem ordered_decision_frame (s : Scanner) (lexer : TSLexer) (dot dont_interrupt : Bool)
    (digits extra_indentation : Nat) (valid_symbols : ValidSymbols) :
    leaf_frame s
      (s.ordered_decision lexer dot dont_interrupt digits extra_indentation valid_symbols) := by
  unfold Scanner.ordered_decision
  dsimp only
  apply leaf_frame_ite
  · intro _
    exact open_list_item_frame _ _ _ _ _ _ _
  · intro _
    exact leaf_frame_false _ _

/-- The outcome of a setext underline, a thematic break or an ATX heading:
the error token after a soft line break, else the token with the
need-open-block flag cleared and `indentation` 0. -/
theorem leaf_frame_line_token (s : Scanner) (lexer l2 : TSLexer) :
    leaf_frame s (if has_flag s.state STATE_WAS_SOFT_LINE_BREAK = true then s.error lexer
      else (true, { s with state := s.state &&& not16 STATE_NEED_OPEN_BLOCK, indentation := 0 },
        l2)) := by
  apply leaf_frame_ite
  · intro _
    exact leaf_frame_error _ _
  · intro _
    exact ⟨rfl, kept_need _, Or.inl rfl⟩

theorem minus_decision_frame (s : Scanner) (lexer : TSLexer) (v : MinusVars)
    (valid_symbols : ValidSymbols) :
    leaf_frame s (s.minus_decision lexer v valid_symbols) := by
  unfold Scanner.minus_decision
  dsimp only
  apply leaf_frame_ite
  · intro _
    exact leaf_frame_line_token _ _ _
  · intro _
    apply leaf_frame_ite
    · intro _
      exact leaf_frame_line_token _ _ _
    · intro _
      apply leaf_frame_ite
      · intro _
        exact open_list_item_frame _ _ _ _ _ _ _
      · intro _
        exact leaf_frame_false _ _

theorem star_emphasis_decision_frame (s : Scanner) (lexer : TSLexer) (v : StarVars)
    (valid_symbols : ValidSymbols) :
    leaf_frame s (s.star_emphasis_decision lexer v valid_symbols) := by
  unfold Scanner.star_emphasis_decision
  dsimp only
  apply leaf_frame_ite
  · intro _
    exact leaf_frame_false _ _
  · intro _
    apply leaf_frame_ite
    · intro _
      exact ⟨rfl, kept_open_clear _, Or.inl rfl⟩
    · intro _
      apply leaf_frame_ite
      · intro _
        exact ⟨rfl, kept_open_set _, Or.inl rfl⟩
      · intro _
        exact ⟨rfl, rfl, Or.inl rfl⟩

theorem star_decision_frame (s : Scanner) (lexer : TSLexer) (v : StarVars)
    (valid_symbols : ValidSymbols) :
    leaf_frame s (s.star_decision lexer v valid_symbols) := by
  unfold Scanner.star_decision
  dsimp only
  apply leaf_frame_ite
  · intro _
    exact leaf_frame_line_token _ _ _
  · intro _
    apply leaf_frame_ite
    · intro _
      exact open_list_item_frame _ _ _ _ _ _ _
    · intro _
      apply leaf_frame_ite
      · intro _
        exact star_emphasis_decision_frame _ _ _ _
      · intro _
        exact leaf_frame_false _ _

theorem underscore_decision_frame (s : Scanner) (lexer : TSLexer) (v : UnderscoreVars)
    (valid_symbols : ValidSymbols) :
    leaf_frame s (s.underscore_decision lexer v valid_symbols) := by
  unfold Scanner.underscore_decision
  dsimp only
  apply leaf_frame_ite
  · intro _
    exact leaf_frame_line_token _ _ _
  · intro _
    apply leaf_frame_ite
    · intro _
      apply leaf_frame_ite
      · intro _
        exact ⟨rfl, kept_open_clear _, Or.inl rfl⟩
      · intro _
        apply leaf_frame_ite
        · intro _
          exact ⟨rfl, kept_open_set _, Or.inl rfl⟩
        · intro _
          exact ⟨rfl, rfl, Or.inl rfl⟩
    · intro _
      exact leaf_frame_false _ _

theorem code_span_decision_frame (s : Scanner) (lexer : TSLexer) (level : Nat)
    (valid_symbols : ValidSymbols) :
    leaf_frame s (s.code_span_decision lexer level valid_symbols) := by
  unfold Scanner.code_span_decision leaf_frame
  split_ifs <;> simp

theorem backtick_decision_frame (sym18 : TokenType) (s : Scanner) (lexer : TSLexer)
    (level : Nat) (valid_symbols : ValidSymbols) :
    leaf_frame s (s.backtick_decision sym18 lexer level valid_symbols) := by
  unfold Scanner.backtick_decision
  apply leaf_frame_ite
  · intro _
    exact ⟨rfl, rfl, Or.inl rfl⟩
  · intro _
    dsimp only
    have hfr : (if (valid_symbols sym18 && decide (level ≥ 3)) = true
        then info_string_loop lexer.input.length s lexer else (s, lexer, false)).1.matched
          = s.matched ∧
        (if (valid_symbols sym18 && decide (level ≥ 3)) = true
        then info_string_loop lexer.input.length s lexer else (s, lexer, false)).1.state
          = s.state ∧
        (if (valid_symbols sym18 && decide (level ≥ 3)) = true
        then info_string_loop lexer.input.length s lexer else (s, lexer, false)).1.open_blocks
          = s.open_blocks := by
      split
      · exact ⟨info_string_loop_matched _ _ _, info_string_loop_state _ _ _,
          info_string_loop_open_blocks _ _ _⟩
      · exact ⟨rfl, rfl, rfl⟩
    generalize (if (valid_symbols sym18 && decide (level ≥ 3)) = true
        then info_string_loop lexer.input.length s lexer else (s, lexer, false)) = q at hfr
    apply leaf_frame_of_eq s q.1 _ hfr.1 hfr.2.1 hfr.2.2
    apply leaf_frame_ite
    · intro _
      apply leaf_frame_ite
      · intro _
        exact leaf_frame_error _ _
      · intro _
        exact ⟨rfl, kept_need _, Or.inr ⟨FENCED_CODE_BLOCK, rfl⟩⟩
    · intro _
      exact code_span_decision_frame _ _ _ _

theorem advance_leaf_fields (s : Scanner) (lexer : TSLexer) :
    (s.advance lexer).2.1.matched = s.matched ∧ (s.advance lexer).2.1.state = s.state ∧
      (s.advance lexer).2.1.open_blocks = s.open_blocks :=
  ⟨rfl, rfl, rfl⟩

theorem parse_backtick_frame (sym18 : TokenType) (s : Scanner) (lexer : TSLexer)
    (valid_symbols : ValidSymbols) :
    leaf_frame s (s.parse_backtick sym18 lexer valid_symbols) := by
  unfold Scanner.parse_backtick
  dsimp only
  exact leaf_frame_of_eq s _ _ (advance_while_matched _ _ _ _ _ _)
    (advance_while_state _ _ _ _ _ _) (advance_while_open_blocks _ _ _ _ _ _)
    (backtick_decision_frame _ _ _ _ _)

theorem parse_star_frame (s : Scanner) (lexer : TSLexer) (valid_symbols : ValidSymbols) :
    leaf_frame s (s.parse_star lexer valid_symbols) := by
  unfold Scanner.parse_star
  apply leaf_frame_ite
  · intro _
    exact ⟨rfl, rfl, Or.inl rfl⟩
  · intro _
    apply leaf_frame_ite
    · intro _
      exact ⟨rfl, rfl, Or.inl rfl⟩
    · intro _
      dsimp only
      exact leaf_frame_of_eq s _ _ (by rw [star_loop_matched]; rfl)
        (by rw [star_loop_state]; rfl) (by rw [star_loop_open_blocks]; rfl)
        (star_decision_frame _ _ _ _)

theorem parse_underscore_frame (s : Scanner) (lexer : TSLexer) (valid_symbols : ValidSymbols) :
    leaf_frame s (s.parse_underscore lexer valid_symbols) := by
  unfold Scanner.parse_underscore
  apply leaf_frame_ite
  · intro _
    exact ⟨rfl, rfl, Or.inl rfl⟩
  · intro _
    apply leaf_frame_ite
    · intro _
      exact ⟨rfl, rfl, Or.inl rfl⟩
    · intro _
      dsimp only
      exact leaf_frame_of_eq s _ _ (by rw [underscore_loop_matched]; rfl)
        (by rw [underscore_loop_state]; rfl) (by rw [underscore_loop_open_blocks]; rfl)
        (underscore_decision_frame _ _ _ _)

theorem scan_tilde_frame (s : Scanner) (lexer : TSLexer) (valid_symbols : ValidSymbols) :
    leaf_frame s (s.scan_tilde lexer valid_symbols) := by
  unfold Scanner.scan_tilde
  apply leaf_frame_ite
  · intro _
    dsimp only
    exact leaf_frame_of_eq s _ _ (advance_while_matched _ _ _ _ _ _)
      (advance_while_state _ _ _ _ _ _) (advance_while_open_blocks _ _ _ _ _ _)
      (tilde_decision_frame _ _ _ _)
  · intro _
    exact leaf_frame_false _ _

theorem scan_hash_frame (s : Scanner) (lexer : TSLexer) (valid_symbols : ValidSymbols) :
    leaf_frame s (s.scan_hash lexer valid_symbols) := by
  unfold Scanner.scan_hash
  apply leaf_frame_ite
  · intro _
    dsimp only
    exact leaf_frame_of_eq s _ _ (hash_loop_matched _ _ _ _) (hash_loop_state _ _ _ _)
      (hash_loop_open_blocks _ _ _ _) (hash_decision_frame _ _ _)
  · intro _
    exact leaf_frame_false _ _

theorem scan_equals_frame (s : Scanner) (lexer : TSLexer) (valid_symbols : ValidSymbols) :
    leaf_frame s (s.scan_equals lexer valid_symbols) := by
  unfold Scanner.scan_equals
  apply leaf_frame_ite
  · intro _
    dsimp only
    refine leaf_frame_of_eq s _ _ ?_ ?_ ?_ (equals_decision_frame _ _) <;>
      simp
  · intro _
    exact leaf_frame_false _ _

theorem scan_plus_frame (s : Scanner) (lexer : TSLexer) (valid_symbols : ValidSymbols) :
    leaf_frame s (s.scan_plus lexer valid_symbols) := by
  unfold Scanner.scan_plus
  apply leaf_frame_ite
  · intro _
    dsimp only
    refine leaf_frame_of_eq s _ _ ?_ ?_ ?_ (plus_decision_frame _ _ _ _) <;>
      simp [Scanner.advance]
  · intro _
    exact leaf_frame_false _ _

theorem scan_digit_frame (s : Scanner) (lexer : TSLexer) (valid_symbols : ValidSymbols) :
    leaf_frame s (s.scan_digit lexer valid_symbols) := by
  unfold Scanner.scan_digit
  apply leaf_frame_ite
  · intro _
    dsimp only
    apply leaf_frame_ite
    · intro _
      apply leaf_frame_ite
      · intro _
        refine leaf_frame_of_eq s _ _ ?_ ?_ ?_ (ordered_decision_frame _ _ _ _ _ _ _) <;>
          simp [Scanner.advance]
      · intro _
        refine ⟨?_, ?_, Or.inl ?_⟩ <;> simp [Scanner.advance]
    · intro _
      refine ⟨?_, ?_, Or.inl ?_⟩ <;> simp [Scanner.advance]
  · intro _
    exact leaf_frame_false _ _

theorem scan_minus_frame (s : Scanner) (lexer : TSLexer) (valid_symbols : ValidSymbols) :
    leaf_frame s (s.scan_minus lexer valid_symbols) := by
  unfold Scanner.scan_minus
  apply leaf_frame_ite
  · intro _
    dsimp only
    exact leaf_frame_of_eq s _ _ (minus_loop_matched _ _ _ _) (minus_loop_state _ _ _ _)
      (minus_loop_open_blocks _ _ _ _) (minus_decision_frame _ _ _ _)
  · intro _
    exact leaf_frame_false _ _

theorem scan_switch_frame (sym18 : TokenType) (s : Scanner) (lexer : TSLexer)
    (valid_symbols : ValidSymbols) :
    leaf_frame s (s.scan_switch sym18 lexer valid_symbols) := by
  unfold Scanner.scan_switch
  dsimp only
  apply leaf_frame_ite _ _ _ _ (fun _ => scan_blank_line_frame _ _ _)
  intro _
  apply leaf_frame_ite _ _ _ _ (fun _ => parse_backtick_frame _ _ _ _)
  intro _
  apply leaf_frame_ite _ _ _ _ (fun _ => parse_star_frame _ _ _)
  intro _
  apply leaf_frame_ite _ _ _ _ (fun _ => parse_underscore_frame _ _ _)
  intro _
  apply leaf_frame_ite _ _ _ _ (fun _ => scan_block_quote_frame _ _ _)
  intro _
  apply leaf_frame_ite _ _ _ _ (fun _ => scan_tilde_frame _ _ _)
  intro _
  apply leaf_frame_ite _ _ _ _ (fun _ => scan_hash_frame _ _ _)
  intro _
  apply leaf_frame_ite _ _ _ _ (fun _ => scan_equals_frame _ _ _)
  intro _
  apply leaf_frame_ite _ _ _ _ (fun _ => scan_plus_frame _ _ _)
  intro _
  apply leaf_frame_ite _ _ _ _ (fun _ => scan_digit_frame _ _ _)
  intro _
  apply leaf_frame_ite _ _ _ _ (fun _ => scan_minus_frame _ _ _)
  intro _
  exact leaf_frame_false _ _

/-- The classifier leaves `matched`, the matching flag, the count of split
tokens and the close-block flag alone, and it leaves the stack alone or
pushes one block. -/
theorem scan_leaf_frame (sym18 : TokenType) (s : Scanner) (lexer : TSLexer)
    (valid_symbols : ValidSymbols) :
    leaf_frame s (s.scan_leaf sym18 lexer valid_symbols) := by
  unfold Scanner.scan_leaf
  apply leaf_frame_ite
  · intro _
    exact ⟨rfl, rfl, Or.inr ⟨INDENTED_CODE_BLOCK, rfl⟩⟩
  · intro _
    exact scan_switch_frame _ _ _ _

/-! ## The flag word in the matcher -/

/-- The matching loop changes the flag word in the close-block flag only. -/
theorem match_loop_state_and (f : Nat) (hf : not16 STATE_CLOSE_BLOCK &&& f = f) :
    ∀ (fuel : Nat) (s : Scanner) (lexer : TSLexer) (part_success : Bool)
      (r : Scanner × TSLexer × Bool),
      match_loop fuel s lexer part_success = some r → r.1.state &&& f = s.state &&& f := by
  intro fuel
  induction fuel with
  | zero =>
    intro s lexer ps r h
    simp only [match_loop, Option.some.injEq] at h
    rw [← h]
  | succ n ih =>
    intro s lexer ps r h
    simp only [match_loop] at h
    split at h
    · split at h
      · simp only [Option.some.injEq] at h
        rw [← h]
        dsimp only
        split
        · dsimp only
          rw [Nat.and_assoc, hf]
        · rfl
      · split at h
        · exact absurd h (by simp)
        · split at h
          · simp only [Option.some.injEq] at h
            rw [← h]
          · split at h
            · exact absurd h (by simp)
            · rename_i s2 l2 hm
              simp only [Option.some.injEq] at h
              rw [← h]
              have := (match_frame _ _ _ _ hm).2.2.1
              dsimp only at this ⊢
              rw [this]
            · rename_i s2 l2 hm
              have hst := (match_frame _ _ _ _ hm).2.2.1
              simp only at hst
              split at h
              · exact absurd h (by simp)
              · split at h
                · simp only [Option.some.injEq] at h
                  rw [← h]
                  dsimp only
                  rw [hst]
                · rw [ih _ _ _ _ h]
                  dsimp only
                  rw [hst]
    · simp only [Option.some.injEq] at h
      rw [← h]

theorem split_token_count_congr (s t : Scanner)
    (h : t.state &&& STATE_SPLIT_TOKEN_COUNT = s.state &&& STATE_SPLIT_TOKEN_COUNT) :
    t.split_token_count = s.split_token_count := by
  unfold Scanner.split_token_count
  rw [h]

theorem split_token_count_of_kept (s t : Scanner)
    (h : t.state &&& leaf_kept = s.state &&& leaf_kept) :
    t.split_token_count = s.split_token_count := by
  apply split_token_count_congr
  have hk : ∀ x : Nat, x &&& STATE_SPLIT_TOKEN_COUNT = x &&& leaf_kept &&& STATE_SPLIT_TOKEN_COUNT := by
    intro x
    rw [Nat.and_assoc]
    rfl
  rw [hk t.state, hk s.state, h]

/-- The flag word after a split token: the count is one more. -/
theorem split_token_count_succ (st : Nat)
    (h : ((st &&& STATE_SPLIT_TOKEN_COUNT) >>> 5) % 256 < 2) :
    (((((st &&& not16 STATE_SPLIT_TOKEN_COUNT) |||
          (((((st &&& STATE_SPLIT_TOKEN_COUNT) >>> 5) % 256 + 1) % 256) <<< 5))
        % 65536 ||| STATE_NEED_OPEN_BLOCK) % 65536 &&& STATE_SPLIT_TOKEN_COUNT) >>> 5) % 256
      = ((st &&& STATE_SPLIT_TOKEN_COUNT) >>> 5) % 256 + 1 := by
  have h0 : st &&& not16 STATE_SPLIT_TOKEN_COUNT &&& STATE_SPLIT_TOKEN_COUNT = 0 := by
    rw [Nat.and_assoc]
    exact Nat.and_zero _
  have hc : ((st &&& STATE_SPLIT_TOKEN_COUNT) >>> 5) % 256 = 0 ∨
      ((st &&& STATE_SPLIT_TOKEN_COUNT) >>> 5) % 256 = 1 := by omega
  rw [mod_and_flag _ _ (by decide), Nat.and_distrib_right, mod_and_flag _ _ (by decide),
    Nat.and_distrib_right, h0]
  rcases hc with hc | hc <;> rw [hc] <;> rfl

/-! ## One invocation of `scan` -/

theorem scan_step_ok_same (s t : Scanner)
    (hs : t.state &&& STATE_SPLIT_TOKEN_COUNT = s.state &&& STATE_SPLIT_TOKEN_COUNT)
    (ho : t.open_blocks = s.open_blocks) (hm : t.matched = s.matched) : scan_step_ok s t := by
  refine ⟨?_, Or.inl ho, ?_, ?_⟩
  · rw [split_token_count_congr s t hs]
    exact id
  · rw [hm]
    exact id
  · intro _ h _
    rw [hm, ho]
    exact h

theorem scan_step_ok_push (s t : Scanner) (b : Block)
    (hs : t.state &&& STATE_SPLIT_TOKEN_COUNT = s.state &&& STATE_SPLIT_TOKEN_COUNT)
    (ho : t.open_blocks = s.open_blocks ++ [b]) (hm : t.matched = s.matched) :
    scan_step_ok s t := by
  refine ⟨?_, Or.inr (Or.inl ⟨b, ho⟩), ?_, ?_⟩
  · rw [split_token_count_congr s t hs]
    exact id
  · rw [hm]
    exact id
  · intro _ h _
    rw [hm, ho, List.length_append]
    exact le_trans h (Nat.le_add_right _ _)

theorem scan_step_ok_pop (s t : Scanner)
    (hs : t.state &&& STATE_SPLIT_TOKEN_COUNT = s.state &&& STATE_SPLIT_TOKEN_COUNT)
    (hne : s.open_blocks ≠ []) (ho : t.open_blocks = s.open_blocks.dropLast)
    (hm : t.matched = s.matched) : scan_step_ok s t := by
  have hpos : 0 < s.open_blocks.length := List.length_pos.mpr hne
  refine ⟨?_, Or.inr (Or.inr ⟨hne, ho⟩), ?_, ?_⟩
  · rw [split_token_count_congr s t hs]
    exact id
  · rw [hm]
    exact id
  · intro _ h hp
    rw [ho, List.length_dropLast] at hp
    rw [hm, ho, List.length_dropLast]
    have := hp (by omega)
    omega

theorem scan_step_ok_of_leaf (s d : Scanner) (r : Bool × Scanner × TSLexer)
    (hs : d.state &&& STATE_SPLIT_TOKEN_COUNT = s.state &&& STATE_SPLIT_TOKEN_COUNT)
    (ho : d.open_blocks = s.open_blocks) (hm : d.matched = s.matched)
    (h : leaf_frame d r) : scan_step_ok s r.2.1 := by
  obtain ⟨f1, f2, f3⟩ := h
  have hsp : r.2.1.state &&& STATE_SPLIT_TOKEN_COUNT = s.state &&& STATE_SPLIT_TOKEN_COUNT := by
    have hk : ∀ x : Nat,
        x &&& STATE_SPLIT_TOKEN_COUNT = x &&& leaf_kept &&& STATE_SPLIT_TOKEN_COUNT := by
      intro x
      rw [Nat.and_assoc]
      rfl
    rw [hk r.2.1.state, f2, ← hk, hs]
  rcases f3 with f3 | ⟨b, f3⟩
  · exact scan_step_ok_same s _ hsp (f3.trans ho) (f1.trans hm)
  · exact scan_step_ok_push s _ b hsp (by rw [f3, ho]) (f1.trans hm)

theorem match_loop_matched_lt :
    ∀ (fuel : Nat) (s : Scanner) (lexer : TSLexer) (ps : Bool) (r : Scanner × TSLexer × Bool),
      s.matched < 256 → match_loop fuel s lexer ps = some r → r.1.matched < 256 := by
  intro fuel
  induction fuel with
  | zero =>
    intro s lexer ps r hm h
    rw [match_loop_zero, Option.some.injEq] at h
    rw [← h]
    exact hm
  | succ f ih =>
    intro s lexer ps r hm h
    rcases match_loop_round f s lexer ps r hm h with h1 | ⟨block, s2, l2, _, _, _, hw, _, hr⟩
    · rw [h1.2.2.1]
      exact hm
    · by_cases hq : block = BLOCK_QUOTE
      · rw [if_pos hq] at hr
        rw [hr]
        exact hw
      · rw [if_neg hq] at hr
        exact ih _ _ _ _ hw hr

/-- One invocation of the matcher. -/
theorem scan_matching_step (s d : Scanner) (lexer : TSLexer) (valid_symbols : ValidSymbols)
    (r : Bool × Scanner × TSLexer)
    (hs : d.state &&& STATE_SPLIT_TOKEN_COUNT = s.state &&& STATE_SPLIT_TOKEN_COUNT)
    (ho : d.open_blocks = s.open_blocks) (hm : d.matched = s.matched)
    (h : d.scan_matching lexer valid_symbols = some r) : scan_step_ok s r.2.1 := by
  cases hloop : match_loop d.open_blocks.length d lexer false with
  | none =>
    unfold Scanner.scan_matching at h
    rw [hloop] at h
    exact absurd h (by simp)
  | some q =>
    obtain ⟨s2, l2, ps⟩ := q
    have hst := match_loop_state_and STATE_SPLIT_TOKEN_COUNT (by decide) _ _ _ _ _ hloop
    have hob := match_loop_open_blocks _ _ _ _ _ hloop
    dsimp only at hst hob
    rw [hs] at hst
    rw [ho] at hob
    rw [scan_matching_of_loop d lexer valid_symbols s2 l2 ps hloop] at h
    cases ps with
    | true =>
      simp only [if_true] at h
      cases hbb : block_before s2.open_blocks s2.matched with
      | none =>
        rw [hbb] at h
        exact absurd h (by simp)
      | some b =>
        rw [hbb] at h
        dsimp only at h
        rw [Option.some.injEq] at h
        rw [← h]
        dsimp only
        refine ⟨?_, Or.inl ?_, ?_, ?_⟩
        · have : (if (!valid_symbols SOFT_LINE_BREAK_MARKER &&
              decide (s2.matched = s2.open_blocks.length)) = true
              then { s2 with state := s2.state &&& not16 STATE_MATCHING } else s2).state
                &&& STATE_SPLIT_TOKEN_COUNT = s.state &&& STATE_SPLIT_TOKEN_COUNT := by
            split
            · dsimp only
              rw [Nat.and_assoc]
              exact hst
            · exact hst
          rw [split_token_count_congr s _ this]
          exact id
        · rw [← hob]
          split <;> rfl
        · intro h256
          have := match_loop_matched_lt _ _ _ _ _ (by rw [hm]; exact h256) hloop
          dsimp only at this
          split <;> exact this
        · intro h256 _ _
          have hsp := match_loop_spec _ d lexer _ (by rw [hm]; exact h256) hloop
          have h4 := hsp.2.2.2.1 rfl
          dsimp only at h4
          rw [ho] at h4
          have e1 : (if (!valid_symbols SOFT_LINE_BREAK_MARKER &&
              decide (s2.matched = s2.open_blocks.length)) = true
              then { s2 with state := s2.state &&& not16 STATE_MATCHING } else s2).matched
                = s2.matched := by split <;> rfl
          have e2 : (if (!valid_symbols SOFT_LINE_BREAK_MARKER &&
              decide (s2.matched = s2.open_blocks.length)) = true
              then { s2 with state := s2.state &&& not16 STATE_MATCHING } else s2).open_blocks
                = s.open_blocks := by
            rw [← hob]
            split <;> rfl
          rw [e1, e2]
          exact h4
    | false =>
      have hmat : s.matched < 256 → s2.matched = s.matched := by
        intro h256
        have hsp := match_loop_spec _ d lexer _ (by rw [hm]; exact h256) hloop
        have h2 := hsp.2.1
        have h3 := hsp.2.2.1
        dsimp only at h2 h3
        rw [hm] at h2 h3
        by_contra hc
        exact absurd (h3.2 (by omega)) (by decide)
      have hlt : s.matched < 256 → s2.matched < 256 := by
        intro h256
        rw [hmat h256]
        exact h256
      simp only [Bool.false_eq_true, if_false] at h
      split at h
      · rename_i hsplit
        rw [Option.some.injEq] at h
        rw [← h]
        refine ⟨?_, Or.inl hob, hlt, ?_⟩
        · intro _
          have hc : ((s2.state &&& STATE_SPLIT_TOKEN_COUNT) >>> 5) % 256 < 2 := by
            simp only [Bool.and_eq_true, decide_eq_true_eq] at hsplit
            exact hsplit.2
          have := split_token_count_succ s2.state hc
          unfold Scanner.split_token_count
          dsimp only
          rw [this]
          omega
        · intro h256 hle _
          dsimp only
          rw [hmat h256, hob]
          exact hle
      · split at h
        · cases hbb : block_before s2.open_blocks s2.open_blocks.length with
          | none =>
            rw [hbb] at h
            exact absurd h (by simp)
          | some block =>
            rw [hbb] at h
            dsimp only at h
            rw [Option.some.injEq] at h
            rw [← h]
            have hne : s.open_blocks ≠ [] := by
              intro hc
              rw [hob, hc] at hbb
              simp [block_before] at hbb
            have hpos : 0 < s.open_blocks.length := List.length_pos.mpr hne
            refine ⟨?_, Or.inr (Or.inr ⟨hne, by rw [← hob]⟩), hlt, ?_⟩
            · have : ((if s2.matched = s2.open_blocks.dropLast.length
                  then s2.state &&& not16 STATE_MATCHING else s2.state)
                    ||| STATE_JUST_CLOSED) % 65536 &&& STATE_SPLIT_TOKEN_COUNT
                  = s.state &&& STATE_SPLIT_TOKEN_COUNT := by
                rw [mod_and_flag _ _ (by decide), Nat.and_distrib_right]
                have hz : STATE_JUST_CLOSED &&& STATE_SPLIT_TOKEN_COUNT = 0 := by decide
                rw [hz, Nat.or_zero]
                split
                · rw [Nat.and_assoc]
                  exact hst
                · exact hst
              intro hle
              unfold Scanner.split_token_count at hle ⊢
              dsimp only
              rw [this]
              exact hle
            · intro h256 hle hp
              dsimp only at hp ⊢
              rw [hob, List.length_dropLast] at hp ⊢
              rw [hmat h256]
              have := hp (by omega)
              omega
        · rw [Option.some.injEq] at h
          rw [← h]
          refine ⟨?_, Or.inl hob, hlt, ?_⟩
          · have : (s2.state &&& (not16 STATE_MATCHING &&& not16 STATE_NEED_OPEN_BLOCK)
                  ||| STATE_WAS_SOFT_LINE_BREAK) % 65536 &&& STATE_SPLIT_TOKEN_COUNT
                  = s.state &&& STATE_SPLIT_TOKEN_COUNT := by
              rw [mod_and_flag _ _ (by decide), Nat.and_distrib_right]
              have hz : STATE_WAS_SOFT_LINE_BREAK &&& STATE_SPLIT_TOKEN_COUNT = 0 := by decide
              rw [hz, Nat.or_zero, Nat.and_assoc]
              exact hst
            intro hle
            unfold Scanner.split_token_count at hle ⊢
            dsimp only
            rw [this]
            exact hle
          · intro h256 hle _
            dsimp only
            rw [hmat h256, hob]
            exact hle

theorem after_split_tokens_split (s : Scanner) (valid_symbols : ValidSymbols) :
    (s.after_split_tokens valid_symbols).state &&& STATE_SPLIT_TOKEN_COUNT
      = s.state &&& STATE_SPLIT_TOKEN_COUNT :=
  after_split_tokens_and s valid_symbols _ (by decide)

theorem at_dispatch_split (s : Scanner) (lexer : TSLexer) (valid_symbols : ValidSymbols) :
    (s.at_dispatch lexer valid_symbols).1.state &&& STATE_SPLIT_TOKEN_COUNT
      = s.state &&& STATE_SPLIT_TOKEN_COUNT :=
  at_dispatch_state s lexer valid_symbols _ (by decide)

/-- The invocations of `scan` that serve a request: the error token, the
line ending, an anonymous block opened, or the close-block flag set. -/
theorem scan_request_step (sym18 : TokenType) (s : Scanner) (lexer : TSLexer)
    (valid_symbols : ValidSymbols) (r : Bool × Scanner × TSLexer)
    (hv : ¬ no_request valid_symbols) (h : s.scan sym18 lexer valid_symbols = some r) :
    scan_step_ok s r.2.1 := by
  have h1s := after_split_tokens_split s valid_symbols
  have h1o := after_split_tokens_open_blocks s valid_symbols
  have h1m := after_split_tokens_matched s valid_symbols
  unfold Scanner.scan at h
  by_cases c1 : valid_symbols TRIGGER_ERROR = true
  · rw [if_pos c1, Option.some.injEq] at h
    rw [← h]
    exact scan_step_ok_same s _ rfl rfl rfl
  · rw [if_neg c1] at h
    dsimp only at h
    generalize s.after_split_tokens valid_symbols = s1 at h h1s h1o h1m
    by_cases c2 : valid_symbols LINE_ENDING = true
    · rw [if_pos c2] at h
      by_cases c3 : has_flag s1.state STATE_NEED_OPEN_BLOCK = true
      · rw [if_pos c3, Option.some.injEq] at h
        rw [← h]
        exact scan_step_ok_same s _ h1s h1o h1m
      · rw [if_neg c3, Option.some.injEq] at h
        rw [← h]
        refine ⟨fun _ => ?_, Or.inl ?_, fun _ => ?_, fun _ _ _ => ?_⟩
        · unfold Scanner.split_token_count
          dsimp only
          have hz : ∀ x : Nat, x &&&
              (not16 STATE_WAS_SOFT_LINE_BREAK &&& not16 STATE_SPLIT_TOKEN_COUNT &&&
                not16 STATE_NEED_OPEN_BLOCK &&& not16 STATE_JUST_CLOSED) &&&
              STATE_SPLIT_TOKEN_COUNT = 0 := by
            intro x
            rw [Nat.and_assoc]
            exact Nat.and_zero _
          rw [hz]
          decide
        · dsimp only
          rw [← h1o]
          split <;> rfl
        · dsimp only
          split <;> exact (by decide : 0 < 256)
        · dsimp only
          split <;> exact Nat.zero_le _
    · rw [if_neg c2] at h
      by_cases c4 : (valid_symbols OPEN_BLOCK ||
          valid_symbols OPEN_BLOCK_DONT_INTERRUPT_PARAGRAPH) = true
      · rw [if_pos c4] at h
        by_cases c5 : has_flag s1.state STATE_WAS_SOFT_LINE_BREAK = true
        · rw [if_pos c5, Option.some.injEq] at h
          rw [← h]
          exact scan_step_ok_same s _ h1s h1o h1m
        · rw [if_neg c5, Option.some.injEq] at h
          rw [← h]
          refine scan_step_ok_push s _ ANONYMOUS ?_ ?_ ?_
          · dsimp only
            rw [← h1s]
            split
            · dsimp only
              rw [Nat.and_assoc]
              rfl
            · rfl
          · dsimp only
            rw [← h1o]
            split <;> rfl
          · dsimp only
            rw [← h1m]
            split <;> rfl
      · rw [if_neg c4] at h
        by_cases c6 : valid_symbols CLOSE_BLOCK = true
        · rw [if_pos c6, Option.some.injEq] at h
          rw [← h]
          refine scan_step_ok_same s _ ?_ h1o h1m
          dsimp only
          rw [mod_and_flag _ _ (by decide), Nat.and_distrib_right, ← h1s]
          have hz : STATE_CLOSE_BLOCK &&& STATE_SPLIT_TOKEN_COUNT = 0 := by decide
          rw [hz, Nat.or_zero]
        · exfalso
          apply hv
          simp only [Bool.or_eq_true, not_or, Bool.not_eq_true] at c4
          simp only [Bool.not_eq_true] at c1 c2 c6
          exact ⟨c1, c2, c4.1, c4.2, c6⟩

/-- One invocation of `scan`, whatever the state, the input and the
candidates, if it stays within the stack: see `scan_step_ok`. -/
theorem scan_step (sym18 : TokenType) (s : Scanner) (lexer : TSLexer)
    (valid_symbols : ValidSymbols) (r : Bool × Scanner × TSLexer)
    (h : s.scan sym18 lexer valid_symbols = some r) : scan_step_ok s r.2.1 := by
  by_cases hv : no_request valid_symbols
  · rw [scan_dispatch sym18 s lexer valid_symbols hv] at h
    have hds := at_dispatch_split s lexer valid_symbols
    have hdo := at_dispatch_open_blocks s lexer valid_symbols
    have hdm := at_dispatch_matched s lexer valid_symbols
    generalize s.at_dispatch lexer valid_symbols = d at h hds hdo hdm
    by_cases c1 : d.2.eof = true
    · rw [if_pos c1] at h
      by_cases c2 : d.1.open_blocks.length > 0
      · rw [if_pos c2, Option.some.injEq] at h
        rw [← h]
        refine scan_step_ok_pop s _ hds ?_ (by rw [← hdo]) hdm
        intro hc
        rw [hdo, hc] at c2
        exact absurd c2 (by decide)
      · rw [if_neg c2, Option.some.injEq] at h
        rw [← h]
        exact scan_step_ok_same s _ hds hdo hdm
    · rw [if_neg c1] at h
      by_cases c3 : has_flag d.1.state STATE_MATCHING = false
      · rw [if_pos c3, Option.some.injEq] at h
        rw [← h]
        exact scan_step_ok_of_leaf s d.1 _ hds hdo hdm (scan_leaf_frame _ _ _ _)
      · rw [if_neg c3] at h
        exact scan_matching_step s d.1 d.2 valid_symbols r hds hdo hdm h
  · exact scan_request_step sym18 s lexer valid_symbols r hv h

/-- Along a sequence of invocations from a state with a count of split tokens
of at most 2, every state has such a count. -/
theorem scan_run_split_token_count (sym18 : TokenType) :
    ∀ (calls : List (TSLexer × ValidSymbols)) (s : Scanner) (trace : List Scanner),
      s.split_token_count ≤ 2 → scan_run sym18 calls s = some trace →
      ∀ t ∈ trace, t.split_token_count ≤ 2 := by
  intro calls
  induction calls with
  | nil =>
    intro s trace _ h t ht
    simp only [scan_run, Option.some.injEq] at h
    rw [← h] at ht
    exact absurd ht (List.not_mem_nil t)
  | cons c calls ih =>
    intro s trace hs h t ht
    obtain ⟨lexer, valid_symbols⟩ := c
    simp only [scan_run] at h
    cases hr : s.scan sym18 lexer valid_symbols with
    | none =>
      rw [hr] at h
      exact absurd h (by simp)
    | some r =>
      rw [hr] at h
      dsimp only at h
      have hstep := (scan_step sym18 s lexer valid_symbols r hr).1 hs
      cases hrun : scan_run sym18 calls r.2.1 with
      | none =>
        rw [hrun] at h
        exact absurd h (by simp)
      | some tr =>
        rw [hrun] at h
        dsimp only at h
        rw [Option.some.injEq] at h
        rw [← h] at ht
        rcases List.mem_cons.mp ht with ht | ht
        · rw [ht]
          exact hstep
        · exact ih r.2.1 tr hstep hrun t ht

theorem or_and_self_flag (x f : Nat) : (x ||| f) &&& f = f := by
  apply Nat.eq_of_testBit_eq
  intro i
  rw [Nat.testBit_and, Nat.testBit_or]
  cases f.testBit i <;> simp

/-- A flag that has just been set is set. -/
theorem has_flag_set (x f : Nat) (hf : f < 65536) (h0 : f ≠ 0) :
    has_flag ((x ||| f) % 65536) f = true := by
  rw [has_flag_mod _ _ hf]
  unfold has_flag
  rw [or_and_self_flag]
  simpa using h0

/-- C23 (amended): an invocation of `scan` that runs the matcher (no request
among the candidates; the matching flag set and the input not at its end
where `scan` dispatches, that is once lines 12 to 18 of scan.cpp have had
their chance to leave matching mode and the leading whitespace is consumed)
and whose matching loop ends with no block matched, at the scanner `s2` and
the lexer `l2`.  If the split token is a candidate and the
count of split tokens is below 2, `scan` returns the split token, the count
is one more, the need-open-block flag is set and the stack is unchanged.
Otherwise, if the soft-line-break token is a candidate, `scan` returns it,
the stack is unchanged, the matching flag is clear and the soft-line-break
flag is set.  Otherwise, if there is an open block, `scan` returns the token
`BLOCK_CLOSE` and the stack has lost its top block.  And along every sequence
of invocations from the initial state the count of split tokens is at most 2
in every state. -/
theorem C23_no_block_matched (sym18 : TokenType) (s : Scanner) (lexer : TSLexer)
    (valid_symbols : ValidSymbols) (s2 : Scanner) (l2 : TSLexer)
    (hv : no_request valid_symbols)
    (hm : has_flag (s.at_dispatch lexer valid_symbols).1.state STATE_MATCHING = true)
    (hne : (s.at_dispatch lexer valid_symbols).2.eof = false)
    (hloop : match_loop (s.at_dispatch lexer valid_symbols).1.open_blocks.length
      (s.at_dispatch lexer valid_symbols).1 (s.at_dispatch lexer valid_symbols).2 false
        = some (s2, l2, false)) :
    (valid_symbols SPLIT_TOKEN = true → s.split_token_count < 2 →
      ∃ t, s.scan sym18 lexer valid_symbols = some (true, t, l2.set_result SPLIT_TOKEN) ∧
        t.split_token_count = s.split_token_count + 1 ∧
        has_flag t.state STATE_NEED_OPEN_BLOCK = true ∧ t.open_blocks = s.open_blocks) ∧
    (¬ (valid_symbols SPLIT_TOKEN = true ∧ s.split_token_count < 2) →
      valid_symbols SOFT_LINE_BREAK_MARKER = true →
      ∃ t, s.scan sym18 lexer valid_symbols
          = some (true, t, l2.set_result SOFT_LINE_BREAK_MARKER) ∧
        t.open_blocks = s.open_blocks ∧ has_flag t.state STATE_MATCHING = false ∧
        has_flag t.state STATE_WAS_SOFT_LINE_BREAK = true) ∧
    (¬ (valid_symbols SPLIT_TOKEN = true ∧ s.split_token_count < 2) →
      valid_symbols SOFT_LINE_BREAK_MARKER = false → s.open_blocks ≠ [] →
      ∃ t l3, s.scan sym18 lexer valid_symbols = some (true, t, l3) ∧
        l3.result_symbol = some BLOCK_CLOSE ∧ t.open_blocks = s.open_blocks.dropLast) ∧
    (∀ (calls : List (TSLexer × ValidSymbols)) (trace : List Scanner),
      scan_run sym18 calls Scanner.initial = some trace →
      ∀ t ∈ trace, t.split_token_count ≤ 2) := by
  have hscan := scan_eq_scan_matching sym18 s lexer valid_symbols hv hm hne
  have hds := at_dispatch_split s lexer valid_symbols
  have hdo := at_dispatch_open_blocks s lexer valid_symbols
  rw [scan_matching_of_loop _ _ valid_symbols s2 l2 false hloop] at hscan
  have hst := match_loop_state_and STATE_SPLIT_TOKEN_COUNT (by decide) _ _ _ _ _ hloop
  have hob := match_loop_open_blocks _ _ _ _ _ hloop
  dsimp only at hst hob
  rw [hds] at hst
  rw [hdo] at hob
  have hcount : ((s2.state &&& STATE_SPLIT_TOKEN_COUNT) >>> 5) % 256 = s.split_token_count := by
    unfold Scanner.split_token_count
    rw [hst]
  simp only [Bool.false_eq_true, if_false] at hscan
  refine ⟨?_, ?_, ?_, ?_⟩
  · intro hsp hlt
    have hc : (valid_symbols SPLIT_TOKEN &&
        decide (((s2.state &&& STATE_SPLIT_TOKEN_COUNT) >>> 5) % 256 < 2)) = true := by
      rw [hcount]
      simp [hsp, hlt]
    rw [if_pos hc] at hscan
    refine ⟨_, hscan, ?_, ?_, hob⟩
    · have := split_token_count_succ s2.state (by rw [hcount]; exact hlt)
      unfold Scanner.split_token_count
      dsimp only
      rw [this, hst]
    · exact has_flag_set _ _ (by decide) (by decide)
  · intro hns hsoft
    have hc : ¬ (valid_symbols SPLIT_TOKEN &&
        decide (((s2.state &&& STATE_SPLIT_TOKEN_COUNT) >>> 5) % 256 < 2)) = true := by
      rw [hcount]
      simpa using hns
    rw [if_neg hc] at hscan
    have hc2 : ¬ (!valid_symbols SOFT_LINE_BREAK_MARKER) = true := by simp [hsoft]
    rw [if_neg hc2] at hscan
    refine ⟨_, hscan, hob, ?_, has_flag_set _ _ (by decide) (by decide)⟩
    dsimp only
    rw [has_flag_mod _ _ (by decide)]
    unfold has_flag
    rw [Nat.and_distrib_right, Nat.and_assoc, Nat.and_assoc]
    have z1 : not16 STATE_MATCHING &&& (not16 STATE_NEED_OPEN_BLOCK &&& STATE_MATCHING) = 0 := by
      decide
    have z2 : STATE_WAS_SOFT_LINE_BREAK &&& STATE_MATCHING = 0 := by decide
    rw [z1, z2]
    simp
  · intro hns hsoft hne2
    have hc : ¬ (valid_symbols SPLIT_TOKEN &&
        decide (((s2.state &&& STATE_SPLIT_TOKEN_COUNT) >>> 5) % 256 < 2)) = true := by
      rw [hcount]
      simpa using hns
    rw [if_neg hc] at hscan
    have hc2 : (!valid_symbols SOFT_LINE_BREAK_MARKER) = true := by simp [hsoft]
    rw [if_pos hc2] at hscan
    have hpos : 0 < s.open_blocks.length := List.length_pos.mpr hne2
    have hbb : block_before s2.open_blocks s2.open_blocks.length
        = some (s.open_blocks.get ⟨s.open_blocks.length - 1, by omega⟩) := by
      unfold block_before
      rw [hob, if_neg (by omega)]
      exact List.get?_eq_get _
    rw [hbb] at hscan
    refine ⟨_, _, hscan, ?_, congrArg List.dropLast hob⟩
    split <;> rfl
  · intro calls trace h
    exact scan_run_split_token_count sym18 calls Scanner.initial trace (by decide) h

/-- C23 on the line `x` below a block quote, which does not continue the
block quote, with the split token a candidate: the split token is returned
and the count goes from 0 to 1.  And the sequence of a line ending and three
requests for a split token from the initial state: the counts are 0, 1, 2
and 2. -/
theorem C23_no_block_matched_witness :
    no_request (valid_of [SPLIT_TOKEN]) ∧
    has_flag (scanner_in_quote.at_dispatch (TSLexer.start [120, 10])
      (valid_of [SPLIT_TOKEN])).1.state STATE_MATCHING = true ∧
    (scanner_in_quote.at_dispatch (TSLexer.start [120, 10]) (valid_of [SPLIT_TOKEN])).2.eof
      = false ∧
    match_loop
      (scanner_in_quote.at_dispatch (TSLexer.start [120, 10])
        (valid_of [SPLIT_TOKEN])).1.open_blocks.length
      (scanner_in_quote.at_dispatch (TSLexer.start [120, 10]) (valid_of [SPLIT_TOKEN])).1
      (scanner_in_quote.at_dispatch (TSLexer.start [120, 10]) (valid_of [SPLIT_TOKEN])).2 false
        = some (scanner_in_quote, TSLexer.start [120, 10], false) ∧
    (∃ t, scanner_in_quote.scan (OTHER 0) (TSLexer.start [120, 10]) (valid_of [SPLIT_TOKEN])
        = some (true, t, (TSLexer.start [120, 10]).set_result SPLIT_TOKEN) ∧
      t.split_token_count = scanner_in_quote.split_token_count + 1 ∧
      has_flag t.state STATE_NEED_OPEN_BLOCK = true ∧
      t.open_blocks = scanner_in_quote.open_blocks) ∧
    (scan_run (OTHER 0) calls_split_tokens Scanner.initial).map
      (fun trace => trace.map Scanner.split_token_count) = some [0, 1, 2, 2] :=
  ⟨by decide, by decide, by decide, by decide,
    (C23_no_block_matched (OTHER 0) scanner_in_quote (TSLexer.start [120, 10])
      (valid_of [SPLIT_TOKEN]) scanner_in_quote (TSLexer.start [120, 10]) (by decide)
      (by decide) (by decide) (by decide)).1 (by decide) (by decide),
    by decide⟩

/-! ## Thematic breaks of stars -/

/-- The `*` loop on a run `body` of stars, spaces and tabs that ends before
`tail`: it consumes the run and counts its stars. -/
theorem star_loop_line (valid_symbols : ValidSymbols) (tail : List Nat)
    (hstop : tail.headD 0 ≠ 42 ∧ tail.headD 0 ≠ 32 ∧ tail.headD 0 ≠ 9)
    (rs : Option TokenType) :
    ∀ (body : List Nat), (∀ c ∈ body, c = 42 ∨ c = 32 ∨ c = 9) →
    ∀ (fuel : Nat) (s : Scanner) (pos : Nat) (te : Option Nat) (v : StarVars),
      body.length ≤ fuel →
      ∃ s2 te2 v2, star_loop valid_symbols fuel s ⟨body ++ tail, pos, te, rs⟩ v
          = (s2, ⟨tail, pos + body.length, te2, rs⟩, v2) ∧
        v2.star_count = v.star_count + body.count 42 := by
  intro body
  induction body with
  | nil =>
    intro _ fuel s pos te v _
    refine ⟨s, te, v, ?_, by simp⟩
    cases fuel with
    | zero => rfl
    | succ f =>
      have h1 : (⟨tail, pos, te, rs⟩ : TSLexer).lookahead ≠ 42 := by
        rw [TSLexer.lookahead_eq_headD]
        exact hstop.1
      have h2 : ¬ ((⟨tail, pos, te, rs⟩ : TSLexer).lookahead = 32 ∨
          (⟨tail, pos, te, rs⟩ : TSLexer).lookahead = 9) := by
        rw [TSLexer.lookahead_eq_headD]
        exact fun h => h.elim hstop.2.1 hstop.2.2
      simp only [List.nil_append, star_loop, h1, h2, if_false, List.length_nil, Nat.add_zero]
  | cons c body ih =>
    intro hb fuel s pos te v hfuel
    cases fuel with
    | zero => exact absurd hfuel (by simp)
    | succ f =>
      have hf : body.length ≤ f := by simpa using hfuel
      have hb2 : ∀ x ∈ body, x = 42 ∨ x = 32 ∨ x = 9 :=
        fun x hx => hb x (List.mem_cons_of_mem _ hx)
      rcases hb c (List.mem_cons_self _ _) with hc | hc
      · subst hc
        rw [List.cons_append, star_loop_star_step valid_symbols f s
          ⟨42 :: (body ++ tail), pos, te, rs⟩ v rfl]
        have hadv : ∀ te' : Option Nat,
            s.advance ⟨42 :: (body ++ tail), pos, te', rs⟩
              = (1, { s with column := (s.column + 1) % 256 },
                  ⟨body ++ tail, pos + 1, te', rs⟩) := fun _ => rfl
        have hlex : ∃ te', (if v.star_count = 1 ∧ v.extra_indentation ≥ 1 ∧
            valid_symbols LIST_MARKER_STAR = true
            then (⟨42 :: (body ++ tail), pos, te, rs⟩ : TSLexer).mark_end
            else ⟨42 :: (body ++ tail), pos, te, rs⟩)
            = ⟨42 :: (body ++ tail), pos, te', rs⟩ := by
          split
          · exact ⟨_, rfl⟩
          · exact ⟨_, rfl⟩
        obtain ⟨te', hte⟩ := hlex
        rw [hte, hadv]
        obtain ⟨s2, te2, v2, h1, h2⟩ := ih hb2 f { s with column := (s.column + 1) % 256 }
          (pos + 1) te'
          { star_count := v.star_count + 1, had_whitespace := v.had_whitespace,
            star_count_before_whitespace :=
              if v.had_whitespace = false then v.star_count_before_whitespace + 1
              else v.star_count_before_whitespace,
            extra_indentation := v.extra_indentation } hf
        refine ⟨s2, te2, v2, ?_, ?_⟩
        · rw [h1]
          have hp : pos + 1 + body.length = pos + (body.length + 1) := by omega
          rw [hp]
          rfl
        · rw [h2]
          simp only [List.count_cons_self]
          omega
      · have hne : c ≠ 42 := by
          rcases hc with hc | hc <;> rw [hc] <;> decide
        have hla : (⟨c :: (body ++ tail), pos, te, rs⟩ : TSLexer).lookahead = c := rfl
        have hstep : ∃ s1 v1, star_loop valid_symbols (f + 1) s
            ⟨c :: (body ++ tail), pos, te, rs⟩ v
            = star_loop valid_symbols f s1 ⟨body ++ tail, pos + 1, te, rs⟩ v1 ∧
            v1.star_count = v.star_count := by
          simp only [star_loop, hla, hne, if_false, hc, if_true]
          refine ⟨_, _, rfl, ?_⟩
          split <;> rfl
        obtain ⟨s1, v1, hs1, hv1⟩ := hstep
        rw [List.cons_append, hs1]
        obtain ⟨s2, te2, v2, h1, h2⟩ := ih hb2 f s1 (pos + 1) te v1 hf
        refine ⟨s2, te2, v2, ?_, ?_⟩
        · rw [h1]
          have hp : pos + 1 + body.length = pos + (body.length + 1) := by omega
          rw [hp]
          rfl
        · rw [h2, hv1, List.count_cons_of_ne hne.symm]

/-- C25, as the claim words it, fails after a soft line break: for the line
`* * *` scanned with the soft-break flag set, the thematic break, the star
list marker and the star emphasis tokens candidates, `scan` returns the
error token, not the thematic break; and so it does for `* x`. -/
theorem C25_counterexample :
    token_of (scanner_after_soft_break.scan (OTHER 0)
      (TSLexer.start [42, 32, 42, 32, 42, 10]) valid_star_line) = some ERROR ∧
    token_of (scanner_after_soft_break.scan (OTHER 0)
      (TSLexer.start [42, 32, 120, 10]) valid_star_line) = some ERROR ∧
    scanner_after_soft_break.indentation < 4 ∧
    scanner_after_soft_break.num_emphasis_delimiters_left = 0 ∧
    leaf_mode scanner_after_soft_break := by
  decide

/-- C25, amended: the classifier (leaf mode, no request among the
candidates) with the soft-break flag clear, `indentation < 4`, no emphasis
run pending and the thematic break, the star list marker and the two star
emphasis tokens candidates.  On a star followed by a run `body` of stars,
spaces and tabs with at least two more stars and then by a line end, `scan`
returns the thematic break, the token ends at the line end, behind all the
stars, and the stack is unchanged.  On `* x` it returns the star list
marker. -/
theorem C25_star_thematic_break (sym18 : TokenType) (s : Scanner)
    (valid_symbols : ValidSymbols) (pos : Nat) (te : Option Nat) (rs : Option TokenType)
    (hwf : s.wf) (hv : no_request valid_symbols) (hm : leaf_mode s) (hind : s.indentation < 4)
    (hsoft : has_flag s.state STATE_WAS_SOFT_LINE_BREAK = false)
    (hfresh : s.num_emphasis_delimiters_left = 0)
    (hT : valid_symbols THEMATIC_BREAK = true) (hL : valid_symbols LIST_MARKER_STAR = true)
    (_hO : valid_symbols EMPHASIS_OPEN_STAR = true)
    (_hC : valid_symbols EMPHASIS_CLOSE_STAR = true) :
    (∀ body tail : List Nat, (∀ c ∈ body, c = 42 ∨ c = 32 ∨ c = 9) → 2 ≤ body.count 42 →
      (tail.headD 0 = 10 ∨ tail.headD 0 = 13) →
      ∃ r, s.scan sym18 ⟨42 :: (body ++ tail), pos, te, rs⟩ valid_symbols = some r ∧
        r.1 = true ∧ r.2.2.result_symbol = some THEMATIC_BREAK ∧
        r.2.2.token_end = some (pos + 1 + body.length) ∧ r.2.2.input = tail ∧
        r.2.1.open_blocks = s.open_blocks) ∧
    (∀ rest : List Nat,
      ∃ r, s.scan sym18 ⟨42 :: 32 :: 120 :: rest, pos, te, rs⟩ valid_symbols = some r ∧
        r.1 = true ∧ r.2.2.result_symbol = some LIST_MARKER_STAR) := by
  have hchunk : no_indented_chunk s valid_symbols := Or.inr (Or.inr hind)
  constructor
  · intro body tail hb hcount hle
    have hla : (⟨42 :: (body ++ tail), pos, te, rs⟩ : TSLexer).lookahead = 42 := rfl
    rw [scan_eq_scan_leaf sym18 s _ valid_symbols hwf hv hm (by simp) (by rw [hla]; omega)
        (by rw [hla]; omega),
      scan_leaf_eq_switch sym18 s _ valid_symbols hchunk,
      scan_switch_star sym18 s _ valid_symbols hla, parse_star_fresh s _ valid_symbols hfresh]
    have hlex : (s.advance ⟨42 :: (body ++ tail), pos, te, rs⟩).2.2.mark_end
        = ⟨body ++ tail, pos + 1, some (pos + 1), rs⟩ := rfl
    rw [hlex]
    have hstop : tail.headD 0 ≠ 42 ∧ tail.headD 0 ≠ 32 ∧ tail.headD 0 ≠ 9 := by
      rcases hle with h | h <;> rw [h] <;> decide
    obtain ⟨s2, te2, v2, hrun, hv2⟩ := star_loop_line valid_symbols tail hstop rs body hb
      (body ++ tail).length (s.advance ⟨42 :: (body ++ tail), pos, te, rs⟩).2.1 (pos + 1)
      (some (pos + 1))
      { star_count := 1, had_whitespace := false, star_count_before_whitespace := 1,
        extra_indentation := 0 } (by simp)
    have hs2i : s2.indentation = s.indentation := by
      have := star_loop_indentation valid_symbols (body ++ tail).length
        (s.advance ⟨42 :: (body ++ tail), pos, te, rs⟩).2.1
        ⟨body ++ tail, pos + 1, some (pos + 1), rs⟩
        { star_count := 1, had_whitespace := false, star_count_before_whitespace := 1,
          extra_indentation := 0 }
      rw [hrun] at this
      exact this
    have hs2s : s2.state = s.state := by
      have := star_loop_state valid_symbols (body ++ tail).length
        (s.advance ⟨42 :: (body ++ tail), pos, te, rs⟩).2.1
        ⟨body ++ tail, pos + 1, some (pos + 1), rs⟩
        { star_count := 1, had_whitespace := false, star_count_before_whitespace := 1,
          extra_indentation := 0 }
      rw [hrun] at this
      exact this
    have hs2o : s2.open_blocks = s.open_blocks := by
      have := star_loop_open_blocks valid_symbols (body ++ tail).length
        (s.advance ⟨42 :: (body ++ tail), pos, te, rs⟩).2.1
        ⟨body ++ tail, pos + 1, some (pos + 1), rs⟩
        { star_count := 1, had_whitespace := false, star_count_before_whitespace := 1,
          extra_indentation := 0 }
      rw [hrun] at this
      exact this
    show ∃ r, some ((star_loop valid_symbols (body ++ tail).length _ _ _).1.star_decision
      (star_loop valid_symbols (body ++ tail).length _ _ _).2.1
      (star_loop valid_symbols (body ++ tail).length _ _ _).2.2 valid_symbols) = some r ∧ _
    rw [hrun]
    refine ⟨_, rfl, ?_⟩
    have hle2 : ((⟨tail, pos + 1 + body.length, te2, rs⟩ : TSLexer).lookahead == 10 ||
        (⟨tail, pos + 1 + body.length, te2, rs⟩ : TSLexer).lookahead == 13) = true := by
      rw [TSLexer.lookahead_eq_headD]
      rcases hle with h | h <;> simp only [h] <;> decide
    have h3 : v2.star_count ≥ 3 := by
      rw [hv2]
      show 1 + List.count 42 body ≥ 3
      omega
    have hth : (valid_symbols THEMATIC_BREAK &&
        (decide (v2.star_count ≥ 3) &&
          ((⟨tail, pos + 1 + body.length, te2, rs⟩ : TSLexer).lookahead == 10 ||
           (⟨tail, pos + 1 + body.length, te2, rs⟩ : TSLexer).lookahead == 13)) &&
        decide (s2.indentation < 4)) = true := by
      rw [hT, hle2, hs2i]
      simp [h3, hind]
    unfold Scanner.star_decision
    dsimp only
    rw [if_pos hth, hs2s, hsoft]
    simp only [Bool.false_eq_true, if_false]
    refine ⟨?_, ?_, ?_, ?_, ?_⟩ <;> trivial
  · intro rest
    have hla : (⟨42 :: 32 :: 120 :: rest, pos, te, rs⟩ : TSLexer).lookahead = 42 := rfl
    rw [scan_eq_scan_leaf sym18 s _ valid_symbols hwf hv hm (by simp) (by rw [hla]; omega)
        (by rw [hla]; omega),
      scan_leaf_eq_switch sym18 s _ valid_symbols hchunk,
      scan_switch_star sym18 s _ valid_symbols hla, parse_star_fresh s _ valid_symbols hfresh]
    refine ⟨_, rfl, ?_⟩
    have hrun : star_loop valid_symbols
        (s.advance ⟨42 :: 32 :: 120 :: rest, pos, te, rs⟩).2.2.mark_end.input.length
        (s.advance ⟨42 :: 32 :: 120 :: rest, pos, te, rs⟩).2.1
        (s.advance ⟨42 :: 32 :: 120 :: rest, pos, te, rs⟩).2.2.mark_end
        { star_count := 1, had_whitespace := false, star_count_before_whitespace := 1,
          extra_indentation := 0 }
        = ({ s with column := ((s.column + 1) % 256 + 1) % 256 },
            ⟨120 :: rest, pos + 1 + 1, some (pos + 1), rs⟩,
            { star_count := 1, had_whitespace := true, star_count_before_whitespace := 1,
              extra_indentation := 1 }) := by
      simp [star_loop, Scanner.advance, TSLexer.advance, TSLexer.mark_end, TSLexer.lookahead]
    rw [hrun]
    unfold Scanner.star_decision Scanner.open_list_item
    simp [TSLexer.lookahead, hL, hsoft, TSLexer.set_result, TSLexer.mark_end]

/-- C25 at the line `* * *` and at `* x`, scanned from the initial state: the
thematic break covering the five characters, and the star list marker. -/
theorem C25_star_thematic_break_witness :
    Scanner.initial.wf ∧ no_request valid_star_line ∧ leaf_mode Scanner.initial ∧
    Scanner.initial.indentation < 4 ∧
    has_flag Scanner.initial.state STATE_WAS_SOFT_LINE_BREAK = false ∧
    Scanner.initial.num_emphasis_delimiters_left = 0 ∧
    valid_star_line THEMATIC_BREAK = true ∧ valid_star_line LIST_MARKER_STAR = true ∧
    valid_star_line EMPHASIS_OPEN_STAR = true ∧ valid_star_line EMPHASIS_CLOSE_STAR = true ∧
    (∀ c ∈ [32, 42, 32, 42], c = 42 ∨ c = 32 ∨ c = 9) ∧ 2 ≤ [32, 42, 32, 42].count 42 ∧
    ([10].headD 0 = 10 ∨ [10].headD 0 = 13) ∧
    (∃ r, Scanner.initial.scan (OTHER 0) ⟨42 :: ([32, 42, 32, 42] ++ [10]), 0, none, none⟩
        valid_star_line = some r ∧
      r.1 = true ∧ r.2.2.result_symbol = some THEMATIC_BREAK ∧
      r.2.2.token_end = some (0 + 1 + [32, 42, 32, 42].length) ∧ r.2.2.input = [10] ∧
      r.2.1.open_blocks = Scanner.initial.open_blocks) ∧
    (∃ r, Scanner.initial.scan (OTHER 0) ⟨42 :: 32 :: 120 :: [10], 0, none, none⟩
        valid_star_line = some r ∧
      r.1 = true ∧ r.2.2.result_symbol = some LIST_MARKER_STAR) :=
  ⟨by decide, by decide, by decide, by decide, by decide, by decide, by decide, by decide,
    by decide, by decide, by decide, by decide, by decide,
    (C25_star_thematic_break (OTHER 0) Scanner.initial valid_star_line 0 none none (by decide)
      (by decide) (by decide) (by decide) (by decide) (by decide) (by decide) (by decide)
      (by decide) (by decide)).1 [32, 42, 32, 42] [10] (by decide) (by decide) (by decide),
    (C25_star_thematic_break (OTHER 0) Scanner.initial valid_star_line 0 none none (by decide)
      (by decide) (by decide) (by decide) (by decide) (by decide) (by decide) (by decide)
      (by decide) (by decide)).2 [10]⟩

/-! ## List markers that do not interrupt a paragraph -/

/-- A list marker accepted in its don't-interrupt form while the
need-open-block flag is set: the error token. -/
theorem open_list_item_need (s : Scanner) (lexer : TSLexer) (extra_indentation digits : Nat)
    (mark : Bool) (token : TokenType) (h : has_flag s.state STATE_NEED_OPEN_BLOCK = true) :
    s.open_list_item lexer true extra_indentation digits mark token = s.error lexer := by
  unfold Scanner.open_list_item
  by_cases hs : has_flag s.state STATE_WAS_SOFT_LINE_BREAK = true
  · rw [if_pos hs]
  · rw [if_neg hs]
    simp [h]

theorem plus_decision_need (s : Scanner) (lexer : TSLexer) (extra_indentation : Nat)
    (valid_symbols : ValidSymbols) (hle : lexer.lookahead = 10 ∨ lexer.lookahead = 13)
    (hneed : has_flag s.state STATE_NEED_OPEN_BLOCK = true)
    (hall : s.matched = s.open_blocks.length)
    (hjc : has_flag s.state STATE_JUST_CLOSED = false)
    (hval : valid_symbols LIST_MARKER_PLUS_DONT_INTERRUPT = true) :
    s.plus_decision lexer extra_indentation valid_symbols = s.error lexer := by
  have hl : (lexer.lookahead == 13 || lexer.lookahead == 10) = true := by
    rcases hle with h | h <;> rw [h] <;> rfl
  unfold Scanner.plus_decision
  simp only [hl, hjc, hall, if_true, Bool.not_false, Bool.and_self, decide_True, hval,
    ge_iff_le, le_refl]
  exact open_list_item_need _ _ _ _ _ _ hneed

theorem minus_decision_need (s : Scanner) (lexer : TSLexer) (v : MinusVars)
    (valid_symbols : ValidSymbols) (hle : lexer.lookahead = 10 ∨ lexer.lookahead = 13)
    (hv1 : v.minus_count = 1)
    (hneed : has_flag s.state STATE_NEED_OPEN_BLOCK = true)
    (hall : s.matched = s.open_blocks.length)
    (hjc : has_flag s.state STATE_JUST_CLOSED = false)
    (hval : valid_symbols LIST_MARKER_MINUS_DONT_INTERRUPT = true)
    (hset : valid_symbols SETEXT_H2_UNDERLINE = false) :
    s.minus_decision lexer v valid_symbols = s.error lexer := by
  have hl : (lexer.lookahead == 10 || lexer.lookahead == 13) = true := by
    rcases hle with h | h <;> rw [h] <;> rfl
  unfold Scanner.minus_decision
  simp only [hl, hjc, hall, hv1, hset, if_true, Bool.not_false, Bool.and_self, decide_True,
    hval, ge_iff_le, le_refl, Bool.false_and, Bool.false_eq_true, if_false, Bool.and_true,
    Bool.true_and]
  simp only [show decide (3 ≤ 1) = false from rfl, Bool.and_false, Bool.false_eq_true,
    if_false]
  exact open_list_item_need _ _ _ _ _ _ hneed

theorem star_decision_need (s : Scanner) (lexer : TSLexer) (v : StarVars)
    (valid_symbols : ValidSymbols) (hle : lexer.lookahead = 10 ∨ lexer.lookahead = 13)
    (hv1 : v.star_count = 1)
    (hneed : has_flag s.state STATE_NEED_OPEN_BLOCK = true)
    (hall : s.matched = s.open_blocks.length)
    (hjc : has_flag s.state STATE_JUST_CLOSED = false)
    (hval : valid_symbols LIST_MARKER_STAR_DONT_INTERRUPT = true) :
    s.star_decision lexer v valid_symbols = s.error lexer := by
  have hl : (lexer.lookahead == 10 || lexer.lookahead == 13) = true := by
    rcases hle with h | h <;> rw [h] <;> rfl
  unfold Scanner.star_decision
  simp only [hl, hjc, hall, hv1, if_true, Bool.not_false, Bool.and_self, decide_True,
    hval, ge_iff_le, le_refl, Bool.and_true, Bool.true_and]
  simp only [show decide (3 ≤ 1) = false from rfl, Bool.and_false, Bool.false_and,
    Bool.false_eq_true, if_false]
  exact open_list_item_need _ _ _ _ _ _ hneed

theorem ordered_decision_need (s : Scanner) (lexer : TSLexer) (dot dont_interrupt : Bool)
    (digits extra_indentation : Nat) (valid_symbols : ValidSymbols)
    (hdi : (lexer.lookahead = 10 ∨ lexer.lookahead = 13) ∨
      (dont_interrupt = true ∧ 1 ≤ extra_indentation))
    (hneed : has_flag s.state STATE_NEED_OPEN_BLOCK = true)
    (hall : s.matched = s.open_blocks.length)
    (hjc : has_flag s.state STATE_JUST_CLOSED = false)
    (hval : valid_symbols (if dot = true then LIST_MARKER_DOT_DONT_INTERRUPT
      else LIST_MARKER_PARENTHESIS_DONT_INTERRUPT) = true) :
    s.ordered_decision lexer dot dont_interrupt digits extra_indentation valid_symbols
      = s.error lexer := by
  unfold Scanner.ordered_decision
  simp only [hjc, hall, Bool.not_false, Bool.and_true, decide_True]
  by_cases hle : lexer.lookahead = 10 ∨ lexer.lookahead = 13
  · have hl : (lexer.lookahead == 10 || lexer.lookahead == 13) = true := by
      rcases hle with h | h <;> rw [h] <;> rfl
    simp only [hl, if_true, Bool.or_true, ge_iff_le, le_refl, decide_True, Bool.true_and]
    cases dot <;> simp only [Bool.false_eq_true, if_false, if_true] at hval ⊢ <;>
      rw [hval] <;> exact open_list_item_need _ _ _ _ _ _ hneed
  · have hl : (lexer.lookahead == 10 || lexer.lookahead == 13) = false := by
      simp only [not_or] at hle
      simp [hle.1, hle.2]
    obtain ⟨h1, h2⟩ := hdi.resolve_left hle
    simp only [hl, Bool.false_eq_true, if_false, Bool.or_false, h1, if_true, ge_iff_le, h2,
      decide_True, Bool.true_and]
    cases dot <;> simp only [Bool.false_eq_true, if_false, if_true] at hval ⊢ <;>
      rw [hval] <;> exact open_list_item_need _ _ _ _ _ _ hneed

theorem scan_minus_need (s : Scanner) (valid_symbols : ValidSymbols) (c : Nat)
    (rest : List Nat) (pos : Nat) (te : Option Nat) (rs : Option TokenType)
    (hc : c = 10 ∨ c = 13) (hind : s.indentation ≤ 3)
    (hneed : has_flag s.state STATE_NEED_OPEN_BLOCK = true)
    (hall : s.matched = s.open_blocks.length)
    (hjc : has_flag s.state STATE_JUST_CLOSED = false)
    (hval : valid_symbols LIST_MARKER_MINUS_DONT_INTERRUPT = true)
    (hset : valid_symbols SETEXT_H2_UNDERLINE = false) :
    s.scan_minus ⟨45 :: c :: rest, pos, te, rs⟩ valid_symbols
      = Scanner.error { s with column := (s.column + 1) % 256 }
          ⟨c :: rest, pos + 1, some pos, rs⟩ := by
  have hrun : minus_loop (45 :: c :: rest).length s ⟨45 :: c :: rest, pos, some pos, rs⟩
      { whitespace_after_minus := false, minus_after_whitespace := false,
        minus_count := 0, extra_indentation := 0 }
      = ({ s with column := (s.column + 1) % 256 }, ⟨c :: rest, pos + 1, some pos, rs⟩,
          { whitespace_after_minus := false, minus_after_whitespace := false,
            minus_count := 1, extra_indentation := 0 }) := by
    rcases hc with rfl | rfl <;>
      simp [minus_loop, Scanner.advance, TSLexer.advance, TSLexer.lookahead]
  unfold Scanner.scan_minus
  have hgate : (decide (s.indentation ≤ 3) && (valid_symbols LIST_MARKER_MINUS ||
      valid_symbols LIST_MARKER_MINUS_DONT_INTERRUPT ||
      valid_symbols SETEXT_H2_UNDERLINE || valid_symbols THEMATIC_BREAK)) = true := by
    simp [hind, hval]
  rw [if_pos hgate]
  dsimp only
  have hm : (⟨45 :: c :: rest, pos, te, rs⟩ : TSLexer).mark_end
      = ⟨45 :: c :: rest, pos, some pos, rs⟩ := rfl
  rw [hm, hrun]
  exact minus_decision_need _ _ _ valid_symbols
    (by rcases hc with rfl | rfl <;> simp [TSLexer.lookahead]) rfl hneed hall hjc hval hset

theorem scan_plus_need (s : Scanner) (valid_symbols : ValidSymbols) (c : Nat)
    (rest : List Nat) (pos : Nat) (te : Option Nat) (rs : Option TokenType)
    (hc : c = 10 ∨ c = 13) (hind : s.indentation ≤ 3)
    (hneed : has_flag s.state STATE_NEED_OPEN_BLOCK = true)
    (hall : s.matched = s.open_blocks.length)
    (hjc : has_flag s.state STATE_JUST_CLOSED = false)
    (hval : valid_symbols LIST_MARKER_PLUS_DONT_INTERRUPT = true) :
    s.scan_plus ⟨43 :: c :: rest, pos, te, rs⟩ valid_symbols
      = Scanner.error { s with column := (s.column + 1) % 256 }
          ⟨c :: rest, pos + 1, te, rs⟩ := by
  have hrun : advance_while (fun c => c == 32 || c == 9) (c :: rest).length
      { s with column := (s.column + 1) % 256 } ⟨c :: rest, pos + 1, te, rs⟩ 0 0
      = ({ s with column := (s.column + 1) % 256 }, ⟨c :: rest, pos + 1, te, rs⟩, 0, 0) := by
    rcases hc with rfl | rfl <;> simp [advance_while, TSLexer.lookahead]
  unfold Scanner.scan_plus
  have hgate : (decide (s.indentation ≤ 3) && (valid_symbols LIST_MARKER_PLUS ||
      valid_symbols LIST_MARKER_PLUS_DONT_INTERRUPT)) = true := by
    simp [hind, hval]
  rw [if_pos hgate]
  dsimp only
  have hadv : s.advance ⟨43 :: c :: rest, pos, te, rs⟩
      = (1, { s with column := (s.column + 1) % 256 }, ⟨c :: rest, pos + 1, te, rs⟩) := rfl
  rw [hadv]
  dsimp only
  rw [hrun]
  exact plus_decision_need _ _ _ valid_symbols
    (by rcases hc with rfl | rfl <;> simp [TSLexer.lookahead]) hneed hall hjc hval

theorem parse_star_need (s : Scanner) (valid_symbols : ValidSymbols) (c : Nat)
    (rest : List Nat) (pos : Nat) (te : Option Nat) (rs : Option TokenType)
    (hc : c = 10 ∨ c = 13) (hfresh : s.num_emphasis_delimiters_left = 0)
    (hneed : has_flag s.state STATE_NEED_OPEN_BLOCK = true)
    (hall : s.matched = s.open_blocks.length)
    (hjc : has_flag s.state STATE_JUST_CLOSED = false)
    (hval : valid_symbols LIST_MARKER_STAR_DONT_INTERRUPT = true) :
    s.parse_star ⟨42 :: c :: rest, pos, te, rs⟩ valid_symbols
      = Scanner.error { s with column := (s.column + 1) % 256 }
          ⟨c :: rest, pos + 1, some (pos + 1), rs⟩ := by
  rw [parse_star_fresh s _ valid_symbols hfresh]
  have hlex : (s.advance ⟨42 :: c :: rest, pos, te, rs⟩).2.2.mark_end
      = ⟨c :: rest, pos + 1, some (pos + 1), rs⟩ := rfl
  have hs1 : (s.advance ⟨42 :: c :: rest, pos, te, rs⟩).2.1
      = { s with column := (s.column + 1) % 256 } := rfl
  rw [hlex, hs1]
  have hrun : star_loop valid_symbols (c :: rest).length
      { s with column := (s.column + 1) % 256 } ⟨c :: rest, pos + 1, some (pos + 1), rs⟩
      { star_count := 1, had_whitespace := false, star_count_before_whitespace := 1,
        extra_indentation := 0 }
      = ({ s with column := (s.column + 1) % 256 },
          ⟨c :: rest, pos + 1, some (pos + 1), rs⟩,
          { star_count := 1, had_whitespace := false, star_count_before_whitespace := 1,
            extra_indentation := 0 }) := by
    rcases hc with rfl | rfl <;> simp [star_loop, TSLexer.lookahead]
  show Scanner.star_decision (star_loop valid_symbols (c :: rest).length _ _ _).1
    (star_loop valid_symbols (c :: rest).length _ _ _).2.1
    (star_loop valid_symbols (c :: rest).length _ _ _).2.2 valid_symbols = _
  rw [hrun]
  exact star_decision_need _ _ _ valid_symbols
    (by rcases hc with rfl | rfl <;> simp [TSLexer.lookahead]) rfl hneed hall hjc hval

/-- The digit branch on a marker of at most 9 digits, a delimiter, the run
`ws` of spaces and tabs and then `tail`, in a shape that does not interrupt a
paragraph (a line end behind the marker, or a number other than 1 followed
by whitespace), with every block matched, nothing just closed and the
need-open-block flag set: the error token, and nothing is pushed. -/
theorem scan_digit_need (s : Scanner) (valid_symbols : ValidSymbols) (d0 : Nat)
    (ds ws tail : List Nat) (delim pos : Nat) (te : Option Nat) (rs : Option TokenType)
    (hind : s.indentation ≤ 3)
    (hds : ∀ c ∈ ds, 48 ≤ c ∧ c ≤ 57) (hlen : ds.length + 1 ≤ 9)
    (hdelim : delim = 46 ∨ delim = 41) (hws : ∀ c ∈ ws, c = 32 ∨ c = 9)
    (htail : tail.headD 0 ≠ 32 ∧ tail.headD 0 ≠ 9)
    (hshape : (tail.headD 0 = 10 ∨ tail.headD 0 = 13) ∨ (ws ≠ [] ∧ ¬ (d0 = 49 ∧ ds = [])))
    (hneed : has_flag s.state STATE_NEED_OPEN_BLOCK = true)
    (hall : s.matched = s.open_blocks.length)
    (hjc : has_flag s.state STATE_JUST_CLOSED = false)
    (hplain : valid_symbols LIST_MARKER_DOT = true ∨ valid_symbols LIST_MARKER_PARENTHESIS = true)
    (hval : valid_symbols (if delim = 46 then LIST_MARKER_DOT_DONT_INTERRUPT
      else LIST_MARKER_PARENTHESIS_DONT_INTERRUPT) = true) :
    (s.scan_digit ⟨d0 :: (ds ++ delim :: (ws ++ tail)), pos, te, rs⟩ valid_symbols).1 = true ∧
    (s.scan_digit ⟨d0 :: (ds ++ delim :: (ws ++ tail)), pos, te, rs⟩
      valid_symbols).2.2.result_symbol = some ERROR ∧
    (s.scan_digit ⟨d0 :: (ds ++ delim :: (ws ++ tail)), pos, te, rs⟩
      valid_symbols).2.1.open_blocks = s.open_blocks := by
  have hstop1 : (fun c => decide (c ≥ 48) && decide (c ≤ 57))
      ((delim :: (ws ++ tail)).headD 0) = false := by
    rcases hdelim with rfl | rfl <;> rfl
  have hp1 : ∀ c ∈ ds, (fun c => decide (c ≥ 48) && decide (c ≤ 57)) c = true := by
    intro c hc
    have := hds c hc
    simp only [Bool.and_eq_true, decide_eq_true_eq]
    omega
  unfold Scanner.scan_digit
  have hgate : (decide (s.indentation ≤ 3) && (valid_symbols LIST_MARKER_PARENTHESIS ||
      valid_symbols LIST_MARKER_DOT)) = true := by
    rcases hplain with h | h <;> simp [hind, h]
  rw [if_pos hgate]
  have hadv0 : s.advance ⟨d0 :: (ds ++ delim :: (ws ++ tail)), pos, te, rs⟩
      = ((s.advance ⟨d0 :: (ds ++ delim :: (ws ++ tail)), pos, te, rs⟩).1,
         (s.advance ⟨d0 :: (ds ++ delim :: (ws ++ tail)), pos, te, rs⟩).2.1,
         ⟨ds ++ delim :: (ws ++ tail), pos + 1, te, rs⟩) := rfl
  obtain ⟨col1, w1, hrun1, _⟩ := advance_while_run
    (fun c => decide (c ≥ 48) && decide (c ≤ 57)) (delim :: (ws ++ tail)) hstop1 te rs ds hp1
    (ds ++ delim :: (ws ++ tail)).length
    (s.advance ⟨d0 :: (ds ++ delim :: (ws ++ tail)), pos, te, rs⟩).2.1 (pos + 1) 0 0
    (by simp)
  dsimp only
  rw [hadv0]
  dsimp only
  rw [hrun1]
  dsimp only
  have hdig : (decide (1 + (0 + ds.length) ≥ 1) && decide (1 + (0 + ds.length) ≤ 9)) = true := by
    simp only [Bool.and_eq_true, decide_eq_true_eq]
    omega
  rw [if_pos hdig]
  have hla : (⟨delim :: (ws ++ tail), pos + 1 + ds.length, te, rs⟩ : TSLexer).lookahead
      = delim := rfl
  rw [hla]
  have hdp : (delim == 46 || (!(delim == 46) && delim == 41)) = true := by
    rcases hdelim with rfl | rfl <;> rfl
  rw [if_pos hdp]
  generalize hs1 : ({ (s.advance ⟨d0 :: (ds ++ delim :: (ws ++ tail)), pos, te, rs⟩).2.1 with
    column := col1 } : Scanner) = s1
  have hs1s : s1.state = s.state := by rw [← hs1]; rfl
  have hs1m : s1.matched = s.matched := by rw [← hs1]; rfl
  have hs1o : s1.open_blocks = s.open_blocks := by rw [← hs1]; rfl
  have hadv1 : s1.advance ⟨delim :: (ws ++ tail), pos + 1 + ds.length, te, rs⟩
      = ((s1.advance ⟨delim :: (ws ++ tail), pos + 1 + ds.length, te, rs⟩).1,
         (s1.advance ⟨delim :: (ws ++ tail), pos + 1 + ds.length, te, rs⟩).2.1,
         ⟨ws ++ tail, pos + 1 + ds.length + 1, te, rs⟩) := rfl
  rw [hadv1]
  dsimp only
  generalize hs2 : (s1.advance ⟨delim :: (ws ++ tail), pos + 1 + ds.length, te, rs⟩).2.1 = s2
  have hs2s : s2.state = s.state := by rw [← hs2, ← hs1s]; rfl
  have hs2m : s2.matched = s.matched := by rw [← hs2, ← hs1m]; rfl
  have hs2o : s2.open_blocks = s.open_blocks := by rw [← hs2, ← hs1o]; rfl
  obtain ⟨hl3, hw3⟩ := advance_while_whitespace tail htail te rs ws hws (ws ++ tail).length s2
    (pos + 1 + ds.length + 1) 0 0 (by simp)
  generalize hq : advance_while (fun c => c == 32 || c == 9) (ws ++ tail).length s2
    ⟨ws ++ tail, pos + 1 + ds.length + 1, te, rs⟩ 0 0 = q at hl3 hw3
  have hqs : q.1.state = s.state := by rw [← hq, advance_while_state, hs2s]
  have hqm : q.1.matched = s.matched := by rw [← hq, advance_while_matched, hs2m]
  have hqo : q.1.open_blocks = s.open_blocks := by rw [← hq, advance_while_open_blocks, hs2o]
  have hkey := ordered_decision_need q.1 q.2.1 (delim == 46)
    (d0 != 49 || decide (0 + ds.length > 0)) (1 + (0 + ds.length)) q.2.2.2 valid_symbols
    (by
      rw [hl3, TSLexer.lookahead_eq_headD]
      rcases hshape with h | ⟨hne, hnum⟩
      · exact Or.inl h
      · right
        constructor
        · by_cases hd : d0 = 49
          · have : ds ≠ [] := fun h => hnum ⟨hd, h⟩
            have hpos : 0 < ds.length := List.length_pos.mpr this
            simp [hpos]
          · simp [hd]
        · rw [hw3, Nat.zero_add]
          obtain ⟨c, ws2, rfl⟩ := List.exists_cons_of_ne_nil hne
          exact whitespace_width_pos _ _ _)
    (by rw [hqs]; exact hneed) (by rw [hqm, hqo]; exact hall) (by rw [hqs]; exact hjc)
    (by
      rcases hdelim with rfl | rfl
      · exact hval
      · exact hval)
  have hla0 : (⟨d0 :: (ds ++ delim :: (ws ++ tail)), pos, te, rs⟩ : TSLexer).lookahead
      = d0 := rfl
  rw [hla0, hkey]
  exact ⟨rfl, rfl, hqo⟩

/-- The don't-interrupt markers in leaf mode.  The classifier (leaf mode, no
request among the candidates) at `indentation <= 3` with every open block
matched, nothing just closed and the need-open-block flag set.  On a `-`, `+` or `*` directly followed by a
line end, with the don't-interrupt token of the bullet a candidate (for `-`
the setext underline, which has precedence, not a candidate; for `*` no
emphasis run pending), and on an ordered marker of at most 9 digits, `.` or
`)`, spaces or tabs `ws` and then `tail`, where `tail` starts with a line
end or `ws` is not empty and the number is not `1`, with a plain ordered
token and the don't-interrupt token of the delimiter candidates: `scan`
returns the error token and the stack is unchanged. -/
theorem dont_interrupt_error_leaf (sym18 : TokenType) (s : Scanner)
    (valid_symbols : ValidSymbols) (pos : Nat) (te : Option Nat) (rs : Option TokenType)
    (hwf : s.wf) (hv : no_request valid_symbols) (hm : leaf_mode s) (hind : s.indentation ≤ 3)
    (hneed : has_flag s.state STATE_NEED_OPEN_BLOCK = true)
    (hall : s.matched = s.open_blocks.length)
    (hjc : has_flag s.state STATE_JUST_CLOSED = false) :
    (∀ (c : Nat) (rest : List Nat), c = 10 ∨ c = 13 →
      valid_symbols LIST_MARKER_MINUS_DONT_INTERRUPT = true →
      valid_symbols SETEXT_H2_UNDERLINE = false →
      ∃ r, s.scan sym18 ⟨45 :: c :: rest, pos, te, rs⟩ valid_symbols = some r ∧ r.1 = true ∧
        r.2.2.result_symbol = some ERROR ∧ r.2.1.open_blocks = s.open_blocks) ∧
    (∀ (c : Nat) (rest : List Nat), c = 10 ∨ c = 13 →
      valid_symbols LIST_MARKER_PLUS_DONT_INTERRUPT = true →
      ∃ r, s.scan sym18 ⟨43 :: c :: rest, pos, te, rs⟩ valid_symbols = some r ∧ r.1 = true ∧
        r.2.2.result_symbol = some ERROR ∧ r.2.1.open_blocks = s.open_blocks) ∧
    (∀ (c : Nat) (rest : List Nat), c = 10 ∨ c = 13 →
      valid_symbols LIST_MARKER_STAR_DONT_INTERRUPT = true →
      s.num_emphasis_delimiters_left = 0 →
      ∃ r, s.scan sym18 ⟨42 :: c :: rest, pos, te, rs⟩ valid_symbols = some r ∧ r.1 = true ∧
        r.2.2.result_symbol = some ERROR ∧ r.2.1.open_blocks = s.open_blocks) ∧
    (∀ (d0 : Nat) (ds ws tail : List Nat) (delim : Nat), 48 ≤ d0 ∧ d0 ≤ 57 →
      (∀ c ∈ ds, 48 ≤ c ∧ c ≤ 57) → ds.length + 1 ≤ 9 → delim = 46 ∨ delim = 41 →
      (∀ c ∈ ws, c = 32 ∨ c = 9) → tail.headD 0 ≠ 32 ∧ tail.headD 0 ≠ 9 →
      (tail.headD 0 = 10 ∨ tail.headD 0 = 13) ∨ (ws ≠ [] ∧ ¬ (d0 = 49 ∧ ds = [])) →
      valid_symbols LIST_MARKER_DOT = true ∨ valid_symbols LIST_MARKER_PARENTHESIS = true →
      valid_symbols (if delim = 46 then LIST_MARKER_DOT_DONT_INTERRUPT
        else LIST_MARKER_PARENTHESIS_DONT_INTERRUPT) = true →
      ∃ r, s.scan sym18 ⟨d0 :: (ds ++ delim :: (ws ++ tail)), pos, te, rs⟩ valid_symbols
          = some r ∧ r.1 = true ∧
        r.2.2.result_symbol = some ERROR ∧ r.2.1.open_blocks = s.open_blocks) := by
  have hchunk : no_indented_chunk s valid_symbols := Or.inr (Or.inr (by omega))
  have hreach : ∀ (c : Nat) (rest : List Nat), c ≠ 32 → c ≠ 9 →
      s.scan sym18 ⟨c :: rest, pos, te, rs⟩ valid_symbols
        = some (s.scan_switch sym18 ⟨c :: rest, pos, te, rs⟩ valid_symbols) := by
    intro c rest h32 h9
    rw [scan_eq_scan_leaf sym18 s ⟨c :: rest, pos, te, rs⟩ valid_symbols hwf hv hm (by simp)
        h32 h9,
      scan_leaf_eq_switch sym18 s _ valid_symbols hchunk]
  refine ⟨?_, ?_, ?_, ?_⟩
  · intro c rest hc hval hset
    rw [hreach 45 _ (by decide) (by decide),
      (scan_switch_bullet sym18 s ⟨45 :: c :: rest, pos, te, rs⟩ valid_symbols).1 rfl,
      scan_minus_need s valid_symbols c rest pos te rs hc hind hneed hall hjc hval hset]
    exact ⟨_, rfl, rfl, rfl, rfl⟩
  · intro c rest hc hval
    rw [hreach 43 _ (by decide) (by decide),
      (scan_switch_bullet sym18 s ⟨43 :: c :: rest, pos, te, rs⟩ valid_symbols).2.1 rfl,
      scan_plus_need s valid_symbols c rest pos te rs hc hind hneed hall hjc hval]
    exact ⟨_, rfl, rfl, rfl, rfl⟩
  · intro c rest hc hval hfresh
    rw [hreach 42 _ (by decide) (by decide),
      (scan_switch_bullet sym18 s ⟨42 :: c :: rest, pos, te, rs⟩ valid_symbols).2.2 rfl,
      parse_star_need s valid_symbols c rest pos te rs hc hfresh hneed hall hjc hval]
    exact ⟨_, rfl, rfl, rfl, rfl⟩
  · intro d0 ds ws tail delim hd0 hds hlen hdelim hws htail hshape hplain hval
    have hla : (⟨d0 :: (ds ++ delim :: (ws ++ tail)), pos, te, rs⟩ : TSLexer).lookahead
        = d0 := rfl
    rw [scan_eq_scan_leaf sym18 s _ valid_symbols hwf hv hm (by simp) (by rw [hla]; omega)
        (by rw [hla]; omega),
      scan_leaf_digit sym18 s _ valid_symbols (by rw [hla]; exact hd0) hind]
    exact ⟨_, rfl, scan_digit_need s valid_symbols d0 ds ws tail delim pos te rs hind hds hlen
      hdelim hws htail hshape hneed hall hjc hplain hval⟩

/-! ## Code spans -/

/-- C27, evaluated at a failing input: a run of 256 backticks before `a`,
scanned from the initial state (leaf mode, indentation 0) with the two
code-span tokens candidates and neither fence token a candidate, returns
`CODE_SPAN_START` covering the 256 backticks, and the delimiter length it
records is 0, not 256.  A second run of 256 backticks, scanned in the state
so reached, is not taken as the close of the span: it returns
`CODE_SPAN_START` again.  For a run of 255 backticks the recorded length is
255 and the second run returns `CODE_SPAN_CLOSE`. -/
theorem C27_code_span_of_256 :
    ∃ s1 l1 s2 l2,
      Scanner.initial.scan (OTHER 0) (TSLexer.start (List.replicate 256 96 ++ [97]))
          valid_code_span = some (true, s1, l1) ∧
      l1.result_symbol = some CODE_SPAN_START ∧ l1.token_length = 256 ∧
      s1.code_span_delimiter_length = 0 ∧ s1.indentation = 0 ∧ leaf_mode s1 ∧
      s1.scan (OTHER 0) (TSLexer.start (List.replicate 256 96 ++ [10]))
          valid_code_span = some (true, s2, l2) ∧
      l2.result_symbol = some CODE_SPAN_START ∧
      (∃ t1 m1 t2 m2,
        Scanner.initial.scan (OTHER 0) (TSLexer.start (List.replicate 255 96 ++ [97]))
            valid_code_span = some (true, t1, m1) ∧
        m1.result_symbol = some CODE_SPAN_START ∧ t1.code_span_delimiter_length = 255 ∧
        t1.scan (OTHER 0) (TSLexer.start (List.replicate 255 96 ++ [10]))
            valid_code_span = some (true, t2, m2) ∧
        m2.result_symbol = some CODE_SPAN_CLOSE ∧ t2.code_span_delimiter_length = 255) := by
  refine ⟨{ Scanner.initial with column := 0, code_span_delimiter_length := 0 },
    ⟨[97], 256, some 256, some CODE_SPAN_START⟩,
    { Scanner.initial with column := 0, code_span_delimiter_length := 0 },
    ⟨[10], 256, some 256, some CODE_SPAN_START⟩, ?_, rfl, rfl, rfl, rfl, by decide, ?_, rfl,
    { Scanner.initial with column := 255, code_span_delimiter_length := 255 },
    ⟨[97], 255, some 255, some CODE_SPAN_START⟩,
    { Scanner.initial with column := 254, code_span_delimiter_length := 255 },
    ⟨[10], 255, some 255, some CODE_SPAN_CLOSE⟩, ?_, rfl, rfl, ?_, rfl, rfl⟩ <;>
  (set_option maxRecDepth 100000 in decide)

/-! ## The stack of open blocks over one invocation -/

/-- The stack over an invocation that returns.  An invocation of `scan` that
returns leaves the stack of open blocks unchanged, or with one block more on top, or without its top block, the
blocks below as they were.  If the invocation runs the classifier (no
request among the candidates, the input not at its end and the matching
flag clear where `scan` dispatches), its outcome is that of the classifier
and the stack is unchanged or has one block more; if it runs the matcher
(the matching flag set there), its outcome is that of the matcher and the
stack is unchanged or has lost its top block. -/
theorem stack_discipline_of_return (sym18 : TokenType) (s : Scanner) (lexer : TSLexer)
    (valid_symbols : ValidSymbols) (r : Bool × Scanner × TSLexer)
    (h : s.scan sym18 lexer valid_symbols = some r) :
    (r.2.1.open_blocks = s.open_blocks ∨ (∃ b, r.2.1.open_blocks = s.open_blocks ++ [b]) ∨
      (s.open_blocks ≠ [] ∧ r.2.1.open_blocks = s.open_blocks.dropLast)) ∧
    (no_request valid_symbols → (s.at_dispatch lexer valid_symbols).2.eof = false →
      has_flag (s.at_dispatch lexer valid_symbols).1.state STATE_MATCHING = false →
      r = (s.at_dispatch lexer valid_symbols).1.scan_leaf sym18
        (s.at_dispatch lexer valid_symbols).2 valid_symbols ∧
      (r.2.1.open_blocks = s.open_blocks ∨ ∃ b, r.2.1.open_blocks = s.open_blocks ++ [b])) ∧
    (no_request valid_symbols → (s.at_dispatch lexer valid_symbols).2.eof = false →
      has_flag (s.at_dispatch lexer valid_symbols).1.state STATE_MATCHING = true →
      (s.at_dispatch lexer valid_symbols).1.scan_matching
        (s.at_dispatch lexer valid_symbols).2 valid_symbols = some r ∧
      (r.2.1.open_blocks = s.open_blocks ∨
        (s.open_blocks ≠ [] ∧ r.2.1.open_blocks = s.open_blocks.dropLast))) := by
  have hdo := at_dispatch_open_blocks s lexer valid_symbols
  refine ⟨(scan_step sym18 s lexer valid_symbols r h).2.1, ?_, ?_⟩
  · intro hv hne hm
    rw [scan_dispatch sym18 s lexer valid_symbols hv, hne, hm] at h
    simp only [Bool.false_eq_true, if_false, if_true, Option.some.injEq] at h
    refine ⟨h.symm, ?_⟩
    rw [← h, ← hdo]
    exact (scan_leaf_frame sym18 _ _ valid_symbols).2.2
  · intro hv hne hm
    rw [scan_eq_scan_matching sym18 s lexer valid_symbols hv hm hne] at h
    refine ⟨h, ?_⟩
    have hfr := (scan_matching_frame _ _ valid_symbols r h).2
    rw [hdo] at hfr
    rcases hfr with hfr | hfr
    · exact Or.inl hfr
    · by_cases hnil : s.open_blocks = []
      · left
        rw [hfr, hnil]
        rfl
      · exact Or.inr ⟨hnil, hfr⟩

/-- Three invocations that return: the classifier on `> x` from the initial state
pushes a block quote; the matcher on `x` below a block quote, with no
candidate, pops it; the matcher on `> x` below a block quote leaves the stack
alone. -/
theorem stack_discipline_examples :
    Scanner.initial.scan (OTHER 0) (TSLexer.start [62, 32, 120])
        (valid_of [BLOCK_QUOTE_START])
      = some (true, { Scanner.initial with open_blocks := [BLOCK_QUOTE], column := 2 },
          ⟨[120], 2, none, some BLOCK_QUOTE_START⟩) ∧
    (({ Scanner.initial with open_blocks := [BLOCK_QUOTE], column := 2 } : Scanner).open_blocks
        = Scanner.initial.open_blocks ∨
      (∃ b, ({ Scanner.initial with open_blocks := [BLOCK_QUOTE], column := 2 } :
          Scanner).open_blocks = Scanner.initial.open_blocks ++ [b]) ∨
      (Scanner.initial.open_blocks ≠ [] ∧
        ({ Scanner.initial with open_blocks := [BLOCK_QUOTE], column := 2 } :
          Scanner).open_blocks = Scanner.initial.open_blocks.dropLast)) ∧
    (scanner_in_quote.scan (OTHER 0) (TSLexer.start [120]) (valid_of [])).map
        (fun r => r.2.1.open_blocks) = some [] ∧
    (scanner_in_quote.scan (OTHER 0) (TSLexer.start [62, 32, 120])
        (valid_of [BLOCK_QUOTE_CONTINUATION])).map (fun r => r.2.1.open_blocks)
      = some [BLOCK_QUOTE] :=
  ⟨by decide,
    (stack_discipline_of_return (OTHER 0) Scanner.initial (TSLexer.start [62, 32, 120])
      (valid_of [BLOCK_QUOTE_START])
      (true, { Scanner.initial with open_blocks := [BLOCK_QUOTE], column := 2 },
        ⟨[120], 2, none, some BLOCK_QUOTE_START⟩) (by decide)).1,
    by decide, by decide⟩

/-! ## Reading the stack within its bounds -/

/-- C29, evaluated at failing inputs.  From the initial state the line ending
with the soft-line-break token a candidate sets the matching flag on the
empty stack; the next invocation, on `b` with neither the split token nor the
soft-line-break token a candidate, reaches the block-close fallback with the
stack empty and reads `open_blocks[size - 1]` out of range (the flush at the
end of the input, in the same state, tests the size and returns `false`).
The fallback is reached with the stack empty also after it popped the block
quote of `> a`, `> b` when `matched` was the size of the stack.  And with 256
open blocks the counter `matched` wraps around to 0 in the matching loop,
which then reads `open_blocks[matched - 1]` out of range. -/
theorem C29_close_fallback_on_empty_stack :
    (∃ s1 l1,
      Scanner.initial.scan (OTHER 0) (TSLexer.start [10, 98])
          (valid_of [LINE_ENDING, SOFT_LINE_BREAK_MARKER]) = some (true, s1, l1) ∧
      l1.result_symbol = some LINE_ENDING ∧ s1.open_blocks = [] ∧
      has_flag s1.state STATE_MATCHING = true ∧
      s1.scan (OTHER 0) (TSLexer.start [98]) (valid_of [BLOCK_CLOSE]) = none ∧
      s1.scan (OTHER 0) (TSLexer.start []) (valid_of [BLOCK_CLOSE])
        = some (false, s1, TSLexer.start [])) ∧
    scan_run (OTHER 0) calls_line_ending_then_close Scanner.initial = none ∧
    (scan_run (OTHER 0) (calls_quote_then_close.take 4) Scanner.initial).map
        (fun trace => trace.map (fun t => (t.open_blocks, t.matched,
          has_flag t.state STATE_MATCHING)))
      = some [([BLOCK_QUOTE], 0, false), ([BLOCK_QUOTE], 0, true), ([BLOCK_QUOTE], 1, true),
          ([], 1, true)] ∧
    scan_run (OTHER 0) calls_quote_then_close Scanner.initial = none ∧
    (scan_run (OTHER 0) (calls_256_blocks.take 257) Scanner.initial).map List.length
      = some 257 ∧
    scan_run (OTHER 0) calls_256_blocks Scanner.initial = none := by
  refine ⟨⟨{ Scanner.initial with state := STATE_MATCHING },
    ⟨[10, 98], 0, none, some LINE_ENDING⟩, ?_, rfl, rfl, ?_, ?_, ?_⟩, ?_, ?_, ?_, ?_, ?_⟩ <;>
  (set_option maxRecDepth 1000000 in decide)

/-! ## The counter `matched` and the size of the stack -/

/-- C30, as the claim words it, fails: on the two-line block quote `> a`,
`> b` the block quote is matched on the second line, so `matched` is 1, and
the flush at the end of the input pops it without touching `matched`: the
state it leaves has `matched = 1` and no open block. -/
theorem C30_counterexample :
    ∃ trace t, scan_run (OTHER 0) calls_quote_flushed Scanner.initial = some trace ∧
      trace.getLast? = some t ∧ t.matched = 1 ∧ t.open_blocks = [] ∧
      ¬ t.matched ≤ t.open_blocks.length := by
  refine ⟨[{ Scanner.initial with open_blocks := [BLOCK_QUOTE], column := 2 },
    { Scanner.initial with open_blocks := [BLOCK_QUOTE], state := STATE_MATCHING },
    { Scanner.initial with open_blocks := [BLOCK_QUOTE], matched := 1, column := 2 },
    { Scanner.initial with matched := 1, column := 2 }],
    { Scanner.initial with matched := 1, column := 2 }, ?_, rfl, rfl, rfl, ?_⟩ <;> decide

/-- Along a sequence of invocations from a state with `matched` below 256 and
within the stack, none of which pops a block when `matched` is the size of
the stack, `matched` stays within the stack. -/
theorem scan_run_matched (sym18 : TokenType) :
    ∀ (calls : List (TSLexer × ValidSymbols)) (s : Scanner) (trace : List Scanner),
      s.matched < 256 → s.matched ≤ s.open_blocks.length →
      scan_run sym18 calls s = some trace → no_full_pop s trace = true →
      ∀ t ∈ trace, t.matched ≤ t.open_blocks.length := by
  intro calls
  induction calls with
  | nil =>
    intro s trace _ _ h _ t ht
    simp only [scan_run, Option.some.injEq] at h
    rw [← h] at ht
    exact absurd ht (List.not_mem_nil t)
  | cons c calls ih =>
    intro s trace h256 hle h hp t ht
    obtain ⟨lexer, valid_symbols⟩ := c
    simp only [scan_run] at h
    cases hr : s.scan sym18 lexer valid_symbols with
    | none =>
      rw [hr] at h
      exact absurd h (by simp)
    | some r =>
      rw [hr] at h
      dsimp only at h
      cases hrun : scan_run sym18 calls r.2.1 with
      | none =>
        rw [hrun] at h
        exact absurd h (by simp)
      | some tr =>
        rw [hrun] at h
        dsimp only at h
        rw [Option.some.injEq] at h
        rw [← h] at ht hp
        simp only [no_full_pop, Bool.and_eq_true, Bool.or_eq_true, decide_eq_true_eq] at hp
        obtain ⟨_, _, hlt, hkeep⟩ := scan_step sym18 s lexer valid_symbols r hr
        have hr256 := hlt h256
        have hrle : r.2.1.matched ≤ r.2.1.open_blocks.length := by
          apply hkeep h256 hle
          intro hshort
          rcases hp.1 with h1 | h1
          · omega
          · exact h1
        rcases List.mem_cons.mp ht with ht | ht
        · rw [ht]
          exact hrle
        · exact ih r.2.1 tr hr256 hrle hrun hp.2 t ht

/-- C30, amended: along every sequence of invocations of `scan` from the
initial state (any lexers, any candidate sets) none of which pops a block
when `matched` is the size of the stack, `matched` is at most the number
of open blocks in every state. -/
theorem C30_matched_within_stack (sym18 : TokenType) (calls : List (TSLexer × ValidSymbols))
    (trace : List Scanner) (h : scan_run sym18 calls Scanner.initial = some trace)
    (hp : no_full_pop Scanner.initial trace = true) :
    ∀ t ∈ trace, t.matched ≤ t.open_blocks.length :=
  scan_run_matched sym18 calls Scanner.initial trace (by decide) (by decide) h hp

/-- C30 on `> a` followed by the line `b`, which does not continue the block
quote: the block quote is popped with `matched = 0`, below the size 1 of the
stack, and `matched` is within the stack in the three states. -/
theorem C30_matched_within_stack_witness :
    scan_run (OTHER 0) calls_quote_closed Scanner.initial
      = some [{ Scanner.initial with open_blocks := [BLOCK_QUOTE], column := 2 },
          { Scanner.initial with open_blocks := [BLOCK_QUOTE], state := STATE_MATCHING },
          { Scanner.initial with state := STATE_JUST_CLOSED }] ∧
    no_full_pop Scanner.initial
      [{ Scanner.initial with open_blocks := [BLOCK_QUOTE], column := 2 },
        { Scanner.initial with open_blocks := [BLOCK_QUOTE], state := STATE_MATCHING },
        { Scanner.initial with state := STATE_JUST_CLOSED }] = true ∧
    (∀ t ∈ [{ Scanner.initial with open_blocks := [BLOCK_QUOTE], column := 2 },
        { Scanner.initial with open_blocks := [BLOCK_QUOTE], state := STATE_MATCHING },
        { Scanner.initial with state := STATE_JUST_CLOSED }],
      t.matched ≤ t.open_blocks.length) :=
  ⟨by decide, by decide,
    C30_matched_within_stack (OTHER 0) calls_quote_closed
      [{ Scanner.initial with open_blocks := [BLOCK_QUOTE], column := 2 },
        { Scanner.initial with open_blocks := [BLOCK_QUOTE], state := STATE_MATCHING },
        { Scanner.initial with state := STATE_JUST_CLOSED }] (by decide) (by decide)⟩

/-! ## Flanking: the code against the spec -/

/-- The whitespace test of the flanking code (space and tab seen by the loop,
line feed and carriage return seen after it) is the whitespace of the spec. -/
theorem is_whitespace_eq_spec (c : Nat) : is_whitespace c = spec_is_whitespace c := by
  rfl

/-- On a character that fits a `char`, the punctuation test of the code is
the punctuation of the spec. -/
theorem is_punctuation_eq_spec (c : Nat) (h : c < 256) :
    is_punctuation (c % 256) = spec_is_punctuation c := by
  rw [Nat.mod_eq_of_lt h]
  rfl

/-- Beyond a `char` the two part: the letter U+0121 has the low byte of `!`. -/
theorem is_punctuation_low_byte :
    is_punctuation (289 % 256) = true ∧ spec_is_punctuation 289 = false :=
  ⟨by decide, by decide⟩

/-- C18: `is_punctuation` (utils.cpp) takes a `char` and `parse_star` hands it
the 32-bit lookahead, so a character is judged by its low byte, against the
comment of `is_punctuation`, "Determines if a character is punctuation as
defined by the markdown spec".  On the run `*` before the letter U+0121
(289, low byte 33, the code of `!`) and `b`, scanned from the initial state
at indentation 0 with no run pending, both star emphasis tokens candidates,
after a token that ended in punctuation: the letter is not punctuation, the
run is not right-flanking and is left-flanking, so the open token is due;
`scan` returns the close token. -/
theorem C18_star_close_before_letter :
    spec_is_punctuation 289 = false ∧ spec_is_whitespace 289 = false ∧
    spec_right_flanking valid_star_after_punctuation 289 = false ∧
    spec_left_flanking valid_star_after_punctuation 289 = true ∧
    is_punctuation (289 % 256) = true ∧
    Scanner.initial.indentation = 0 ∧ Scanner.initial.num_emphasis_delimiters_left = 0 ∧
    valid_star_after_punctuation EMPHASIS_OPEN_STAR = true ∧
    valid_star_after_punctuation EMPHASIS_CLOSE_STAR = true ∧
    (∃ s1 l1, Scanner.initial.scan (OTHER 0) (TSLexer.start [42, 289, 98])
        valid_star_after_punctuation = some (true, s1, l1) ∧
      l1.result_symbol = some EMPHASIS_CLOSE_STAR) ∧
    token_of (Scanner.initial.scan (OTHER 0) (TSLexer.start [42, 289, 98])
      valid_star_after_punctuation) ≠ some EMPHASIS_OPEN_STAR :=
  ⟨by decide, by decide, by decide, by decide, by decide, rfl, rfl, by decide, by decide,
    ⟨_, _, rfl, rfl⟩, by decide⟩

/-- Within a `char` the star decision is the one of the spec.  A run of
`k + 1` stars followed by `tail`, whose first character `c` is not a star
and is below 256, scanned by the classifier (leaf mode, no request among the
candidates) at indentation 0 with no run pending and both star emphasis
tokens candidates.  If the run is taken neither as a thematic break nor as a
list marker (the outcome is none of these tokens, nor the error token with
which these two branches refuse after a soft line break), then `scan`
returns, and its token is the close token if the run is right-flanking,
otherwise the open token if the run is left-flanking, otherwise there is no
token. -/
theorem star_flanking_within_char (sym18 : TokenType) (s : Scanner) (valid_symbols : ValidSymbols)
    (k : Nat) (tail : List Nat) (hwf : s.wf) (hv : no_request valid_symbols) (hm : leaf_mode s)
    (hind : s.indentation = 0) (hfresh : s.num_emphasis_delimiters_left = 0)
    (hO : valid_symbols EMPHASIS_OPEN_STAR = true)
    (hC : valid_symbols EMPHASIS_CLOSE_STAR = true) (h42 : tail.headD 0 ≠ 42)
    (hchar : tail.headD 0 < 256)
    (hT : token_of (s.scan sym18 (TSLexer.start (42 :: (List.replicate k 42 ++ tail)))
      valid_symbols) ≠ some THEMATIC_BREAK)
    (hL : token_of (s.scan sym18 (TSLexer.start (42 :: (List.replicate k 42 ++ tail)))
      valid_symbols) ≠ some LIST_MARKER_STAR)
    (hD : token_of (s.scan sym18 (TSLexer.start (42 :: (List.replicate k 42 ++ tail)))
      valid_symbols) ≠ some LIST_MARKER_STAR_DONT_INTERRUPT)
    (hE : token_of (s.scan sym18 (TSLexer.start (42 :: (List.replicate k 42 ++ tail)))
      valid_symbols) ≠ some ERROR) :
    (∃ r, s.scan sym18 (TSLexer.start (42 :: (List.replicate k 42 ++ tail))) valid_symbols
      = some r) ∧
    token_of (s.scan sym18 (TSLexer.start (42 :: (List.replicate k 42 ++ tail))) valid_symbols)
      = if spec_right_flanking valid_symbols (tail.headD 0) = true then some EMPHASIS_CLOSE_STAR
        else if spec_left_flanking valid_symbols (tail.headD 0) = true
        then some EMPHASIS_OPEN_STAR else none := by
  have hla : (TSLexer.start (42 :: (List.replicate k 42 ++ tail))).lookahead = 42 := rfl
  have hscan := scan_eq_scan_leaf sym18 s (TSLexer.start (42 :: (List.replicate k 42 ++ tail)))
    valid_symbols hwf hv hm (by simp [TSLexer.start]) (by rw [hla]; omega) (by rw [hla]; omega)
  rw [scan_leaf_eq_switch sym18 s _ valid_symbols (Or.inr (Or.inr (by omega))),
    scan_switch_star sym18 s _ valid_symbols hla, parse_star_fresh s _ valid_symbols hfresh]
    at hscan
  have hlex : (s.advance (TSLexer.start (42 :: (List.replicate k 42 ++ tail)))).2.2.mark_end
      = ⟨List.replicate k 42 ++ tail, 1, some 1, none⟩ := rfl
  rw [hlex] at hscan
  have hrun := star_loop_run valid_symbols tail h42 k (List.replicate k 42 ++ tail).length
    (s.advance (TSLexer.start (42 :: (List.replicate k 42 ++ tail)))).2.1 1 (some 1) none
    { star_count := 1, had_whitespace := false, star_count_before_whitespace := 1,
      extra_indentation := 0 } rfl (by simp)
  have hi : (star_loop valid_symbols (List.replicate k 42 ++ tail).length
      (s.advance (TSLexer.start (42 :: (List.replicate k 42 ++ tail)))).2.1
      ⟨List.replicate k 42 ++ tail, 1, some 1, none⟩
      { star_count := 1, had_whitespace := false, star_count_before_whitespace := 1,
        extra_indentation := 0 }).1.indentation = 0 := by
    rw [star_loop_indentation, Scanner.advance_indentation, hind]
  dsimp only at hscan
  generalize star_loop valid_symbols (List.replicate k 42 ++ tail).length
      (s.advance (TSLexer.start (42 :: (List.replicate k 42 ++ tail)))).2.1
      ⟨List.replicate k 42 ++ tail, 1, some 1, none⟩
      { star_count := 1, had_whitespace := false, star_count_before_whitespace := 1,
        extra_indentation := 0 } = r at hscan hrun hi
  rw [hscan] at hT hL hD hE ⊢
  refine ⟨⟨_, rfl⟩, ?_⟩
  rcases star_decision_cases r.1 r.2.1 r.2.2 valid_symbols with h | h | h | h | h
  · exact absurd h hT
  · exact absurd h hE
  · exact absurd h hL
  · exact absurd h hD
  · rw [h]
    simp only [hO, Bool.true_or, if_true]
    rw [star_emphasis_token r.1 r.2.1 r.2.2 valid_symbols hi hC]
    obtain ⟨hw, hp⟩ := flanking_vars (tail.headD 0) r.2.1.lookahead r.2.2.had_whitespace
      hrun.1 hrun.2
    rw [hw, hp, is_whitespace_eq_spec, is_punctuation_eq_spec _ hchar]
    rfl

/-- The run `**` before `a`, scanned from the initial state after a
token that ended in whitespace: the run is not right-flanking and is
left-flanking, and the token is the open token. -/
theorem star_flanking_before_letter :
    Scanner.initial.wf ∧ no_request valid_star_emphasis ∧ leaf_mode Scanner.initial ∧
    Scanner.initial.indentation = 0 ∧ Scanner.initial.num_emphasis_delimiters_left = 0 ∧
    valid_star_emphasis EMPHASIS_OPEN_STAR = true ∧
    valid_star_emphasis EMPHASIS_CLOSE_STAR = true ∧ [97].headD 0 ≠ 42 ∧
    ((∃ r, Scanner.initial.scan (OTHER 0)
        (TSLexer.start (42 :: (List.replicate 1 42 ++ [97]))) valid_star_emphasis = some r) ∧
      token_of (Scanner.initial.scan (OTHER 0)
        (TSLexer.start (42 :: (List.replicate 1 42 ++ [97]))) valid_star_emphasis)
        = if spec_right_flanking valid_star_emphasis ([97].headD 0) = true
          then some EMPHASIS_CLOSE_STAR
          else if spec_left_flanking valid_star_emphasis ([97].headD 0) = true
          then some EMPHASIS_OPEN_STAR else none) ∧
    token_of (Scanner.initial.scan (OTHER 0)
      (TSLexer.start (42 :: (List.replicate 1 42 ++ [97]))) valid_star_emphasis)
      = some EMPHASIS_OPEN_STAR :=
  ⟨by decide, by decide, by decide, by decide, by decide, by decide, by decide, by decide,
    star_flanking_within_char (OTHER 0) Scanner.initial valid_star_emphasis 1 [97] (by decide)
      (by decide) (by decide) (by decide) (by decide) (by decide) (by decide) (by decide)
      (by decide) (by decide) (by decide) (by decide) (by decide),
    by decide⟩

/-- Without an underscore emphasis token among the candidates the part of
`parse_underscore` after the counting loop returns the thematic break, the
error token of that branch, or no token. -/
theorem underscore_decision_ungated (s : Scanner) (lexer : TSLexer) (v : UnderscoreVars)
    (valid_symbols : ValidSymbols)
    (hg : (valid_symbols EMPHASIS_OPEN_UNDERSCORE ||
      valid_symbols EMPHASIS_CLOSE_UNDERSCORE) = false) :
    token_of (some (s.underscore_decision lexer v valid_symbols)) = some THEMATIC_BREAK ∨
    token_of (some (s.underscore_decision lexer v valid_symbols)) = some ERROR ∨
    token_of (some (s.underscore_decision lexer v valid_symbols)) = none := by
  unfold Scanner.underscore_decision
  dsimp only
  by_cases h1 : (decide (v.underscore_count ≥ 3) &&
      (lexer.lookahead == 10 || lexer.lookahead == 13) && valid_symbols THEMATIC_BREAK) = true
  · simp only [h1, if_true]
    by_cases h2 : has_flag s.state STATE_WAS_SOFT_LINE_BREAK = true
    · simp only [h2, if_true]
      exact Or.inr (Or.inl rfl)
    · simp only [h2, Bool.false_eq_true, if_false]
      exact Or.inl rfl
  · simp only [h1, Bool.false_eq_true, if_false, hg]
    exact Or.inr (Or.inr rfl)

/-- The condition of the spec under which a `_` run may open does not depend
on punctuation: the run is left-flanking and it is not right-flanking or
the following character is punctuation, exactly when that character is not
whitespace and the preceding token ended in whitespace or punctuation. -/
theorem spec_underscore_open_iff (valid_symbols : ValidSymbols) (c : Nat) :
    (spec_left_flanking valid_symbols c = true ∧
      (spec_right_flanking valid_symbols c = false ∨ spec_is_punctuation c = true)) ↔
    (spec_is_whitespace c = false ∧
      (valid_symbols LAST_TOKEN_WHITESPACE = true ∨
        valid_symbols LAST_TOKEN_PUNCTUATION = true)) := by
  unfold spec_left_flanking spec_right_flanking
  generalize valid_symbols LAST_TOKEN_WHITESPACE = lw
  generalize valid_symbols LAST_TOKEN_PUNCTUATION = lp
  generalize spec_is_punctuation c = p
  generalize spec_is_whitespace c = w
  cases lw <;> cases lp <;> cases p <;> cases w <;> simp

/-- C17: a run of `k + 1` underscores followed by `tail`, whose first character
`c` is not an underscore, scanned by the classifier (leaf mode, no request
among the candidates, no indented code block to start) with no run pending.
If the run is not taken as a thematic break (the outcome is neither that
token nor the error token with which that branch refuses after a soft line
break), then `scan` returns.  If the close token is not chosen, then (1) the
open token is returned only if the run is left-flanking and it is not
right-flanking or `c` is punctuation, (2) with the open token a candidate it
is returned if and only if the run is left-flanking and it is not
right-flanking or `c` is punctuation, and (3) otherwise there is no token.
Flanking and punctuation are those of the spec, asked of `c` itself.  When
`c` fits a `char`, the close token is chosen exactly when it is a candidate
and the run is right-flanking and it is not left-flanking or `c` is
punctuation. -/
theorem C17_underscore_open (sym18 : TokenType) (s : Scanner) (valid_symbols : ValidSymbols)
    (k : Nat) (tail : List Nat) (hwf : s.wf) (hv : no_request valid_symbols) (hm : leaf_mode s)
    (hchunk : no_indented_chunk s valid_symbols) (hfresh : s.num_emphasis_delimiters_left = 0)
    (h95 : tail.headD 0 ≠ 95)
    (hT : token_of (s.scan sym18 (TSLexer.start (95 :: (List.replicate k 95 ++ tail)))
      valid_symbols) ≠ some THEMATIC_BREAK)
    (hE : token_of (s.scan sym18 (TSLexer.start (95 :: (List.replicate k 95 ++ tail)))
      valid_symbols) ≠ some ERROR) :
    (∃ r, s.scan sym18 (TSLexer.start (95 :: (List.replicate k 95 ++ tail))) valid_symbols
      = some r) ∧
    (token_of (s.scan sym18 (TSLexer.start (95 :: (List.replicate k 95 ++ tail)))
        valid_symbols) ≠ some EMPHASIS_CLOSE_UNDERSCORE →
      (token_of (s.scan sym18 (TSLexer.start (95 :: (List.replicate k 95 ++ tail)))
          valid_symbols) = some EMPHASIS_OPEN_UNDERSCORE →
        (spec_left_flanking valid_symbols (tail.headD 0) = true ∧
          (spec_right_flanking valid_symbols (tail.headD 0) = false ∨
            spec_is_punctuation (tail.headD 0) = true))) ∧
      (valid_symbols EMPHASIS_OPEN_UNDERSCORE = true →
        (token_of (s.scan sym18 (TSLexer.start (95 :: (List.replicate k 95 ++ tail)))
            valid_symbols) = some EMPHASIS_OPEN_UNDERSCORE ↔
          (spec_left_flanking valid_symbols (tail.headD 0) = true ∧
            (spec_right_flanking valid_symbols (tail.headD 0) = false ∨
              spec_is_punctuation (tail.headD 0) = true)))) ∧
      (token_of (s.scan sym18 (TSLexer.start (95 :: (List.replicate k 95 ++ tail)))
          valid_symbols) ≠ some EMPHASIS_OPEN_UNDERSCORE →
        token_of (s.scan sym18 (TSLexer.start (95 :: (List.replicate k 95 ++ tail)))
          valid_symbols) = none)) ∧
    (tail.headD 0 < 256 →
      (token_of (s.scan sym18 (TSLexer.start (95 :: (List.replicate k 95 ++ tail)))
          valid_symbols) = some EMPHASIS_CLOSE_UNDERSCORE ↔
        (valid_symbols EMPHASIS_CLOSE_UNDERSCORE = true ∧
          spec_right_flanking valid_symbols (tail.headD 0) = true ∧
          (spec_left_flanking valid_symbols (tail.headD 0) = false ∨
            spec_is_punctuation (tail.headD 0) = true)))) := by
  have hla : (TSLexer.start (95 :: (List.replicate k 95 ++ tail))).lookahead = 95 := rfl
  have hscan := scan_eq_scan_leaf sym18 s (TSLexer.start (95 :: (List.replicate k 95 ++ tail)))
    valid_symbols hwf hv hm (by simp [TSLexer.start]) (by rw [hla]; omega) (by rw [hla]; omega)
  rw [scan_leaf_eq_switch sym18 s _ valid_symbols hchunk,
    scan_switch_underscore sym18 s _ valid_symbols hla,
    parse_underscore_fresh s _ valid_symbols hfresh] at hscan
  have hlex : (s.advance (TSLexer.start (95 :: (List.replicate k 95 ++ tail)))).2.2.mark_end
      = ⟨List.replicate k 95 ++ tail, 1, some 1, none⟩ := rfl
  rw [hlex] at hscan
  have hrun := underscore_loop_run tail h95 k (List.replicate k 95 ++ tail).length
    (s.advance (TSLexer.start (95 :: (List.replicate k 95 ++ tail)))).2.1 1 (some 1) none
    { underscore_count := 1, underscore_count_before_whitespace := 1,
      encountered_whitespace := false } rfl (by simp)
  dsimp only at hscan
  generalize underscore_loop (List.replicate k 95 ++ tail).length
      (s.advance (TSLexer.start (95 :: (List.replicate k 95 ++ tail)))).2.1
      ⟨List.replicate k 95 ++ tail, 1, some 1, none⟩
      { underscore_count := 1, underscore_count_before_whitespace := 1,
        encountered_whitespace := false } = r at hscan hrun
  rw [hscan] at hT hE ⊢
  refine ⟨⟨_, rfl⟩, ?_⟩
  cases hg : (valid_symbols EMPHASIS_OPEN_UNDERSCORE ||
      valid_symbols EMPHASIS_CLOSE_UNDERSCORE) with
  | false =>
    have hO : valid_symbols EMPHASIS_OPEN_UNDERSCORE = false := by
      cases h : valid_symbols EMPHASIS_OPEN_UNDERSCORE
      · rfl
      · rw [h] at hg; simp at hg
    have hC : valid_symbols EMPHASIS_CLOSE_UNDERSCORE = false := by
      cases h : valid_symbols EMPHASIS_CLOSE_UNDERSCORE
      · rfl
      · rw [h] at hg; simp at hg
    rcases underscore_decision_ungated r.1 r.2.1 r.2.2 valid_symbols hg with h | h | h
    · exact absurd h hT
    · exact absurd h hE
    · rw [h, hO, hC]
      simp
  | true =>
    rcases underscore_decision_token r.1 r.2.1 r.2.2 valid_symbols hg with h | h | h
    · exact absurd h hT
    · exact absurd h hE
    · obtain ⟨hw, hp⟩ := flanking_vars (tail.headD 0) r.2.1.lookahead
        r.2.2.encountered_whitespace hrun.1 hrun.2
      rw [hw, hp, is_whitespace_eq_spec] at h
      rw [h]
      refine ⟨?_, fun hchar => ?_⟩
      · unfold spec_left_flanking spec_right_flanking
        generalize valid_symbols EMPHASIS_OPEN_UNDERSCORE = vo
        generalize valid_symbols EMPHASIS_CLOSE_UNDERSCORE = vc
        generalize valid_symbols LAST_TOKEN_WHITESPACE = lw
        generalize valid_symbols LAST_TOKEN_PUNCTUATION = lp
        generalize is_punctuation (tail.headD 0 % 256) = p
        generalize spec_is_punctuation (tail.headD 0) = q
        generalize spec_is_whitespace (tail.headD 0) = w
        cases vo <;> cases vc <;> cases lw <;> cases lp <;> cases p <;> cases q <;> cases w <;>
          simp
      · rw [is_punctuation_eq_spec _ hchar]
        unfold spec_left_flanking spec_right_flanking
        generalize valid_symbols EMPHASIS_CLOSE_UNDERSCORE = vc
        generalize valid_symbols LAST_TOKEN_WHITESPACE = lw
        generalize valid_symbols LAST_TOKEN_PUNCTUATION = lp
        generalize spec_is_punctuation (tail.headD 0) = q
        generalize spec_is_whitespace (tail.headD 0) = w
        cases vc <;> cases lw <;> cases lp <;> cases q <;> cases w <;> simp

/-- C17 at the run `_` before `a`, scanned from the initial state after a
token that ended in whitespace, with the open token a candidate: the close
token is not chosen, the run is left-flanking and not right-flanking, and
the token is the open token. -/
theorem C17_underscore_open_witness :
    Scanner.initial.wf ∧ no_request valid_underscore_open ∧ leaf_mode Scanner.initial ∧
    no_indented_chunk Scanner.initial valid_underscore_open ∧
    Scanner.initial.num_emphasis_delimiters_left = 0 ∧ [97].headD 0 ≠ 95 ∧
    token_of (Scanner.initial.scan (OTHER 0)
      (TSLexer.start (95 :: (List.replicate 0 95 ++ [97]))) valid_underscore_open)
      ≠ some THEMATIC_BREAK ∧
    token_of (Scanner.initial.scan (OTHER 0)
      (TSLexer.start (95 :: (List.replicate 0 95 ++ [97]))) valid_underscore_open)
      ≠ some ERROR ∧
    token_of (Scanner.initial.scan (OTHER 0)
      (TSLexer.start (95 :: (List.replicate 0 95 ++ [97]))) valid_underscore_open)
      ≠ some EMPHASIS_CLOSE_UNDERSCORE ∧
    valid_underscore_open EMPHASIS_OPEN_UNDERSCORE = true ∧
    (token_of (Scanner.initial.scan (OTHER 0)
        (TSLexer.start (95 :: (List.replicate 0 95 ++ [97]))) valid_underscore_open)
        = some EMPHASIS_OPEN_UNDERSCORE ↔
      (spec_left_flanking valid_underscore_open ([97].headD 0) = true ∧
        (spec_right_flanking valid_underscore_open ([97].headD 0) = false ∨
          spec_is_punctuation ([97].headD 0) = true))) ∧
    token_of (Scanner.initial.scan (OTHER 0)
      (TSLexer.start (95 :: (List.replicate 0 95 ++ [97]))) valid_underscore_open)
      = some EMPHASIS_OPEN_UNDERSCORE :=
  ⟨by decide, by decide, by decide, by decide, by decide, by decide, by decide, by decide,
    by decide, by decide,
    ((C17_underscore_open (OTHER 0) Scanner.initial valid_underscore_open 0 [97] (by decide)
      (by decide) (by decide) (by decide) (by decide) (by decide) (by decide)
      (by decide)).2.1 (by decide)).2.1 (by decide),
    by decide⟩

/-- The low byte in the close decision of `_`.  On the run `_` before the
letter U+0121 and `b`, scanned from the initial state with both underscore
emphasis tokens candidates, after a token that ended in punctuation, the
run is not right-flanking as the spec words it; `parse_underscore` takes
the letter for punctuation, as `parse_star` does, and `scan` returns the
close token. -/
theorem underscore_close_before_letter :
    spec_right_flanking valid_underscore_after_punctuation 289 = false ∧
    token_of (Scanner.initial.scan (OTHER 0) (TSLexer.start [95, 289, 98])
      valid_underscore_after_punctuation) = some EMPHASIS_CLOSE_UNDERSCORE :=
  ⟨by decide, by decide⟩

/-! ## Matching mode without the matcher -/

/-- C23, the claim as written fails where `scan` is entered in matching mode
and leaves it before the matcher runs.  Lines 12 to 18 of scan.cpp clear the
matching flag when two split tokens have been emitted, the soft line break is
not a candidate and every open block is matched.  On `> a`, a line ending and
`> b`, after the continuation of the block quote and two split tokens, the
matching flag is set, the count of split tokens is 2 and the block quote is
open and matched; the next invocation, on `b` with neither the split token
nor the soft line break a candidate, matches no block, returns no token and
leaves the block quote open: it does not return `BLOCK_CLOSE` and pops
nothing. -/
theorem C23_counterexample :
    ∃ trace s5 s6 l6,
      scan_run (OTHER 0) calls_quote_two_splits Scanner.initial = some trace ∧
      trace.getLast? = some s5 ∧
      has_flag s5.state STATE_MATCHING = true ∧ s5.split_token_count = 2 ∧
      s5.open_blocks = [BLOCK_QUOTE] ∧ s5.matched = 1 ∧
      s5.scan (OTHER 0) (TSLexer.start [98]) (valid_of [BLOCK_CLOSE]) = some (false, s6, l6) ∧
      token_of (s5.scan (OTHER 0) (TSLexer.start [98]) (valid_of [BLOCK_CLOSE]))
        ≠ some BLOCK_CLOSE ∧
      s6.open_blocks = [BLOCK_QUOTE] ∧ s6.matched = s5.matched ∧
      has_flag s6.state STATE_MATCHING = false := by
  refine ⟨[{ Scanner.initial with open_blocks := [BLOCK_QUOTE], column := 2 },
      { Scanner.initial with open_blocks := [BLOCK_QUOTE], state := 1 },
      { Scanner.initial with open_blocks := [BLOCK_QUOTE], state := 1, matched := 1, column := 2 },
      { Scanner.initial with
        open_blocks := [BLOCK_QUOTE], state := 289, matched := 1, column := 2 },
      { Scanner.initial with
        open_blocks := [BLOCK_QUOTE], state := 321, matched := 1, column := 2 }],
    { Scanner.initial with open_blocks := [BLOCK_QUOTE], state := 321, matched := 1, column := 2 },
    { Scanner.initial with open_blocks := [BLOCK_QUOTE], state := 320, matched := 1, column := 2 },
    TSLexer.start [98], ?_, rfl, ?_, ?_, rfl, rfl, ?_, ?_, rfl, rfl, ?_⟩ <;> decide

/-! ## The don't-interrupt markers when a new block is needed -/

/-- Lines 12 to 18 of scan.cpp do nothing when run a second time. -/
theorem after_split_tokens_idem (s : Scanner) (valid_symbols : ValidSymbols) :
    (s.after_split_tokens valid_symbols).after_split_tokens valid_symbols
      = s.after_split_tokens valid_symbols := by
  have hsp := after_split_tokens_split s valid_symbols
  have hm := after_split_tokens_matched s valid_symbols
  have ho := after_split_tokens_open_blocks s valid_symbols
  by_cases hc : (decide (((s.state &&& STATE_SPLIT_TOKEN_COUNT) >>> 5) % 256 = 2) &&
      !valid_symbols SOFT_LINE_BREAK_MARKER &&
      decide (s.matched = s.open_blocks.length)) = true
  · have h1 : s.after_split_tokens valid_symbols
        = { s with state := s.state &&& not16 STATE_MATCHING } := by
      unfold Scanner.after_split_tokens
      dsimp only
      rw [if_pos hc]
    rw [h1] at hsp hm ho ⊢
    dsimp only at hsp hm ho
    unfold Scanner.after_split_tokens
    dsimp only
    rw [hsp, if_pos hc, Nat.and_assoc, Nat.and_self]
  · have h1 : s.after_split_tokens valid_symbols = s := by
      unfold Scanner.after_split_tokens
      dsimp only
      rw [if_neg hc]
    rw [h1, h1]

/-- With no request among the candidates, `scan` from `s` is `scan` from the
state that lines 12 to 18 make of `s`. -/
theorem scan_after_split_tokens (sym18 : TokenType) (s : Scanner) (lexer : TSLexer)
    (valid_symbols : ValidSymbols) (hv : no_request valid_symbols) :
    s.scan sym18 lexer valid_symbols
      = (s.after_split_tokens valid_symbols).scan sym18 lexer valid_symbols := by
  have hd : (s.after_split_tokens valid_symbols).at_dispatch lexer valid_symbols
      = s.at_dispatch lexer valid_symbols := by
    unfold Scanner.at_dispatch
    rw [after_split_tokens_idem]
  rw [scan_dispatch sym18 s lexer valid_symbols hv,
    scan_dispatch sym18 (s.after_split_tokens valid_symbols) lexer valid_symbols hv, hd]

theorem after_split_tokens_flag (s : Scanner) (valid_symbols : ValidSymbols) (f : Nat)
    (hf : not16 STATE_MATCHING &&& f = f) :
    has_flag (s.after_split_tokens valid_symbols).state f = has_flag s.state f := by
  unfold has_flag
  rw [after_split_tokens_and s valid_symbols f hf]

theorem after_split_tokens_wf (s : Scanner) (valid_symbols : ValidSymbols) (h : s.wf) :
    (s.after_split_tokens valid_symbols).wf := by
  unfold Scanner.after_split_tokens
  dsimp only
  split
  · obtain ⟨h1, h2⟩ := h
    exact ⟨Nat.lt_of_le_of_lt Nat.and_le_left h1, h2⟩
  · exact h

theorem after_split_tokens_indentation (s : Scanner) (valid_symbols : ValidSymbols) :
    (s.after_split_tokens valid_symbols).indentation = s.indentation := by
  unfold Scanner.after_split_tokens
  dsimp only
  split <;> rfl

theorem after_split_tokens_emphasis (s : Scanner) (valid_symbols : ValidSymbols) :
    (s.after_split_tokens valid_symbols).num_emphasis_delimiters_left
      = s.num_emphasis_delimiters_left := by
  unfold Scanner.after_split_tokens
  dsimp only
  split <;> rfl

/-- C26: an invocation of `scan` that runs the classifier (no request among
the candidates, the matching flag clear once lines 12 to 18 of scan.cpp have
run: the scanner is entered in leaf mode, or two split tokens have been
emitted, the soft line break is not a candidate and every open block is
matched) at `indentation <= 3` with every open block matched, nothing just
closed and the need-open-block flag set.  On a `-`, `+` or `*` directly
followed by a line end, with the don't-interrupt token of the bullet a
candidate (for `-` the setext underline, which has precedence, not a
candidate; for `*` no emphasis run pending), and on an ordered marker of at
most 9 digits, `.` or `)`, spaces or tabs `ws` and then `tail`, where `tail`
starts with a line end or `ws` is not empty and the number is not `1`, with a
plain ordered token and the don't-interrupt token of the delimiter
candidates: `scan` returns the error token and the stack is unchanged. -/
theorem C26_dont_interrupt_error (sym18 : TokenType) (s : Scanner)
    (valid_symbols : ValidSymbols) (pos : Nat) (te : Option Nat) (rs : Option TokenType)
    (hwf : s.wf) (hv : no_request valid_symbols)
    (hm : has_flag (s.after_split_tokens valid_symbols).state STATE_MATCHING = false)
    (hind : s.indentation ≤ 3)
    (hneed : has_flag s.state STATE_NEED_OPEN_BLOCK = true)
    (hall : s.matched = s.open_blocks.length)
    (hjc : has_flag s.state STATE_JUST_CLOSED = false) :
    (∀ (c : Nat) (rest : List Nat), c = 10 ∨ c = 13 →
      valid_symbols LIST_MARKER_MINUS_DONT_INTERRUPT = true →
      valid_symbols SETEXT_H2_UNDERLINE = false →
      ∃ r, s.scan sym18 ⟨45 :: c :: rest, pos, te, rs⟩ valid_symbols = some r ∧ r.1 = true ∧
        r.2.2.result_symbol = some ERROR ∧ r.2.1.open_blocks = s.open_blocks) ∧
    (∀ (c : Nat) (rest : List Nat), c = 10 ∨ c = 13 →
      valid_symbols LIST_MARKER_PLUS_DONT_INTERRUPT = true →
      ∃ r, s.scan sym18 ⟨43 :: c :: rest, pos, te, rs⟩ valid_symbols = some r ∧ r.1 = true ∧
        r.2.2.result_symbol = some ERROR ∧ r.2.1.open_blocks = s.open_blocks) ∧
    (∀ (c : Nat) (rest : List Nat), c = 10 ∨ c = 13 →
      valid_symbols LIST_MARKER_STAR_DONT_INTERRUPT = true →
      s.num_emphasis_delimiters_left = 0 →
      ∃ r, s.scan sym18 ⟨42 :: c :: rest, pos, te, rs⟩ valid_symbols = some r ∧ r.1 = true ∧
        r.2.2.result_symbol = some ERROR ∧ r.2.1.open_blocks = s.open_blocks) ∧
    (∀ (d0 : Nat) (ds ws tail : List Nat) (delim : Nat), 48 ≤ d0 ∧ d0 ≤ 57 →
      (∀ c ∈ ds, 48 ≤ c ∧ c ≤ 57) → ds.length + 1 ≤ 9 → delim = 46 ∨ delim = 41 →
      (∀ c ∈ ws, c = 32 ∨ c = 9) → tail.headD 0 ≠ 32 ∧ tail.headD 0 ≠ 9 →
      (tail.headD 0 = 10 ∨ tail.headD 0 = 13) ∨ (ws ≠ [] ∧ ¬ (d0 = 49 ∧ ds = [])) →
      valid_symbols LIST_MARKER_DOT = true ∨ valid_symbols LIST_MARKER_PARENTHESIS = true →
      valid_symbols (if delim = 46 then LIST_MARKER_DOT_DONT_INTERRUPT
        else LIST_MARKER_PARENTHESIS_DONT_INTERRUPT) = true →
      ∃ r, s.scan sym18 ⟨d0 :: (ds ++ delim :: (ws ++ tail)), pos, te, rs⟩ valid_symbols
          = some r ∧ r.1 = true ∧
        r.2.2.result_symbol = some ERROR ∧ r.2.1.open_blocks = s.open_blocks) := by
  have key := dont_interrupt_error_leaf sym18 (s.after_split_tokens valid_symbols)
    valid_symbols pos te rs (after_split_tokens_wf s valid_symbols hwf) hv hm
    (by rw [after_split_tokens_indentation]; exact hind)
    (by rw [after_split_tokens_flag s valid_symbols _ (by decide)]; exact hneed)
    (by rw [after_split_tokens_matched, after_split_tokens_open_blocks]; exact hall)
    (by rw [after_split_tokens_flag s valid_symbols _ (by decide)]; exact hjc)
  simp only [← scan_after_split_tokens sym18 s _ valid_symbols hv,
    after_split_tokens_open_blocks, after_split_tokens_emphasis] at key
  exact key

/-- C26 in the state after a line ending inside a paragraph and two split
tokens, entered with the matching flag set, on the lines `-`, `+`, `*` and
`2. x` with the list-marker tokens candidates and no soft line break on
offer: lines 12 to 18 leave matching mode and the classifier returns the
error token each time.  In the initial state, where no new block is needed,
`2. x` is a list marker. -/
theorem C26_dont_interrupt_error_witness :
    (scan_run (OTHER 0) (calls_split_tokens.take 3) Scanner.initial).map List.getLast?
      = some (some scanner_after_two_splits) ∧
    has_flag scanner_after_two_splits.state STATE_MATCHING = true ∧
    scanner_after_two_splits.wf ∧ no_request valid_list_markers ∧
    has_flag (scanner_after_two_splits.after_split_tokens valid_list_markers).state
      STATE_MATCHING = false ∧
    scanner_after_two_splits.indentation ≤ 3 ∧
    has_flag scanner_after_two_splits.state STATE_NEED_OPEN_BLOCK = true ∧
    scanner_after_two_splits.matched = scanner_after_two_splits.open_blocks.length ∧
    has_flag scanner_after_two_splits.state STATE_JUST_CLOSED = false ∧
    (∃ r, scanner_after_two_splits.scan (OTHER 0) ⟨45 :: 10 :: [], 0, none, none⟩
        valid_list_markers = some r ∧ r.1 = true ∧
      r.2.2.result_symbol = some ERROR ∧
      r.2.1.open_blocks = scanner_after_two_splits.open_blocks) ∧
    (∃ r, scanner_after_two_splits.scan (OTHER 0) ⟨43 :: 10 :: [], 0, none, none⟩
        valid_list_markers = some r ∧ r.1 = true ∧
      r.2.2.result_symbol = some ERROR ∧
      r.2.1.open_blocks = scanner_after_two_splits.open_blocks) ∧
    (∃ r, scanner_after_two_splits.scan (OTHER 0) ⟨42 :: 10 :: [], 0, none, none⟩
        valid_list_markers = some r ∧ r.1 = true ∧
      r.2.2.result_symbol = some ERROR ∧
      r.2.1.open_blocks = scanner_after_two_splits.open_blocks) ∧
    (∃ r, scanner_after_two_splits.scan (OTHER 0)
        ⟨50 :: ([] ++ 46 :: ([32] ++ [120, 10])), 0, none, none⟩
        valid_list_markers = some r ∧ r.1 = true ∧
      r.2.2.result_symbol = some ERROR ∧
      r.2.1.open_blocks = scanner_after_two_splits.open_blocks) ∧
    token_of (Scanner.initial.scan (OTHER 0) ⟨[50, 46, 32, 120, 10], 0, none, none⟩
      valid_list_markers) = some LIST_MARKER_DOT :=
  ⟨by decide, by decide, by decide, by decide, by decide, by decide, by decide, by decide,
    by decide,
    (C26_dont_interrupt_error (OTHER 0) scanner_after_two_splits valid_list_markers 0 none none
      (by decide) (by decide) (by decide) (by decide) (by decide) (by decide) (by decide)).1
      10 [] (by decide) (by decide) (by decide),
    (C26_dont_interrupt_error (OTHER 0) scanner_after_two_splits valid_list_markers 0 none none
      (by decide) (by decide) (by decide) (by decide) (by decide) (by decide) (by decide)).2.1
      10 [] (by decide) (by decide),
    (C26_dont_interrupt_error (OTHER 0) scanner_after_two_splits valid_list_markers 0 none none
      (by decide) (by decide) (by decide) (by decide) (by decide) (by decide)
      (by decide)).2.2.1 10 [] (by decide) (by decide) (by decide),
    (C26_dont_interrupt_error (OTHER 0) scanner_after_two_splits valid_list_markers 0 none none
      (by decide) (by decide) (by decide) (by decide) (by decide) (by decide)
      (by decide)).2.2.2 50 [] [32] [120, 10] 46 (by decide) (by decide) (by decide)
      (by decide) (by decide) (by decide) (by decide) (by decide) (by decide),
    by decide⟩

/-! ## The pop on the empty stack -/

/-- C28: the block-close fallback of the matcher pops without testing the size
of the stack (scan.cpp 458-470), while the flush at the end of the input
tests `open_blocks.size() > 0` before it pops.  From the initial state the
line ending with the soft-line-break token a candidate returns and sets the
matching flag on the empty stack.  The next invocation, on `x` with neither
the split token nor the soft-line-break token a candidate, runs the matcher,
matches no block and reaches the fallback: the read `open_blocks[size - 1]`
and the `pop_back()` are out of range, so the invocation leaves no stack
that is the old one, the old one with a block more, or the old one without
its top.  The flush at the end of the input, in the same state, returns and
leaves the stack as it is. -/
theorem C28_pop_on_empty_stack :
    ∃ s1 l1,
      Scanner.initial.scan (OTHER 0) (TSLexer.start [10, 120])
          (valid_of [LINE_ENDING, SOFT_LINE_BREAK_MARKER]) = some (true, s1, l1) ∧
      l1.result_symbol = some LINE_ENDING ∧ s1.open_blocks = [] ∧
      no_request (valid_of [BLOCK_CLOSE]) ∧
      (s1.at_dispatch (TSLexer.start [120]) (valid_of [BLOCK_CLOSE])).2.eof = false ∧
      has_flag (s1.at_dispatch (TSLexer.start [120]) (valid_of [BLOCK_CLOSE])).1.state
        STATE_MATCHING = true ∧
      match_loop s1.open_blocks.length s1 (TSLexer.start [120]) false
        = some (s1, TSLexer.start [120], false) ∧
      block_before s1.open_blocks s1.open_blocks.length = none ∧
      s1.scan (OTHER 0) (TSLexer.start [120]) (valid_of [BLOCK_CLOSE]) = none ∧
      (¬ ∃ r, s1.scan (OTHER 0) (TSLexer.start [120]) (valid_of [BLOCK_CLOSE]) = some r ∧
        (r.2.1.open_blocks = s1.open_blocks ∨
          (∃ b, r.2.1.open_blocks = s1.open_blocks ++ [b]) ∨
          r.2.1.open_blocks = s1.open_blocks.dropLast)) ∧
      s1.scan (OTHER 0) (TSLexer.start []) (valid_of [BLOCK_CLOSE])
        = some (false, s1, TSLexer.start []) := by
  have h : ({ Scanner.initial with state := STATE_MATCHING } : Scanner).scan (OTHER 0)
      (TSLexer.start [120]) (valid_of [BLOCK_CLOSE]) = none := by decide
  refine ⟨{ Scanner.initial with state := STATE_MATCHING },
    ⟨[10, 120], 0, none, some LINE_ENDING⟩, by decide, rfl, rfl, by decide, by decide,
    by decide, by decide, by decide, h, ?_, by decide⟩
  rintro ⟨r, hr, _⟩
  rw [h] at hr
  exact absurd hr (by simp)
